import Mathlib

/-!
# cs393r_starter: global planner and particle filter

A shallow embedding of `src/navigation/global_planner.cc` and
`src/particle_filter/particle_filter.cc`, and theorems about it.

Floating-point numbers are idealised as elements of a linearly ordered field `K`
(the theorems instantiate `K` with the real numbers); the definitions are
polymorphic in `K`, so they stay executable on, e.g., the rationals. Where the
rounding or the range of a `float` decides a property, it is explicit
(`ResampleRounded`, `GetLocation`). Library functions that the two source files call
but do not define are taken as parameters or modelled from the specification.
-/

set_option linter.unusedVariables false
set_option linter.unusedSectionVars false
set_option linter.unusedTactic false
set_option linter.unreachableTactic false
set_option linter.unnecessarySeqFocus false

namespace Nav

variable {K : Type} [LinearOrderedField K] [FloorRing K]

/-! ## Plane geometry -/

/-- Plane vector with scalar coordinates (`Eigen::Vector2f`). -/
structure Vector2f (K : Type) where
  x : K
  y : K

/-- Integer grid index (`Eigen::Vector2i`). -/
structure Vector2i where
  x : Int
  y : Int
deriving DecidableEq

/-- Line segment (`geometry::line2f`). -/
structure line2f (K : Type) where
  p0 : Vector2f K
  p1 : Vector2f K

/-- Vector sum. -/
def Vector2f.add (a b : Vector2f K) : Vector2f K := ⟨a.x + b.x, a.y + b.y⟩

/-- Vector difference. -/
def Vector2f.sub (a b : Vector2f K) : Vector2f K := ⟨a.x - b.x, a.y - b.y⟩

/-- Scalar multiple of a vector. -/
def Vector2f.smul (c : K) (a : Vector2f K) : Vector2f K := ⟨c * a.x, c * a.y⟩

/-- Vector divided by a scalar. -/
def Vector2f.div (a : Vector2f K) (c : K) : Vector2f K := ⟨a.x / c, a.y / c⟩

/-- Coefficient-wise absolute value (`cwiseAbs`). -/
def Vector2f.cwiseAbs (a : Vector2f K) : Vector2f K := ⟨|a.x|, |a.y|⟩

/-- Euclidean norm (`Eigen` method `norm()`), over a square-root function `sqrt`. -/
def Vector2f.norm (sqrt : K → K) (a : Vector2f K) : K := sqrt (a.x * a.x + a.y * a.y)

/-- Planar cross product of two vectors. -/
def Cross (a b : Vector2f K) : K := a.x * b.y - a.y * b.x

/-- Modelled from the spec: the geometry kernel's `Segment.Intersects`, which is not part
of the two source files. Closed segments: a bounding-box test followed by the two
orientation tests, so that an endpoint touch counts as an intersection. -/
def line2f.Intersects (l m : line2f K) : Bool :=
  if min l.p0.x l.p1.x > max m.p0.x m.p1.x ∨ max l.p0.x l.p1.x < min m.p0.x m.p1.x ∨
     min l.p0.y l.p1.y > max m.p0.y m.p1.y ∨ max l.p0.y l.p1.y < min m.p0.y m.p1.y then false
  else
    let d1 := l.p1.sub l.p0
    let d2 := m.p1.sub m.p0
    decide (Cross d1 (m.p1.sub l.p0) * Cross d1 (m.p0.sub l.p0) ≤ 0 ∧
            Cross d2 (l.p1.sub m.p0) * Cross d2 (l.p0.sub m.p0) ≤ 0)

/-- Modelled from the spec: the geometry kernel's `Segment.UnitNormal`, which is not part
of the two source files: the unit direction of the segment turned by a right angle. -/
def line2f.UnitNormal (sqrt : K → K) (l : line2f K) : Vector2f K :=
  let d := (l.p1.sub l.p0).div ((l.p1.sub l.p0).norm sqrt)
  ⟨-d.y, d.x⟩

/-- The library operations that the planner calls and the source files do not define. -/
structure Geometry (K : Type) where
  /-- square root of a scalar (`sqrt`, and inside `norm()`) -/
  sqrt : K → K
  /-- the test `map_line.Intersects(edge)` -/
  Intersects : line2f K → line2f K → Bool
  /-- the call `map_line.Intersection(view_line, &point)`: the point, when they intersect -/
  Intersection : line2f K → line2f K → Option (Vector2f K)
  /-- the call `edge.UnitNormal()` -/
  UnitNormal : line2f K → Vector2f K

/-- Modelled from the spec: the geometry kernel of section 4.1 over a given square root;
`Intersection` reports a point exactly when `Intersects` holds (the point itself is
supplied by `pt`). -/
def specGeometry (sqrt : K → K) (pt : line2f K → line2f K → Vector2f K) : Geometry K where
  sqrt := sqrt
  Intersects := fun l m => l.Intersects m
  Intersection := fun l m => if l.Intersects m then some (pt l m) else none
  UnitNormal := fun l => l.UnitNormal sqrt

/-! ## Planner data model -/

/-- Reference to an adjacent lattice cell (`Neighbor`):
`{node_index, key, path_length, neighbor_index}`. -/
structure Neighbor (K : Type) where
  node_index : Vector2i
  key : String
  path_length : K
  neighbor_index : Int

/-- Lattice node of the navigation map (`Node`). -/
structure Node (K : Type) where
  loc : Vector2f K
  index : Vector2i
  cost : K
  social_cost : K
  social_type : Char
  parent : String
  key : String
  neighbors : List (Neighbor K)
  visited : Bool

/-- A value-initialised node, returned by `nav_map_[key]` for a key that is absent. -/
def Node.blank : Node K :=
  ⟨⟨0, 0⟩, ⟨0, 0⟩, 0, 0, 'n', "", "", [], false⟩

/-- Pedestrian handle (`human::Human`): the queries the planner makes of it. -/
structure Human (K : Type) where
  getLoc : Vector2f K
  getAngle : K
  isHidden : Vector2f K → List (line2f K) → Bool
  safetyCost : Vector2f K → K
  visibilityCost : Vector2f K → K
  hiddenCost : Vector2f K → Vector2f K → K

/-- The map `nav_map_` from keys to nodes (`std::map<string, Node>`), as an association list. -/
abbrev NavMap (K : Type) := List (String × Node K)

/-- Lookup of a key (`find`). -/
def NavMap.find? (m : NavMap K) (k : String) : Option (Node K) :=
  match m with
  | [] => none
  | (k', n) :: rest => if k' = k then some n else NavMap.find? rest k

/-- Membership test `nav_map_.count(key)`. -/
def NavMap.count (m : NavMap K) (k : String) : Bool := (NavMap.find? m k).isSome

/-- Read access `nav_map_[key]`. -/
def NavMap.get (m : NavMap K) (k : String) : Node K := (NavMap.find? m k).getD Node.blank

/-- Assignment `nav_map_[key] = node`. -/
def NavMap.set (m : NavMap K) (k : String) (n : Node K) : NavMap K :=
  match m with
  | [] => [(k, n)]
  | (k', n') :: rest => if k' = k then (k, n) :: rest else (k', n') :: NavMap.set rest k n

/-- Modelled from the spec: the priority frontier (`SimpleQueue<string, float>`), which is
not part of the two source files: a minimum-priority queue keyed by node identifier. -/
abbrev Frontier (K : Type) := List (String × K)

/-- Modelled from the spec: `Push(key, priority)`; pushing a key that is already queued
replaces its priority. -/
def Frontier.Push (f : Frontier K) (k : String) (p : K) : Frontier K :=
  match f with
  | [] => [(k, p)]
  | (k', p') :: rest => if k' = k then (k, p) :: rest else (k', p') :: Frontier.Push rest k p

/-- Modelled from the spec: the queued entry of least priority (the first of them). -/
def Frontier.minEntry (f : Frontier K) : Option (String × K) :=
  match f with
  | [] => none
  | e :: rest =>
    match Frontier.minEntry rest with
    | none => some e
    | some e' => if e'.2 < e.2 then some e' else some e

/-- Modelled from the spec: `Pop()` removes the entry of least priority and returns its key. -/
def Frontier.Pop (f : Frontier K) : String × Frontier K :=
  match Frontier.minEntry f with
  | none => ("", [])
  | some e => (e.1, f.filter (fun e' => decide (e'.1 ≠ e.1)))

/-- Modelled from the spec: `Empty()`. -/
def Frontier.Empty (f : Frontier K) : Bool := f.isEmpty

/-- The planner object (`GlobalPlanner`): its member variables. -/
structure GlobalPlanner (K : Type) where
  map_ : List (line2f K)
  map_resolution_ : K
  nav_map_ : NavMap K
  frontier_ : Frontier K
  failed_locs_ : List (Vector2f K)
  population_ : List (Human K)
  population_locs_ : List (Vector2f K)
  population_angles_ : List K
  global_path_ : List String
  nav_goal_ : Vector2f K
  need_replan_ : Bool
  need_social_replan_ : Bool

/-! ## Node functions -/

/-- Key of a grid index: `std::to_string(xi) + "_" + std::to_string(yi)`. -/
def getNewID (xi yi : Int) : String := toString xi ++ "_" ++ toString yi

/-- Distance cost between two nodes. -/
def edgeCost (G : Geometry K) (node_A node_B : Node K) : K :=
  (node_A.loc.sub node_B.loc).norm G.sqrt

/-- The four segments of the cushion box around `edge`. -/
def getCushionLines (G : Geometry K) (edge : line2f K) (offset : K) : List (line2f K) :=
  let edge_unit_vector := (edge.p1.sub edge.p0).div ((edge.p1.sub edge.p0).norm G.sqrt)
  let extended_edge := edge.p1.add (Vector2f.smul offset edge_unit_vector)
  let normal_vec := G.UnitNormal edge
  let cushion_A_point_1 := edge.p0.add (Vector2f.smul offset normal_vec)
  let cushion_A_point_2 := extended_edge.add (Vector2f.smul offset normal_vec)
  let cushion_B_point_1 := edge.p0.sub (Vector2f.smul offset normal_vec)
  let cushion_B_point_2 := extended_edge.sub (Vector2f.smul offset normal_vec)
  [⟨cushion_A_point_1, cushion_A_point_2⟩, ⟨cushion_B_point_1, cushion_B_point_2⟩,
   ⟨cushion_A_point_1, cushion_B_point_1⟩, ⟨cushion_A_point_2, cushion_B_point_2⟩]

/-- The segment whose collisions `isValidNeighbor` tests for a node and a candidate. -/
def neighborEdge (res : K) (node : Node K) (neighbor : Neighbor K) : line2f K :=
  let x_offset := node.index.x - neighbor.node_index.x
  let y_offset := node.index.y - neighbor.node_index.y
  let offset : Vector2f K := ⟨res * (x_offset : K), res * (y_offset : K)⟩
  let neighbor_loc := node.loc.add offset
  ⟨node.loc, neighbor_loc⟩

/-- Adjacency and collision test of a candidate neighbour. -/
def isValidNeighbor (G : Geometry K) (map_ : List (line2f K)) (res : K)
    (node : Node K) (neighbor : Neighbor K) : Bool :=
  let x_offset := node.index.x - neighbor.node_index.x
  let y_offset := node.index.y - neighbor.node_index.y
  if ¬ (|x_offset| = 1 ∨ |y_offset| = 1) then false
  else
    let edge := neighborEdge res node neighbor
    let cushion_lines := getCushionLines G edge (1 / 2)
    !(map_.any fun map_line =>
        cushion_lines.foldl (fun intersection bounding_box_edge =>
          intersection || G.Intersects map_line bounding_box_edge) (G.Intersects map_line edge))

/-- The eight candidate neighbours of a grid index, in the order the source lists them. -/
def candidateNeighbors (G : Geometry K) (res : K) (xi yi : Int) : List (Neighbor K) :=
  let diagonal_path_length := G.sqrt 2 * res
  let straight_path_length := res
  [⟨⟨xi - 1, yi + 1⟩, getNewID (xi - 1) (yi + 1), diagonal_path_length, 0⟩,
   ⟨⟨xi, yi + 1⟩, getNewID xi (yi + 1), straight_path_length, 1⟩,
   ⟨⟨xi + 1, yi + 1⟩, getNewID (xi + 1) (yi + 1), diagonal_path_length, 2⟩,
   ⟨⟨xi - 1, yi⟩, getNewID (xi - 1) yi, straight_path_length, 3⟩,
   ⟨⟨xi + 1, yi⟩, getNewID (xi + 1) yi, straight_path_length, 5⟩,
   ⟨⟨xi - 1, yi - 1⟩, getNewID (xi - 1) (yi - 1), diagonal_path_length, 6⟩,
   ⟨⟨xi, yi - 1⟩, getNewID xi (yi - 1), straight_path_length, 7⟩,
   ⟨⟨xi + 1, yi - 1⟩, getNewID (xi + 1) (yi - 1), diagonal_path_length, 8⟩]

/-- The valid neighbours of a node. -/
def getNeighbors (G : Geometry K) (map_ : List (line2f K)) (res : K) (node : Node K) :
    List (Neighbor K) :=
  (candidateNeighbors G res node.index.x node.index.y).filter
    (fun nb => isValidNeighbor G map_ res node nb)

/-- Human-aware cost of a node: the cost and the tag `social_type` the source stores in
the node (`n` none, `s` safety, `v` visibility, `h` hidden). -/
def getSocialCost (G : Geometry K) (P : GlobalPlanner K) (new_node : Node K) : K × Char :=
  P.population_.foldl (fun (acc : K × Char) H =>
    if (new_node.loc.sub H.getLoc).norm G.sqrt > 10 then acc
    else if H.isHidden new_node.loc P.map_ then
      let view_line : line2f K := ⟨H.getLoc, new_node.loc⟩
      P.map_.foldl (fun (acc2 : K × Char) map_line =>
        match G.Intersection map_line view_line with
        | some intersection_point =>
          let hidden_cost := H.hiddenCost new_node.loc intersection_point
          if hidden_cost > acc2.1 then (hidden_cost, 'h') else acc2
        | none => acc2) acc
    else
      let safety_cost := H.safetyCost new_node.loc
      let visibility_cost := H.visibilityCost new_node.loc
      let social_cost := max safety_cost visibility_cost
      if social_cost > acc.1 then
        (social_cost, if safety_cost > visibility_cost then 's' else 'v')
      else acc) (0, 'n')

/-- Horizontal index step encoded by a neighbour index. -/
def stepDx (neighbor_index : Int) : Int :=
  (if Int.tmod neighbor_index 3 = 2 then 1 else 0) - (if Int.tmod neighbor_index 3 = 0 then 1 else 0)

/-- Vertical index step encoded by a neighbour index. -/
def stepDy (neighbor_index : Int) : Int :=
  (if neighbor_index < 3 then 1 else 0) - (if neighbor_index > 5 then 1 else 0)

/-- The node `newNode` builds from `old_node` and a neighbour index, before it is stored. -/
def buildNode (G : Geometry K) (P : GlobalPlanner K) (old_node : Node K)
    (neighbor_index : Int) : Node K :=
  let dx := stepDx neighbor_index
  let dy := stepDy neighbor_index
  let loc := old_node.loc.add (Vector2f.smul P.map_resolution_ ⟨(dx : K), (dy : K)⟩)
  let index : Vector2i := ⟨old_node.index.x + dx, old_node.index.y + dy⟩
  let n1 : Node K := { Node.blank with loc := loc, index := index }
  let n2 : Node K := { n1 with cost := old_node.cost + edgeCost G old_node n1 }
  let sc := getSocialCost G P n2
  let n3 : Node K := { n2 with social_cost := sc.1, social_type := sc.2 }
  let n4 : Node K := { n3 with parent := old_node.key, key := getNewID index.x index.y }
  let n5 : Node K := { n4 with neighbors := getNeighbors G P.map_ P.map_resolution_ n4 }
  if P.failed_locs_.any (fun bad_loc =>
      decide ((n5.loc.sub bad_loc).norm G.sqrt < P.map_resolution_ * 3)) then
    { n5 with neighbors := [] }
  else n5

/-- Creation of a node next to `old_node`; the node is stored in `nav_map_` under its key. -/
def newNode (G : Geometry K) (P : GlobalPlanner K) (old_node : Node K)
    (neighbor_index : Int) : Node K × GlobalPlanner K :=
  let new_node := buildNode G P old_node neighbor_index
  (new_node, { P with nav_map_ := NavMap.set P.nav_map_ new_node.key new_node })

/-- Conversion of a scalar to `int`, which truncates toward zero. -/
def toInt (x : K) : Int := if 0 ≤ x then ⌊x⌋ else ⌈x⌉

/-- Reset of the navigation map and the frontier to the single node `START` at `loc`. -/
def initializeMap (G : Geometry K) (P : GlobalPlanner K) (loc : Vector2f K) : GlobalPlanner K :=
  let xi := toInt (loc.x / P.map_resolution_)
  let yi := toInt (loc.y / P.map_resolution_)
  let n1 : Node K := { Node.blank with
    loc := loc, index := ⟨xi, yi⟩, cost := 0, social_cost := 0, social_type := 'n',
    parent := "START", key := "START" }
  let start_node : Node K := { n1 with neighbors := getNeighbors G P.map_ P.map_resolution_ n1 }
  { P with nav_map_ := NavMap.set [] start_node.key start_node,
           frontier_ := Frontier.Push [] "START" 0 }

/-! ## Population -/

/-- Registration of a human. -/
def addHuman (P : GlobalPlanner K) (Bob : Human K) : GlobalPlanner K :=
  let P1 := if ¬ P.global_path_.isEmpty then { P with need_social_replan_ := true } else P
  { P1 with population_ := P1.population_ ++ [Bob],
            population_locs_ := P1.population_locs_ ++ [Bob.getLoc],
            population_angles_ := P1.population_angles_ ++ [Bob.getAngle] }

/-- Removal of all registered humans. -/
def clearPopulation (P : GlobalPlanner K) : GlobalPlanner K :=
  { P with population_ := [] }

/-! ## Path planning -/

/-- Octile heuristic between a goal and a node location. -/
def getHeuristic (G : Geometry K) (goal_loc node_loc : Vector2f K) : K :=
  let abs_diff_loc := (goal_loc.sub node_loc).cwiseAbs
  let straight_length := |abs_diff_loc.x - abs_diff_loc.y|
  let diag_length := G.sqrt 2 * (abs_diff_loc.x + abs_diff_loc.y - straight_length) * (1 / 2)
  straight_length + diag_length

/-- Body of the loop over the neighbours of the popped node in `getGlobalPath`. -/
def expandNeighbor (G : Geometry K) (nav_goal_loc : Vector2f K) (current_node : Node K)
    (P : GlobalPlanner K) (next_neighbor : Neighbor K) : GlobalPlanner K :=
  let neighbor_id := next_neighbor.key
  let unexplored := !(NavMap.count P.nav_map_ next_neighbor.key)
  let neighbor_cost := current_node.cost + next_neighbor.path_length
  if unexplored then
    let r := newNode G P current_node next_neighbor.neighbor_index
    let neighbor_cost := neighbor_cost + r.1.social_cost
    let heuristic := 1 * getHeuristic G nav_goal_loc r.1.loc
    { r.2 with frontier_ := Frontier.Push r.2.frontier_ neighbor_id (neighbor_cost + heuristic) }
  else if neighbor_cost < (NavMap.get P.nav_map_ neighbor_id).cost then
    let n : Node K := { NavMap.get P.nav_map_ neighbor_id with
      cost := neighbor_cost, parent := current_node.key }
    let neighbor_cost := neighbor_cost + n.social_cost
    let heuristic := 1 * getHeuristic G nav_goal_loc n.loc
    { P with nav_map_ := NavMap.set P.nav_map_ neighbor_id n,
             frontier_ := Frontier.Push P.frontier_ neighbor_id (neighbor_cost + heuristic) }
  else P

/-- Outcome of the search loop of `getGlobalPath`. -/
structure SearchResult (K : Type) where
  global_path_success : Bool
  current_key : String
  planner : GlobalPlanner K

/-- The search loop of `getGlobalPath`: `remaining` is the number of iterations left before
`loop_counter` reaches the cap. -/
def searchLoop (G : Geometry K) (nav_goal_loc : Vector2f K) :
    Nat → String → GlobalPlanner K → SearchResult K
  | 0, current_key, P => ⟨false, current_key, P⟩
  | remaining + 1, current_key, P =>
    if P.frontier_.Empty then ⟨false, current_key, P⟩
    else
      let popped := Frontier.Pop P.frontier_
      let current_key := popped.1
      let P1 := { P with frontier_ := popped.2 }
      let current_node := NavMap.get P1.nav_map_ current_key
      if (nav_goal_loc.sub current_node.loc).norm G.sqrt < (71 / 100) * P1.map_resolution_ then
        ⟨true, current_key, P1⟩
      else
        searchLoop G nav_goal_loc remaining current_key
          (current_node.neighbors.foldl (expandNeighbor G nav_goal_loc current_node) P1)

/-- The backtrace loop of `getGlobalPath`, from `path_key` toward `START`; `none` when the
loop has not reached `START` within `fuel` iterations. The path is built goal first. -/
def backtrace (G : Geometry K) (nav_map_ : NavMap K) :
    Nat → String → List String → K → Option (List String × K)
  | fuel, path_key, global_path, total_dist_travelled =>
    if path_key = "START" then some (global_path, total_dist_travelled)
    else
      match fuel with
      | 0 => none
      | fuel + 1 =>
        backtrace G nav_map_ fuel (NavMap.get nav_map_ path_key).parent
          (global_path ++ [path_key])
          (total_dist_travelled +
            edgeCost G (NavMap.get nav_map_ path_key)
              (NavMap.get nav_map_ (NavMap.get nav_map_ path_key).parent))

/-- The iteration cap of the search loop. -/
def iterationCap : Nat := 1000000

/-- Search for a path to `nav_goal_loc`: the planner afterwards and, on success, the
travelled distance that is printed. `none` when the backtrace needs more than `fuel` steps. -/
def getGlobalPath (G : Geometry K) (fuel : Nat) (P : GlobalPlanner K)
    (nav_goal_loc : Vector2f K) : Option (GlobalPlanner K × Option K) :=
  let P0 := { P with nav_goal_ := nav_goal_loc }
  let r := searchLoop G nav_goal_loc iterationCap "" P0
  if r.global_path_success then
    match backtrace G r.planner.nav_map_ fuel r.current_key [] 0 with
    | none => none
    | some (global_path, total_dist_travelled) =>
      some ({ r.planner with global_path_ := global_path.reverse }, some total_dist_travelled)
  else
    some ({ r.planner with global_path_ := ["START"] }, none)

/-- Modelled from the spec: `Map.Intersects(p, q)` of the vector map, which is not part of
the two source files: true iff the segment from `p` to `q` intersects some map segment. -/
def mapIntersects (G : Geometry K) (map_ : List (line2f K)) (p q : Vector2f K) : Bool :=
  map_.any (fun map_line => G.Intersects map_line ⟨p, q⟩)

/-- First loop of `getClosestPathNode`: `(min_distance, closest_node, closest_index)` over
the path keys, `i` being the index of the first key of the list. -/
def findClosest (G : Geometry K) (nav_map_ : NavMap K) (robot_loc : Vector2f K) :
    List String → Nat → K × Node K × Nat → K × Node K × Nat
  | [], _, acc => acc
  | key :: rest, i, acc =>
    let node_loc := (NavMap.get nav_map_ key).loc
    let dist_to_node_loc := (robot_loc.sub node_loc).norm G.sqrt
    if dist_to_node_loc < acc.1 then
      findClosest G nav_map_ robot_loc rest (i + 1) (dist_to_node_loc, NavMap.get nav_map_ key, i)
    else findClosest G nav_map_ robot_loc rest (i + 1) acc

/-- Second loop of `getClosestPathNode`: `(target_node, target_index)` over the path keys
from index `i` on; `target_index` keeps its initial value 0 when no node is outside the
circle. -/
def forwardScan (G : Geometry K) (nav_map_ : NavMap K) (robot_loc : Vector2f K)
    (circle_rad_min : K) : List String → Nat → Node K → Node K × Nat
  | [], _, target_node => (target_node, 0)
  | key :: rest, i, _ =>
    let target_node := NavMap.get nav_map_ key
    let dist_to_node_loc := (robot_loc.sub target_node.loc).norm G.sqrt
    if dist_to_node_loc > circle_rad_min then (target_node, i)
    else forwardScan G nav_map_ robot_loc circle_rad_min rest (i + 1) target_node

/-- Third loop of `getClosestPathNode`, entered at index `i`: the node returned and the
value of `need_replan_`. -/
def backwardScan (G : Geometry K) (P : GlobalPlanner K) (robot_loc : Vector2f K)
    (closest_index : Nat) (target_node : Node K) : Nat → Node K × Bool
  | 0 => (target_node, false)
  | i + 1 =>
    if i + 1 > closest_index then
      let target_loc := (NavMap.get P.nav_map_ (P.global_path_.getD (i + 1) "")).loc
      let intersection := mapIntersects G P.map_ robot_loc target_loc
      if !intersection then (NavMap.get P.nav_map_ (P.global_path_.getD (i + 1) ""), false)
      else if i + 1 < closest_index + 4 then (target_node, true)
      else backwardScan G P robot_loc closest_index target_node i
    else (target_node, false)

/-- Selection of the path node the controller drives to; the planner afterwards carries
the new value of `need_replan_`. -/
def getClosestPathNode (G : Geometry K) (P : GlobalPlanner K) (robot_loc : Vector2f K) :
    Node K × GlobalPlanner K :=
  let circle_rad_min : K := 2
  let c := findClosest G P.nav_map_ robot_loc P.global_path_ 0 (100, Node.blank, 0)
  let min_distance := c.1
  let closest_node : Node K := { c.2.1 with visited := true }
  let closest_index := c.2.2
  if min_distance > circle_rad_min then (closest_node, { P with need_replan_ := true })
  else
    let t := forwardScan G P.nav_map_ robot_loc circle_rad_min
      (P.global_path_.drop closest_index) closest_index Node.blank
    let r := backwardScan G P robot_loc closest_index t.1 t.2
    (r.1, { P with need_replan_ := r.2 })

/-- Replanning after the controller failed to reach `failed_target_loc`. -/
def replan (G : Geometry K) (fuel : Nat) (P : GlobalPlanner K)
    (robot_loc failed_target_loc : Vector2f K) : Option (GlobalPlanner K) :=
  let P1 :=
    if (robot_loc.sub failed_target_loc).norm G.sqrt > (141 / 100) * P.map_resolution_ then
      { P with failed_locs_ := P.failed_locs_ ++ [failed_target_loc] }
    else P
  let P2 := initializeMap G P1 robot_loc
  match getGlobalPath G fuel P2 P2.nav_goal_ with
  | none => none
  | some r => some { r.1 with need_replan_ := false, need_social_replan_ := false }

/-! ## Change detection on the population -/

/-- Modelled from the spec: `math_util::AngleDiff`, the difference `a - b` normalised to the
interval (-π, π]; `pi` is the constant π. -/
def AngleDiff (pi a b : K) : K :=
  (a - b) - 2 * pi * ((⌈(a - b - pi) / (2 * pi)⌉ : Int) : K)

/-- The loop of `needSocialReplan` from human `i` on. `none` when a snapshot vector is read
out of range. -/
def socialReplanLoop (G : Geometry K) (pi : K) (robot_loc : Vector2f K) :
    List (Human K) → Nat → GlobalPlanner K → Option (GlobalPlanner K)
  | [], _, P => some P
  | person :: rest, i, P =>
    if person.isHidden robot_loc P.map_ then socialReplanLoop G pi robot_loc rest (i + 1) P
    else
      match P.population_locs_[i]?, P.population_angles_[i]? with
      | some snapshot_loc, some snapshot_angle =>
        let human_moved : Bool := decide ((person.getLoc.sub snapshot_loc).norm G.sqrt > 1 / 2)
        let human_turned : Bool :=
          decide (|AngleDiff pi person.getAngle snapshot_angle| > 1 / 2)
        let P1 := { P with need_social_replan_ :=
                      P.need_social_replan_ || human_moved || human_turned }
        let P2 := if human_moved then
            { P1 with population_locs_ := P1.population_locs_.set i person.getLoc }
          else P1
        let P3 := if human_turned then
            { P2 with population_angles_ := P2.population_angles_.set i person.getAngle }
          else P2
        socialReplanLoop G pi robot_loc rest (i + 1) P3
      | _, _ => none

/-- Whether a registered human has moved or turned since its snapshot: the planner
afterwards and the value returned. -/
def needSocialReplan (G : Geometry K) (pi : K) (P : GlobalPlanner K) (robot_loc : Vector2f K) :
    Option (GlobalPlanner K × Bool) :=
  if P.need_social_replan_ then some (P, true)
  else
    match socialReplanLoop G pi robot_loc P.population_ 0 P with
    | none => none
    | some Q => some (Q, Q.need_social_replan_)

end Nav

namespace PF

open Nav

variable {K : Type} [LinearOrderedField K] [FloorRing K]

/-! ## Particle filter data model -/

/-- Pose hypothesis with its log weight (`Particle`). -/
structure Particle (K : Type) where
  loc : Vector2f K
  angle : K
  log_weight : K

/-- The filter object (`ParticleFilter`): its member variables and the three file-level
variables `updates_since_last_resample_`, `last_update_loc_` and `last_resample_loc_`.
The value `-infinity` of `max_log_particle_weight_` is the bottom element. -/
structure ParticleFilter (K : Type) where
  particles_ : List (Particle K)
  map_ : List (line2f K)
  prev_odom_loc_ : Vector2f K
  prev_odom_angle_ : K
  odom_initialized_ : Bool
  var_obs_ : K
  d_short_ : K
  d_long_ : K
  max_log_particle_weight_ : WithBot K
  updates_since_last_resample_ : Int
  last_update_loc_ : Vector2f K
  last_resample_loc_ : Vector2f K

/-! ## Resampling -/

/-- First loop of `Resample`: subtracts `m` from every log weight in place and accumulates
the breakpoints; returns the particles, the breakpoints and `normalized_sum`. -/
def normalizeLoop (exp : K → K) (m : K) :
    List (Particle K) → K → List (Particle K) × List K × K
  | [], normalized_sum => ([], [], normalized_sum)
  | p :: ps, normalized_sum =>
    let p1 : Particle K := { p with log_weight := p.log_weight - m }
    let normalized_sum := normalized_sum + exp p1.log_weight
    let r := normalizeLoop exp m ps normalized_sum
    (p1 :: r.1, normalized_sum :: r.2.1, r.2.2)

/-- The `while` loop of `Resample` for one particle `p` with breakpoint `breakpoint`: the
sample point, the new particles and the fuel left; `none` when the loop wants to emit more
copies than `fuel` allows. -/
def emitWhile (breakpoint division_size : K) (p : Particle K) :
    Nat → K → List (Particle K) → Option (K × List (Particle K) × Nat)
  | fuel, sample_point, new_particles =>
    if breakpoint > sample_point then
      match fuel with
      | 0 => none
      | fuel + 1 =>
        emitWhile breakpoint division_size p fuel (sample_point + division_size)
          (new_particles ++ [p])
    else some (sample_point, new_particles, fuel)

/-- Second loop of `Resample` over the particles paired with their breakpoints. -/
def resampleLoop (division_size : K) :
    List (Particle K × K) → Nat → K → List (Particle K) → Option (List (Particle K))
  | [], _, _, new_particles => some new_particles
  | (p, breakpoint) :: rest, fuel, sample_point, new_particles =>
    match emitWhile breakpoint division_size p fuel sample_point new_particles with
    | none => none
    | some r => resampleLoop division_size rest r.2.2 r.1 r.2.1

/-- Low-variance resampling. `num_particles` is the flag `FLAGS_num_particles`, `u` the value
drawn by `rng_.UniformRandom(0, division_size)`, `fuel` a bound on the number of copies
emitted. The result is `none` when the source reads `particles_[i]` out of range, when
`max_log_particle_weight_` is `-infinity`, or when `fuel` is exhausted. -/
def Resample (exp : K → K) (num_particles : Nat) (u : K) (fuel : Nat)
    (F : ParticleFilter K) : Option (ParticleFilter K) :=
  if F.particles_.isEmpty ∨ ¬ F.odom_initialized_ then some F
  else if F.particles_.length < num_particles then none
  else
    match F.max_log_particle_weight_ with
    | none => none
    | some m =>
      let r := normalizeLoop exp m (F.particles_.take num_particles) 0
      let F1 := { F with particles_ := r.1 ++ F.particles_.drop num_particles }
      let normalized_sum := r.2.2
      let division_size := normalized_sum / (num_particles : K)
      let sample_point := u
      if division_size = 0 then some F1
      else
        match resampleLoop division_size (r.1.zip r.2.1) fuel sample_point [] with
        | none => none
        | some new_particles =>
          some { F1 with max_log_particle_weight_ := ((0 : K) : WithBot K),
                         particles_ := new_particles }

/-! ## Observation and odometry bookkeeping -/

/-- Reset of the odometry snapshot and of the resample counter. -/
def ResetOdomVariables (F : ParticleFilter K) (loc : Vector2f K) (angle : K) :
    ParticleFilter K :=
  { F with last_update_loc_ := loc, last_resample_loc_ := loc, prev_odom_loc_ := loc,
           prev_odom_angle_ := angle, updates_since_last_resample_ := 0 }

/-- The distance gate of `ObserveLaser`. -/
def passesGate (sqrt : K → K) (F : ParticleFilter K) : Bool :=
  let dist_since_last_update := (F.prev_odom_loc_.sub F.last_update_loc_).norm sqrt
  decide (dist_since_last_update > 1 / 10 ∧ dist_since_last_update < 1)

/-- The loop of `ObserveLaser` over the particles: every particle is updated by `Update`
and the maximum log weight is tracked, starting from `-infinity`. -/
def updateAll (Update : Particle K → Particle K) :
    List (Particle K) → WithBot K → List (Particle K) × WithBot K
  | [], m => ([], m)
  | p :: ps, m =>
    let p1 := Update p
    let m1 : WithBot K := if (p1.log_weight : WithBot K) > m then (p1.log_weight : WithBot K) else m
    let r := updateAll Update ps m1
    (p1 :: r.1, r.2)

/-- The test under which `ObserveLaser` calls `Resample`. -/
def resampleDue (F : ParticleFilter K) : Bool := decide (F.updates_since_last_resample_ > 5)

/-- Processing of a laser scan. `Update` is the effect of the member function `Update` with
this scan on one particle; `u` and `fuel` are passed to `Resample`. -/
def ObserveLaser (sqrt exp : K → K) (num_particles : Nat) (Update : Particle K → Particle K)
    (u : K) (fuel : Nat) (F : ParticleFilter K) : Option (ParticleFilter K) :=
  if passesGate sqrt F then
    let F1 := { F with last_update_loc_ := F.prev_odom_loc_ }
    let r := updateAll Update F1.particles_ ⊥
    let F2 := { F1 with particles_ := r.1, max_log_particle_weight_ := r.2 }
    if resampleDue F2 then
      match Resample exp num_particles u fuel F2 with
      | none => none
      | some F3 =>
        some { F3 with updates_since_last_resample_ := 0,
                       last_resample_loc_ := F3.prev_odom_loc_ }
    else some { F2 with updates_since_last_resample_ := F2.updates_since_last_resample_ + 1 }
  else some F

/-! ## Motion model -/

/-- The trigonometric functions and the constant π of the C library. -/
structure Trig (K : Type) where
  cos : K → K
  sin : K → K
  pi : K

/-- The product `Eigen::Rotation2Df(theta) * v`. -/
def Rotation2Df (T : Trig K) (theta : K) (v : Vector2f K) : Vector2f K :=
  ⟨T.cos theta * v.x - T.sin theta * v.y, T.sin theta * v.x + T.cos theta * v.y⟩

/-- Motion update of one particle. `Gaussian j mean stddev` is the value returned by the
`j`-th call of `rng_.Gaussian` during the current odometry observation; this particle makes
the calls `j`, `j + 1` and `j + 2`. -/
def UpdateParticleLocation (sqrt : K → K) (Gaussian : Nat → K → K → K) (j : Nat)
    (map_trans_diff : Vector2f K) (dtheta_odom : K) (particle : Particle K) : Particle K :=
  let k1 : K := 40 / 100
  let k2 : K := 2 / 100
  let k3 : K := 20 / 100
  let k4 : K := 40 / 100
  let abs_angle_diff := |dtheta_odom|
  let translation_noise_x :=
    Gaussian j 0 (k1 * map_trans_diff.norm sqrt + k2 * abs_angle_diff)
  let translation_noise_y :=
    Gaussian (j + 1) 0 (k1 * map_trans_diff.norm sqrt + k2 * abs_angle_diff)
  let rotation_noise :=
    Gaussian (j + 2) 0 (k3 * map_trans_diff.norm sqrt + k4 * abs_angle_diff)
  { particle with
    loc := particle.loc.add (map_trans_diff.add ⟨translation_noise_x, translation_noise_y⟩),
    angle := particle.angle + (dtheta_odom + rotation_noise) }

/-- The loop of `ObserveOdometry` over the particles, the next random draw being number `j`. -/
def moveParticles (sqrt : K → K) (T : Trig K) (Gaussian : Nat → K → K → K)
    (odom_trans_diff : Vector2f K) (angle_diff prev_odom_angle : K) :
    List (Particle K) → Nat → List (Particle K)
  | [], _ => []
  | particle :: rest, j =>
    let map_trans_diff :=
      Rotation2Df T (AngleDiff T.pi particle.angle prev_odom_angle) odom_trans_diff
    UpdateParticleLocation sqrt Gaussian j map_trans_diff angle_diff particle ::
      moveParticles sqrt T Gaussian odom_trans_diff angle_diff prev_odom_angle rest (j + 3)

/-- Processing of an odometry reading. -/
def ObserveOdometry (sqrt : K → K) (T : Trig K) (Gaussian : Nat → K → K → K)
    (F : ParticleFilter K) (odom_loc : Vector2f K) (odom_angle : K) : ParticleFilter K :=
  let odom_trans_diff := odom_loc.sub F.prev_odom_loc_
  if F.odom_initialized_ = true ∧ odom_trans_diff.norm sqrt < 1 then
    let angle_diff := AngleDiff T.pi odom_angle F.prev_odom_angle_
    { F with particles_ := moveParticles sqrt T Gaussian odom_trans_diff angle_diff
                             F.prev_odom_angle_ F.particles_ 0,
             prev_odom_loc_ := odom_loc,
             prev_odom_angle_ := odom_angle }
  else
    { ResetOdomVariables F odom_loc odom_angle with odom_initialized_ := true }

/-! ## Observation model -/

/-- The inner loop of `GetPredictedPointCloud` over the map lines: the closest intersection
of the ray with the map, starting from the end point of the ray at `range_max`. -/
def rayHit (G : Geometry K) (map_ : List (line2f K)) (loc : Vector2f K) (ray_line : line2f K)
    (range_max : K) (intersection_min : Vector2f K) : Vector2f K :=
  (map_.foldl (fun (acc : Vector2f K × K) map_line =>
    match G.Intersection map_line ray_line with
    | some intersection_point =>
      let dist_to_this_intersection := (intersection_point.sub loc).norm G.sqrt
      if dist_to_this_intersection < acc.2 then (intersection_point, dist_to_this_intersection)
      else acc
    | none => acc) (intersection_min, range_max)).1

/-- The predicted scan of a pose: one point for every tenth beam. -/
def GetPredictedPointCloud (G : Geometry K) (T : Trig K) (map_ : List (line2f K))
    (loc : Vector2f K) (angle : K) (num_ranges : Nat)
    (range_min range_max angle_min angle_max : K) : List (Vector2f K) :=
  let lidar_loc := loc.add (Vector2f.smul (2 / 10) ⟨T.cos angle, T.sin angle⟩)
  (List.range (num_ranges / 10)).map fun (i_scan : Nat) =>
    let ray_angle :=
      angle + 10 * (i_scan : K) / (num_ranges : K) * (angle_max - angle_min) + angle_min
    let ray_line : line2f K :=
      ⟨⟨lidar_loc.x + range_min * T.cos ray_angle, lidar_loc.y + range_min * T.sin ray_angle⟩,
       ⟨lidar_loc.x + range_max * T.cos ray_angle, lidar_loc.y + range_max * T.sin ray_angle⟩⟩
    let intersection_min :=
      lidar_loc.add (Vector2f.smul range_max ⟨T.cos ray_angle, T.sin ray_angle⟩)
    rayHit G map_ loc ray_line range_max intersection_min

/-- The loop of `Update` that fills `trimmed_ranges`: `count` entries from index `i` on.
`none` when `ranges` is read out of range. -/
def trimLoop (ranges : List K) (ratio : Nat) : Nat → Nat → Option (List K)
  | 0, _ => some []
  | count + 1, i =>
    match ranges[ratio * i]? with
    | none => none
    | some r =>
      match trimLoop ranges ratio count (i + 1) with
      | none => none
      | some rest => some (r :: rest)

/-- The loop of `Update` that accumulates `log_error_sum` over the predicted points, from
beam `i` on. `none` when `ranges` or `trimmed_ranges` is read out of range. -/
def weightLoop (sqrt : K → K) (F : ParticleFilter K) (ranges trimmed_ranges : List K)
    (range_min range_max : K) (particle_lidar_loc : Vector2f K) :
    List (Vector2f K) → Nat → K → Option K
  | [], _, log_error_sum => some log_error_sum
  | predicted_point :: rest, i, log_error_sum =>
    let predicted_range := (predicted_point.sub particle_lidar_loc).norm sqrt
    match ranges[i]? with
    | none => none
    | some r =>
      if r > 95 / 100 * range_max ∨ r < 105 / 100 * range_min then
        weightLoop sqrt F ranges trimmed_ranges range_min range_max particle_lidar_loc rest
          (i + 1) log_error_sum
      else
        match trimmed_ranges[i]? with
        | none => none
        | some t =>
          let range_diff := t - predicted_range
          let range_diff := min range_diff F.d_long_
          let range_diff := max range_diff (-F.d_short_)
          weightLoop sqrt F ranges trimmed_ranges range_min range_max particle_lidar_loc rest
            (i + 1) (log_error_sum + -(range_diff * range_diff) / F.var_obs_)

/-- Observation update of one particle. `none` when the source divides by zero (no beam is
predicted) or reads `ranges` out of range. -/
def Update (G : Geometry K) (T : Trig K) (F : ParticleFilter K) (ranges : List K)
    (range_min range_max angle_min angle_max : K) (particle : Particle K) :
    Option (Particle K) :=
  if ¬ F.odom_initialized_ = true then some particle
  else
    let predicted_cloud := GetPredictedPointCloud G T F.map_ particle.loc particle.angle
      ranges.length range_min range_max angle_min angle_max
    if predicted_cloud.length = 0 then none
    else
      let ratio := ranges.length / predicted_cloud.length
      match trimLoop ranges ratio predicted_cloud.length 0 with
      | none => none
      | some trimmed_ranges =>
        let particle_lidar_loc :=
          particle.loc.add (Vector2f.smul (2 / 10) ⟨T.cos particle.angle, T.sin particle.angle⟩)
        match weightLoop G.sqrt F ranges trimmed_ranges range_min range_max particle_lidar_loc
            predicted_cloud 0 0 with
        | none => none
        | some log_error_sum =>
          some { particle with log_weight := particle.log_weight + log_error_sum }

/-! ## Pose estimate -/

/-- Whether `x` lies in the finite range of binary32: a `float` turns a magnitude from
`2 ^ 128 - 2 ^ 103` on into an infinity. -/
def finite32 (x : K) : Bool := decide (|x| < 2 ^ 128 - 2 ^ 103)

/-- The weighted mean pose. `none` where the source's result is not a quotient of finite
sums: when `max_log_particle_weight_` is `-infinity`, when a weight, a product or a running
sum leaves the finite range of the `float` that holds it (the quotients are then formed
from infinities), or when the weights sum to zero. -/
def GetLocation (exp : K → K) (F : ParticleFilter K) : Option (Vector2f K × K) :=
  match F.max_log_particle_weight_ with
  | none => none
  | some m =>
    let s := F.particles_.foldl (fun (acc : Option (Vector2f K × K × K)) particle =>
      match acc with
      | none => none
      | some acc =>
        let normalized_log_weight := particle.log_weight - m
        let normalized_weight := exp normalized_log_weight
        let weighted_loc := Vector2f.smul normalized_weight particle.loc
        let weighted_angle := particle.angle * normalized_weight
        let weighted_loc_sum := acc.1.add weighted_loc
        let weighted_angle_sum := acc.2.1 + weighted_angle
        let weight_sum := acc.2.2 + normalized_weight
        if [normalized_weight, weighted_loc.x, weighted_loc.y, weighted_angle,
            weighted_loc_sum.x, weighted_loc_sum.y, weighted_angle_sum,
            weight_sum].all finite32 then
          some (weighted_loc_sum, weighted_angle_sum, weight_sum)
        else none) (some (⟨0, 0⟩, 0, 0))
    match s with
    | none => none
    | some s =>
      if s.2.2 = 0 then none
      else some (s.1.div s.2.2, s.2.1 / s.2.2)

/-! ## Initialisation -/

/-- The loop of `Initialize` that draws `count` particles around the pose, the next random
draw being number `j`. -/
def initParticles (T : Trig K) (Gaussian : Nat → K → K → K) (loc : Vector2f K) (angle : K) :
    Nat → Nat → List (Particle K)
  | 0, _ => []
  | count + 1, j =>
    ⟨⟨Gaussian j loc.x (25 / 100), Gaussian (j + 1) loc.y (25 / 100)⟩,
      Gaussian (j + 2) angle (T.pi / 6), 0⟩ ::
      initParticles T Gaussian loc angle count (j + 3)

/-- Placement of the filter at a pose. `num_particles` is the flag `FLAGS_num_particles`,
`map_lines` the content of the map file that is loaded. -/
def Initialize (T : Trig K) (Gaussian : Nat → K → K → K) (num_particles : Nat)
    (map_lines : List (line2f K)) (F : ParticleFilter K) (loc : Vector2f K) (angle : K) :
    ParticleFilter K :=
  let F1 := { F with particles_ := [], map_ := map_lines, odom_initialized_ := false }
  let F2 := ResetOdomVariables F1 loc angle
  { F2 with particles_ := initParticles T Gaussian loc angle num_particles 0 }

end PF

/-! # Specification predicates -/

namespace Nav

variable {K : Type} [LinearOrderedField K] [FloorRing K]

/-- The key reached from `k` by following the parent links of `nav_map_` `i` times. -/
def parentChain (m : NavMap K) : Nat → String → String
  | 0, k => k
  | i + 1, k => parentChain m i (NavMap.get m k).parent

/-- A neighbour reference of a node of index `idx` is well formed: its key is the key of the
cell its neighbour index encodes, that cell is not `idx` itself, and its step is positive. -/
def GoodNeighbor (idx : Vector2i) (nb : Neighbor K) : Prop :=
  nb.key = getNewID (idx.x + stepDx nb.neighbor_index) (idx.y + stepDy nb.neighbor_index) ∧
  (stepDx nb.neighbor_index ≠ 0 ∨ stepDy nb.neighbor_index ≠ 0) ∧
  0 < nb.path_length

/-- The invariant of the search on `nav_map_`: `START` is stored, unchanged, as its own
parent; every node is stored under its own key; every other node has a stored parent of
strictly smaller cost; and all neighbour references are well formed. -/
def ParentInv (m : NavMap K) (s0 : Node K) : Prop :=
  NavMap.find? m "START" = some s0 ∧ s0.parent = "START" ∧
  (∀ k n, NavMap.find? m k = some n → n.key = k) ∧
  (∀ k n, NavMap.find? m k = some n → k ≠ "START" →
    ∃ p, NavMap.find? m n.parent = some p ∧ p.cost < n.cost) ∧
  (∀ k n, NavMap.find? m k = some n → ∀ nb ∈ n.neighbors, GoodNeighbor n.index nb)

/-- A planner with the given map and resolution on which nothing has been planned yet. -/
def blankPlanner (map_ : List (line2f K)) (res : K) : GlobalPlanner K :=
  ⟨map_, res, [], [], [], [], [], [], [], ⟨0, 0⟩, false, false⟩

/-- The four walls of a box of side `2 * res` centred at the origin. -/
def boxWalls (res : K) : List (line2f K) :=
  [⟨⟨-res, -res⟩, ⟨res, -res⟩⟩, ⟨⟨res, -res⟩, ⟨res, res⟩⟩,
   ⟨⟨res, res⟩, ⟨-res, res⟩⟩, ⟨⟨-res, res⟩, ⟨-res, -res⟩⟩]

/-- The value of `closest_index` after the first loop of `getClosestPathNode`. -/
def closestIndex (G : Geometry K) (P : GlobalPlanner K) (robot_loc : Vector2f K) : Nat :=
  (findClosest G P.nav_map_ robot_loc P.global_path_ 0 (100, Node.blank, 0)).2.2

/-- The value of `min_distance` after the first loop of `getClosestPathNode`. -/
def minDistance (G : Geometry K) (P : GlobalPlanner K) (robot_loc : Vector2f K) : K :=
  (findClosest G P.nav_map_ robot_loc P.global_path_ 0 (100, Node.blank, 0)).1

/-- The value of `target_index` after the second loop of `getClosestPathNode`. -/
def targetIndex (G : Geometry K) (P : GlobalPlanner K) (robot_loc : Vector2f K) : Nat :=
  (forwardScan G P.nav_map_ robot_loc 2 (P.global_path_.drop (closestIndex G P robot_loc))
    (closestIndex G P robot_loc) Node.blank).2

/-- The path node of index `i`, as the source reads it: `nav_map_[global_path_[i]]`. -/
def pathNode (P : GlobalPlanner K) (i : Nat) : Node K :=
  NavMap.get P.nav_map_ (P.global_path_.getD i "")

/-- A node at `loc` stored under `key`, with no neighbours. -/
def plainNode (key : String) (loc : Vector2f K) : Node K :=
  { Node.blank with loc := loc, key := key }

/-- A planner of resolution 1/4 whose path runs along the x axis from (2,0) to (3/4,0)
behind a wall at x = 5/2. -/
def corridorPlanner : GlobalPlanner K :=
  { blankPlanner [⟨⟨5 / 2, -1⟩, ⟨5 / 2, 1⟩⟩] (1 / 4) with
    nav_map_ := [("8_0", plainNode "8_0" ⟨2, 0⟩), ("7_0", plainNode "7_0" ⟨7 / 4, 0⟩),
                 ("6_0", plainNode "6_0" ⟨3 / 2, 0⟩), ("5_0", plainNode "5_0" ⟨5 / 4, 0⟩),
                 ("4_0", plainNode "4_0" ⟨1, 0⟩), ("3_0", plainNode "3_0" ⟨3 / 4, 0⟩)],
    global_path_ := ["8_0", "7_0", "6_0", "5_0", "4_0", "3_0"] }

/-- The node the search stores for a cell when the map is empty and there are neither
humans nor failed locations: no social cost, and all eight candidates as neighbours. -/
def freeNode (G : Geometry K) (res : K) (loc : Vector2f K) (index : Vector2i) (cost : K)
    (parent key : String) : Node K :=
  ⟨loc, index, cost, 0, 'n', parent, key, candidateNeighbors G res index.x index.y, false⟩

/-- A planner in the middle of a search toward `goal` on the empty map, without humans or
failed locations, with the given navigation map and frontier. -/
def freePlanner (res : K) (goal : Vector2f K) (m : NavMap K) (f : Frontier K) :
    GlobalPlanner K :=
  { blankPlanner [] res with nav_map_ := m, frontier_ := f, nav_goal_ := goal }

/-- Every stored node has a stored parent, and its parent links lead to `START` within as
many steps as the map has entries. -/
def ParentsLeadToStart (m : NavMap K) : Prop :=
  ∀ k n, NavMap.find? m k = some n →
    (∃ p, NavMap.find? m n.parent = some p) ∧ ∃ i, i ≤ m.length ∧ parentChain m i k = "START"

/-- The planner when the search loop of `getGlobalPath` has run for at most `j` iterations
from the planner `P` (the loop may have ended earlier). -/
def searchState (G : Geometry K) (P : GlobalPlanner K) (nav_goal_loc : Vector2f K) (j : Nat) :
    GlobalPlanner K :=
  (searchLoop G nav_goal_loc j "" { P with nav_goal_ := nav_goal_loc }).planner

/-- The planner inside an iteration of the search loop entered in state `S`: the least key
has been popped and the neighbours `l` of its node have been processed. -/
def midIteration (G : Geometry K) (nav_goal_loc : Vector2f K) (S : GlobalPlanner K)
    (l : List (Neighbor K)) : GlobalPlanner K :=
  l.foldl (expandNeighbor G nav_goal_loc (NavMap.get S.nav_map_ (Frontier.Pop S.frontier_).1))
    { S with frontier_ := (Frontier.Pop S.frontier_).2 }

/-- Every key queued in the frontier is stored in `nav_map_`. -/
def FrontierInv (P : GlobalPlanner K) : Prop :=
  ∀ e ∈ P.frontier_, ∃ n, NavMap.find? P.nav_map_ e.1 = some n

/-- The members of the planner that the search never writes. -/
def SameConfig (P Q : GlobalPlanner K) : Prop :=
  Q.map_ = P.map_ ∧ Q.map_resolution_ = P.map_resolution_ ∧ Q.failed_locs_ = P.failed_locs_ ∧
  Q.population_ = P.population_ ∧ Q.nav_goal_ = P.nav_goal_

/-- Every node other than `START` that lies within three resolutions of a failed location
has no neighbours. -/
def DeadEnded (G : Geometry K) (P : GlobalPlanner K) : Prop :=
  ∀ k n, NavMap.find? P.nav_map_ k = some n → k ≠ "START" →
    ∀ f ∈ P.failed_locs_, (n.loc.sub f).norm G.sqrt < 3 * P.map_resolution_ → n.neighbors = []

/-- The cost `c` with tag `t` is a contribution of the human `H` to the social cost of a node
at `loc`: the human is within 10 of the node, and either the node is hidden from it and `c`
is its hidden cost at an intersection of a map line with the line of sight (tag `h`), or the
node is not hidden and `c` is the larger of its safety cost (tag `s`, when it exceeds the
visibility cost) and its visibility cost (tag `v`). -/
def Contributes (G : Geometry K) (map_ : List (line2f K)) (loc : Vector2f K) (H : Human K)
    (c : K) (t : Char) : Prop :=
  ¬ (loc.sub H.getLoc).norm G.sqrt > 10 ∧
  ((H.isHidden loc map_ = true ∧ t = 'h' ∧
      ∃ map_line ∈ map_, ∃ pt, G.Intersection map_line ⟨H.getLoc, loc⟩ = some pt ∧
        c = H.hiddenCost loc pt) ∨
   (H.isHidden loc map_ = false ∧ t = 's' ∧ H.safetyCost loc > H.visibilityCost loc ∧
      c = H.safetyCost loc) ∨
   (H.isHidden loc map_ = false ∧ t = 'v' ∧ H.visibilityCost loc ≥ H.safetyCost loc ∧
      c = H.visibilityCost loc))

/-- The body of the loop of `getSocialCost` for one human `H`, on the running maximum and
its tag. -/
def socialStep (G : Geometry K) (P : GlobalPlanner K) (loc : Vector2f K) (acc : K × Char)
    (H : Human K) : K × Char :=
  if (loc.sub H.getLoc).norm G.sqrt > 10 then acc
  else if H.isHidden loc P.map_ then
    let view_line : line2f K := ⟨H.getLoc, loc⟩
    P.map_.foldl (fun (acc2 : K × Char) map_line =>
      match G.Intersection map_line view_line with
      | some intersection_point =>
        let hidden_cost := H.hiddenCost loc intersection_point
        if hidden_cost > acc2.1 then (hidden_cost, 'h') else acc2
      | none => acc2) acc
  else
    let safety_cost := H.safetyCost loc
    let visibility_cost := H.visibilityCost loc
    let social_cost := max safety_cost visibility_cost
    if social_cost > acc.1 then
      (social_cost, if safety_cost > visibility_cost then 's' else 'v')
    else acc

/-- The location reached from `loc` by lattice steps of length `res`, each given by the
neighbour index that `newNode` decodes. -/
def walkEnd (res : K) : Vector2f K → List Int → Vector2f K
  | loc, [] => loc
  | loc, i :: steps =>
    walkEnd res (loc.add (Vector2f.smul res ⟨(stepDx i : K), (stepDy i : K)⟩)) steps

/-- The total length of a sequence of lattice steps, a diagonal step counting `sqrt 2 * res`
and a straight step `res`, as in the neighbour lists. -/
def walkLength (G : Geometry K) (res : K) : List Int → K
  | [] => 0
  | i :: steps =>
    (if stepDx i ≠ 0 ∧ stepDy i ≠ 0 then G.sqrt 2 * res else res) + walkLength G res steps

/-- The lattice invariant of the search on `nav_map_`: every stored node lies at the location
of `START` displaced by the resolution times the difference of the grid indices; every node
other than `START` is stored under the key of its own grid index, and its parent is stored
and has a grid index exactly one lattice step away. -/
def LatticeInv (res : K) (m : NavMap K) (s0 : Node K) : Prop :=
  (∀ k n, NavMap.find? m k = some n →
    n.loc = s0.loc.add (Vector2f.smul res
      ⟨((n.index.x - s0.index.x : Int) : K), ((n.index.y - s0.index.y : Int) : K)⟩)) ∧
  (∀ k n, NavMap.find? m k = some n → k ≠ "START" → k = getNewID n.index.x n.index.y) ∧
  (∀ k n, NavMap.find? m k = some n → k ≠ "START" →
    ∃ p, NavMap.find? m n.parent = some p ∧ ∃ i : Int, (stepDx i ≠ 0 ∨ stepDy i ≠ 0) ∧
      n.index.x = p.index.x + stepDx i ∧ n.index.y = p.index.y + stepDy i)

/-- The length of the lattice step between two adjacent grid indices: `sqrt 2` times the
resolution for a diagonal hop, the resolution for a cardinal hop. -/
def hopLength (G : Geometry K) (res : K) (a b : Vector2i) : K :=
  if a.x ≠ b.x ∧ a.y ≠ b.y then G.sqrt 2 * res else res

/-- A human standing at `loc` with heading `angle`, from whom nothing is hidden and who
charges no social cost. -/
def standingHuman (loc : Vector2f K) (angle : K) : Human K :=
  ⟨loc, angle, fun _ _ => false, fun _ => 0, fun _ => 0, fun _ _ => 0⟩

end Nav

namespace PF

open Nav

variable {K : Type} [LinearOrderedField K] [FloorRing K]

/-- A filter with odometry initialised and two particles of log weights -1 and 0, the
maximum log weight being 0. -/
def twoParticles : ParticleFilter K :=
  { particles_ := [⟨⟨0, 0⟩, 0, -1⟩, ⟨⟨1, 0⟩, 0, 0⟩],
    map_ := [],
    prev_odom_loc_ := ⟨0, 0⟩,
    prev_odom_angle_ := 0,
    odom_initialized_ := true,
    var_obs_ := 1,
    d_short_ := 1 / 2,
    d_long_ := 1 / 2,
    max_log_particle_weight_ := ((0 : K) : WithBot K),
    updates_since_last_resample_ := 0,
    last_update_loc_ := ⟨0, 0⟩,
    last_resample_loc_ := ⟨0, 0⟩ }

/-- A filter without particles whose odometry stands at (1/2, 0), half a metre from the
location of the last update, and whose resample counter is `c`. -/
def movedFilter (c : Int) : ParticleFilter K :=
  { particles_ := [],
    map_ := [],
    prev_odom_loc_ := ⟨1 / 2, 0⟩,
    prev_odom_angle_ := 0,
    odom_initialized_ := true,
    var_obs_ := 1,
    d_short_ := 1 / 2,
    d_long_ := 1 / 2,
    max_log_particle_weight_ := ⊥,
    updates_since_last_resample_ := c,
    last_update_loc_ := ⟨0, 0⟩,
    last_resample_loc_ := ⟨0, 0⟩ }

/-- The filter states reached when `n` scans have passed the distance gate of `ObserveLaser`
since the last reset of the odometry variables. Between scans the filter may change in any
way that leaves `updates_since_last_resample_` alone: in the source only `ObserveLaser` and
`ResetOdomVariables` write that counter. -/
inductive ProcessedScans (sqrt exp : K → K) (num_particles : Nat) :
    Nat → ParticleFilter K → Prop
  | reset (F : ParticleFilter K) (loc : Vector2f K) (angle : K) :
      ProcessedScans sqrt exp num_particles 0 (ResetOdomVariables F loc angle)
  | other (n : Nat) (F F1 : ParticleFilter K) :
      ProcessedScans sqrt exp num_particles n F →
      F1.updates_since_last_resample_ = F.updates_since_last_resample_ →
      ProcessedScans sqrt exp num_particles n F1
  | scan (n : Nat) (F F1 : ParticleFilter K) (Update : Particle K → Particle K) (u : K)
      (fuel : Nat) :
      ProcessedScans sqrt exp num_particles n F →
      passesGate sqrt F = true →
      ObserveLaser sqrt exp num_particles Update u fuel F = some F1 →
      ProcessedScans sqrt exp num_particles (n + 1) F1

/-- The mean of the particle locations and of the particle angles under the weights `w`:
the sums of `w i * loc i` and of `w i * angle i`, each divided by the sum of the `w i`. -/
def weightedMean (w : Particle K → K) (ps : List (Particle K)) : Vector2f K × K :=
  (⟨(ps.map fun p => w p * p.loc.x).sum / (ps.map w).sum,
    (ps.map fun p => w p * p.loc.y).sum / (ps.map w).sum⟩,
   (ps.map fun p => w p * p.angle).sum / (ps.map w).sum)

end PF

namespace Nav

variable {K : Type} [LinearOrderedField K] [FloorRing K]

/-- A human at the origin from whom nothing is hidden and whose safety cost is 1 at every
location, the visibility cost being 0. -/
def sentry : Human K :=
  ⟨⟨0, 0⟩, 0, fun _ _ => false, fun _ => 1, fun _ => 0, fun _ _ => 0⟩

/-- The node the search stores for a cell within 10 of `sentry` when the map is empty and
there are no failed locations: social cost 1 of type safety, and all eight candidates as
neighbours. -/
def guardedNode (G : Geometry K) (res : K) (loc : Vector2f K) (index : Vector2i) (cost : K)
    (parent key : String) : Node K :=
  ⟨loc, index, cost, 1, 's', parent, key, candidateNeighbors G res index.x index.y, false⟩

/-- A planner in the middle of a search toward `goal` on the empty map, with `sentry`
registered as the only human and without failed locations, with the given navigation map
and frontier. -/
def guardedPlanner (res : K) (goal : Vector2f K) (m : NavMap K) (f : Frontier K) :
    GlobalPlanner K :=
  { addHuman (blankPlanner [] res) sentry with nav_map_ := m, frontier_ := f, nav_goal_ := goal }

end Nav

namespace Nav

variable {K : Type} [LinearOrderedField K] [FloorRing K]

/-- The planner after the first iteration of the search from (0,0) toward (-3,3) with
resolution 1 on the empty map, `sentry` being registered. -/
def guardedSearch (G : Geometry K) : GlobalPlanner K :=
  searchState G (initializeMap G (addHuman (blankPlanner [] 1) sentry) ⟨0, 0⟩) ⟨-3, 3⟩ 1

end Nav

namespace Nav

variable {K : Type} [LinearOrderedField K] [FloorRing K]

/-- A path in `nav_map_` that leaves the node of key `k`: every step is an entry of the
neighbour list of the stored node it leaves, and leads to the key of that entry. -/
def IsNeighborPath (m : NavMap K) : String → List (Neighbor K) → Prop
  | _, [] => True
  | k, nb :: rest =>
    (∃ n, NavMap.find? m k = some n ∧ nb ∈ n.neighbors) ∧ IsNeighborPath m nb.key rest

/-- The key at which a path that leaves the key `k` ends. -/
def pathEnd : String → List (Neighbor K) → String
  | k, [] => k
  | _, nb :: rest => pathEnd nb.key rest

/-- The sum of the step lengths along a path. -/
def pathLength (l : List (Neighbor K)) : K := (l.map fun nb => nb.path_length).sum

/-- The cost invariant of a search without humans on `nav_map_`: no stored node carries a
social cost; every neighbour reference carries the length of its lattice step; and every
node other than `START` is reached from its stored parent through an entry of the parent's
neighbour list whose length is the edge cost between the two nodes and at most the
difference of their costs. -/
def CostInv (G : Geometry K) (res : K) (m : NavMap K) : Prop :=
  (∀ k n, NavMap.find? m k = some n → n.social_cost = 0) ∧
  (∀ k n, NavMap.find? m k = some n → ∀ nb ∈ n.neighbors,
    nb.path_length = if stepDx nb.neighbor_index ≠ 0 ∧ stepDy nb.neighbor_index ≠ 0
      then G.sqrt 2 * res else res) ∧
  (∀ k n, NavMap.find? m k = some n → k ≠ "START" →
    ∃ p nb, NavMap.find? m n.parent = some p ∧ nb ∈ p.neighbors ∧ nb.key = k ∧
      nb.path_length = edgeCost G n p ∧ p.cost + nb.path_length ≤ n.cost)

/-- The queue invariant of a search without humans: the queued keys are pairwise distinct;
every queued key is stored and queued with at most the cost of its node plus the heuristic,
and with exactly that sum unless it is `START`; and every stored node that is not queued,
the node of key `ex` under expansion apart, has all its neighbours stored, each with a cost
of at most its own cost plus the step length. -/
def QueueInv (G : Geometry K) (goal : Vector2f K) (m : NavMap K) (fr : Frontier K)
    (ex : Option String) : Prop :=
  fr.Pairwise (fun a b => a.1 ≠ b.1) ∧
  (∀ e ∈ fr, ∃ n, NavMap.find? m e.1 = some n ∧ e.2 ≤ n.cost + getHeuristic G goal n.loc ∧
    (e.1 ≠ "START" → e.2 = n.cost + getHeuristic G goal n.loc)) ∧
  (∀ k n, NavMap.find? m k = some n → ex ≠ some k → (∀ e ∈ fr, e.1 ≠ k) →
    ∀ nb ∈ n.neighbors, ∃ n', NavMap.find? m nb.key = some n' ∧
      n'.cost ≤ n.cost + nb.path_length)

end Nav

namespace PF

open Nav

variable {K : Type} [LinearOrderedField K] [FloorRing K]

/-! ## The `float` variables of `Resample` -/

/-- A filter whose maximum log weight stands at -100, as after an observation update in which
the best particle lost 100. -/
def staleFilter : ParticleFilter K :=
  { (twoParticles : ParticleFilter K) with
    particles_ := [⟨⟨0, 0⟩, 0, -100⟩, ⟨⟨1, 0⟩, 0, -101⟩],
    max_log_particle_weight_ := ((-100 : K) : WithBot K) }

end PF

namespace Nav

variable {K : Type} [LinearOrderedField K] [FloorRing K]

/-! ## The iterations of the search loop -/

/-- The planner after `j` iterations of the body of the search loop of `getGlobalPath`
entered in state `P`, none of them cut short: each pops the least key and processes the
neighbours of its node. The exit tests of the loop are not looked at. -/
def loopState (G : Geometry K) (nav_goal_loc : Vector2f K) (P : GlobalPlanner K) :
    Nat → GlobalPlanner K
  | 0 => P
  | j + 1 =>
    midIteration G nav_goal_loc (loopState G nav_goal_loc P j)
      (NavMap.get (loopState G nav_goal_loc P j).nav_map_
        (Frontier.Pop (loopState G nav_goal_loc P j).frontier_).1).neighbors

/-- The goal test of the search loop on the node that an iteration entered in state `S`
pops: its location is within 0.71 resolutions of the goal. -/
def popsGoal (G : Geometry K) (nav_goal_loc : Vector2f K) (S : GlobalPlanner K) : Prop :=
  (nav_goal_loc.sub (NavMap.get S.nav_map_ (Frontier.Pop S.frontier_).1).loc).norm G.sqrt <
    71 / 100 * S.map_resolution_

/-- In the words of the specification, the search loop entered in state `P` fails: it runs
some number `j` of iterations, each entered with a non-empty frontier and none popping a node
within 0.71 resolutions of the goal, and then ends because the frontier is drained or `j` is
the iteration cap of 10^6. -/
def SearchFailed (G : Geometry K) (nav_goal_loc : Vector2f K) (P : GlobalPlanner K) : Prop :=
  ∃ j, j ≤ iterationCap ∧
    (∀ i, i < j → (loopState G nav_goal_loc P i).frontier_.Empty = false ∧
      ¬ popsGoal G nav_goal_loc (loopState G nav_goal_loc P i)) ∧
    ((loopState G nav_goal_loc P j).frontier_.Empty = true ∨ j = iterationCap)

end Nav

/-! # Theorems -/

namespace Nav

variable {K : Type} [LinearOrderedField K] [FloorRing K]

/-! ## The navigation map -/

theorem NavMap.find?_set_self (m : NavMap K) (k : String) (n : Node K) :
    NavMap.find? (NavMap.set m k n) k = some n := by
  induction m with
  | nil => simp [NavMap.set, NavMap.find?]
  | cons e rest ih =>
    obtain ⟨k', n'⟩ := e
    by_cases h : k' = k
    · simp [NavMap.set, NavMap.find?, h]
    · simp [NavMap.set, NavMap.find?, h, ih]

theorem NavMap.find?_set_other (m : NavMap K) (k j : String) (n : Node K) (h : j ≠ k) :
    NavMap.find? (NavMap.set m k n) j = NavMap.find? m j := by
  induction m with
  | nil => simp [NavMap.set, NavMap.find?, Ne.symm h]
  | cons e rest ih =>
    obtain ⟨k', n'⟩ := e
    by_cases h1 : k' = k
    · subst h1
      simp [NavMap.set, NavMap.find?, Ne.symm h]
    · by_cases h2 : k' = j
      · subst h2
        simp [NavMap.set, NavMap.find?, h]
      · simp [NavMap.set, NavMap.find?, h1, h2, ih]

theorem NavMap.mem_of_find? (m : NavMap K) (k : String) (n : Node K)
    (h : NavMap.find? m k = some n) : (k, n) ∈ m := by
  induction m with
  | nil => simp [NavMap.find?] at h
  | cons e rest ih =>
    obtain ⟨k', n'⟩ := e
    by_cases h1 : k' = k
    · simp [NavMap.find?, h1] at h
      subst h1; subst h
      exact List.mem_cons_self _ _
    · simp [NavMap.find?, h1] at h
      exact List.mem_cons_of_mem _ (ih h)

theorem NavMap.get_of_find? (m : NavMap K) (k : String) (n : Node K)
    (h : NavMap.find? m k = some n) : NavMap.get m k = n := by
  simp [NavMap.get, h]

theorem NavMap.get_of_find?_none (m : NavMap K) (k : String)
    (h : NavMap.find? m k = none) : NavMap.get m k = Node.blank := by
  simp [NavMap.get, h]

/-- A key built by `getNewID` is never the reserved key `START`: it holds an underscore. -/
theorem getNewID_ne_START (xi yi : Int) : getNewID xi yi ≠ "START" := by
  intro h
  have h1 : '_' ∈ (getNewID xi yi).data := by
    simp [getNewID, String.data_append]
  rw [h] at h1
  revert h1
  decide

/-- Every candidate neighbour carries the key of the index that its neighbour index encodes,
and a step length that is the resolution or `sqrt 2` times it. -/
theorem candidateNeighbors_spec (G : Geometry K) (res : K) (xi yi : Int) (nb : Neighbor K)
    (h : nb ∈ candidateNeighbors G res xi yi) :
    nb.key = getNewID (xi + stepDx nb.neighbor_index) (yi + stepDy nb.neighbor_index) ∧
    nb.node_index = ⟨xi + stepDx nb.neighbor_index, yi + stepDy nb.neighbor_index⟩ ∧
    (nb.path_length = res ∨ nb.path_length = G.sqrt 2 * res) := by
  simp only [candidateNeighbors, List.mem_cons, List.mem_singleton, List.not_mem_nil,
    or_false] at h
  have e0 : stepDx 0 = -1 ∧ stepDy 0 = 1 := by decide
  have e1 : stepDx 1 = 0 ∧ stepDy 1 = 1 := by decide
  have e2 : stepDx 2 = 1 ∧ stepDy 2 = 1 := by decide
  have e3 : stepDx 3 = -1 ∧ stepDy 3 = 0 := by decide
  have e5 : stepDx 5 = 1 ∧ stepDy 5 = 0 := by decide
  have e6 : stepDx 6 = -1 ∧ stepDy 6 = -1 := by decide
  have e7 : stepDx 7 = 0 ∧ stepDy 7 = -1 := by decide
  have e8 : stepDx 8 = 1 ∧ stepDy 8 = -1 := by decide
  rcases h with h | h | h | h | h | h | h | h <;> subst h <;>
    simp [e0, e1, e2, e3, e5, e6, e7, e8, sub_eq_add_neg]

end Nav

namespace Nav

variable {K : Type} [LinearOrderedField K] [FloorRing K]

/-! ## Nodes built by `newNode` -/

theorem buildNode_key (G : Geometry K) (P : GlobalPlanner K) (c : Node K) (i : Int) :
    (buildNode G P c i).key = getNewID (c.index.x + stepDx i) (c.index.y + stepDy i) := by
  unfold buildNode
  simp only
  split_ifs <;> rfl

theorem buildNode_parent (G : Geometry K) (P : GlobalPlanner K) (c : Node K) (i : Int) :
    (buildNode G P c i).parent = c.key := by
  unfold buildNode
  simp only
  split_ifs <;> rfl

theorem buildNode_index (G : Geometry K) (P : GlobalPlanner K) (c : Node K) (i : Int) :
    (buildNode G P c i).index = ⟨c.index.x + stepDx i, c.index.y + stepDy i⟩ := by
  unfold buildNode
  simp only
  split_ifs <;> rfl

theorem buildNode_loc (G : Geometry K) (P : GlobalPlanner K) (c : Node K) (i : Int) :
    (buildNode G P c i).loc =
      c.loc.add (Vector2f.smul P.map_resolution_ ⟨((stepDx i : Int) : K), ((stepDy i : Int) : K)⟩) := by
  unfold buildNode
  simp only
  split_ifs <;> rfl

theorem buildNode_cost (G : Geometry K) (P : GlobalPlanner K) (c : Node K) (i : Int) :
    (buildNode G P c i).cost =
      c.cost + G.sqrt (P.map_resolution_ * (stepDx i : K) * (P.map_resolution_ * (stepDx i : K)) +
        P.map_resolution_ * (stepDy i : K) * (P.map_resolution_ * (stepDy i : K))) := by
  unfold buildNode
  simp only
  split_ifs <;>
    simp [edgeCost, Vector2f.norm, Vector2f.sub, Vector2f.add, Vector2f.smul]

theorem buildNode_neighbors (G : Geometry K) (P : GlobalPlanner K) (c : Node K) (i : Int)
    (nb : Neighbor K) (h : nb ∈ (buildNode G P c i).neighbors) :
    nb ∈ candidateNeighbors G P.map_resolution_ (c.index.x + stepDx i) (c.index.y + stepDy i) := by
  unfold buildNode at h
  simp only at h
  split_ifs at h
  · simp at h
  · simp only [getNeighbors, List.mem_filter] at h
    exact h.1

theorem buildNode_deadEnd (G : Geometry K) (P : GlobalPlanner K) (c : Node K) (i : Int)
    (f : Vector2f K) (hf : f ∈ P.failed_locs_)
    (hd : ((buildNode G P c i).loc.sub f).norm G.sqrt < 3 * P.map_resolution_) :
    (buildNode G P c i).neighbors = [] := by
  rw [buildNode_loc] at hd
  unfold buildNode
  simp only
  split_ifs with h
  · rfl
  · exfalso
    apply h
    simp only [List.any_eq_true, decide_eq_true_eq]
    exact ⟨f, hf, by rw [mul_comm]; exact hd⟩

theorem goodNeighbor_of_candidate (G : Geometry K) (res : K) (hres : 0 < res)
    (hs : ∀ x : K, 0 < x → 0 < G.sqrt x) (idx : Vector2i) (nb : Neighbor K)
    (h : nb ∈ candidateNeighbors G res idx.x idx.y) : GoodNeighbor idx nb := by
  have hk := candidateNeighbors_spec G res idx.x idx.y nb h
  refine ⟨hk.1, ?_, ?_⟩
  · simp only [candidateNeighbors, List.mem_cons, List.mem_singleton, List.not_mem_nil,
      or_false] at h
    rcases h with h | h | h | h | h | h | h | h <;> subst h <;> dsimp only <;> decide
  · rcases hk.2.2 with h1 | h1 <;> rw [h1]
    · exact hres
    · exact mul_pos (hs 2 (by norm_num)) hres

end Nav

namespace Nav

variable {K : Type} [LinearOrderedField K] [FloorRing K]

/-! ## The search keeps the parent invariant -/

theorem sqrt_step_pos (G : Geometry K) (hs : ∀ x : K, 0 < x → 0 < G.sqrt x) (res : K)
    (hres : 0 < res) (i : Int) (hi : stepDx i ≠ 0 ∨ stepDy i ≠ 0) :
    0 < G.sqrt (res * (stepDx i : K) * (res * (stepDx i : K)) +
      res * (stepDy i : K) * (res * (stepDy i : K))) := by
  apply hs
  rcases hi with h | h
  · have h1 : res * (stepDx i : K) ≠ 0 := mul_ne_zero hres.ne' (Int.cast_ne_zero.mpr h)
    have h2 := mul_self_pos.mpr h1
    have h3 := mul_self_nonneg (res * (stepDy i : K))
    linarith
  · have h1 : res * (stepDy i : K) ≠ 0 := mul_ne_zero hres.ne' (Int.cast_ne_zero.mpr h)
    have h2 := mul_self_pos.mpr h1
    have h3 := mul_self_nonneg (res * (stepDx i : K))
    linarith

theorem NavMap.find?_set (m : NavMap K) (k j : String) (n : Node K) :
    NavMap.find? (NavMap.set m k n) j = if j = k then some n else NavMap.find? m j := by
  by_cases h : j = k
  · subst h
    simp [NavMap.find?_set_self]
  · simp [h, NavMap.find?_set_other m k j n h]

theorem expandNeighbor_sameConfig (G : Geometry K) (goal : Vector2f K) (c : Node K)
    (P : GlobalPlanner K) (nb : Neighbor K) : SameConfig P (expandNeighbor G goal c P nb) := by
  unfold expandNeighbor SameConfig
  simp only [newNode]
  split_ifs <;> simp

theorem expandNeighbor_inv (G : Geometry K) (hs : ∀ x : K, 0 < x → 0 < G.sqrt x)
    (goal : Vector2f K) (c : Node K) (P : GlobalPlanner K) (nb : Neighbor K) (s0 : Node K)
    (hres : 0 < P.map_resolution_) (hnb : GoodNeighbor c.index nb)
    (hInv : ParentInv P.nav_map_ s0)
    (hJ : ∃ c', NavMap.find? P.nav_map_ c.key = some c' ∧ c'.cost ≤ c.cost) :
    ParentInv (expandNeighbor G goal c P nb).nav_map_ s0 ∧
    ∃ c', NavMap.find? (expandNeighbor G goal c P nb).nav_map_ c.key = some c' ∧
      c'.cost ≤ c.cost := by
  obtain ⟨hS, hSp, hKey, hPar, hNb⟩ := hInv
  obtain ⟨c', hc', hcc⟩ := hJ
  obtain ⟨hk, hstep, hpl⟩ := hnb
  unfold expandNeighbor
  simp only [newNode]
  split_ifs with h1 h2
  · -- a new node is stored under a fresh key
    have hnone : NavMap.find? P.nav_map_ nb.key = none := by
      simpa [NavMap.count] using h1
    have hkey' : (buildNode G P c nb.neighbor_index).key = nb.key := by
      rw [buildNode_key, hk]
    simp only [hkey']
    have hfresh : ∀ j n, NavMap.find? P.nav_map_ j = some n → j ≠ nb.key := by
      intro j n hj e
      rw [e, hnone] at hj
      exact Option.noConfusion hj
    have hcost : c.cost < (buildNode G P c nb.neighbor_index).cost := by
      rw [buildNode_cost]
      have := sqrt_step_pos G hs P.map_resolution_ hres nb.neighbor_index hstep
      linarith
    refine ⟨⟨?_, hSp, ?_, ?_, ?_⟩, ?_⟩
    · rw [NavMap.find?_set_other _ _ _ _ (hfresh _ _ hS)]
      exact hS
    · intro k n hn
      rw [NavMap.find?_set] at hn
      split_ifs at hn with e
      · cases hn
        rw [e]
        exact hkey'
      · exact hKey k n hn
    · intro k n hn hne
      rw [NavMap.find?_set] at hn
      split_ifs at hn with e
      · cases hn
        refine ⟨c', ?_, lt_of_le_of_lt hcc hcost⟩
        rw [buildNode_parent, NavMap.find?_set_other _ _ _ _ (hfresh _ _ hc')]
        exact hc'
      · obtain ⟨p, hp, hlt⟩ := hPar k n hn hne
        refine ⟨p, ?_, hlt⟩
        rw [NavMap.find?_set_other _ _ _ _ (hfresh _ _ hp)]
        exact hp
    · intro k n hn nb' hnb'
      rw [NavMap.find?_set] at hn
      split_ifs at hn with e
      · cases hn
        have hcand := buildNode_neighbors G P c nb.neighbor_index nb' hnb'
        rw [buildNode_index]
        exact goodNeighbor_of_candidate G P.map_resolution_ hres hs
          ⟨c.index.x + stepDx nb.neighbor_index, c.index.y + stepDy nb.neighbor_index⟩ nb' hcand
      · exact hNb k n hn nb' hnb'
    · refine ⟨c', ?_, hcc⟩
      rw [NavMap.find?_set_other _ _ _ _ (hfresh _ _ hc')]
      exact hc'
  · -- an existing node is relaxed
    have hsome : ∃ old, NavMap.find? P.nav_map_ nb.key = some old := by
      have h1' : ¬ NavMap.find? P.nav_map_ nb.key = none := by
        simpa [NavMap.count] using h1
      cases hf : NavMap.find? P.nav_map_ nb.key with
      | none => exact absurd hf h1'
      | some old => exact ⟨old, rfl⟩
    obtain ⟨old, hold⟩ := hsome
    have hget : NavMap.get P.nav_map_ nb.key = old := NavMap.get_of_find? _ _ _ hold
    rw [hget] at h2 ⊢
    have hneS : nb.key ≠ "START" := by
      rw [hk]
      exact getNewID_ne_START _ _
    have hnec : c.key ≠ nb.key := by
      intro e
      rw [e, hold] at hc'
      cases hc'
      linarith
    refine ⟨⟨?_, hSp, ?_, ?_, ?_⟩, ?_⟩
    · rw [NavMap.find?_set_other _ _ _ _ (Ne.symm hneS)]
      exact hS
    · intro k n hn
      rw [NavMap.find?_set] at hn
      split_ifs at hn with e
      · cases hn
        rw [e]
        exact hKey nb.key old hold
      · exact hKey k n hn
    · intro k n hn hne
      rw [NavMap.find?_set] at hn
      split_ifs at hn with e
      · cases hn
        refine ⟨c', ?_, ?_⟩
        · show NavMap.find? _ c.key = some c'
          rw [NavMap.find?_set_other _ _ _ _ hnec]
          exact hc'
        · show c'.cost < c.cost + nb.path_length
          linarith
      · obtain ⟨p, hp, hlt⟩ := hPar k n hn hne
        by_cases e2 : n.parent = nb.key
        · refine ⟨{ old with cost := c.cost + nb.path_length, parent := c.key }, ?_, ?_⟩
          · show NavMap.find? _ n.parent = _
            rw [e2, NavMap.find?_set_self]
          · rw [e2, hold] at hp
            cases hp
            show c.cost + nb.path_length < n.cost
            linarith
        · refine ⟨p, ?_, hlt⟩
          rw [NavMap.find?_set_other _ _ _ _ e2]
          exact hp
    · intro k n hn nb' hnb'
      rw [NavMap.find?_set] at hn
      split_ifs at hn with e
      · cases hn
        exact hNb nb.key old hold nb' hnb'
      · exact hNb k n hn nb' hnb'
    · refine ⟨c', ?_, hcc⟩
      rw [NavMap.find?_set_other _ _ _ _ hnec]
      exact hc'
  · exact ⟨⟨hS, hSp, hKey, hPar, hNb⟩, c', hc', hcc⟩

end Nav

namespace Nav

variable {K : Type} [LinearOrderedField K] [FloorRing K]

theorem SameConfig.refl (P : GlobalPlanner K) : SameConfig P P :=
  ⟨rfl, rfl, rfl, rfl, rfl⟩

theorem SameConfig.trans {P Q R : GlobalPlanner K} (h1 : SameConfig P Q) (h2 : SameConfig Q R) :
    SameConfig P R :=
  ⟨h2.1.trans h1.1, h2.2.1.trans h1.2.1, h2.2.2.1.trans h1.2.2.1,
    h2.2.2.2.1.trans h1.2.2.2.1, h2.2.2.2.2.trans h1.2.2.2.2⟩

theorem foldl_expandNeighbor_sameConfig (G : Geometry K) (goal : Vector2f K) (c : Node K)
    (l : List (Neighbor K)) (P : GlobalPlanner K) :
    SameConfig P (l.foldl (expandNeighbor G goal c) P) := by
  induction l generalizing P with
  | nil => exact SameConfig.refl P
  | cons nb rest ih =>
    exact SameConfig.trans (expandNeighbor_sameConfig G goal c P nb) (ih _)

theorem foldl_expandNeighbor_inv (G : Geometry K) (hs : ∀ x : K, 0 < x → 0 < G.sqrt x)
    (goal : Vector2f K) (c : Node K) (s0 : Node K) (l : List (Neighbor K))
    (hl : ∀ nb ∈ l, GoodNeighbor c.index nb) (P : GlobalPlanner K)
    (hres : 0 < P.map_resolution_) (hInv : ParentInv P.nav_map_ s0)
    (hJ : ∃ c', NavMap.find? P.nav_map_ c.key = some c' ∧ c'.cost ≤ c.cost) :
    ParentInv (l.foldl (expandNeighbor G goal c) P).nav_map_ s0 := by
  induction l generalizing P with
  | nil => exact hInv
  | cons nb rest ih =>
    have h := expandNeighbor_inv G hs goal c P nb s0 hres (hl nb (List.mem_cons_self _ _)) hInv hJ
    have hc := expandNeighbor_sameConfig G goal c P nb
    apply ih (fun nb' h' => hl nb' (List.mem_cons_of_mem _ h'))
    · rw [hc.2.1]
      exact hres
    · exact h.1
    · exact h.2

theorem Frontier.mem_Push (f : Frontier K) (k : String) (p : K) (e : String × K)
    (h : e ∈ Frontier.Push f k p) : e.1 = k ∨ e ∈ f := by
  induction f with
  | nil =>
    simp only [Frontier.Push, List.mem_singleton] at h
    left; rw [h]
  | cons a rest ih =>
    obtain ⟨k', p'⟩ := a
    by_cases hk : k' = k
    · simp only [Frontier.Push, hk, if_true, List.mem_cons] at h
      rcases h with h | h
      · left; rw [h]
      · right; exact List.mem_cons_of_mem _ h
    · simp only [Frontier.Push, hk, if_false, List.mem_cons] at h
      rcases h with h | h
      · right; rw [h]; exact List.mem_cons_self _ _
      · rcases ih h with h2 | h2
        · left; exact h2
        · right; exact List.mem_cons_of_mem _ h2

theorem Frontier.minEntry_mem (f : Frontier K) (e : String × K)
    (h : Frontier.minEntry f = some e) : e ∈ f := by
  induction f generalizing e with
  | nil => simp [Frontier.minEntry] at h
  | cons a rest ih =>
    simp only [Frontier.minEntry] at h
    cases hr : Frontier.minEntry rest with
    | none =>
      rw [hr] at h
      simp only [Option.some.injEq] at h
      rw [← h]; exact List.mem_cons_self _ _
    | some e' =>
      rw [hr] at h
      simp only at h
      split_ifs at h
      · simp only [Option.some.injEq] at h
        rw [← h]; exact List.mem_cons_of_mem _ (ih e' hr)
      · simp only [Option.some.injEq] at h
        rw [← h]; exact List.mem_cons_self _ _

theorem Frontier.minEntry_isSome (f : Frontier K) (h : f ≠ []) :
    ∃ e, Frontier.minEntry f = some e := by
  cases f with
  | nil => exact absurd rfl h
  | cons a rest =>
    simp only [Frontier.minEntry]
    cases hr : Frontier.minEntry rest with
    | none => exact ⟨a, rfl⟩
    | some e' =>
      simp only
      split_ifs
      · exact ⟨e', rfl⟩
      · exact ⟨a, rfl⟩

theorem expandNeighbor_frontier (G : Geometry K) (goal : Vector2f K) (c : Node K)
    (P : GlobalPlanner K) (nb : Neighbor K) (hnb : GoodNeighbor c.index nb)
    (hF : FrontierInv P) : FrontierInv (expandNeighbor G goal c P nb) := by
  unfold expandNeighbor
  simp only [newNode]
  split_ifs with h1 h2
  · have hkey' : (buildNode G P c nb.neighbor_index).key = nb.key := by
      rw [buildNode_key, hnb.1]
    simp only [hkey']
    intro e he
    simp only [NavMap.find?_set]
    rcases Frontier.mem_Push _ _ _ _ he with h | h
    · exact ⟨_, by rw [if_pos h]⟩
    · split_ifs
      · exact ⟨_, rfl⟩
      · exact hF e h
  · intro e he
    simp only [NavMap.find?_set]
    rcases Frontier.mem_Push _ _ _ _ he with h | h
    · exact ⟨_, by rw [if_pos h]⟩
    · split_ifs
      · exact ⟨_, rfl⟩
      · exact hF e h
  · exact hF

theorem foldl_expandNeighbor_frontier (G : Geometry K) (goal : Vector2f K) (c : Node K)
    (l : List (Neighbor K)) (hl : ∀ nb ∈ l, GoodNeighbor c.index nb) (P : GlobalPlanner K)
    (hF : FrontierInv P) : FrontierInv (l.foldl (expandNeighbor G goal c) P) := by
  induction l generalizing P with
  | nil => exact hF
  | cons nb rest ih =>
    exact ih (fun nb' h' => hl nb' (List.mem_cons_of_mem _ h')) _
      (expandNeighbor_frontier G goal c P nb (hl nb (List.mem_cons_self _ _)) hF)

theorem expandNeighbor_deadEnded (G : Geometry K) (goal : Vector2f K) (c : Node K)
    (P : GlobalPlanner K) (nb : Neighbor K) (hD : DeadEnded G P) :
    DeadEnded G (expandNeighbor G goal c P nb) := by
  have hc := expandNeighbor_sameConfig G goal c P nb
  intro k n hn hne f hf hd
  rw [hc.2.2.1] at hf
  rw [hc.2.1] at hd
  unfold expandNeighbor at hn
  simp only [newNode] at hn
  split_ifs at hn with h1 h2
  · simp only [NavMap.find?_set] at hn
    split_ifs at hn with e
    · cases hn
      exact buildNode_deadEnd G P c nb.neighbor_index f hf hd
    · exact hD k n hn hne f hf hd
  · simp only [NavMap.find?_set] at hn
    split_ifs at hn with e
    · cases hn
      cases hf2 : NavMap.find? P.nav_map_ nb.key with
      | none =>
        simp only [NavMap.get, hf2, Option.getD_none] at hd ⊢
        rfl
      | some old =>
        simp only [NavMap.get, hf2, Option.getD_some] at hd ⊢
        exact hD nb.key old hf2 (e ▸ hne) f hf hd
    · exact hD k n hn hne f hf hd
  · exact hD k n hn hne f hf hd

theorem foldl_expandNeighbor_deadEnded (G : Geometry K) (goal : Vector2f K) (c : Node K)
    (l : List (Neighbor K)) (P : GlobalPlanner K) (hD : DeadEnded G P) :
    DeadEnded G (l.foldl (expandNeighbor G goal c) P) := by
  induction l generalizing P with
  | nil => exact hD
  | cons nb rest ih => exact ih _ (expandNeighbor_deadEnded G goal c P nb hD)

theorem searchLoop_deadEnded (G : Geometry K) (goal : Vector2f K) (n : Nat) (cur : String)
    (P : GlobalPlanner K) (hD : DeadEnded G P) :
    DeadEnded G (searchLoop G goal n cur P).planner := by
  induction n generalizing cur P with
  | zero => exact hD
  | succ n ih =>
    unfold searchLoop
    simp only
    split_ifs with h1 h2
    · exact hD
    · exact hD
    · exact ih _ _ (foldl_expandNeighbor_deadEnded G goal _ _ _ hD)

/-- One pass of the neighbour loop, for the node read from the map under the popped key,
keeps the parent invariant and the frontier invariant. -/
theorem expandAll_inv (G : Geometry K) (hs : ∀ x : K, 0 < x → 0 < G.sqrt x)
    (goal : Vector2f K) (s0 : Node K) (key : String) (l : List (Neighbor K))
    (P : GlobalPlanner K) (hl : l <+: (NavMap.get P.nav_map_ key).neighbors)
    (hres : 0 < P.map_resolution_) (hInv : ParentInv P.nav_map_ s0) (hF : FrontierInv P) :
    ParentInv (l.foldl (expandNeighbor G goal (NavMap.get P.nav_map_ key)) P).nav_map_ s0 ∧
    FrontierInv (l.foldl (expandNeighbor G goal (NavMap.get P.nav_map_ key)) P) := by
  cases hf : NavMap.find? P.nav_map_ key with
  | none =>
    have hb : NavMap.get P.nav_map_ key = Node.blank := NavMap.get_of_find?_none _ _ hf
    rw [hb] at hl ⊢
    have : l = [] := by
      have h2 : (Node.blank : Node K).neighbors = [] := rfl
      rw [h2] at hl
      exact List.prefix_nil.mp hl
    subst this
    exact ⟨hInv, hF⟩
  | some c =>
    have hb : NavMap.get P.nav_map_ key = c := NavMap.get_of_find? _ _ _ hf
    rw [hb] at hl ⊢
    have hkey : c.key = key := hInv.2.2.1 key c hf
    have hgood : ∀ nb ∈ l, GoodNeighbor c.index nb := fun nb hnb =>
      hInv.2.2.2.2 key c hf nb (hl.subset hnb)
    refine ⟨?_, foldl_expandNeighbor_frontier G goal c l hgood P hF⟩
    apply foldl_expandNeighbor_inv G hs goal c s0 l hgood P hres hInv
    exact ⟨c, by rw [hkey]; exact hf, le_refl _⟩

/-- The search loop keeps the invariants, never writes the configuration, and on success
stops at a key that is stored in the map. -/
theorem searchLoop_inv (G : Geometry K) (hs : ∀ x : K, 0 < x → 0 < G.sqrt x)
    (goal : Vector2f K) (s0 : Node K) (n : Nat) (cur : String) (P : GlobalPlanner K)
    (hres : 0 < P.map_resolution_) (hInv : ParentInv P.nav_map_ s0) (hF : FrontierInv P) :
    ParentInv (searchLoop G goal n cur P).planner.nav_map_ s0 ∧
    FrontierInv (searchLoop G goal n cur P).planner ∧
    SameConfig P (searchLoop G goal n cur P).planner ∧
    ((searchLoop G goal n cur P).global_path_success = true →
      ∃ nd, NavMap.find? (searchLoop G goal n cur P).planner.nav_map_
        (searchLoop G goal n cur P).current_key = some nd) := by
  induction n generalizing cur P with
  | zero =>
    refine ⟨hInv, hF, SameConfig.refl P, ?_⟩
    intro h
    simp [searchLoop] at h
  | succ n ih =>
    have hF1 : FrontierInv { P with frontier_ := (Frontier.Pop P.frontier_).2 } := by
      intro e he
      apply hF e
      simp only [Frontier.Pop] at he
      cases hm : Frontier.minEntry P.frontier_ with
      | none => rw [hm] at he; simp at he
      | some e0 =>
        rw [hm] at he
        exact (List.mem_filter.mp he).1
    unfold searchLoop
    simp only
    split_ifs with h1 h2
    · refine ⟨hInv, hF, SameConfig.refl P, ?_⟩
      intro h
      simp at h
    · refine ⟨hInv, hF1, ⟨rfl, rfl, rfl, rfl, rfl⟩, ?_⟩
      intro _
      have hne : P.frontier_ ≠ [] := by
        intro e
        apply h1
        simp [Frontier.Empty, e]
      obtain ⟨e0, he0⟩ := Frontier.minEntry_isSome P.frontier_ hne
      have hmem := Frontier.minEntry_mem _ _ he0
      have : (Frontier.Pop P.frontier_).1 = e0.1 := by
        simp [Frontier.Pop, he0]
      simp only [this]
      exact hF e0 hmem
    · have hP1 : SameConfig P { P with frontier_ := (Frontier.Pop P.frontier_).2 } :=
        ⟨rfl, rfl, rfl, rfl, rfl⟩
      have hf := foldl_expandNeighbor_sameConfig G goal
        (NavMap.get P.nav_map_ (Frontier.Pop P.frontier_).1)
        (NavMap.get P.nav_map_ (Frontier.Pop P.frontier_).1).neighbors
        { P with frontier_ := (Frontier.Pop P.frontier_).2 }
      have hi := expandAll_inv G hs goal s0 (Frontier.Pop P.frontier_).1
        (NavMap.get P.nav_map_ (Frontier.Pop P.frontier_).1).neighbors
        { P with frontier_ := (Frontier.Pop P.frontier_).2 } (List.prefix_refl _) hres hInv hF1
      have := ih (Frontier.Pop P.frontier_).1 _ (by rw [hf.2.1]; exact hres) hi.1 hi.2
      exact ⟨this.1, this.2.1, SameConfig.trans (SameConfig.trans hP1 hf) this.2.2.1,
        this.2.2.2⟩

end Nav

namespace Nav

variable {K : Type} [LinearOrderedField K] [FloorRing K]

/-! ## The state left by `initializeMap` -/

/-- The node `START` that `initializeMap` stores. -/
theorem initializeMap_nav_map (G : Geometry K) (P : GlobalPlanner K) (loc : Vector2f K) :
    ∃ s0 : Node K, (initializeMap G P loc).nav_map_ = [("START", s0)] ∧
      s0.parent = "START" ∧ s0.key = "START" ∧ s0.loc = loc ∧ s0.cost = 0 ∧
      s0.index = ⟨toInt (loc.x / P.map_resolution_), toInt (loc.y / P.map_resolution_)⟩ ∧
      s0.neighbors = getNeighbors G P.map_ P.map_resolution_
        { Node.blank with loc := loc,
                          index := ⟨toInt (loc.x / P.map_resolution_),
                                    toInt (loc.y / P.map_resolution_)⟩,
                          cost := 0, social_cost := 0, social_type := 'n',
                          parent := "START", key := "START" } :=
  ⟨_, rfl, rfl, rfl, rfl, rfl, rfl, rfl⟩

theorem initializeMap_sameConfig (G : Geometry K) (P : GlobalPlanner K) (loc : Vector2f K) :
    SameConfig P (initializeMap G P loc) := ⟨rfl, rfl, rfl, rfl, rfl⟩

theorem initializeMap_inv (G : Geometry K) (hs : ∀ x : K, 0 < x → 0 < G.sqrt x)
    (P : GlobalPlanner K) (loc : Vector2f K) (hres : 0 < P.map_resolution_) :
    ∃ s0 : Node K, ParentInv (initializeMap G P loc).nav_map_ s0 ∧
      FrontierInv (initializeMap G P loc) ∧
      NavMap.find? (initializeMap G P loc).nav_map_ "START" = some s0 ∧
      s0.loc = loc ∧
      s0.neighbors = getNeighbors G P.map_ P.map_resolution_
        { Node.blank with loc := loc,
                          index := ⟨toInt (loc.x / P.map_resolution_),
                                    toInt (loc.y / P.map_resolution_)⟩,
                          cost := 0, social_cost := 0, social_type := 'n',
                          parent := "START", key := "START" } := by
  obtain ⟨s0, hm, hp, hk, hl, hc, hi, hn⟩ := initializeMap_nav_map G P loc
  have hfind : ∀ k n, NavMap.find? (initializeMap G P loc).nav_map_ k = some n →
      k = "START" ∧ n = s0 := by
    intro k n h
    rw [hm] at h
    simp only [NavMap.find?] at h
    split_ifs at h with e
    · simp only [Option.some.injEq] at h
      exact ⟨e.symm, h.symm⟩
  have hS : NavMap.find? (initializeMap G P loc).nav_map_ "START" = some s0 := by
    rw [hm]; simp [NavMap.find?]
  refine ⟨s0, ⟨hS, hp, ?_, ?_, ?_⟩, ?_, hS, hl, hn⟩
  · intro k n h
    obtain ⟨e1, e2⟩ := hfind k n h
    rw [e1, e2, hk]
  · intro k n h hne
    exact absurd (hfind k n h).1 hne
  · intro k n h nb hnb
    obtain ⟨e1, e2⟩ := hfind k n h
    rw [e2, hn] at hnb
    rw [e2, hi]
    simp only [getNeighbors, List.mem_filter] at hnb
    exact goodNeighbor_of_candidate G P.map_resolution_ hres hs _ nb hnb.1
  · intro e he
    have : e = ("START", 0) := by
      simpa [initializeMap, Frontier.Push] using he
    rw [this]
    exact ⟨s0, hS⟩

theorem initializeMap_deadEnded (G : Geometry K) (P : GlobalPlanner K) (loc : Vector2f K) :
    DeadEnded G (initializeMap G P loc) := by
  intro k n h hne
  obtain ⟨s0, hm, _⟩ := initializeMap_nav_map G P loc
  rw [hm] at h
  simp only [NavMap.find?] at h
  split_ifs at h with e
  exact absurd e.symm hne

/-! ## Parent links lead to `START` -/

theorem countP_lt_of_imp {α : Type} (l : List α) (p q : α → Bool)
    (hpq : ∀ a ∈ l, p a = true → q a = true) (a : α) (ha : a ∈ l) (hq : q a = true)
    (hp : p a = false) : l.countP p < l.countP q := by
  induction l with
  | nil => simp at ha
  | cons b rest ih =>
    have hmono : rest.countP p ≤ rest.countP q :=
      List.countP_mono_left (fun x hx => hpq x (List.mem_cons_of_mem _ hx))
    rcases List.mem_cons.mp ha with e | hmem
    · subst e
      rw [List.countP_cons_of_pos _ _ hq, List.countP_cons_of_neg _ _ (by simp [hp])]
      omega
    · have := ih (fun x hx => hpq x (List.mem_cons_of_mem _ hx)) hmem
      by_cases hb : p b = true
      · rw [List.countP_cons_of_pos _ _ hb,
          List.countP_cons_of_pos _ _ (hpq b (List.mem_cons_self _ _) hb)]
        omega
      · rw [List.countP_cons_of_neg _ _ hb]
        by_cases hb2 : q b = true
        · rw [List.countP_cons_of_pos _ _ hb2]; omega
        · rw [List.countP_cons_of_neg _ _ hb2]; exact this

/-- A stored node of cost below `c` has fewer stored nodes below its own cost than there
are below `c`. -/
theorem rank_lt (m : NavMap K) (k : String) (p : Node K) (c : K)
    (hp : NavMap.find? m k = some p) (hlt : p.cost < c) :
    m.countP (fun e => decide (e.2.cost < p.cost)) < m.countP (fun e => decide (e.2.cost < c)) := by
  apply countP_lt_of_imp m _ _ _ (k, p) (NavMap.mem_of_find? m k p hp)
  · simpa using hlt
  · simp
  · intro a _ h
    simp only [decide_eq_true_eq] at h ⊢
    exact lt_trans h hlt

/-- Under the parent invariant the backtrace from a stored key reaches `START` within as
many steps as there are stored nodes of smaller cost. -/
theorem backtrace_terminates (G : Geometry K) (m : NavMap K) (s0 : Node K)
    (hInv : ParentInv m s0) (r : Nat) :
    ∀ (k : String) (n : Node K), NavMap.find? m k = some n →
      m.countP (fun e => decide (e.2.cost < n.cost)) ≤ r →
      (∃ i, i ≤ r ∧ parentChain m i k = "START") ∧
      ∀ fuel, r ≤ fuel → ∀ gp tot, ∃ res, backtrace G m fuel k gp tot = some res := by
  induction r with
  | zero =>
    intro k n hn hr
    by_cases hk : k = "START"
    · refine ⟨⟨0, le_refl _, by simp [parentChain, hk]⟩, ?_⟩
      intro fuel _ gp tot
      unfold backtrace
      simp [hk]
    · obtain ⟨p, hp, hlt⟩ := hInv.2.2.2.1 k n hn hk
      have := rank_lt m n.parent p n.cost hp hlt
      omega
  | succ r ih =>
    intro k n hn hr
    by_cases hk : k = "START"
    · refine ⟨⟨0, Nat.zero_le _, by simp [parentChain, hk]⟩, ?_⟩
      intro fuel _ gp tot
      unfold backtrace
      simp [hk]
    · obtain ⟨p, hp, hlt⟩ := hInv.2.2.2.1 k n hn hk
      have hrank := rank_lt m n.parent p n.cost hp hlt
      have hget : NavMap.get m k = n := NavMap.get_of_find? _ _ _ hn
      obtain ⟨⟨i, hi, hchain⟩, hbt⟩ := ih n.parent p hp (by omega)
      refine ⟨⟨i + 1, by omega, by simp [parentChain, hget, hchain]⟩, ?_⟩
      intro fuel hfuel gp tot
      obtain ⟨f, rfl⟩ : ∃ f, fuel = f + 1 := ⟨fuel - 1, by omega⟩
      unfold backtrace
      simp only [hk, if_false, hget]
      exact hbt f (by omega) _ _

theorem backtrace_terminates_length (G : Geometry K) (m : NavMap K) (s0 : Node K)
    (hInv : ParentInv m s0) (k : String) (n : Node K) (hn : NavMap.find? m k = some n) :
    (∃ i, i ≤ m.length ∧ parentChain m i k = "START") ∧
    ∀ fuel, m.length ≤ fuel → ∀ gp tot, ∃ res, backtrace G m fuel k gp tot = some res :=
  backtrace_terminates G m s0 hInv m.length k n hn (List.countP_le_length _)

/-- The keys that the backtrace appends are never `START`. -/
theorem backtrace_no_START (G : Geometry K) (m : NavMap K) (fuel : Nat) :
    ∀ (k : String) (gp : List String) (tot : K) (res : List String × K),
      backtrace G m fuel k gp tot = some res → "START" ∉ gp → "START" ∉ res.1 := by
  induction fuel with
  | zero =>
    intro k gp tot res h hgp
    unfold backtrace at h
    split_ifs at h with hk
    · cases h; exact hgp
  | succ f ih =>
    intro k gp tot res h hgp
    unfold backtrace at h
    split_ifs at h with hk
    · cases h; exact hgp
    · apply ih _ _ _ _ h
      simp only [List.mem_append, List.mem_singleton, not_or]
      exact ⟨hgp, fun e => hk e.symm⟩

end Nav
namespace Nav

/-- C1, the code at the failing input: with the single wall from (1,-5) to (1,5), resolution 1
and a node at the origin, `isValidNeighbor` accepts the candidate of index (1,0), although the
edge to the location where `newNode` places that neighbour crosses the wall; and it rejects the
candidate of index (-1,0), whose own edge is clear of the wall. The edge it tests is the one
from the node toward the opposite side. -/
theorem C1_isValidNeighbor_tests_reversed_edge (pt : line2f ℝ → line2f ℝ → Vector2f ℝ) :
    isValidNeighbor (specGeometry Real.sqrt pt) [⟨⟨1, -5⟩, ⟨1, 5⟩⟩] 1
        { Node.blank with loc := ⟨0, 0⟩, index := ⟨0, 0⟩ } ⟨⟨1, 0⟩, "1_0", 1, 5⟩ = true ∧
      line2f.Intersects (⟨⟨1, -5⟩, ⟨1, 5⟩⟩ : line2f ℝ)
        ⟨⟨0, 0⟩, (⟨0, 0⟩ : Vector2f ℝ).add
          (Vector2f.smul 1 ⟨((stepDx 5 : Int) : ℝ), ((stepDy 5 : Int) : ℝ)⟩)⟩ = true ∧
      isValidNeighbor (specGeometry Real.sqrt pt) [⟨⟨1, -5⟩, ⟨1, 5⟩⟩] 1
        { Node.blank with loc := ⟨0, 0⟩, index := ⟨0, 0⟩ } ⟨⟨-1, 0⟩, "-1_0", 1, 3⟩ = false ∧
      neighborEdge (1 : ℝ) { Node.blank with loc := ⟨0, 0⟩, index := ⟨0, 0⟩ }
        ⟨⟨1, 0⟩, "1_0", 1, 5⟩ = ⟨⟨0, 0⟩, ⟨-1, 0⟩⟩ := by
  refine ⟨?_, ?_, ?_, ?_⟩
  · simp [isValidNeighbor, neighborEdge, getCushionLines, specGeometry, line2f.UnitNormal,
      Vector2f.norm, Vector2f.add, Vector2f.sub, Vector2f.smul, Vector2f.div, Node.blank,
      line2f.Intersects, Cross]
    norm_num
  · have hx : stepDx 5 = 1 := by decide
    have hy : stepDy 5 = 0 := by decide
    simp [line2f.Intersects, Cross, Vector2f.add, Vector2f.sub, Vector2f.smul, hx, hy]
  · simp [isValidNeighbor, neighborEdge, getCushionLines, specGeometry, line2f.UnitNormal,
      Vector2f.norm, Vector2f.add, Vector2f.sub, Vector2f.smul, Vector2f.div, Node.blank,
      line2f.Intersects, Cross]
  · simp [neighborEdge, Vector2f.add, Node.blank]

end Nav

namespace Nav

variable {K : Type} [LinearOrderedField K] [FloorRing K]

/-! ## Evaluation of the search on an empty map -/

theorem getNeighbors_empty (G : Geometry K) (res : K) (node : Node K) :
    getNeighbors G [] res node = candidateNeighbors G res node.index.x node.index.y := by
  have h1 : ∀ x : Int, |x - (x - 1)| = 1 := fun x => by simp
  have h2 : ∀ x : Int, |x - (x + 1)| = 1 := fun x => by simp
  unfold getNeighbors
  rw [List.filter_eq_self]
  intro nb hnb
  simp only [candidateNeighbors, List.mem_cons, List.mem_singleton, List.not_mem_nil,
    or_false] at hnb
  rcases hnb with h | h | h | h | h | h | h | h <;> subst h <;>
    simp [isValidNeighbor, h1, h2]

theorem buildNode_free (G : Geometry K) (P : GlobalPlanner K) (c : Node K) (i : Int)
    (hmap : P.map_ = []) (hfl : P.failed_locs_ = []) (hpop : P.population_ = []) :
    buildNode G P c i =
      freeNode G P.map_resolution_
        (c.loc.add (Vector2f.smul P.map_resolution_ ⟨((stepDx i : Int) : K), ((stepDy i : Int) : K)⟩))
        ⟨c.index.x + stepDx i, c.index.y + stepDy i⟩
        (c.cost + G.sqrt (P.map_resolution_ * (stepDx i : K) * (P.map_resolution_ * (stepDx i : K)) +
          P.map_resolution_ * (stepDy i : K) * (P.map_resolution_ * (stepDy i : K))))
        c.key (getNewID (c.index.x + stepDx i) (c.index.y + stepDy i)) := by
  unfold buildNode
  simp only [hfl, List.any_nil, hmap, getNeighbors_empty, getSocialCost, hpop, List.foldl_nil]
  simp [freeNode, Node.blank, edgeCost, Vector2f.norm, Vector2f.sub, Vector2f.add,
    Vector2f.smul]

theorem initializeMap_free (G : Geometry K) (res : K) (loc : Vector2f K) :
    initializeMap G (blankPlanner [] res) loc =
      { blankPlanner [] res with
        nav_map_ := [("START", freeNode G res loc ⟨toInt (loc.x / res), toInt (loc.y / res)⟩ 0
          "START" "START")],
        frontier_ := [("START", 0)] } := by
  simp [initializeMap, blankPlanner, getNeighbors_empty, freeNode, Node.blank, NavMap.set,
    Frontier.Push]

/-- Expansion toward a cell that is not stored yet (empty map, no humans, no failures). -/
theorem expand_fresh (G : Geometry K) (goal : Vector2f K) (P : GlobalPlanner K)
    (hmap : P.map_ = []) (hfl : P.failed_locs_ = []) (hpop : P.population_ = [])
    (cloc : Vector2f K) (cidx : Vector2i) (ccost : K) (cparent ckey : String)
    (nb : Neighbor K) (loc1 : Vector2f K) (idx1 : Vector2i) (key1 : String) (len : K)
    (hnone : NavMap.find? P.nav_map_ nb.key = none)
    (hloc : cloc.add (Vector2f.smul P.map_resolution_
      ⟨((stepDx nb.neighbor_index : Int) : K), ((stepDy nb.neighbor_index : Int) : K)⟩) = loc1)
    (hidx : (⟨cidx.x + stepDx nb.neighbor_index, cidx.y + stepDy nb.neighbor_index⟩ : Vector2i)
      = idx1)
    (hkey : getNewID (cidx.x + stepDx nb.neighbor_index) (cidx.y + stepDy nb.neighbor_index)
      = key1)
    (hlen : G.sqrt (P.map_resolution_ * (stepDx nb.neighbor_index : K) *
        (P.map_resolution_ * (stepDx nb.neighbor_index : K)) +
      P.map_resolution_ * (stepDy nb.neighbor_index : K) *
        (P.map_resolution_ * (stepDy nb.neighbor_index : K))) = len) :
    expandNeighbor G goal (freeNode G P.map_resolution_ cloc cidx ccost cparent ckey) P nb =
      { P with
        nav_map_ := NavMap.set P.nav_map_ key1
          (freeNode G P.map_resolution_ loc1 idx1 (ccost + len) ckey key1),
        frontier_ := Frontier.Push P.frontier_ nb.key
          (ccost + nb.path_length + 0 + 1 * getHeuristic G goal loc1) } := by
  unfold expandNeighbor
  simp only [NavMap.count, hnone, Option.isSome_none, Bool.not_false, if_true, newNode]
  rw [buildNode_free G P _ _ hmap hfl hpop]
  subst hloc hidx hkey hlen
  rfl

/-- Expansion toward a stored cell whose cost is not improved. -/
theorem expand_keep (G : Geometry K) (goal : Vector2f K) (P : GlobalPlanner K) (c : Node K)
    (nb : Neighbor K) (old : Node K) (hsome : NavMap.find? P.nav_map_ nb.key = some old)
    (hcost : ¬ (c.cost + nb.path_length < old.cost)) :
    expandNeighbor G goal c P nb = P := by
  unfold expandNeighbor
  simp only [NavMap.count, hsome, Option.isSome_some, Bool.not_true, NavMap.get,
    Option.getD_some, hcost, if_false]
  simp

theorem Frontier.minEntry_of_min (l1 l2 : Frontier K) (e : String × K)
    (h1 : ∀ x ∈ l1, e.2 < x.2) (h2 : ∀ x ∈ l2, ¬ x.2 < e.2) :
    Frontier.minEntry (l1 ++ e :: l2) = some e := by
  have hbase : Frontier.minEntry (e :: l2) = some e := by
    induction l2 generalizing e with
    | nil => rfl
    | cons a rest ih =>
      have hrest : ∃ m, Frontier.minEntry (a :: rest) = some m ∧ ¬ m.2 < e.2 := by
        obtain ⟨m, hm⟩ := Frontier.minEntry_isSome (a :: rest) (by simp)
        exact ⟨m, hm, h2 m (Frontier.minEntry_mem _ _ hm)⟩
      obtain ⟨m, hm, hlt⟩ := hrest
      show (match Frontier.minEntry (a :: rest) with
        | none => some e
        | some e' => if e'.2 < e.2 then some e' else some e) = some e
      rw [hm]
      simp [hlt]
  induction l1 with
  | nil => exact hbase
  | cons a rest ih =>
    have ih' := ih (fun x hx => h1 x (List.mem_cons_of_mem _ hx))
    show (match Frontier.minEntry (rest ++ e :: l2) with
      | none => some a
      | some e' => if e'.2 < a.2 then some e' else some a) = some e
    rw [ih']
    simp [h1 a (List.mem_cons_self _ _)]

theorem Frontier.Pop_of_min (l1 l2 : Frontier K) (e : String × K)
    (h1 : ∀ x ∈ l1, e.2 < x.2) (h2 : ∀ x ∈ l2, ¬ x.2 < e.2)
    (hk : ((l1 ++ l2).all fun x => decide (x.1 ≠ e.1)) = true) :
    Frontier.Pop (l1 ++ e :: l2) = (e.1, l1 ++ l2) := by
  unfold Frontier.Pop
  rw [Frontier.minEntry_of_min l1 l2 e h1 h2]
  simp only [List.filter_append, List.filter_cons, ne_eq, not_true_eq_false, decide_False,
    Bool.false_eq_true, if_false]
  rw [List.all_eq_true] at hk
  have f1 : l1.filter (fun e' => decide (¬ e'.1 = e.1)) = l1 :=
    List.filter_eq_self.mpr (fun x hx => hk x (List.mem_append_left _ hx))
  have f2 : l2.filter (fun e' => decide (¬ e'.1 = e.1)) = l2 :=
    List.filter_eq_self.mpr (fun x hx => hk x (List.mem_append_right _ hx))
  rw [f1, f2]

theorem searchLoop_expand (G : Geometry K) (goal : Vector2f K) (n : Nat) (cur : String)
    (P P1 : GlobalPlanner K) (k : String) (f1 : Frontier K) (c : Node K)
    (hne : P.frontier_ ≠ []) (hpop : Frontier.Pop P.frontier_ = (k, f1))
    (hget : NavMap.find? P.nav_map_ k = some c)
    (hgoal : ¬ ((goal.sub c.loc).norm G.sqrt < 71 / 100 * P.map_resolution_))
    (hfold : c.neighbors.foldl (expandNeighbor G goal c) { P with frontier_ := f1 } = P1) :
    searchLoop G goal (n + 1) cur P = searchLoop G goal n k P1 := by
  have hE : P.frontier_.Empty = false := by
    cases hf : P.frontier_ with
    | nil => exact absurd hf hne
    | cons a r => rfl
  rw [searchLoop]
  simp only [hE, Bool.false_eq_true, if_false, hpop, NavMap.get, hget, Option.getD_some, hgoal,
    hfold]

theorem searchLoop_goal (G : Geometry K) (goal : Vector2f K) (n : Nat) (cur : String)
    (P : GlobalPlanner K) (k : String) (f1 : Frontier K) (c : Node K)
    (hne : P.frontier_ ≠ []) (hpop : Frontier.Pop P.frontier_ = (k, f1))
    (hget : NavMap.find? P.nav_map_ k = some c)
    (hgoal : (goal.sub c.loc).norm G.sqrt < 71 / 100 * P.map_resolution_) :
    searchLoop G goal (n + 1) cur P = ⟨true, k, { P with frontier_ := f1 }⟩ := by
  have hE : P.frontier_.Empty = false := by
    cases hf : P.frontier_ with
    | nil => exact absurd hf hne
    | cons a r => rfl
  rw [searchLoop]
  simp only [hE, Bool.false_eq_true, if_false, hpop, NavMap.get, hget, Option.getD_some, hgoal,
    if_true]

end Nav

namespace Nav

variable {K : Type} [LinearOrderedField K] [FloorRing K]

theorem NavMap.set_fresh (m : NavMap K) (k : String) (n : Node K)
    (h : NavMap.find? m k = none) : NavMap.set m k n = m ++ [(k, n)] := by
  induction m with
  | nil => rfl
  | cons e rest ih =>
    obtain ⟨k', n'⟩ := e
    by_cases hk : k' = k
    · simp [NavMap.find?, hk] at h
    · simp only [NavMap.find?, hk, if_false] at h
      simp only [NavMap.set, hk, if_false, ih h, List.cons_append]

theorem Frontier.Push_fresh (f : Frontier K) (k : String) (p : K)
    (h : ∀ e ∈ f, e.1 ≠ k) : Frontier.Push f k p = f ++ [(k, p)] := by
  induction f with
  | nil => rfl
  | cons e rest ih =>
    obtain ⟨k', p'⟩ := e
    have hk : k' ≠ k := h (k', p') (List.mem_cons_self _ _)
    simp only [Frontier.Push, hk, if_false, List.cons_append,
      ih (fun e he => h e (List.mem_cons_of_mem _ he))]

theorem expand_fresh_fp (G : Geometry K) (goal g : Vector2f K) (res : K) (m : NavMap K)
    (f : Frontier K) (cloc : Vector2f K) (cidx : Vector2i) (ccost : K) (cparent ckey : String)
    (nidx : Vector2i) (nkey : String) (npl : K) (ni : Int)
    (loc1 : Vector2f K) (idx1 : Vector2i) (len : K)
    (hnone : NavMap.find? m nkey = none)
    (hf : (f.all fun e => decide (e.1 ≠ nkey)) = true)
    (hloc : cloc.add (Vector2f.smul res
      ⟨((stepDx ni : Int) : K), ((stepDy ni : Int) : K)⟩) = loc1)
    (hidx : (⟨cidx.x + stepDx ni, cidx.y + stepDy ni⟩ : Vector2i) = idx1)
    (hkey : getNewID (cidx.x + stepDx ni) (cidx.y + stepDy ni) = nkey)
    (hlen : G.sqrt (res * (stepDx ni : K) * (res * (stepDx ni : K)) +
      res * (stepDy ni : K) * (res * (stepDy ni : K))) = len) :
    expandNeighbor G goal (freeNode G res cloc cidx ccost cparent ckey) (freePlanner res g m f)
        ⟨nidx, nkey, npl, ni⟩ =
      freePlanner res g (m ++ [(nkey, freeNode G res loc1 idx1 (ccost + len) ckey nkey)])
        (f ++ [(nkey, ccost + npl + 0 + 1 * getHeuristic G goal loc1)]) := by
  have h := expand_fresh G goal (freePlanner res g m f) rfl rfl rfl cloc cidx ccost cparent ckey
    ⟨nidx, nkey, npl, ni⟩ loc1 idx1 nkey len hnone hloc hidx hkey hlen
  have hres : (freePlanner res g m f).map_resolution_ = res := rfl
  rw [hres] at h
  rw [h]
  show freePlanner res g (NavMap.set m nkey _) (Frontier.Push f nkey _) = _
  rw [NavMap.set_fresh m nkey _ hnone, Frontier.Push_fresh f nkey _
    (fun e he => by simpa using List.all_eq_true.mp hf e he)]

theorem expand_keep_fp (G : Geometry K) (goal g : Vector2f K) (res : K) (m : NavMap K)
    (f : Frontier K) (cloc : Vector2f K) (cidx : Vector2i) (ccost : K) (cparent ckey : String)
    (nidx : Vector2i) (nkey : String) (npl : K) (ni : Int)
    (oloc : Vector2f K) (oidx : Vector2i) (ocost : K) (oparent okey : String)
    (hsome : NavMap.find? m nkey = some (freeNode G res oloc oidx ocost oparent okey))
    (hcost : ¬ (ccost + npl < ocost)) :
    expandNeighbor G goal (freeNode G res cloc cidx ccost cparent ckey) (freePlanner res g m f)
        ⟨nidx, nkey, npl, ni⟩ = freePlanner res g m f :=
  expand_keep G goal (freePlanner res g m f) _ _ _ hsome hcost

theorem searchLoop_expand_fp (G : Geometry K) (goal g : Vector2f K) (res : K) (n : Nat)
    (cur : String) (m m1 : NavMap K) (f f0 f1 : Frontier K) (k : String)
    (cloc : Vector2f K) (cidx : Vector2i) (ccost : K) (cparent ckey : String)
    (hne : f ≠ []) (hpop : Frontier.Pop f = (k, f0))
    (hget : NavMap.find? m k = some (freeNode G res cloc cidx ccost cparent ckey))
    (hgoal : ¬ ((goal.sub cloc).norm G.sqrt < 71 / 100 * res))
    (hfold : (candidateNeighbors G res cidx.x cidx.y).foldl
      (expandNeighbor G goal (freeNode G res cloc cidx ccost cparent ckey))
      (freePlanner res g m f0) = freePlanner res g m1 f1) :
    searchLoop G goal (n + 1) cur (freePlanner res g m f) =
      searchLoop G goal n k (freePlanner res g m1 f1) :=
  searchLoop_expand G goal n cur (freePlanner res g m f) (freePlanner res g m1 f1) k f0 _
    hne hpop hget hgoal hfold

theorem searchLoop_goal_fp (G : Geometry K) (goal g : Vector2f K) (res : K) (n : Nat)
    (cur : String) (m : NavMap K) (f f0 : Frontier K) (k : String)
    (cloc : Vector2f K) (cidx : Vector2i) (ccost : K) (cparent ckey : String)
    (hne : f ≠ []) (hpop : Frontier.Pop f = (k, f0))
    (hget : NavMap.find? m k = some (freeNode G res cloc cidx ccost cparent ckey))
    (hgoal : (goal.sub cloc).norm G.sqrt < 71 / 100 * res) :
    searchLoop G goal (n + 1) cur (freePlanner res g m f) = ⟨true, k, freePlanner res g m f0⟩ :=
  searchLoop_goal G goal n cur (freePlanner res g m f) k f0 _ hne hpop hget hgoal

theorem getHeuristic_eq (G : Geometry K) (gx gy x y : K) :
    getHeuristic G ⟨gx, gy⟩ ⟨x, y⟩ =
      abs (abs (gx - x) - abs (gy - y)) +
        G.sqrt 2 * (abs (gx - x) + abs (gy - y) - abs (abs (gx - x) - abs (gy - y))) * (1 / 2) :=
  rfl

theorem norm_sub_axis (a b : ℝ) (h : b ≤ a) :
    ((⟨a, 0⟩ : Vector2f ℝ).sub ⟨b, 0⟩).norm Real.sqrt = a - b := by
  simp only [Vector2f.norm, Vector2f.sub, sub_self, mul_zero, add_zero]
  rw [Real.sqrt_mul_self (by linarith)]

end Nav

namespace Nav

/-- The search loop on the empty map from (0,0) toward (3,0) with resolution 1: `START`,
`1_0` and `2_0` are expanded in turn, then `3_0` is popped and passes the goal test. Every
step is one of the two expansion lemmas; comparisons of priorities and costs are linear in
`sqrt 2`. -/
theorem emptyMapRun (G : Geometry ℝ) (hG : G.sqrt = Real.sqrt) :
    ∃ (m : NavMap ℝ) (f : Frontier ℝ),
      searchLoop G ⟨3, 0⟩ iterationCap ""
        (freePlanner 1 ⟨3, 0⟩ [("START", freeNode G 1 ⟨0, 0⟩ ⟨0, 0⟩ (0) "START" "START")] [("START", 0)]) =
        ⟨true, "3_0", freePlanner 1 ⟨3, 0⟩ m f⟩ ∧
      NavMap.find? m "3_0" = some (freeNode G 1 ⟨3, 0⟩ ⟨3, 0⟩ (0 + 1 + 1 + 1) "2_0" "3_0") ∧
      NavMap.find? m "2_0" = some (freeNode G 1 ⟨2, 0⟩ ⟨2, 0⟩ (0 + 1 + 1) "1_0" "2_0") ∧
      NavMap.find? m "1_0" = some (freeNode G 1 ⟨1, 0⟩ ⟨1, 0⟩ (0 + 1) "START" "1_0") ∧
      NavMap.find? m "START" = some (freeNode G 1 ⟨0, 0⟩ ⟨0, 0⟩ (0) "START" "START") := by
  have hs1 : (141 / 100 : ℝ) < Real.sqrt 2 := by
    rw [Real.lt_sqrt (by norm_num)]; norm_num
  have hs2 : Real.sqrt 2 < 142 / 100 := by
    rw [Real.sqrt_lt' (by norm_num)]; norm_num
  have hq : G.sqrt 2 = Real.sqrt 2 := by rw [hG]
  have sx0 : stepDx 0 = -1 := by decide
  have sy0 : stepDy 0 = 1 := by decide
  have sx1 : stepDx 1 = 0 := by decide
  have sy1 : stepDy 1 = 1 := by decide
  have sx2 : stepDx 2 = 1 := by decide
  have sy2 : stepDy 2 = 1 := by decide
  have sx3 : stepDx 3 = -1 := by decide
  have sy3 : stepDy 3 = 0 := by decide
  have sx5 : stepDx 5 = 1 := by decide
  have sy5 : stepDy 5 = 0 := by decide
  have sx6 : stepDx 6 = -1 := by decide
  have sy6 : stepDy 6 = -1 := by decide
  have sx7 : stepDx 7 = 0 := by decide
  have sy7 : stepDy 7 = -1 := by decide
  have sx8 : stepDx 8 = 1 := by decide
  have sy8 : stepDy 8 = -1 := by decide
  have hh_m1_m1 : getHeuristic G ⟨3, 0⟩ ⟨-1, -1⟩ = 3 + 1 * Real.sqrt 2 := by
    rw [getHeuristic_eq, hq]; norm_num <;> ring
  have hh_m1_0 : getHeuristic G ⟨3, 0⟩ ⟨-1, 0⟩ = 4 + 0 * Real.sqrt 2 := by
    rw [getHeuristic_eq, hq]; norm_num <;> ring
  have hh_m1_1 : getHeuristic G ⟨3, 0⟩ ⟨-1, 1⟩ = 3 + 1 * Real.sqrt 2 := by
    rw [getHeuristic_eq, hq]; norm_num <;> ring
  have hh_0_m1 : getHeuristic G ⟨3, 0⟩ ⟨0, -1⟩ = 2 + 1 * Real.sqrt 2 := by
    rw [getHeuristic_eq, hq]; norm_num <;> ring
  have hh_0_0 : getHeuristic G ⟨3, 0⟩ ⟨0, 0⟩ = 3 + 0 * Real.sqrt 2 := by
    rw [getHeuristic_eq, hq]; norm_num <;> ring
  have hh_0_1 : getHeuristic G ⟨3, 0⟩ ⟨0, 1⟩ = 2 + 1 * Real.sqrt 2 := by
    rw [getHeuristic_eq, hq]; norm_num <;> ring
  have hh_1_m1 : getHeuristic G ⟨3, 0⟩ ⟨1, -1⟩ = 1 + 1 * Real.sqrt 2 := by
    rw [getHeuristic_eq, hq]; norm_num <;> ring
  have hh_1_0 : getHeuristic G ⟨3, 0⟩ ⟨1, 0⟩ = 2 + 0 * Real.sqrt 2 := by
    rw [getHeuristic_eq, hq]; norm_num <;> ring
  have hh_1_1 : getHeuristic G ⟨3, 0⟩ ⟨1, 1⟩ = 1 + 1 * Real.sqrt 2 := by
    rw [getHeuristic_eq, hq]; norm_num <;> ring
  have hh_2_m1 : getHeuristic G ⟨3, 0⟩ ⟨2, -1⟩ = 0 + 1 * Real.sqrt 2 := by
    rw [getHeuristic_eq, hq]; norm_num <;> ring
  have hh_2_0 : getHeuristic G ⟨3, 0⟩ ⟨2, 0⟩ = 1 + 0 * Real.sqrt 2 := by
    rw [getHeuristic_eq, hq]; norm_num <;> ring
  have hh_2_1 : getHeuristic G ⟨3, 0⟩ ⟨2, 1⟩ = 0 + 1 * Real.sqrt 2 := by
    rw [getHeuristic_eq, hq]; norm_num <;> ring
  have hh_3_m1 : getHeuristic G ⟨3, 0⟩ ⟨3, -1⟩ = 1 + 0 * Real.sqrt 2 := by
    rw [getHeuristic_eq, hq]; norm_num <;> ring
  have hh_3_0 : getHeuristic G ⟨3, 0⟩ ⟨3, 0⟩ = 0 + 0 * Real.sqrt 2 := by
    rw [getHeuristic_eq, hq]; norm_num <;> ring
  have hh_3_1 : getHeuristic G ⟨3, 0⟩ ⟨3, 1⟩ = 1 + 0 * Real.sqrt 2 := by
    rw [getHeuristic_eq, hq]; norm_num <;> ring
  have hpop0 : Frontier.Pop ([("START", 0)] : Frontier ℝ) =
      ("START", []) :=
    Frontier.Pop_of_min [] [] ("START", 0)
      (fun x hx => absurd hx (List.not_mem_nil _))
      (fun x hx => absurd hx (List.not_mem_nil _)) rfl
  have hget0 : NavMap.find? ([("START", freeNode G 1 ⟨0, 0⟩ ⟨0, 0⟩ (0) "START" "START")] : NavMap ℝ) "START" =
      some (freeNode G 1 ⟨0, 0⟩ ⟨0, 0⟩ (0) "START" "START") := rfl
  have hgoal0 : ¬ (((⟨3, 0⟩ : Vector2f ℝ).sub ⟨0, 0⟩).norm G.sqrt < 71 / 100 * 1) := by
    rw [hG, norm_sub_axis _ _ (by norm_num)]; norm_num
  have hfold0 : List.foldl (expandNeighbor G ⟨3, 0⟩ (freeNode G 1 ⟨0, 0⟩ ⟨0, 0⟩ (0) "START" "START"))
      (freePlanner 1 ⟨3, 0⟩ [("START", freeNode G 1 ⟨0, 0⟩ ⟨0, 0⟩ (0) "START" "START")]
        [])
      [⟨⟨-1, 1⟩, "-1_1", G.sqrt 2 * 1, 0⟩,
          ⟨⟨0, 1⟩, "0_1", 1, 1⟩,
          ⟨⟨1, 1⟩, "1_1", G.sqrt 2 * 1, 2⟩,
          ⟨⟨-1, 0⟩, "-1_0", 1, 3⟩,
          ⟨⟨1, 0⟩, "1_0", 1, 5⟩,
          ⟨⟨-1, -1⟩, "-1_-1", G.sqrt 2 * 1, 6⟩,
          ⟨⟨0, -1⟩, "0_-1", 1, 7⟩,
          ⟨⟨1, -1⟩, "1_-1", G.sqrt 2 * 1, 8⟩] =
      freePlanner 1 ⟨3, 0⟩ [("START", freeNode G 1 ⟨0, 0⟩ ⟨0, 0⟩ (0) "START" "START"),
          ("-1_1", freeNode G 1 ⟨-1, 1⟩ ⟨-1, 1⟩ (0 + Real.sqrt 2) "START" "-1_1"),
          ("0_1", freeNode G 1 ⟨0, 1⟩ ⟨0, 1⟩ (0 + 1) "START" "0_1"),
          ("1_1", freeNode G 1 ⟨1, 1⟩ ⟨1, 1⟩ (0 + Real.sqrt 2) "START" "1_1"),
          ("-1_0", freeNode G 1 ⟨-1, 0⟩ ⟨-1, 0⟩ (0 + 1) "START" "-1_0"),
          ("1_0", freeNode G 1 ⟨1, 0⟩ ⟨1, 0⟩ (0 + 1) "START" "1_0"),
          ("-1_-1", freeNode G 1 ⟨-1, -1⟩ ⟨-1, -1⟩ (0 + Real.sqrt 2) "START" "-1_-1"),
          ("0_-1", freeNode G 1 ⟨0, -1⟩ ⟨0, -1⟩ (0 + 1) "START" "0_-1"),
          ("1_-1", freeNode G 1 ⟨1, -1⟩ ⟨1, -1⟩ (0 + Real.sqrt 2) "START" "1_-1")]
        [("-1_1", 0 + G.sqrt 2 * 1 + 0 + 1 * getHeuristic G ⟨3, 0⟩ ⟨-1, 1⟩),
          ("0_1", 0 + 1 + 0 + 1 * getHeuristic G ⟨3, 0⟩ ⟨0, 1⟩),
          ("1_1", 0 + G.sqrt 2 * 1 + 0 + 1 * getHeuristic G ⟨3, 0⟩ ⟨1, 1⟩),
          ("-1_0", 0 + 1 + 0 + 1 * getHeuristic G ⟨3, 0⟩ ⟨-1, 0⟩),
          ("1_0", 0 + 1 + 0 + 1 * getHeuristic G ⟨3, 0⟩ ⟨1, 0⟩),
          ("-1_-1", 0 + G.sqrt 2 * 1 + 0 + 1 * getHeuristic G ⟨3, 0⟩ ⟨-1, -1⟩),
          ("0_-1", 0 + 1 + 0 + 1 * getHeuristic G ⟨3, 0⟩ ⟨0, -1⟩),
          ("1_-1", 0 + G.sqrt 2 * 1 + 0 + 1 * getHeuristic G ⟨3, 0⟩ ⟨1, -1⟩)] := by
    simp only [List.foldl_cons, List.foldl_nil]
    rw [expand_fresh_fp G ⟨3, 0⟩ ⟨3, 0⟩ 1 _ _ ⟨0, 0⟩ ⟨0, 0⟩ (0) "START" "START" ⟨-1, 1⟩ "-1_1" (G.sqrt 2 * 1) 0
      ⟨-1, 1⟩ ⟨-1, 1⟩ (Real.sqrt 2)]
    rotate_left
    · rfl
    · rfl
    · norm_num [Vector2f.add, Vector2f.smul, sx0, sy0]
    · decide
    · rfl
    · rw [hG]; norm_num [sx0, sy0]
    rw [expand_fresh_fp G ⟨3, 0⟩ ⟨3, 0⟩ 1 _ _ ⟨0, 0⟩ ⟨0, 0⟩ (0) "START" "START" ⟨0, 1⟩ "0_1" 1 1
      ⟨0, 1⟩ ⟨0, 1⟩ (1)]
    rotate_left
    · rfl
    · rfl
    · norm_num [Vector2f.add, Vector2f.smul, sx1, sy1]
    · decide
    · rfl
    · rw [hG]; norm_num [sx1, sy1]
    rw [expand_fresh_fp G ⟨3, 0⟩ ⟨3, 0⟩ 1 _ _ ⟨0, 0⟩ ⟨0, 0⟩ (0) "START" "START" ⟨1, 1⟩ "1_1" (G.sqrt 2 * 1) 2
      ⟨1, 1⟩ ⟨1, 1⟩ (Real.sqrt 2)]
    rotate_left
    · rfl
    · rfl
    · norm_num [Vector2f.add, Vector2f.smul, sx2, sy2]
    · decide
    · rfl
    · rw [hG]; norm_num [sx2, sy2]
    rw [expand_fresh_fp G ⟨3, 0⟩ ⟨3, 0⟩ 1 _ _ ⟨0, 0⟩ ⟨0, 0⟩ (0) "START" "START" ⟨-1, 0⟩ "-1_0" 1 3
      ⟨-1, 0⟩ ⟨-1, 0⟩ (1)]
    rotate_left
    · rfl
    · rfl
    · norm_num [Vector2f.add, Vector2f.smul, sx3, sy3]
    · decide
    · rfl
    · rw [hG]; norm_num [sx3, sy3]
    rw [expand_fresh_fp G ⟨3, 0⟩ ⟨3, 0⟩ 1 _ _ ⟨0, 0⟩ ⟨0, 0⟩ (0) "START" "START" ⟨1, 0⟩ "1_0" 1 5
      ⟨1, 0⟩ ⟨1, 0⟩ (1)]
    rotate_left
    · rfl
    · rfl
    · norm_num [Vector2f.add, Vector2f.smul, sx5, sy5]
    · decide
    · rfl
    · rw [hG]; norm_num [sx5, sy5]
    rw [expand_fresh_fp G ⟨3, 0⟩ ⟨3, 0⟩ 1 _ _ ⟨0, 0⟩ ⟨0, 0⟩ (0) "START" "START" ⟨-1, -1⟩ "-1_-1" (G.sqrt 2 * 1) 6
      ⟨-1, -1⟩ ⟨-1, -1⟩ (Real.sqrt 2)]
    rotate_left
    · rfl
    · rfl
    · norm_num [Vector2f.add, Vector2f.smul, sx6, sy6]
    · decide
    · rfl
    · rw [hG]; norm_num [sx6, sy6]
    rw [expand_fresh_fp G ⟨3, 0⟩ ⟨3, 0⟩ 1 _ _ ⟨0, 0⟩ ⟨0, 0⟩ (0) "START" "START" ⟨0, -1⟩ "0_-1" 1 7
      ⟨0, -1⟩ ⟨0, -1⟩ (1)]
    rotate_left
    · rfl
    · rfl
    · norm_num [Vector2f.add, Vector2f.smul, sx7, sy7]
    · decide
    · rfl
    · rw [hG]; norm_num [sx7, sy7]
    rw [expand_fresh_fp G ⟨3, 0⟩ ⟨3, 0⟩ 1 _ _ ⟨0, 0⟩ ⟨0, 0⟩ (0) "START" "START" ⟨1, -1⟩ "1_-1" (G.sqrt 2 * 1) 8
      ⟨1, -1⟩ ⟨1, -1⟩ (Real.sqrt 2)]
    rotate_left
    · rfl
    · rfl
    · norm_num [Vector2f.add, Vector2f.smul, sx8, sy8]
    · decide
    · rfl
    · rw [hG]; norm_num [sx8, sy8]
    rfl
  have hpop1 : Frontier.Pop ([("-1_1", 0 + G.sqrt 2 * 1 + 0 + 1 * getHeuristic G ⟨3, 0⟩ ⟨-1, 1⟩),
          ("0_1", 0 + 1 + 0 + 1 * getHeuristic G ⟨3, 0⟩ ⟨0, 1⟩),
          ("1_1", 0 + G.sqrt 2 * 1 + 0 + 1 * getHeuristic G ⟨3, 0⟩ ⟨1, 1⟩),
          ("-1_0", 0 + 1 + 0 + 1 * getHeuristic G ⟨3, 0⟩ ⟨-1, 0⟩),
          ("1_0", 0 + 1 + 0 + 1 * getHeuristic G ⟨3, 0⟩ ⟨1, 0⟩),
          ("-1_-1", 0 + G.sqrt 2 * 1 + 0 + 1 * getHeuristic G ⟨3, 0⟩ ⟨-1, -1⟩),
          ("0_-1", 0 + 1 + 0 + 1 * getHeuristic G ⟨3, 0⟩ ⟨0, -1⟩),
          ("1_-1", 0 + G.sqrt 2 * 1 + 0 + 1 * getHeuristic G ⟨3, 0⟩ ⟨1, -1⟩)] : Frontier ℝ) =
      ("1_0", [("-1_1", 0 + G.sqrt 2 * 1 + 0 + 1 * getHeuristic G ⟨3, 0⟩ ⟨-1, 1⟩),
          ("0_1", 0 + 1 + 0 + 1 * getHeuristic G ⟨3, 0⟩ ⟨0, 1⟩),
          ("1_1", 0 + G.sqrt 2 * 1 + 0 + 1 * getHeuristic G ⟨3, 0⟩ ⟨1, 1⟩),
          ("-1_0", 0 + 1 + 0 + 1 * getHeuristic G ⟨3, 0⟩ ⟨-1, 0⟩),
          ("-1_-1", 0 + G.sqrt 2 * 1 + 0 + 1 * getHeuristic G ⟨3, 0⟩ ⟨-1, -1⟩),
          ("0_-1", 0 + 1 + 0 + 1 * getHeuristic G ⟨3, 0⟩ ⟨0, -1⟩),
          ("1_-1", 0 + G.sqrt 2 * 1 + 0 + 1 * getHeuristic G ⟨3, 0⟩ ⟨1, -1⟩)]) :=
    Frontier.Pop_of_min [("-1_1", 0 + G.sqrt 2 * 1 + 0 + 1 * getHeuristic G ⟨3, 0⟩ ⟨-1, 1⟩),
          ("0_1", 0 + 1 + 0 + 1 * getHeuristic G ⟨3, 0⟩ ⟨0, 1⟩),
          ("1_1", 0 + G.sqrt 2 * 1 + 0 + 1 * getHeuristic G ⟨3, 0⟩ ⟨1, 1⟩),
          ("-1_0", 0 + 1 + 0 + 1 * getHeuristic G ⟨3, 0⟩ ⟨-1, 0⟩)] [("-1_-1", 0 + G.sqrt 2 * 1 + 0 + 1 * getHeuristic G ⟨3, 0⟩ ⟨-1, -1⟩),
          ("0_-1", 0 + 1 + 0 + 1 * getHeuristic G ⟨3, 0⟩ ⟨0, -1⟩),
          ("1_-1", 0 + G.sqrt 2 * 1 + 0 + 1 * getHeuristic G ⟨3, 0⟩ ⟨1, -1⟩)] ("1_0", 0 + 1 + 0 + 1 * getHeuristic G ⟨3, 0⟩ ⟨1, 0⟩)
      (by
      intro x hx
      simp only [List.mem_cons, List.mem_singleton, List.not_mem_nil, or_false] at hx
      rcases hx with rfl | rfl | rfl | rfl <;> dsimp only <;> linarith)
      (by
      intro x hx
      simp only [List.mem_cons, List.mem_singleton, List.not_mem_nil, or_false] at hx
      rcases hx with rfl | rfl | rfl <;> dsimp only <;> exact not_lt.mpr (by linarith)) rfl
  have hget1 : NavMap.find? ([("START", freeNode G 1 ⟨0, 0⟩ ⟨0, 0⟩ (0) "START" "START"),
          ("-1_1", freeNode G 1 ⟨-1, 1⟩ ⟨-1, 1⟩ (0 + Real.sqrt 2) "START" "-1_1"),
          ("0_1", freeNode G 1 ⟨0, 1⟩ ⟨0, 1⟩ (0 + 1) "START" "0_1"),
          ("1_1", freeNode G 1 ⟨1, 1⟩ ⟨1, 1⟩ (0 + Real.sqrt 2) "START" "1_1"),
          ("-1_0", freeNode G 1 ⟨-1, 0⟩ ⟨-1, 0⟩ (0 + 1) "START" "-1_0"),
          ("1_0", freeNode G 1 ⟨1, 0⟩ ⟨1, 0⟩ (0 + 1) "START" "1_0"),
          ("-1_-1", freeNode G 1 ⟨-1, -1⟩ ⟨-1, -1⟩ (0 + Real.sqrt 2) "START" "-1_-1"),
          ("0_-1", freeNode G 1 ⟨0, -1⟩ ⟨0, -1⟩ (0 + 1) "START" "0_-1"),
          ("1_-1", freeNode G 1 ⟨1, -1⟩ ⟨1, -1⟩ (0 + Real.sqrt 2) "START" "1_-1")] : NavMap ℝ) "1_0" =
      some (freeNode G 1 ⟨1, 0⟩ ⟨1, 0⟩ (0 + 1) "START" "1_0") := rfl
  have hgoal1 : ¬ (((⟨3, 0⟩ : Vector2f ℝ).sub ⟨1, 0⟩).norm G.sqrt < 71 / 100 * 1) := by
    rw [hG, norm_sub_axis _ _ (by norm_num)]; norm_num
  have hfold1 : List.foldl (expandNeighbor G ⟨3, 0⟩ (freeNode G 1 ⟨1, 0⟩ ⟨1, 0⟩ (0 + 1) "START" "1_0"))
      (freePlanner 1 ⟨3, 0⟩ [("START", freeNode G 1 ⟨0, 0⟩ ⟨0, 0⟩ (0) "START" "START"),
          ("-1_1", freeNode G 1 ⟨-1, 1⟩ ⟨-1, 1⟩ (0 + Real.sqrt 2) "START" "-1_1"),
          ("0_1", freeNode G 1 ⟨0, 1⟩ ⟨0, 1⟩ (0 + 1) "START" "0_1"),
          ("1_1", freeNode G 1 ⟨1, 1⟩ ⟨1, 1⟩ (0 + Real.sqrt 2) "START" "1_1"),
          ("-1_0", freeNode G 1 ⟨-1, 0⟩ ⟨-1, 0⟩ (0 + 1) "START" "-1_0"),
          ("1_0", freeNode G 1 ⟨1, 0⟩ ⟨1, 0⟩ (0 + 1) "START" "1_0"),
          ("-1_-1", freeNode G 1 ⟨-1, -1⟩ ⟨-1, -1⟩ (0 + Real.sqrt 2) "START" "-1_-1"),
          ("0_-1", freeNode G 1 ⟨0, -1⟩ ⟨0, -1⟩ (0 + 1) "START" "0_-1"),
          ("1_-1", freeNode G 1 ⟨1, -1⟩ ⟨1, -1⟩ (0 + Real.sqrt 2) "START" "1_-1")]
        [("-1_1", 0 + G.sqrt 2 * 1 + 0 + 1 * getHeuristic G ⟨3, 0⟩ ⟨-1, 1⟩),
          ("0_1", 0 + 1 + 0 + 1 * getHeuristic G ⟨3, 0⟩ ⟨0, 1⟩),
          ("1_1", 0 + G.sqrt 2 * 1 + 0 + 1 * getHeuristic G ⟨3, 0⟩ ⟨1, 1⟩),
          ("-1_0", 0 + 1 + 0 + 1 * getHeuristic G ⟨3, 0⟩ ⟨-1, 0⟩),
          ("-1_-1", 0 + G.sqrt 2 * 1 + 0 + 1 * getHeuristic G ⟨3, 0⟩ ⟨-1, -1⟩),
          ("0_-1", 0 + 1 + 0 + 1 * getHeuristic G ⟨3, 0⟩ ⟨0, -1⟩),
          ("1_-1", 0 + G.sqrt 2 * 1 + 0 + 1 * getHeuristic G ⟨3, 0⟩ ⟨1, -1⟩)])
      [⟨⟨0, 1⟩, "0_1", G.sqrt 2 * 1, 0⟩,
          ⟨⟨1, 1⟩, "1_1", 1, 1⟩,
          ⟨⟨2, 1⟩, "2_1", G.sqrt 2 * 1, 2⟩,
          ⟨⟨0, 0⟩, "0_0", 1, 3⟩,
          ⟨⟨2, 0⟩, "2_0", 1, 5⟩,
          ⟨⟨0, -1⟩, "0_-1", G.sqrt 2 * 1, 6⟩,
          ⟨⟨1, -1⟩, "1_-1", 1, 7⟩,
          ⟨⟨2, -1⟩, "2_-1", G.sqrt 2 * 1, 8⟩] =
      freePlanner 1 ⟨3, 0⟩ [("START", freeNode G 1 ⟨0, 0⟩ ⟨0, 0⟩ (0) "START" "START"),
          ("-1_1", freeNode G 1 ⟨-1, 1⟩ ⟨-1, 1⟩ (0 + Real.sqrt 2) "START" "-1_1"),
          ("0_1", freeNode G 1 ⟨0, 1⟩ ⟨0, 1⟩ (0 + 1) "START" "0_1"),
          ("1_1", freeNode G 1 ⟨1, 1⟩ ⟨1, 1⟩ (0 + Real.sqrt 2) "START" "1_1"),
          ("-1_0", freeNode G 1 ⟨-1, 0⟩ ⟨-1, 0⟩ (0 + 1) "START" "-1_0"),
          ("1_0", freeNode G 1 ⟨1, 0⟩ ⟨1, 0⟩ (0 + 1) "START" "1_0"),
          ("-1_-1", freeNode G 1 ⟨-1, -1⟩ ⟨-1, -1⟩ (0 + Real.sqrt 2) "START" "-1_-1"),
          ("0_-1", freeNode G 1 ⟨0, -1⟩ ⟨0, -1⟩ (0 + 1) "START" "0_-1"),
          ("1_-1", freeNode G 1 ⟨1, -1⟩ ⟨1, -1⟩ (0 + Real.sqrt 2) "START" "1_-1"),
          ("2_1", freeNode G 1 ⟨2, 1⟩ ⟨2, 1⟩ (0 + 1 + Real.sqrt 2) "1_0" "2_1"),
          ("0_0", freeNode G 1 ⟨0, 0⟩ ⟨0, 0⟩ (0 + 1 + 1) "1_0" "0_0"),
          ("2_0", freeNode G 1 ⟨2, 0⟩ ⟨2, 0⟩ (0 + 1 + 1) "1_0" "2_0"),
          ("2_-1", freeNode G 1 ⟨2, -1⟩ ⟨2, -1⟩ (0 + 1 + Real.sqrt 2) "1_0" "2_-1")]
        [("-1_1", 0 + G.sqrt 2 * 1 + 0 + 1 * getHeuristic G ⟨3, 0⟩ ⟨-1, 1⟩),
          ("0_1", 0 + 1 + 0 + 1 * getHeuristic G ⟨3, 0⟩ ⟨0, 1⟩),
          ("1_1", 0 + G.sqrt 2 * 1 + 0 + 1 * getHeuristic G ⟨3, 0⟩ ⟨1, 1⟩),
          ("-1_0", 0 + 1 + 0 + 1 * getHeuristic G ⟨3, 0⟩ ⟨-1, 0⟩),
          ("-1_-1", 0 + G.sqrt 2 * 1 + 0 + 1 * getHeuristic G ⟨3, 0⟩ ⟨-1, -1⟩),
          ("0_-1", 0 + 1 + 0 + 1 * getHeuristic G ⟨3, 0⟩ ⟨0, -1⟩),
          ("1_-1", 0 + G.sqrt 2 * 1 + 0 + 1 * getHeuristic G ⟨3, 0⟩ ⟨1, -1⟩),
          ("2_1", 0 + 1 + G.sqrt 2 * 1 + 0 + 1 * getHeuristic G ⟨3, 0⟩ ⟨2, 1⟩),
          ("0_0", 0 + 1 + 1 + 0 + 1 * getHeuristic G ⟨3, 0⟩ ⟨0, 0⟩),
          ("2_0", 0 + 1 + 1 + 0 + 1 * getHeuristic G ⟨3, 0⟩ ⟨2, 0⟩),
          ("2_-1", 0 + 1 + G.sqrt 2 * 1 + 0 + 1 * getHeuristic G ⟨3, 0⟩ ⟨2, -1⟩)] := by
    simp only [List.foldl_cons, List.foldl_nil]
    rw [expand_keep_fp G ⟨3, 0⟩ ⟨3, 0⟩ 1 _ _ ⟨1, 0⟩ ⟨1, 0⟩ (0 + 1) "START" "1_0" ⟨0, 1⟩ "0_1" (G.sqrt 2 * 1) 0
      ⟨0, 1⟩ ⟨0, 1⟩ (0 + 1) "START" "0_1"]
    rotate_left
    · rfl
    · exact not_lt.mpr (by linarith)
    rw [expand_keep_fp G ⟨3, 0⟩ ⟨3, 0⟩ 1 _ _ ⟨1, 0⟩ ⟨1, 0⟩ (0 + 1) "START" "1_0" ⟨1, 1⟩ "1_1" 1 1
      ⟨1, 1⟩ ⟨1, 1⟩ (0 + Real.sqrt 2) "START" "1_1"]
    rotate_left
    · rfl
    · exact not_lt.mpr (by linarith)
    rw [expand_fresh_fp G ⟨3, 0⟩ ⟨3, 0⟩ 1 _ _ ⟨1, 0⟩ ⟨1, 0⟩ (0 + 1) "START" "1_0" ⟨2, 1⟩ "2_1" (G.sqrt 2 * 1) 2
      ⟨2, 1⟩ ⟨2, 1⟩ (Real.sqrt 2)]
    rotate_left
    · rfl
    · rfl
    · norm_num [Vector2f.add, Vector2f.smul, sx2, sy2]
    · decide
    · rfl
    · rw [hG]; norm_num [sx2, sy2]
    rw [expand_fresh_fp G ⟨3, 0⟩ ⟨3, 0⟩ 1 _ _ ⟨1, 0⟩ ⟨1, 0⟩ (0 + 1) "START" "1_0" ⟨0, 0⟩ "0_0" 1 3
      ⟨0, 0⟩ ⟨0, 0⟩ (1)]
    rotate_left
    · rfl
    · rfl
    · norm_num [Vector2f.add, Vector2f.smul, sx3, sy3]
    · decide
    · rfl
    · rw [hG]; norm_num [sx3, sy3]
    rw [expand_fresh_fp G ⟨3, 0⟩ ⟨3, 0⟩ 1 _ _ ⟨1, 0⟩ ⟨1, 0⟩ (0 + 1) "START" "1_0" ⟨2, 0⟩ "2_0" 1 5
      ⟨2, 0⟩ ⟨2, 0⟩ (1)]
    rotate_left
    · rfl
    · rfl
    · norm_num [Vector2f.add, Vector2f.smul, sx5, sy5]
    · decide
    · rfl
    · rw [hG]; norm_num [sx5, sy5]
    rw [expand_keep_fp G ⟨3, 0⟩ ⟨3, 0⟩ 1 _ _ ⟨1, 0⟩ ⟨1, 0⟩ (0 + 1) "START" "1_0" ⟨0, -1⟩ "0_-1" (G.sqrt 2 * 1) 6
      ⟨0, -1⟩ ⟨0, -1⟩ (0 + 1) "START" "0_-1"]
    rotate_left
    · rfl
    · exact not_lt.mpr (by linarith)
    rw [expand_keep_fp G ⟨3, 0⟩ ⟨3, 0⟩ 1 _ _ ⟨1, 0⟩ ⟨1, 0⟩ (0 + 1) "START" "1_0" ⟨1, -1⟩ "1_-1" 1 7
      ⟨1, -1⟩ ⟨1, -1⟩ (0 + Real.sqrt 2) "START" "1_-1"]
    rotate_left
    · rfl
    · exact not_lt.mpr (by linarith)
    rw [expand_fresh_fp G ⟨3, 0⟩ ⟨3, 0⟩ 1 _ _ ⟨1, 0⟩ ⟨1, 0⟩ (0 + 1) "START" "1_0" ⟨2, -1⟩ "2_-1" (G.sqrt 2 * 1) 8
      ⟨2, -1⟩ ⟨2, -1⟩ (Real.sqrt 2)]
    rotate_left
    · rfl
    · rfl
    · norm_num [Vector2f.add, Vector2f.smul, sx8, sy8]
    · decide
    · rfl
    · rw [hG]; norm_num [sx8, sy8]
    rfl
  have hpop2 : Frontier.Pop ([("-1_1", 0 + G.sqrt 2 * 1 + 0 + 1 * getHeuristic G ⟨3, 0⟩ ⟨-1, 1⟩),
          ("0_1", 0 + 1 + 0 + 1 * getHeuristic G ⟨3, 0⟩ ⟨0, 1⟩),
          ("1_1", 0 + G.sqrt 2 * 1 + 0 + 1 * getHeuristic G ⟨3, 0⟩ ⟨1, 1⟩),
          ("-1_0", 0 + 1 + 0 + 1 * getHeuristic G ⟨3, 0⟩ ⟨-1, 0⟩),
          ("-1_-1", 0 + G.sqrt 2 * 1 + 0 + 1 * getHeuristic G ⟨3, 0⟩ ⟨-1, -1⟩),
          ("0_-1", 0 + 1 + 0 + 1 * getHeuristic G ⟨3, 0⟩ ⟨0, -1⟩),
          ("1_-1", 0 + G.sqrt 2 * 1 + 0 + 1 * getHeuristic G ⟨3, 0⟩ ⟨1, -1⟩),
          ("2_1", 0 + 1 + G.sqrt 2 * 1 + 0 + 1 * getHeuristic G ⟨3, 0⟩ ⟨2, 1⟩),
          ("0_0", 0 + 1 + 1 + 0 + 1 * getHeuristic G ⟨3, 0⟩ ⟨0, 0⟩),
          ("2_0", 0 + 1 + 1 + 0 + 1 * getHeuristic G ⟨3, 0⟩ ⟨2, 0⟩),
          ("2_-1", 0 + 1 + G.sqrt 2 * 1 + 0 + 1 * getHeuristic G ⟨3, 0⟩ ⟨2, -1⟩)] : Frontier ℝ) =
      ("2_0", [("-1_1", 0 + G.sqrt 2 * 1 + 0 + 1 * getHeuristic G ⟨3, 0⟩ ⟨-1, 1⟩),
          ("0_1", 0 + 1 + 0 + 1 * getHeuristic G ⟨3, 0⟩ ⟨0, 1⟩),
          ("1_1", 0 + G.sqrt 2 * 1 + 0 + 1 * getHeuristic G ⟨3, 0⟩ ⟨1, 1⟩),
          ("-1_0", 0 + 1 + 0 + 1 * getHeuristic G ⟨3, 0⟩ ⟨-1, 0⟩),
          ("-1_-1", 0 + G.sqrt 2 * 1 + 0 + 1 * getHeuristic G ⟨3, 0⟩ ⟨-1, -1⟩),
          ("0_-1", 0 + 1 + 0 + 1 * getHeuristic G ⟨3, 0⟩ ⟨0, -1⟩),
          ("1_-1", 0 + G.sqrt 2 * 1 + 0 + 1 * getHeuristic G ⟨3, 0⟩ ⟨1, -1⟩),
          ("2_1", 0 + 1 + G.sqrt 2 * 1 + 0 + 1 * getHeuristic G ⟨3, 0⟩ ⟨2, 1⟩),
          ("0_0", 0 + 1 + 1 + 0 + 1 * getHeuristic G ⟨3, 0⟩ ⟨0, 0⟩),
          ("2_-1", 0 + 1 + G.sqrt 2 * 1 + 0 + 1 * getHeuristic G ⟨3, 0⟩ ⟨2, -1⟩)]) :=
    Frontier.Pop_of_min [("-1_1", 0 + G.sqrt 2 * 1 + 0 + 1 * getHeuristic G ⟨3, 0⟩ ⟨-1, 1⟩),
          ("0_1", 0 + 1 + 0 + 1 * getHeuristic G ⟨3, 0⟩ ⟨0, 1⟩),
          ("1_1", 0 + G.sqrt 2 * 1 + 0 + 1 * getHeuristic G ⟨3, 0⟩ ⟨1, 1⟩),
          ("-1_0", 0 + 1 + 0 + 1 * getHeuristic G ⟨3, 0⟩ ⟨-1, 0⟩),
          ("-1_-1", 0 + G.sqrt 2 * 1 + 0 + 1 * getHeuristic G ⟨3, 0⟩ ⟨-1, -1⟩),
          ("0_-1", 0 + 1 + 0 + 1 * getHeuristic G ⟨3, 0⟩ ⟨0, -1⟩),
          ("1_-1", 0 + G.sqrt 2 * 1 + 0 + 1 * getHeuristic G ⟨3, 0⟩ ⟨1, -1⟩),
          ("2_1", 0 + 1 + G.sqrt 2 * 1 + 0 + 1 * getHeuristic G ⟨3, 0⟩ ⟨2, 1⟩),
          ("0_0", 0 + 1 + 1 + 0 + 1 * getHeuristic G ⟨3, 0⟩ ⟨0, 0⟩)] [("2_-1", 0 + 1 + G.sqrt 2 * 1 + 0 + 1 * getHeuristic G ⟨3, 0⟩ ⟨2, -1⟩)] ("2_0", 0 + 1 + 1 + 0 + 1 * getHeuristic G ⟨3, 0⟩ ⟨2, 0⟩)
      (by
      intro x hx
      simp only [List.mem_cons, List.mem_singleton, List.not_mem_nil, or_false] at hx
      rcases hx with rfl | rfl | rfl | rfl | rfl | rfl | rfl | rfl | rfl <;> dsimp only <;> linarith)
      (by
      intro x hx
      simp only [List.mem_cons, List.mem_singleton, List.not_mem_nil, or_false] at hx
      rcases hx with rfl <;> dsimp only <;> exact not_lt.mpr (by linarith)) rfl
  have hget2 : NavMap.find? ([("START", freeNode G 1 ⟨0, 0⟩ ⟨0, 0⟩ (0) "START" "START"),
          ("-1_1", freeNode G 1 ⟨-1, 1⟩ ⟨-1, 1⟩ (0 + Real.sqrt 2) "START" "-1_1"),
          ("0_1", freeNode G 1 ⟨0, 1⟩ ⟨0, 1⟩ (0 + 1) "START" "0_1"),
          ("1_1", freeNode G 1 ⟨1, 1⟩ ⟨1, 1⟩ (0 + Real.sqrt 2) "START" "1_1"),
          ("-1_0", freeNode G 1 ⟨-1, 0⟩ ⟨-1, 0⟩ (0 + 1) "START" "-1_0"),
          ("1_0", freeNode G 1 ⟨1, 0⟩ ⟨1, 0⟩ (0 + 1) "START" "1_0"),
          ("-1_-1", freeNode G 1 ⟨-1, -1⟩ ⟨-1, -1⟩ (0 + Real.sqrt 2) "START" "-1_-1"),
          ("0_-1", freeNode G 1 ⟨0, -1⟩ ⟨0, -1⟩ (0 + 1) "START" "0_-1"),
          ("1_-1", freeNode G 1 ⟨1, -1⟩ ⟨1, -1⟩ (0 + Real.sqrt 2) "START" "1_-1"),
          ("2_1", freeNode G 1 ⟨2, 1⟩ ⟨2, 1⟩ (0 + 1 + Real.sqrt 2) "1_0" "2_1"),
          ("0_0", freeNode G 1 ⟨0, 0⟩ ⟨0, 0⟩ (0 + 1 + 1) "1_0" "0_0"),
          ("2_0", freeNode G 1 ⟨2, 0⟩ ⟨2, 0⟩ (0 + 1 + 1) "1_0" "2_0"),
          ("2_-1", freeNode G 1 ⟨2, -1⟩ ⟨2, -1⟩ (0 + 1 + Real.sqrt 2) "1_0" "2_-1")] : NavMap ℝ) "2_0" =
      some (freeNode G 1 ⟨2, 0⟩ ⟨2, 0⟩ (0 + 1 + 1) "1_0" "2_0") := rfl
  have hgoal2 : ¬ (((⟨3, 0⟩ : Vector2f ℝ).sub ⟨2, 0⟩).norm G.sqrt < 71 / 100 * 1) := by
    rw [hG, norm_sub_axis _ _ (by norm_num)]; norm_num
  have hfold2 : List.foldl (expandNeighbor G ⟨3, 0⟩ (freeNode G 1 ⟨2, 0⟩ ⟨2, 0⟩ (0 + 1 + 1) "1_0" "2_0"))
      (freePlanner 1 ⟨3, 0⟩ [("START", freeNode G 1 ⟨0, 0⟩ ⟨0, 0⟩ (0) "START" "START"),
          ("-1_1", freeNode G 1 ⟨-1, 1⟩ ⟨-1, 1⟩ (0 + Real.sqrt 2) "START" "-1_1"),
          ("0_1", freeNode G 1 ⟨0, 1⟩ ⟨0, 1⟩ (0 + 1) "START" "0_1"),
          ("1_1", freeNode G 1 ⟨1, 1⟩ ⟨1, 1⟩ (0 + Real.sqrt 2) "START" "1_1"),
          ("-1_0", freeNode G 1 ⟨-1, 0⟩ ⟨-1, 0⟩ (0 + 1) "START" "-1_0"),
          ("1_0", freeNode G 1 ⟨1, 0⟩ ⟨1, 0⟩ (0 + 1) "START" "1_0"),
          ("-1_-1", freeNode G 1 ⟨-1, -1⟩ ⟨-1, -1⟩ (0 + Real.sqrt 2) "START" "-1_-1"),
          ("0_-1", freeNode G 1 ⟨0, -1⟩ ⟨0, -1⟩ (0 + 1) "START" "0_-1"),
          ("1_-1", freeNode G 1 ⟨1, -1⟩ ⟨1, -1⟩ (0 + Real.sqrt 2) "START" "1_-1"),
          ("2_1", freeNode G 1 ⟨2, 1⟩ ⟨2, 1⟩ (0 + 1 + Real.sqrt 2) "1_0" "2_1"),
          ("0_0", freeNode G 1 ⟨0, 0⟩ ⟨0, 0⟩ (0 + 1 + 1) "1_0" "0_0"),
          ("2_0", freeNode G 1 ⟨2, 0⟩ ⟨2, 0⟩ (0 + 1 + 1) "1_0" "2_0"),
          ("2_-1", freeNode G 1 ⟨2, -1⟩ ⟨2, -1⟩ (0 + 1 + Real.sqrt 2) "1_0" "2_-1")]
        [("-1_1", 0 + G.sqrt 2 * 1 + 0 + 1 * getHeuristic G ⟨3, 0⟩ ⟨-1, 1⟩),
          ("0_1", 0 + 1 + 0 + 1 * getHeuristic G ⟨3, 0⟩ ⟨0, 1⟩),
          ("1_1", 0 + G.sqrt 2 * 1 + 0 + 1 * getHeuristic G ⟨3, 0⟩ ⟨1, 1⟩),
          ("-1_0", 0 + 1 + 0 + 1 * getHeuristic G ⟨3, 0⟩ ⟨-1, 0⟩),
          ("-1_-1", 0 + G.sqrt 2 * 1 + 0 + 1 * getHeuristic G ⟨3, 0⟩ ⟨-1, -1⟩),
          ("0_-1", 0 + 1 + 0 + 1 * getHeuristic G ⟨3, 0⟩ ⟨0, -1⟩),
          ("1_-1", 0 + G.sqrt 2 * 1 + 0 + 1 * getHeuristic G ⟨3, 0⟩ ⟨1, -1⟩),
          ("2_1", 0 + 1 + G.sqrt 2 * 1 + 0 + 1 * getHeuristic G ⟨3, 0⟩ ⟨2, 1⟩),
          ("0_0", 0 + 1 + 1 + 0 + 1 * getHeuristic G ⟨3, 0⟩ ⟨0, 0⟩),
          ("2_-1", 0 + 1 + G.sqrt 2 * 1 + 0 + 1 * getHeuristic G ⟨3, 0⟩ ⟨2, -1⟩)])
      [⟨⟨1, 1⟩, "1_1", G.sqrt 2 * 1, 0⟩,
          ⟨⟨2, 1⟩, "2_1", 1, 1⟩,
          ⟨⟨3, 1⟩, "3_1", G.sqrt 2 * 1, 2⟩,
          ⟨⟨1, 0⟩, "1_0", 1, 3⟩,
          ⟨⟨3, 0⟩, "3_0", 1, 5⟩,
          ⟨⟨1, -1⟩, "1_-1", G.sqrt 2 * 1, 6⟩,
          ⟨⟨2, -1⟩, "2_-1", 1, 7⟩,
          ⟨⟨3, -1⟩, "3_-1", G.sqrt 2 * 1, 8⟩] =
      freePlanner 1 ⟨3, 0⟩ [("START", freeNode G 1 ⟨0, 0⟩ ⟨0, 0⟩ (0) "START" "START"),
          ("-1_1", freeNode G 1 ⟨-1, 1⟩ ⟨-1, 1⟩ (0 + Real.sqrt 2) "START" "-1_1"),
          ("0_1", freeNode G 1 ⟨0, 1⟩ ⟨0, 1⟩ (0 + 1) "START" "0_1"),
          ("1_1", freeNode G 1 ⟨1, 1⟩ ⟨1, 1⟩ (0 + Real.sqrt 2) "START" "1_1"),
          ("-1_0", freeNode G 1 ⟨-1, 0⟩ ⟨-1, 0⟩ (0 + 1) "START" "-1_0"),
          ("1_0", freeNode G 1 ⟨1, 0⟩ ⟨1, 0⟩ (0 + 1) "START" "1_0"),
          ("-1_-1", freeNode G 1 ⟨-1, -1⟩ ⟨-1, -1⟩ (0 + Real.sqrt 2) "START" "-1_-1"),
          ("0_-1", freeNode G 1 ⟨0, -1⟩ ⟨0, -1⟩ (0 + 1) "START" "0_-1"),
          ("1_-1", freeNode G 1 ⟨1, -1⟩ ⟨1, -1⟩ (0 + Real.sqrt 2) "START" "1_-1"),
          ("2_1", freeNode G 1 ⟨2, 1⟩ ⟨2, 1⟩ (0 + 1 + Real.sqrt 2) "1_0" "2_1"),
          ("0_0", freeNode G 1 ⟨0, 0⟩ ⟨0, 0⟩ (0 + 1 + 1) "1_0" "0_0"),
          ("2_0", freeNode G 1 ⟨2, 0⟩ ⟨2, 0⟩ (0 + 1 + 1) "1_0" "2_0"),
          ("2_-1", freeNode G 1 ⟨2, -1⟩ ⟨2, -1⟩ (0 + 1 + Real.sqrt 2) "1_0" "2_-1"),
          ("3_1", freeNode G 1 ⟨3, 1⟩ ⟨3, 1⟩ (0 + 1 + 1 + Real.sqrt 2) "2_0" "3_1"),
          ("3_0", freeNode G 1 ⟨3, 0⟩ ⟨3, 0⟩ (0 + 1 + 1 + 1) "2_0" "3_0"),
          ("3_-1", freeNode G 1 ⟨3, -1⟩ ⟨3, -1⟩ (0 + 1 + 1 + Real.sqrt 2) "2_0" "3_-1")]
        [("-1_1", 0 + G.sqrt 2 * 1 + 0 + 1 * getHeuristic G ⟨3, 0⟩ ⟨-1, 1⟩),
          ("0_1", 0 + 1 + 0 + 1 * getHeuristic G ⟨3, 0⟩ ⟨0, 1⟩),
          ("1_1", 0 + G.sqrt 2 * 1 + 0 + 1 * getHeuristic G ⟨3, 0⟩ ⟨1, 1⟩),
          ("-1_0", 0 + 1 + 0 + 1 * getHeuristic G ⟨3, 0⟩ ⟨-1, 0⟩),
          ("-1_-1", 0 + G.sqrt 2 * 1 + 0 + 1 * getHeuristic G ⟨3, 0⟩ ⟨-1, -1⟩),
          ("0_-1", 0 + 1 + 0 + 1 * getHeuristic G ⟨3, 0⟩ ⟨0, -1⟩),
          ("1_-1", 0 + G.sqrt 2 * 1 + 0 + 1 * getHeuristic G ⟨3, 0⟩ ⟨1, -1⟩),
          ("2_1", 0 + 1 + G.sqrt 2 * 1 + 0 + 1 * getHeuristic G ⟨3, 0⟩ ⟨2, 1⟩),
          ("0_0", 0 + 1 + 1 + 0 + 1 * getHeuristic G ⟨3, 0⟩ ⟨0, 0⟩),
          ("2_-1", 0 + 1 + G.sqrt 2 * 1 + 0 + 1 * getHeuristic G ⟨3, 0⟩ ⟨2, -1⟩),
          ("3_1", 0 + 1 + 1 + G.sqrt 2 * 1 + 0 + 1 * getHeuristic G ⟨3, 0⟩ ⟨3, 1⟩),
          ("3_0", 0 + 1 + 1 + 1 + 0 + 1 * getHeuristic G ⟨3, 0⟩ ⟨3, 0⟩),
          ("3_-1", 0 + 1 + 1 + G.sqrt 2 * 1 + 0 + 1 * getHeuristic G ⟨3, 0⟩ ⟨3, -1⟩)] := by
    simp only [List.foldl_cons, List.foldl_nil]
    rw [expand_keep_fp G ⟨3, 0⟩ ⟨3, 0⟩ 1 _ _ ⟨2, 0⟩ ⟨2, 0⟩ (0 + 1 + 1) "1_0" "2_0" ⟨1, 1⟩ "1_1" (G.sqrt 2 * 1) 0
      ⟨1, 1⟩ ⟨1, 1⟩ (0 + Real.sqrt 2) "START" "1_1"]
    rotate_left
    · rfl
    · exact not_lt.mpr (by linarith)
    rw [expand_keep_fp G ⟨3, 0⟩ ⟨3, 0⟩ 1 _ _ ⟨2, 0⟩ ⟨2, 0⟩ (0 + 1 + 1) "1_0" "2_0" ⟨2, 1⟩ "2_1" 1 1
      ⟨2, 1⟩ ⟨2, 1⟩ (0 + 1 + Real.sqrt 2) "1_0" "2_1"]
    rotate_left
    · rfl
    · exact not_lt.mpr (by linarith)
    rw [expand_fresh_fp G ⟨3, 0⟩ ⟨3, 0⟩ 1 _ _ ⟨2, 0⟩ ⟨2, 0⟩ (0 + 1 + 1) "1_0" "2_0" ⟨3, 1⟩ "3_1" (G.sqrt 2 * 1) 2
      ⟨3, 1⟩ ⟨3, 1⟩ (Real.sqrt 2)]
    rotate_left
    · rfl
    · rfl
    · norm_num [Vector2f.add, Vector2f.smul, sx2, sy2]
    · decide
    · rfl
    · rw [hG]; norm_num [sx2, sy2]
    rw [expand_keep_fp G ⟨3, 0⟩ ⟨3, 0⟩ 1 _ _ ⟨2, 0⟩ ⟨2, 0⟩ (0 + 1 + 1) "1_0" "2_0" ⟨1, 0⟩ "1_0" 1 3
      ⟨1, 0⟩ ⟨1, 0⟩ (0 + 1) "START" "1_0"]
    rotate_left
    · rfl
    · exact not_lt.mpr (by linarith)
    rw [expand_fresh_fp G ⟨3, 0⟩ ⟨3, 0⟩ 1 _ _ ⟨2, 0⟩ ⟨2, 0⟩ (0 + 1 + 1) "1_0" "2_0" ⟨3, 0⟩ "3_0" 1 5
      ⟨3, 0⟩ ⟨3, 0⟩ (1)]
    rotate_left
    · rfl
    · rfl
    · norm_num [Vector2f.add, Vector2f.smul, sx5, sy5]
    · decide
    · rfl
    · rw [hG]; norm_num [sx5, sy5]
    rw [expand_keep_fp G ⟨3, 0⟩ ⟨3, 0⟩ 1 _ _ ⟨2, 0⟩ ⟨2, 0⟩ (0 + 1 + 1) "1_0" "2_0" ⟨1, -1⟩ "1_-1" (G.sqrt 2 * 1) 6
      ⟨1, -1⟩ ⟨1, -1⟩ (0 + Real.sqrt 2) "START" "1_-1"]
    rotate_left
    · rfl
    · exact not_lt.mpr (by linarith)
    rw [expand_keep_fp G ⟨3, 0⟩ ⟨3, 0⟩ 1 _ _ ⟨2, 0⟩ ⟨2, 0⟩ (0 + 1 + 1) "1_0" "2_0" ⟨2, -1⟩ "2_-1" 1 7
      ⟨2, -1⟩ ⟨2, -1⟩ (0 + 1 + Real.sqrt 2) "1_0" "2_-1"]
    rotate_left
    · rfl
    · exact not_lt.mpr (by linarith)
    rw [expand_fresh_fp G ⟨3, 0⟩ ⟨3, 0⟩ 1 _ _ ⟨2, 0⟩ ⟨2, 0⟩ (0 + 1 + 1) "1_0" "2_0" ⟨3, -1⟩ "3_-1" (G.sqrt 2 * 1) 8
      ⟨3, -1⟩ ⟨3, -1⟩ (Real.sqrt 2)]
    rotate_left
    · rfl
    · rfl
    · norm_num [Vector2f.add, Vector2f.smul, sx8, sy8]
    · decide
    · rfl
    · rw [hG]; norm_num [sx8, sy8]
    rfl
  have hpop3 : Frontier.Pop ([("-1_1", 0 + G.sqrt 2 * 1 + 0 + 1 * getHeuristic G ⟨3, 0⟩ ⟨-1, 1⟩),
          ("0_1", 0 + 1 + 0 + 1 * getHeuristic G ⟨3, 0⟩ ⟨0, 1⟩),
          ("1_1", 0 + G.sqrt 2 * 1 + 0 + 1 * getHeuristic G ⟨3, 0⟩ ⟨1, 1⟩),
          ("-1_0", 0 + 1 + 0 + 1 * getHeuristic G ⟨3, 0⟩ ⟨-1, 0⟩),
          ("-1_-1", 0 + G.sqrt 2 * 1 + 0 + 1 * getHeuristic G ⟨3, 0⟩ ⟨-1, -1⟩),
          ("0_-1", 0 + 1 + 0 + 1 * getHeuristic G ⟨3, 0⟩ ⟨0, -1⟩),
          ("1_-1", 0 + G.sqrt 2 * 1 + 0 + 1 * getHeuristic G ⟨3, 0⟩ ⟨1, -1⟩),
          ("2_1", 0 + 1 + G.sqrt 2 * 1 + 0 + 1 * getHeuristic G ⟨3, 0⟩ ⟨2, 1⟩),
          ("0_0", 0 + 1 + 1 + 0 + 1 * getHeuristic G ⟨3, 0⟩ ⟨0, 0⟩),
          ("2_-1", 0 + 1 + G.sqrt 2 * 1 + 0 + 1 * getHeuristic G ⟨3, 0⟩ ⟨2, -1⟩),
          ("3_1", 0 + 1 + 1 + G.sqrt 2 * 1 + 0 + 1 * getHeuristic G ⟨3, 0⟩ ⟨3, 1⟩),
          ("3_0", 0 + 1 + 1 + 1 + 0 + 1 * getHeuristic G ⟨3, 0⟩ ⟨3, 0⟩),
          ("3_-1", 0 + 1 + 1 + G.sqrt 2 * 1 + 0 + 1 * getHeuristic G ⟨3, 0⟩ ⟨3, -1⟩)] : Frontier ℝ) =
      ("3_0", [("-1_1", 0 + G.sqrt 2 * 1 + 0 + 1 * getHeuristic G ⟨3, 0⟩ ⟨-1, 1⟩),
          ("0_1", 0 + 1 + 0 + 1 * getHeuristic G ⟨3, 0⟩ ⟨0, 1⟩),
          ("1_1", 0 + G.sqrt 2 * 1 + 0 + 1 * getHeuristic G ⟨3, 0⟩ ⟨1, 1⟩),
          ("-1_0", 0 + 1 + 0 + 1 * getHeuristic G ⟨3, 0⟩ ⟨-1, 0⟩),
          ("-1_-1", 0 + G.sqrt 2 * 1 + 0 + 1 * getHeuristic G ⟨3, 0⟩ ⟨-1, -1⟩),
          ("0_-1", 0 + 1 + 0 + 1 * getHeuristic G ⟨3, 0⟩ ⟨0, -1⟩),
          ("1_-1", 0 + G.sqrt 2 * 1 + 0 + 1 * getHeuristic G ⟨3, 0⟩ ⟨1, -1⟩),
          ("2_1", 0 + 1 + G.sqrt 2 * 1 + 0 + 1 * getHeuristic G ⟨3, 0⟩ ⟨2, 1⟩),
          ("0_0", 0 + 1 + 1 + 0 + 1 * getHeuristic G ⟨3, 0⟩ ⟨0, 0⟩),
          ("2_-1", 0 + 1 + G.sqrt 2 * 1 + 0 + 1 * getHeuristic G ⟨3, 0⟩ ⟨2, -1⟩),
          ("3_1", 0 + 1 + 1 + G.sqrt 2 * 1 + 0 + 1 * getHeuristic G ⟨3, 0⟩ ⟨3, 1⟩),
          ("3_-1", 0 + 1 + 1 + G.sqrt 2 * 1 + 0 + 1 * getHeuristic G ⟨3, 0⟩ ⟨3, -1⟩)]) :=
    Frontier.Pop_of_min [("-1_1", 0 + G.sqrt 2 * 1 + 0 + 1 * getHeuristic G ⟨3, 0⟩ ⟨-1, 1⟩),
          ("0_1", 0 + 1 + 0 + 1 * getHeuristic G ⟨3, 0⟩ ⟨0, 1⟩),
          ("1_1", 0 + G.sqrt 2 * 1 + 0 + 1 * getHeuristic G ⟨3, 0⟩ ⟨1, 1⟩),
          ("-1_0", 0 + 1 + 0 + 1 * getHeuristic G ⟨3, 0⟩ ⟨-1, 0⟩),
          ("-1_-1", 0 + G.sqrt 2 * 1 + 0 + 1 * getHeuristic G ⟨3, 0⟩ ⟨-1, -1⟩),
          ("0_-1", 0 + 1 + 0 + 1 * getHeuristic G ⟨3, 0⟩ ⟨0, -1⟩),
          ("1_-1", 0 + G.sqrt 2 * 1 + 0 + 1 * getHeuristic G ⟨3, 0⟩ ⟨1, -1⟩),
          ("2_1", 0 + 1 + G.sqrt 2 * 1 + 0 + 1 * getHeuristic G ⟨3, 0⟩ ⟨2, 1⟩),
          ("0_0", 0 + 1 + 1 + 0 + 1 * getHeuristic G ⟨3, 0⟩ ⟨0, 0⟩),
          ("2_-1", 0 + 1 + G.sqrt 2 * 1 + 0 + 1 * getHeuristic G ⟨3, 0⟩ ⟨2, -1⟩),
          ("3_1", 0 + 1 + 1 + G.sqrt 2 * 1 + 0 + 1 * getHeuristic G ⟨3, 0⟩ ⟨3, 1⟩)] [("3_-1", 0 + 1 + 1 + G.sqrt 2 * 1 + 0 + 1 * getHeuristic G ⟨3, 0⟩ ⟨3, -1⟩)] ("3_0", 0 + 1 + 1 + 1 + 0 + 1 * getHeuristic G ⟨3, 0⟩ ⟨3, 0⟩)
      (by
      intro x hx
      simp only [List.mem_cons, List.mem_singleton, List.not_mem_nil, or_false] at hx
      rcases hx with rfl | rfl | rfl | rfl | rfl | rfl | rfl | rfl | rfl | rfl | rfl <;> dsimp only <;> linarith)
      (by
      intro x hx
      simp only [List.mem_cons, List.mem_singleton, List.not_mem_nil, or_false] at hx
      rcases hx with rfl <;> dsimp only <;> exact not_lt.mpr (by linarith)) rfl
  have hget3 : NavMap.find? ([("START", freeNode G 1 ⟨0, 0⟩ ⟨0, 0⟩ (0) "START" "START"),
          ("-1_1", freeNode G 1 ⟨-1, 1⟩ ⟨-1, 1⟩ (0 + Real.sqrt 2) "START" "-1_1"),
          ("0_1", freeNode G 1 ⟨0, 1⟩ ⟨0, 1⟩ (0 + 1) "START" "0_1"),
          ("1_1", freeNode G 1 ⟨1, 1⟩ ⟨1, 1⟩ (0 + Real.sqrt 2) "START" "1_1"),
          ("-1_0", freeNode G 1 ⟨-1, 0⟩ ⟨-1, 0⟩ (0 + 1) "START" "-1_0"),
          ("1_0", freeNode G 1 ⟨1, 0⟩ ⟨1, 0⟩ (0 + 1) "START" "1_0"),
          ("-1_-1", freeNode G 1 ⟨-1, -1⟩ ⟨-1, -1⟩ (0 + Real.sqrt 2) "START" "-1_-1"),
          ("0_-1", freeNode G 1 ⟨0, -1⟩ ⟨0, -1⟩ (0 + 1) "START" "0_-1"),
          ("1_-1", freeNode G 1 ⟨1, -1⟩ ⟨1, -1⟩ (0 + Real.sqrt 2) "START" "1_-1"),
          ("2_1", freeNode G 1 ⟨2, 1⟩ ⟨2, 1⟩ (0 + 1 + Real.sqrt 2) "1_0" "2_1"),
          ("0_0", freeNode G 1 ⟨0, 0⟩ ⟨0, 0⟩ (0 + 1 + 1) "1_0" "0_0"),
          ("2_0", freeNode G 1 ⟨2, 0⟩ ⟨2, 0⟩ (0 + 1 + 1) "1_0" "2_0"),
          ("2_-1", freeNode G 1 ⟨2, -1⟩ ⟨2, -1⟩ (0 + 1 + Real.sqrt 2) "1_0" "2_-1"),
          ("3_1", freeNode G 1 ⟨3, 1⟩ ⟨3, 1⟩ (0 + 1 + 1 + Real.sqrt 2) "2_0" "3_1"),
          ("3_0", freeNode G 1 ⟨3, 0⟩ ⟨3, 0⟩ (0 + 1 + 1 + 1) "2_0" "3_0"),
          ("3_-1", freeNode G 1 ⟨3, -1⟩ ⟨3, -1⟩ (0 + 1 + 1 + Real.sqrt 2) "2_0" "3_-1")] : NavMap ℝ) "3_0" =
      some (freeNode G 1 ⟨3, 0⟩ ⟨3, 0⟩ (0 + 1 + 1 + 1) "2_0" "3_0") := rfl
  have hgoal3 : ((⟨3, 0⟩ : Vector2f ℝ).sub ⟨3, 0⟩).norm G.sqrt < 71 / 100 * 1 := by
    rw [hG, norm_sub_axis _ _ (by norm_num)]; norm_num
  refine ⟨[("START", freeNode G 1 ⟨0, 0⟩ ⟨0, 0⟩ (0) "START" "START"),
          ("-1_1", freeNode G 1 ⟨-1, 1⟩ ⟨-1, 1⟩ (0 + Real.sqrt 2) "START" "-1_1"),
          ("0_1", freeNode G 1 ⟨0, 1⟩ ⟨0, 1⟩ (0 + 1) "START" "0_1"),
          ("1_1", freeNode G 1 ⟨1, 1⟩ ⟨1, 1⟩ (0 + Real.sqrt 2) "START" "1_1"),
          ("-1_0", freeNode G 1 ⟨-1, 0⟩ ⟨-1, 0⟩ (0 + 1) "START" "-1_0"),
          ("1_0", freeNode G 1 ⟨1, 0⟩ ⟨1, 0⟩ (0 + 1) "START" "1_0"),
          ("-1_-1", freeNode G 1 ⟨-1, -1⟩ ⟨-1, -1⟩ (0 + Real.sqrt 2) "START" "-1_-1"),
          ("0_-1", freeNode G 1 ⟨0, -1⟩ ⟨0, -1⟩ (0 + 1) "START" "0_-1"),
          ("1_-1", freeNode G 1 ⟨1, -1⟩ ⟨1, -1⟩ (0 + Real.sqrt 2) "START" "1_-1"),
          ("2_1", freeNode G 1 ⟨2, 1⟩ ⟨2, 1⟩ (0 + 1 + Real.sqrt 2) "1_0" "2_1"),
          ("0_0", freeNode G 1 ⟨0, 0⟩ ⟨0, 0⟩ (0 + 1 + 1) "1_0" "0_0"),
          ("2_0", freeNode G 1 ⟨2, 0⟩ ⟨2, 0⟩ (0 + 1 + 1) "1_0" "2_0"),
          ("2_-1", freeNode G 1 ⟨2, -1⟩ ⟨2, -1⟩ (0 + 1 + Real.sqrt 2) "1_0" "2_-1"),
          ("3_1", freeNode G 1 ⟨3, 1⟩ ⟨3, 1⟩ (0 + 1 + 1 + Real.sqrt 2) "2_0" "3_1"),
          ("3_0", freeNode G 1 ⟨3, 0⟩ ⟨3, 0⟩ (0 + 1 + 1 + 1) "2_0" "3_0"),
          ("3_-1", freeNode G 1 ⟨3, -1⟩ ⟨3, -1⟩ (0 + 1 + 1 + Real.sqrt 2) "2_0" "3_-1")],
    [("-1_1", 0 + G.sqrt 2 * 1 + 0 + 1 * getHeuristic G ⟨3, 0⟩ ⟨-1, 1⟩),
          ("0_1", 0 + 1 + 0 + 1 * getHeuristic G ⟨3, 0⟩ ⟨0, 1⟩),
          ("1_1", 0 + G.sqrt 2 * 1 + 0 + 1 * getHeuristic G ⟨3, 0⟩ ⟨1, 1⟩),
          ("-1_0", 0 + 1 + 0 + 1 * getHeuristic G ⟨3, 0⟩ ⟨-1, 0⟩),
          ("-1_-1", 0 + G.sqrt 2 * 1 + 0 + 1 * getHeuristic G ⟨3, 0⟩ ⟨-1, -1⟩),
          ("0_-1", 0 + 1 + 0 + 1 * getHeuristic G ⟨3, 0⟩ ⟨0, -1⟩),
          ("1_-1", 0 + G.sqrt 2 * 1 + 0 + 1 * getHeuristic G ⟨3, 0⟩ ⟨1, -1⟩),
          ("2_1", 0 + 1 + G.sqrt 2 * 1 + 0 + 1 * getHeuristic G ⟨3, 0⟩ ⟨2, 1⟩),
          ("0_0", 0 + 1 + 1 + 0 + 1 * getHeuristic G ⟨3, 0⟩ ⟨0, 0⟩),
          ("2_-1", 0 + 1 + G.sqrt 2 * 1 + 0 + 1 * getHeuristic G ⟨3, 0⟩ ⟨2, -1⟩),
          ("3_1", 0 + 1 + 1 + G.sqrt 2 * 1 + 0 + 1 * getHeuristic G ⟨3, 0⟩ ⟨3, 1⟩),
          ("3_-1", 0 + 1 + 1 + G.sqrt 2 * 1 + 0 + 1 * getHeuristic G ⟨3, 0⟩ ⟨3, -1⟩)], ?_, rfl, rfl, rfl, rfl⟩
  show searchLoop G ⟨3, 0⟩ (999996 + 1 + 1 + 1 + 1) _ _ = _
  rw [searchLoop_expand_fp G ⟨3, 0⟩ ⟨3, 0⟩ 1 (999996 + 1 + 1 + 1) _ _ _ _ _ _ _ ⟨0, 0⟩ ⟨0, 0⟩ (0) "START" "START"
    (by simp) hpop0 hget0 hgoal0 hfold0]
  rw [searchLoop_expand_fp G ⟨3, 0⟩ ⟨3, 0⟩ 1 (999996 + 1 + 1) _ _ _ _ _ _ _ ⟨1, 0⟩ ⟨1, 0⟩ (0 + 1) "START" "1_0"
    (by simp) hpop1 hget1 hgoal1 hfold1]
  rw [searchLoop_expand_fp G ⟨3, 0⟩ ⟨3, 0⟩ 1 (999996 + 1) _ _ _ _ _ _ _ ⟨2, 0⟩ ⟨2, 0⟩ (0 + 1 + 1) "1_0" "2_0"
    (by simp) hpop2 hget2 hgoal2 hfold2]
  exact searchLoop_goal_fp G ⟨3, 0⟩ ⟨3, 0⟩ 1 (999996) _ _ _ _ _ ⟨3, 0⟩ ⟨3, 0⟩ (0 + 1 + 1 + 1) "2_0" "3_0"
    (by simp) hpop3 hget3 hgoal3

end Nav

namespace Nav

theorem backtrace_START (G : Geometry ℝ) (m : NavMap ℝ) (fuel : Nat) (gp : List String)
    (tot : ℝ) : backtrace G m fuel "START" gp tot = some (gp, tot) := by
  unfold backtrace
  simp

theorem backtrace_step (G : Geometry ℝ) (hG : G.sqrt = Real.sqrt) (m : NavMap ℝ) (fuel : Nat)
    (k : String) (gp : List String) (tot : ℝ) (x px : ℝ) (idx pidx : Vector2i) (c pc : ℝ)
    (p pp : String) (hk : k ≠ "START") (hx : px ≤ x)
    (h1 : NavMap.find? m k = some (freeNode G 1 ⟨x, 0⟩ idx c p k))
    (h2 : NavMap.find? m p = some (freeNode G 1 ⟨px, 0⟩ pidx pc pp p)) :
    backtrace G m (fuel + 1) k gp tot = backtrace G m fuel p (gp ++ [k]) (tot + (x - px)) := by
  rw [backtrace]
  simp only [hk, if_false, NavMap.get, h1, h2, Option.getD_some]
  have hp : (freeNode G 1 ⟨x, 0⟩ idx c p k).parent = p := rfl
  rw [hp]
  simp only [h2, Option.getD_some, edgeCost, hG]
  have hl1 : (freeNode G 1 (⟨x, 0⟩ : Vector2f ℝ) idx c p k).loc = ⟨x, 0⟩ := rfl
  have hl2 : (freeNode G 1 (⟨px, 0⟩ : Vector2f ℝ) pidx pc pp p).loc = ⟨px, 0⟩ := rfl
  rw [hl1, hl2, norm_sub_axis x px hx]

/-- The run of `getGlobalPath` on the empty map from (0,0) to (3,0) with resolution 1. -/
theorem getGlobalPath_emptyMap (G : Geometry ℝ) (hG : G.sqrt = Real.sqrt) (k : Nat) :
    ∃ P' : GlobalPlanner ℝ,
      getGlobalPath G (3 + k) (initializeMap G (blankPlanner [] 1) ⟨0, 0⟩) ⟨3, 0⟩ =
        some (P', some 3) ∧
      P'.global_path_ = ["1_0", "2_0", "3_0"] := by
  obtain ⟨m, f, hrun, h3, h2, h1, h0⟩ := emptyMapRun G hG
  have hinit : ({ initializeMap G (blankPlanner [] 1) ⟨0, 0⟩ with nav_goal_ := ⟨3, 0⟩ } :
      GlobalPlanner ℝ) =
      freePlanner 1 ⟨3, 0⟩ [("START", freeNode G 1 ⟨0, 0⟩ ⟨0, 0⟩ 0 "START" "START")]
        [("START", 0)] := by
    rw [initializeMap_free]
    have h0 : toInt ((0 : ℝ) / 1) = 0 := by simp [toInt]
    simp only [h0]
    rfl
  have hbt : backtrace G m (3 + k) "3_0" [] 0 = some (["3_0", "2_0", "1_0"], 3) := by
    rw [show 3 + k = k + 1 + 1 + 1 by omega]
    rw [backtrace_step G hG m (k + 1 + 1) "3_0" [] 0 3 2 _ _ _ _ "2_0" "1_0" (by decide)
      (by norm_num) h3 h2]
    rw [backtrace_step G hG m (k + 1) "2_0" _ _ 2 1 _ _ _ _ "1_0" "START" (by decide)
      (by norm_num) h2 h1]
    rw [backtrace_step G hG m k "1_0" _ _ 1 0 _ _ _ _ "START" "START" (by decide)
      (by norm_num) h1 h0]
    rw [backtrace_START]
    norm_num
  unfold getGlobalPath
  simp only
  rw [hinit, hrun]
  simp only [if_true]
  have hm : (freePlanner (1 : ℝ) ⟨3, 0⟩ m f).nav_map_ = m := rfl
  rw [hm, hbt]
  exact ⟨_, rfl, rfl⟩

/-- C2, counterexample: on the empty map with resolution 1, `initializeMap((0,0))` followed by
`getGlobalPath((3,0))` leaves a `global_path_` that is not `["START","1_0","2_0","3_0"]`:
the backtrace stops at `START` without recording it. -/
theorem C2_counterexample :
    ∃ R : GlobalPlanner ℝ × Option ℝ,
      getGlobalPath ⟨Real.sqrt, line2f.Intersects, fun _ _ => none, line2f.UnitNormal Real.sqrt⟩
        3 (initializeMap ⟨Real.sqrt, line2f.Intersects, fun _ _ => none,
          line2f.UnitNormal Real.sqrt⟩ (blankPlanner [] 1) ⟨0, 0⟩) ⟨3, 0⟩ = some R ∧
      R.1.global_path_ ≠ ["START", "1_0", "2_0", "3_0"] := by
  obtain ⟨P', h, hp⟩ := getGlobalPath_emptyMap
    ⟨Real.sqrt, line2f.Intersects, fun _ _ => none, line2f.UnitNormal Real.sqrt⟩ rfl 0
  refine ⟨_, h, ?_⟩
  rw [hp]
  decide

/-- C2, amended: with an empty map, no humans, no failed locations and resolution 1,
`initializeMap((0,0))` followed by `getGlobalPath((3,0))` (frontier a minimum-priority
queue, backtrace fuel at least 3) leaves `global_path_` equal to `["1_0","2_0","3_0"]`,
and the travelled distance summed along it is 3. -/
theorem C2_empty_map_path (I : line2f ℝ → line2f ℝ → Bool)
    (X : line2f ℝ → line2f ℝ → Option (Vector2f ℝ)) (U : line2f ℝ → Vector2f ℝ) (k : Nat) :
    ∃ P' : GlobalPlanner ℝ,
      getGlobalPath ⟨Real.sqrt, I, X, U⟩ (3 + k)
        (initializeMap ⟨Real.sqrt, I, X, U⟩ (blankPlanner [] 1) ⟨0, 0⟩) ⟨3, 0⟩ =
        some (P', some 3) ∧
      P'.global_path_ = ["1_0", "2_0", "3_0"] :=
  getGlobalPath_emptyMap ⟨Real.sqrt, I, X, U⟩ rfl k

end Nav

namespace Nav

theorem real_sqrt_pos (I : line2f ℝ → line2f ℝ → Bool)
    (X : line2f ℝ → line2f ℝ → Option (Vector2f ℝ)) (U : line2f ℝ → Vector2f ℝ) :
    ∀ x : ℝ, 0 < x → 0 < (⟨Real.sqrt, I, X, U⟩ : Geometry ℝ).sqrt x :=
  fun x hx => Real.sqrt_pos.mpr hx

theorem parentsLeadToStart_of_inv (G : Geometry ℝ) (m : NavMap ℝ) (s0 : Node ℝ)
    (hInv : ParentInv m s0) : ParentsLeadToStart m := by
  intro k n hn
  refine ⟨?_, (backtrace_terminates_length G m s0 hInv k n hn).1⟩
  by_cases hk : k = "START"
  · subst hk
    rw [hInv.1] at hn
    cases hn
    exact ⟨s0, by rw [hInv.2.1]; exact hInv.1⟩
  · obtain ⟨p, hp, _⟩ := hInv.2.2.2.1 k n hn hk
    exact ⟨p, hp⟩

/-- The whole run of `getGlobalPath` from the state left by `initializeMap`: the result
exists once the backtrace fuel covers the stored nodes. -/
theorem getGlobalPath_returns (G : Geometry ℝ) (hs : ∀ x : ℝ, 0 < x → 0 < G.sqrt x)
    (P : GlobalPlanner ℝ) (loc goal : Vector2f ℝ) (hres : 0 < P.map_resolution_) :
    ∀ fuel, (searchState G (initializeMap G P loc) goal iterationCap).nav_map_.length ≤ fuel →
      ∃ R, getGlobalPath G fuel (initializeMap G P loc) goal = some R := by
  intro fuel hfuel
  obtain ⟨s0, hInv, hF, _⟩ := initializeMap_inv G hs P loc hres
  have h := searchLoop_inv G hs goal s0 iterationCap ""
    { initializeMap G P loc with nav_goal_ := goal } hres hInv hF
  unfold getGlobalPath
  simp only
  split_ifs with hsucc
  · obtain ⟨nd, hnd⟩ := h.2.2.2 hsucc
    obtain ⟨res, hres'⟩ := (backtrace_terminates_length G _ s0 h.1 _ nd hnd).2 fuel hfuel [] 0
    rw [hres']
    exact ⟨_, rfl⟩
  · exact ⟨_, rfl⟩

/-- C4: from the state left by `initializeMap` with a positive resolution, at every iteration
boundary of the search loop of `getGlobalPath` and after every processed prefix of the
neighbours inside an iteration, every node stored in `nav_map_` has a stored parent and its
parent links reach `START` in finitely many steps (at most the number of stored nodes);
hence the backtrace terminates: `getGlobalPath` returns once the fuel covers the stored
nodes. -/
theorem C4_parent_links_reach_START (I : line2f ℝ → line2f ℝ → Bool)
    (X : line2f ℝ → line2f ℝ → Option (Vector2f ℝ)) (U : line2f ℝ → Vector2f ℝ)
    (P : GlobalPlanner ℝ) (loc goal : Vector2f ℝ) (hres : 0 < P.map_resolution_) :
    (∀ (j : Nat) (l : List (Neighbor ℝ)),
      l <+: (NavMap.get (searchState ⟨Real.sqrt, I, X, U⟩ (initializeMap ⟨Real.sqrt, I, X, U⟩ P loc)
              goal j).nav_map_
            (Frontier.Pop (searchState ⟨Real.sqrt, I, X, U⟩
              (initializeMap ⟨Real.sqrt, I, X, U⟩ P loc) goal j).frontier_).1).neighbors →
      ParentsLeadToStart (midIteration ⟨Real.sqrt, I, X, U⟩ goal
        (searchState ⟨Real.sqrt, I, X, U⟩ (initializeMap ⟨Real.sqrt, I, X, U⟩ P loc) goal j)
        l).nav_map_) ∧
    (∀ j : Nat, ParentsLeadToStart
      (searchState ⟨Real.sqrt, I, X, U⟩ (initializeMap ⟨Real.sqrt, I, X, U⟩ P loc) goal j).nav_map_) ∧
    (∃ fuel0, ∀ fuel, fuel0 ≤ fuel →
      ∃ R, getGlobalPath ⟨Real.sqrt, I, X, U⟩ fuel
        (initializeMap ⟨Real.sqrt, I, X, U⟩ P loc) goal = some R ∧
        ParentsLeadToStart R.1.nav_map_) := by
  have hs := real_sqrt_pos I X U
  obtain ⟨s0, hInv, hF, _⟩ := initializeMap_inv ⟨Real.sqrt, I, X, U⟩ hs P loc hres
  have hloop : ∀ j, ParentInv (searchState ⟨Real.sqrt, I, X, U⟩
      (initializeMap ⟨Real.sqrt, I, X, U⟩ P loc) goal j).nav_map_ s0 ∧
      FrontierInv (searchState ⟨Real.sqrt, I, X, U⟩
        (initializeMap ⟨Real.sqrt, I, X, U⟩ P loc) goal j) ∧
      0 < (searchState ⟨Real.sqrt, I, X, U⟩
        (initializeMap ⟨Real.sqrt, I, X, U⟩ P loc) goal j).map_resolution_ := by
    intro j
    have h := searchLoop_inv ⟨Real.sqrt, I, X, U⟩ hs goal s0 j ""
      { initializeMap ⟨Real.sqrt, I, X, U⟩ P loc with nav_goal_ := goal } hres hInv hF
    refine ⟨h.1, h.2.1, ?_⟩
    unfold searchState
    rw [h.2.2.1.2.1]
    exact hres
  refine ⟨?_, ?_, ?_⟩
  · intro j l hl
    obtain ⟨h1, h2, h3⟩ := hloop j
    have hF1 : FrontierInv { searchState ⟨Real.sqrt, I, X, U⟩
        (initializeMap ⟨Real.sqrt, I, X, U⟩ P loc) goal j with
        frontier_ := (Frontier.Pop (searchState ⟨Real.sqrt, I, X, U⟩
          (initializeMap ⟨Real.sqrt, I, X, U⟩ P loc) goal j).frontier_).2 } := by
      intro e he
      apply h2 e
      simp only [Frontier.Pop] at he
      cases hm : Frontier.minEntry (searchState ⟨Real.sqrt, I, X, U⟩
          (initializeMap ⟨Real.sqrt, I, X, U⟩ P loc) goal j).frontier_ with
      | none => rw [hm] at he; simp at he
      | some e0 =>
        rw [hm] at he
        exact (List.mem_filter.mp he).1
    have := expandAll_inv ⟨Real.sqrt, I, X, U⟩ hs goal s0 _ l
      { searchState ⟨Real.sqrt, I, X, U⟩ (initializeMap ⟨Real.sqrt, I, X, U⟩ P loc) goal j with
        frontier_ := (Frontier.Pop (searchState ⟨Real.sqrt, I, X, U⟩
          (initializeMap ⟨Real.sqrt, I, X, U⟩ P loc) goal j).frontier_).2 } hl h3 h1 hF1
    exact parentsLeadToStart_of_inv ⟨Real.sqrt, I, X, U⟩ _ s0 this.1
  · intro j
    exact parentsLeadToStart_of_inv ⟨Real.sqrt, I, X, U⟩ _ s0 (hloop j).1
  · refine ⟨(searchState ⟨Real.sqrt, I, X, U⟩ (initializeMap ⟨Real.sqrt, I, X, U⟩ P loc) goal
      iterationCap).nav_map_.length, fun fuel hfuel => ?_⟩
    obtain ⟨R, hR⟩ := getGlobalPath_returns ⟨Real.sqrt, I, X, U⟩ hs P loc goal hres fuel hfuel
    refine ⟨R, hR, ?_⟩
    have hm : R.1.nav_map_ = (searchState ⟨Real.sqrt, I, X, U⟩
        (initializeMap ⟨Real.sqrt, I, X, U⟩ P loc) goal iterationCap).nav_map_ := by
      unfold getGlobalPath at hR
      simp only at hR
      split_ifs at hR with hsucc
      · split at hR
        · cases hR
        · cases hR
          rfl
      · cases hR
        rfl
    rw [hm]
    exact parentsLeadToStart_of_inv ⟨Real.sqrt, I, X, U⟩ _ s0 (hloop iterationCap).1

end Nav

namespace Nav

/-- C4 at a concrete input: the empty map with resolution 1, from (0,0) to (3,0). -/
theorem C4_witness :
    (0 : ℝ) < (blankPlanner ([] : List (line2f ℝ)) 1).map_resolution_ ∧
    ∃ fuel0, ∀ fuel, fuel0 ≤ fuel →
      ∃ R, getGlobalPath ⟨Real.sqrt, line2f.Intersects, fun _ _ => none,
          line2f.UnitNormal Real.sqrt⟩ fuel
        (initializeMap ⟨Real.sqrt, line2f.Intersects, fun _ _ => none,
          line2f.UnitNormal Real.sqrt⟩ (blankPlanner [] 1) ⟨0, 0⟩) ⟨3, 0⟩ = some R ∧
        ParentsLeadToStart R.1.nav_map_ :=
  ⟨by norm_num [blankPlanner],
    (C4_parent_links_reach_START line2f.Intersects (fun _ _ => none)
      (line2f.UnitNormal Real.sqrt) (blankPlanner [] 1) ⟨0, 0⟩ ⟨3, 0⟩
      (by norm_num [blankPlanner])).2.2⟩

end Nav

namespace Nav

variable {K : Type} [LinearOrderedField K] [FloorRing K]

/-- When `START` has no valid neighbour and fails the goal test, the search drains the
frontier and reports failure. -/
theorem searchLoop_boxed (G : Geometry K) (P : GlobalPlanner K) (loc goal : Vector2f K)
    (hn : (NavMap.get (initializeMap G P loc).nav_map_ "START").neighbors = [])
    (hg : ¬ ((goal.sub loc).norm G.sqrt < 71 / 100 * P.map_resolution_)) (n : Nat) :
    (searchLoop G goal (n + 2) "" { initializeMap G P loc with nav_goal_ := goal }
      ).global_path_success = false := by
  have hn' : getNeighbors G P.map_ P.map_resolution_
      { Node.blank with loc := loc,
                        index := ⟨toInt (loc.x / P.map_resolution_),
                                  toInt (loc.y / P.map_resolution_)⟩,
                        cost := 0, social_cost := 0, social_type := 'n',
                        parent := "START", key := "START" } = [] := by
    simpa [initializeMap, NavMap.get, NavMap.set, NavMap.find?] using hn
  simp [searchLoop, initializeMap, Frontier.Pop, Frontier.minEntry, Frontier.Push,
    Frontier.Empty, NavMap.get, NavMap.find?, NavMap.set, hn', hg]

theorem getGlobalPath_failure (G : Geometry K) (P : GlobalPlanner K) (goal : Vector2f K)
    (fuel : Nat)
    (h : (searchLoop G goal iterationCap "" { P with nav_goal_ := goal }
      ).global_path_success = false) :
    ∃ R, getGlobalPath G fuel P goal = some R ∧ R.1.global_path_ = ["START"] := by
  unfold getGlobalPath
  simp only [h]
  exact ⟨_, rfl, rfl⟩

theorem getGlobalPath_iff (G : Geometry K) (P : GlobalPlanner K) (goal : Vector2f K)
    (fuel : Nat) (R : GlobalPlanner K × Option K) (hR : getGlobalPath G fuel P goal = some R) :
    R.1.global_path_ = ["START"] ↔
      (searchLoop G goal iterationCap "" { P with nav_goal_ := goal }
        ).global_path_success = false := by
  unfold getGlobalPath at hR
  simp only at hR
  split_ifs at hR with hsucc
  · split at hR
    · cases hR
    · rename_i gp tot hb
      cases hR
      have hno := backtrace_no_START G _ fuel _ [] 0 (gp, tot) hb (by simp)
      simp only [hsucc]
      constructor
      · intro h
        exfalso
        apply hno
        have : "START" ∈ gp.reverse := by
          rw [h]; simp
        exact List.mem_reverse.mp this
      · intro h
        cases h
  · cases hR
    simp only [Bool.not_eq_true] at hsucc
    simp [hsucc]

end Nav

namespace Nav

variable {K : Type} [LinearOrderedField K] [FloorRing K]

theorem foldl_or_true {α : Type} (f : α → Bool) (l : List α) :
    l.foldl (fun acc e => acc || f e) true = true := by
  induction l with
  | nil => rfl
  | cons a rest ih => simpa using ih

/-- A candidate whose tested edge hits a map segment is rejected. -/
theorem isValidNeighbor_false_of_edge_hit (G : Geometry K) (map_ : List (line2f K)) (res : K)
    (node : Node K) (nb : Neighbor K)
    (h : (map_.any fun l => G.Intersects l (neighborEdge res node nb)) = true) :
    isValidNeighbor G map_ res node nb = false := by
  unfold isValidNeighbor
  simp only
  split_ifs with hadj
  swap
  · rfl
  · obtain ⟨l, hl, hhit⟩ := List.any_eq_true.mp h
    simp only [Bool.not_eq_false', List.any_eq_true]
    refine ⟨l, hl, ?_⟩
    rw [hhit]
    exact foldl_or_true _ _

theorem box_start_neighbors (pt : line2f ℝ → line2f ℝ → Vector2f ℝ) :
    (NavMap.get (initializeMap (specGeometry Real.sqrt pt) (blankPlanner (boxWalls 1) 1)
      ⟨0, 0⟩).nav_map_ "START").neighbors = [] := by
  have h0 : toInt ((0 : ℝ) / 1) = 0 := by simp [toInt]
  simp only [initializeMap, blankPlanner, NavMap.get, NavMap.set, NavMap.find?, if_true,
    Option.getD_some, h0, getNeighbors, candidateNeighbors, List.filter_eq_nil_iff]
  intro nb hnb
  simp only [List.mem_cons, List.mem_singleton, List.not_mem_nil, or_false] at hnb
  rw [Bool.not_eq_true]
  apply isValidNeighbor_false_of_edge_hit
  rcases hnb with h | h | h | h | h | h | h | h <;> subst h <;>
    simp only [neighborEdge, boxWalls, specGeometry, Node.blank, Vector2f.add,
      List.any_cons, List.any_nil, Bool.or_false, Bool.or_eq_true] <;>
    norm_num [line2f.Intersects, Cross, Vector2f.sub]

end Nav
namespace Nav

variable {K : Type} [LinearOrderedField K] [FloorRing K]

/-! ## The failure of the search in terms of its iterations -/

theorem loopState_shift (G : Geometry K) (goal : Vector2f K) (P : GlobalPlanner K) :
    ∀ j, loopState G goal P (j + 1) = loopState G goal (loopState G goal P 1) j := by
  intro j
  induction j with
  | zero => rfl
  | succ j ih =>
    show midIteration G goal (loopState G goal P (j + 1))
      (NavMap.get (loopState G goal P (j + 1)).nav_map_
        (Frontier.Pop (loopState G goal P (j + 1)).frontier_).1).neighbors = _
    rw [ih]
    rfl

/-- The search loop reports failure exactly when it runs some number `j` of iterations, each
entered with a non-empty frontier and none popping a node that passes the goal test, and then
finds the frontier empty or has no iteration left. -/
theorem searchLoop_failed_iff (G : Geometry K) (goal : Vector2f K) :
    ∀ (n : Nat) (key : String) (P : GlobalPlanner K),
      (searchLoop G goal n key P).global_path_success = false ↔
        ∃ j, j ≤ n ∧
          (∀ i, i < j → (loopState G goal P i).frontier_.Empty = false ∧
            ¬ popsGoal G goal (loopState G goal P i)) ∧
          ((loopState G goal P j).frontier_.Empty = true ∨ j = n) := by
  intro n
  induction n with
  | zero =>
    intro key P
    constructor
    · intro _
      exact ⟨0, le_refl _, fun i hi => absurd hi (Nat.not_lt_zero i), Or.inr rfl⟩
    · intro _
      rfl
  | succ n ih =>
    intro key P
    by_cases hE : P.frontier_.Empty = true
    · have hl : searchLoop G goal (n + 1) key P = ⟨false, key, P⟩ := by
        rw [searchLoop]
        simp only [hE, if_true]
      rw [hl]
      constructor
      · intro _
        exact ⟨0, Nat.zero_le _, fun i hi => absurd hi (Nat.not_lt_zero i), Or.inl hE⟩
      · intro _
        rfl
    · have hE' : P.frontier_.Empty = false := by simpa using hE
      by_cases hg : popsGoal G goal P
      · have hl : searchLoop G goal (n + 1) key P =
            ⟨true, (Frontier.Pop P.frontier_).1,
              { P with frontier_ := (Frontier.Pop P.frontier_).2 }⟩ := by
          rw [searchLoop]
          simp only [hE', Bool.false_eq_true, if_false]
          exact if_pos hg
        rw [hl]
        constructor
        · intro h
          cases h
        · rintro ⟨j, hj, hall, hend⟩
          exfalso
          cases j with
          | zero =>
            rcases hend with h | h
            · exact hE h
            · exact absurd h (by omega)
          | succ j => exact (hall 0 (Nat.succ_pos j)).2 hg
      · have hl : searchLoop G goal (n + 1) key P =
            searchLoop G goal n (Frontier.Pop P.frontier_).1 (loopState G goal P 1) := by
          rw [searchLoop]
          simp only [hE', Bool.false_eq_true, if_false]
          exact if_neg hg
        rw [hl, ih]
        constructor
        · rintro ⟨j, hj, hall, hend⟩
          refine ⟨j + 1, Nat.succ_le_succ hj, ?_, ?_⟩
          · intro i hi
            cases i with
            | zero => exact ⟨hE', hg⟩
            | succ i =>
              rw [loopState_shift]
              exact hall i (by omega)
          · rw [loopState_shift]
            rcases hend with h | h
            · exact Or.inl h
            · exact Or.inr (by omega)
        · rintro ⟨j, hj, hall, hend⟩
          cases j with
          | zero =>
            exfalso
            rcases hend with h | h
            · exact hE h
            · exact absurd h (by omega)
          | succ j =>
            refine ⟨j, by omega, ?_, ?_⟩
            · intro i hi
              have h := hall (i + 1) (by omega)
              rw [loopState_shift] at h
              exact h
            · rw [loopState_shift] at hend
              rcases hend with h | h
              · exact Or.inl h
              · exact Or.inr (by omega)

/-- The search fails, in the words of `SearchFailed`, exactly when the search loop ends
without success. -/
theorem searchFailed_iff (G : Geometry K) (goal : Vector2f K) (P : GlobalPlanner K) :
    SearchFailed G goal P ↔
      (searchLoop G goal iterationCap "" P).global_path_success = false :=
  (searchLoop_failed_iff G goal iterationCap "" P).symm

/-- A start that passes the goal test itself: the search succeeds at the first pop and the
backtrace, which starts at `START`, records no key. -/
theorem getGlobalPath_goal_at_start (G : Geometry K) (P : GlobalPlanner K)
    (loc goal : Vector2f K) (fuel : Nat)
    (hg : (goal.sub loc).norm G.sqrt < 71 / 100 * P.map_resolution_) :
    ∃ R, getGlobalPath G fuel (initializeMap G P loc) goal = some R ∧
      R.1.global_path_ = [] := by
  obtain ⟨s0, hm, _, _, hl, _, _, _⟩ := initializeMap_nav_map G P loc
  have hfind : NavMap.find? ({ initializeMap G P loc with nav_goal_ := goal } :
      GlobalPlanner K).nav_map_ "START" = some s0 := by
    show NavMap.find? (initializeMap G P loc).nav_map_ "START" = some s0
    rw [hm]
    simp [NavMap.find?]
  have hpop : Frontier.Pop ({ initializeMap G P loc with nav_goal_ := goal } :
      GlobalPlanner K).frontier_ = ("START", []) := by
    show Frontier.Pop (Frontier.Push [] "START" 0) = ("START", [])
    simp [Frontier.Pop, Frontier.Push, Frontier.minEntry]
  have hne : ({ initializeMap G P loc with nav_goal_ := goal } :
      GlobalPlanner K).frontier_ ≠ [] := by
    show Frontier.Push [] "START" 0 ≠ []
    simp [Frontier.Push]
  have hrun := searchLoop_goal G goal 999999 "" { initializeMap G P loc with nav_goal_ := goal }
    "START" [] s0 hne hpop hfind (by rw [hl]; exact hg)
  have hcap : iterationCap = 999999 + 1 := rfl
  unfold getGlobalPath
  simp only [hcap, hrun, if_true]
  unfold backtrace
  simp only [if_true]
  exact ⟨_, rfl, rfl⟩

end Nav

namespace Nav

/-- C3, the case in which the last clause fails: a start at the origin boxed in by four
walls at distance 1 (resolution 1), so that every neighbour of `START` is rejected, with the
goal at the start itself. The search pops `START`, which passes the goal test, and the
resulting path is empty, not `["START"]`. -/
theorem C3_counterexample :
    (NavMap.get (initializeMap (specGeometry Real.sqrt fun _ m => m.p0)
      (blankPlanner (boxWalls 1) 1) ⟨0, 0⟩).nav_map_ "START").neighbors = [] ∧
    ∀ fuel, ∃ R, getGlobalPath (specGeometry Real.sqrt fun _ m => m.p0) fuel
      (initializeMap (specGeometry Real.sqrt fun _ m => m.p0)
        (blankPlanner (boxWalls 1) 1) ⟨0, 0⟩) ⟨0, 0⟩ = some R ∧
      R.1.global_path_ = [] ∧ R.1.global_path_ ≠ ["START"] := by
  refine ⟨box_start_neighbors _, fun fuel => ?_⟩
  obtain ⟨R, hR, hp⟩ := getGlobalPath_goal_at_start (specGeometry Real.sqrt fun _ m => m.p0)
    (blankPlanner (boxWalls 1) (1 : ℝ)) ⟨0, 0⟩ ⟨0, 0⟩ fuel (by
      norm_num [Vector2f.norm, Vector2f.sub, specGeometry, blankPlanner])
  exact ⟨R, hR, hp, by rw [hp]; simp⟩

/-- C3: for a run of `getGlobalPath` from the state left by `initializeMap` (positive
resolution) a result exists, and `global_path_` is exactly `["START"]` if and only if the
search failed: the loop ran some number of iterations, each entered with a non-empty
frontier and none popping a node within 0.71 resolutions of the goal, and then ended because
the frontier was drained or the cap of 10^6 iterations was reached. When `START` has no valid
neighbour and is itself not within 0.71 resolutions of the goal, the search fails after one
iteration and the result is `["START"]`; this is the case for a start at the origin boxed in
by four walls at distance 1 (resolution 1) and the goal (3,0). When `START` is within 0.71
resolutions of the goal, the result is the empty path. -/
theorem C3_path_is_START_iff_search_failed (I : line2f ℝ → line2f ℝ → Bool)
    (X : line2f ℝ → line2f ℝ → Option (Vector2f ℝ)) (U : line2f ℝ → Vector2f ℝ)
    (P : GlobalPlanner ℝ) (loc goal : Vector2f ℝ) (hres : 0 < P.map_resolution_) :
    (∃ fuel0, ∀ fuel, fuel0 ≤ fuel →
      ∃ R, getGlobalPath ⟨Real.sqrt, I, X, U⟩ fuel
        (initializeMap ⟨Real.sqrt, I, X, U⟩ P loc) goal = some R) ∧
    (∀ fuel R, getGlobalPath ⟨Real.sqrt, I, X, U⟩ fuel
        (initializeMap ⟨Real.sqrt, I, X, U⟩ P loc) goal = some R →
      (R.1.global_path_ = ["START"] ↔
        SearchFailed ⟨Real.sqrt, I, X, U⟩ goal
          { initializeMap ⟨Real.sqrt, I, X, U⟩ P loc with nav_goal_ := goal })) ∧
    ((NavMap.get (initializeMap ⟨Real.sqrt, I, X, U⟩ P loc).nav_map_ "START").neighbors = [] →
      ¬ ((goal.sub loc).norm Real.sqrt < 71 / 100 * P.map_resolution_) →
      SearchFailed ⟨Real.sqrt, I, X, U⟩ goal
        { initializeMap ⟨Real.sqrt, I, X, U⟩ P loc with nav_goal_ := goal } ∧
      ∀ fuel, ∃ R, getGlobalPath ⟨Real.sqrt, I, X, U⟩ fuel
        (initializeMap ⟨Real.sqrt, I, X, U⟩ P loc) goal = some R ∧
        R.1.global_path_ = ["START"]) ∧
    ((goal.sub loc).norm Real.sqrt < 71 / 100 * P.map_resolution_ →
      ¬ SearchFailed ⟨Real.sqrt, I, X, U⟩ goal
        { initializeMap ⟨Real.sqrt, I, X, U⟩ P loc with nav_goal_ := goal } ∧
      ∀ fuel, ∃ R, getGlobalPath ⟨Real.sqrt, I, X, U⟩ fuel
        (initializeMap ⟨Real.sqrt, I, X, U⟩ P loc) goal = some R ∧
        R.1.global_path_ = []) ∧
    (∀ (pt : line2f ℝ → line2f ℝ → Vector2f ℝ) (fuel : Nat),
      ∃ R, getGlobalPath (specGeometry Real.sqrt pt) fuel
        (initializeMap (specGeometry Real.sqrt pt) (blankPlanner (boxWalls 1) 1) ⟨0, 0⟩)
        ⟨3, 0⟩ = some R ∧ R.1.global_path_ = ["START"]) := by
  have hiff : ∀ fuel R, getGlobalPath ⟨Real.sqrt, I, X, U⟩ fuel
        (initializeMap ⟨Real.sqrt, I, X, U⟩ P loc) goal = some R →
      (R.1.global_path_ = ["START"] ↔
        SearchFailed ⟨Real.sqrt, I, X, U⟩ goal
          { initializeMap ⟨Real.sqrt, I, X, U⟩ P loc with nav_goal_ := goal }) := by
    intro fuel R hR
    rw [searchFailed_iff]
    exact getGlobalPath_iff _ _ _ fuel R hR
  refine ⟨⟨_, getGlobalPath_returns ⟨Real.sqrt, I, X, U⟩ (real_sqrt_pos I X U) P loc goal hres⟩,
    hiff, ?_, ?_, ?_⟩
  · intro hn hg
    have hfail := searchLoop_boxed ⟨Real.sqrt, I, X, U⟩ P loc goal hn hg 999998
    exact ⟨(searchFailed_iff _ _ _).mpr hfail,
      fun fuel => getGlobalPath_failure _ _ _ fuel hfail⟩
  · intro hg
    have hrun := fun fuel =>
      getGlobalPath_goal_at_start ⟨Real.sqrt, I, X, U⟩ P loc goal fuel hg
    refine ⟨?_, hrun⟩
    intro hf
    obtain ⟨R, hR, hp⟩ := hrun 0
    have h := (hiff 0 R hR).mpr hf
    rw [hp] at h
    exact absurd h (by simp)
  · intro pt fuel
    apply getGlobalPath_failure
    apply searchLoop_boxed (specGeometry Real.sqrt pt) (blankPlanner (boxWalls 1) 1) ⟨0, 0⟩
      ⟨3, 0⟩ (box_start_neighbors pt) _ 999998
    have h9 : Real.sqrt 9 = 3 := by
      rw [show (9 : ℝ) = 3 ^ 2 by norm_num]
      exact Real.sqrt_sq (by norm_num)
    norm_num [Vector2f.norm, Vector2f.sub, specGeometry, blankPlanner, h9]

/-- C3 at a concrete input, the empty map with resolution 1 from (0,0) to (3,0): the search
does not fail, and the path is not `["START"]`. -/
theorem C3_witness :
    (0 : ℝ) < (blankPlanner ([] : List (line2f ℝ)) 1).map_resolution_ ∧
    ¬ SearchFailed ⟨Real.sqrt, line2f.Intersects, fun _ _ => none,
        line2f.UnitNormal Real.sqrt⟩ ⟨3, 0⟩
      { initializeMap ⟨Real.sqrt, line2f.Intersects, fun _ _ => none,
          line2f.UnitNormal Real.sqrt⟩ (blankPlanner [] (1 : ℝ)) ⟨0, 0⟩ with
        nav_goal_ := ⟨3, 0⟩ } ∧
    ∃ P1 : GlobalPlanner ℝ, getGlobalPath ⟨Real.sqrt, line2f.Intersects, fun _ _ => none,
          line2f.UnitNormal Real.sqrt⟩ 3
        (initializeMap ⟨Real.sqrt, line2f.Intersects, fun _ _ => none,
          line2f.UnitNormal Real.sqrt⟩ (blankPlanner [] 1) ⟨0, 0⟩) ⟨3, 0⟩ = some (P1, some 3) ∧
      P1.global_path_ = ["1_0", "2_0", "3_0"] := by
  obtain ⟨P1, hR, hp⟩ := getGlobalPath_emptyMap ⟨Real.sqrt, line2f.Intersects, fun _ _ => none,
    line2f.UnitNormal Real.sqrt⟩ rfl 0
  have h := (C3_path_is_START_iff_search_failed line2f.Intersects (fun _ _ => none)
    (line2f.UnitNormal Real.sqrt) (blankPlanner [] 1) ⟨0, 0⟩ ⟨3, 0⟩
    (by norm_num [blankPlanner])).2.1 3 (P1, some 3) hR
  refine ⟨by norm_num [blankPlanner], ?_, P1, hR, hp⟩
  intro hf
  have h1 := h.mpr hf
  rw [show (P1, some (3 : ℝ)).1.global_path_ = P1.global_path_ from rfl, hp] at h1
  exact absurd h1 (by decide)

end Nav

namespace Nav

variable {K : Type} [LinearOrderedField K] [FloorRing K]

/-! ## Replanning -/

theorem searchLoop_sameConfig (G : Geometry K) (goal : Vector2f K) (n : Nat) (cur : String)
    (P : GlobalPlanner K) : SameConfig P (searchLoop G goal n cur P).planner := by
  induction n generalizing cur P with
  | zero => exact SameConfig.refl P
  | succ n ih =>
    unfold searchLoop
    simp only
    split_ifs with h1 h2
    · exact SameConfig.refl P
    · exact ⟨rfl, rfl, rfl, rfl, rfl⟩
    · have hP1 : SameConfig P { P with frontier_ := (Frontier.Pop P.frontier_).2 } :=
        ⟨rfl, rfl, rfl, rfl, rfl⟩
      exact SameConfig.trans (SameConfig.trans hP1
        (foldl_expandNeighbor_sameConfig G goal _ _ _)) (ih _ _)

/-- The planner that `getGlobalPath` returns is the planner at the end of the search loop
with a new `global_path_`. -/
theorem getGlobalPath_planner (G : Geometry K) (fuel : Nat) (P : GlobalPlanner K)
    (goal : Vector2f K) (R : GlobalPlanner K × Option K)
    (hR : getGlobalPath G fuel P goal = some R) :
    R.1.nav_map_ = (searchState G P goal iterationCap).nav_map_ ∧
    R.1.map_ = P.map_ ∧ R.1.map_resolution_ = P.map_resolution_ ∧
    R.1.failed_locs_ = P.failed_locs_ := by
  have hc := searchLoop_sameConfig G goal iterationCap "" { P with nav_goal_ := goal }
  unfold getGlobalPath at hR
  simp only at hR
  split_ifs at hR with hsucc
  · split at hR
    · cases hR
    · cases hR
      exact ⟨rfl, hc.1, hc.2.1, hc.2.2.1⟩
  · cases hR
    exact ⟨rfl, hc.1, hc.2.1, hc.2.2.1⟩

theorem replan_spec (G : Geometry K) (fuel : Nat) (P P' : GlobalPlanner K)
    (robot_loc failed_target_loc : Vector2f K)
    (h : replan G fuel P robot_loc failed_target_loc = some P') :
    P'.failed_locs_ =
      (if (robot_loc.sub failed_target_loc).norm G.sqrt > (141 / 100) * P.map_resolution_ then
        P.failed_locs_ ++ [failed_target_loc]
      else P.failed_locs_) ∧
    P'.map_resolution_ = P.map_resolution_ ∧ P'.map_ = P.map_ ∧ DeadEnded G P' ∧
    ∃ P1 : GlobalPlanner K, P1.map_ = P.map_ ∧ P1.map_resolution_ = P.map_resolution_ ∧
      P'.nav_map_ = (searchState G (initializeMap G P1 robot_loc) P.nav_goal_
        iterationCap).nav_map_ := by
  unfold replan at h
  simp only at h
  split at h
  · cases h
  · rename_i R hR
    cases h
    obtain ⟨hm, hmap, hres, hfl⟩ := getGlobalPath_planner G fuel _ _ R hR
    have hD := searchLoop_deadEnded G
      (initializeMap G (if (robot_loc.sub failed_target_loc).norm G.sqrt >
          (141 / 100) * P.map_resolution_ then
        { P with failed_locs_ := P.failed_locs_ ++ [failed_target_loc] } else P)
        robot_loc).nav_goal_ iterationCap ""
      { initializeMap G (if (robot_loc.sub failed_target_loc).norm G.sqrt >
          (141 / 100) * P.map_resolution_ then
        { P with failed_locs_ := P.failed_locs_ ++ [failed_target_loc] } else P)
        robot_loc with nav_goal_ := (initializeMap G (if (robot_loc.sub failed_target_loc).norm
          G.sqrt > (141 / 100) * P.map_resolution_ then
        { P with failed_locs_ := P.failed_locs_ ++ [failed_target_loc] } else P)
        robot_loc).nav_goal_ } (initializeMap_deadEnded G _ robot_loc)
    have hc := searchLoop_sameConfig G
      (initializeMap G (if (robot_loc.sub failed_target_loc).norm G.sqrt >
          (141 / 100) * P.map_resolution_ then
        { P with failed_locs_ := P.failed_locs_ ++ [failed_target_loc] } else P)
        robot_loc).nav_goal_ iterationCap ""
      { initializeMap G (if (robot_loc.sub failed_target_loc).norm G.sqrt >
          (141 / 100) * P.map_resolution_ then
        { P with failed_locs_ := P.failed_locs_ ++ [failed_target_loc] } else P)
        robot_loc with nav_goal_ := (initializeMap G (if (robot_loc.sub failed_target_loc).norm
          G.sqrt > (141 / 100) * P.map_resolution_ then
        { P with failed_locs_ := P.failed_locs_ ++ [failed_target_loc] } else P)
        robot_loc).nav_goal_ }
    refine ⟨?_, ?_, ?_, ?_, ?_⟩
    · show R.1.failed_locs_ = _
      rw [hfl]
      split_ifs <;> rfl
    · show R.1.map_resolution_ = _
      rw [hres]
      split_ifs <;> rfl
    · show R.1.map_ = _
      rw [hmap]
      split_ifs <;> rfl
    · intro k n hn hne f hf hd
      have hn' : NavMap.find? R.1.nav_map_ k = some n := hn
      have hf' : f ∈ R.1.failed_locs_ := hf
      have hd' : (n.loc.sub f).norm G.sqrt < 3 * R.1.map_resolution_ := hd
      rw [hm] at hn'
      rw [hfl, ← hc.2.2.1] at hf'
      rw [hres, ← hc.2.1] at hd'
      exact hD k n hn' hne f hf' hd'
    · refine ⟨if (robot_loc.sub failed_target_loc).norm G.sqrt >
          (141 / 100) * P.map_resolution_ then
        { P with failed_locs_ := P.failed_locs_ ++ [failed_target_loc] } else P, ?_, ?_, ?_⟩
      · split_ifs <;> rfl
      · split_ifs <;> rfl
      · show R.1.nav_map_ = _
        rw [hm]
        have : (initializeMap G (if (robot_loc.sub failed_target_loc).norm G.sqrt >
            (141 / 100) * P.map_resolution_ then
          { P with failed_locs_ := P.failed_locs_ ++ [failed_target_loc] } else P)
          robot_loc).nav_goal_ = P.nav_goal_ := by
          split_ifs <;> rfl
        rw [this]

theorem replan_returns (G : Geometry ℝ) (hs : ∀ x : ℝ, 0 < x → 0 < G.sqrt x)
    (P : GlobalPlanner ℝ) (robot_loc failed_target_loc : Vector2f ℝ)
    (hres : 0 < P.map_resolution_) :
    ∃ fuel0, ∀ fuel, fuel0 ≤ fuel →
      ∃ P', replan G fuel P robot_loc failed_target_loc = some P' := by
  by_cases hc : (robot_loc.sub failed_target_loc).norm G.sqrt > (141 / 100) * P.map_resolution_
  · obtain ⟨f0, hf0⟩ : ∃ f0, ∀ fuel, f0 ≤ fuel → ∃ R, getGlobalPath G fuel
        (initializeMap G { P with failed_locs_ := P.failed_locs_ ++ [failed_target_loc] }
          robot_loc) P.nav_goal_ = some R :=
      ⟨_, getGlobalPath_returns G hs
        { P with failed_locs_ := P.failed_locs_ ++ [failed_target_loc] } robot_loc
        P.nav_goal_ hres⟩
    refine ⟨f0, fun fuel hfuel => ?_⟩
    obtain ⟨R, hR⟩ := hf0 fuel hfuel
    unfold replan
    simp only [hc, if_true]
    have : (initializeMap G { P with failed_locs_ := P.failed_locs_ ++ [failed_target_loc] }
        robot_loc).nav_goal_ = P.nav_goal_ := rfl
    rw [this, hR]
    exact ⟨_, rfl⟩
  · obtain ⟨f0, hf0⟩ : ∃ f0, ∀ fuel, f0 ≤ fuel → ∃ R, getGlobalPath G fuel
        (initializeMap G P robot_loc) P.nav_goal_ = some R :=
      ⟨_, getGlobalPath_returns G hs P robot_loc P.nav_goal_ hres⟩
    refine ⟨f0, fun fuel hfuel => ?_⟩
    obtain ⟨R, hR⟩ := hf0 fuel hfuel
    unfold replan
    simp only [hc, if_false]
    have : (initializeMap G P robot_loc).nav_goal_ = P.nav_goal_ := rfl
    rw [this, hR]
    exact ⟨_, rfl⟩

end Nav

namespace Nav

/-- On the empty map every one of the eight candidates of a node is a valid neighbour. -/
theorem getNeighbors_empty_map_length (G : Geometry ℝ) (res : ℝ) (node : Node ℝ) :
    (getNeighbors G [] res node).length = 8 := by
  have h1 : ∀ x : Int, |x - (x - 1)| = 1 := fun x => by simp
  have h2 : ∀ x : Int, |x - (x + 1)| = 1 := fun x => by simp
  simp [getNeighbors, candidateNeighbors, isValidNeighbor, h1, h2]

/-- C5, counterexample: after `replan` from (0,0) with the failed target (2,0) (empty map,
resolution 1, goal (5,0)), the failed location is in `failed_locs_` and the node `START` of
the rebuilt map lies at distance 2 < 3 from it, yet its neighbour list is not empty. -/
theorem C5_counterexample :
    ∃ (fuel : Nat) (P' : GlobalPlanner ℝ) (n : Node ℝ),
      replan ⟨Real.sqrt, line2f.Intersects, fun _ _ => none, line2f.UnitNormal Real.sqrt⟩ fuel
        { blankPlanner [] 1 with nav_goal_ := ⟨5, 0⟩ } ⟨0, 0⟩ ⟨2, 0⟩ = some P' ∧
      (⟨2, 0⟩ : Vector2f ℝ) ∈ P'.failed_locs_ ∧
      NavMap.find? P'.nav_map_ "START" = some n ∧
      (n.loc.sub ⟨2, 0⟩).norm Real.sqrt < 3 * P'.map_resolution_ ∧
      n.neighbors.length = 8 := by
  have hs := real_sqrt_pos line2f.Intersects (fun _ _ => none) (line2f.UnitNormal Real.sqrt)
  have hres : (0 : ℝ) < ({ blankPlanner [] 1 with nav_goal_ := ⟨5, 0⟩ } :
      GlobalPlanner ℝ).map_resolution_ := by norm_num [blankPlanner]
  obtain ⟨fuel0, hf⟩ := replan_returns _ hs { blankPlanner [] 1 with nav_goal_ := ⟨5, 0⟩ }
    ⟨0, 0⟩ ⟨2, 0⟩ hres
  obtain ⟨P', hP'⟩ := hf fuel0 (le_refl _)
  obtain ⟨hfl, hr, hmap, _, P1, hP1m, hP1r, hnav⟩ := replan_spec _ _ _ _ _ _ hP'
  have hres1 : 0 < P1.map_resolution_ := by rw [hP1r]; exact hres
  obtain ⟨s0, hInv, hF, hS, hloc, hnb⟩ := initializeMap_inv _ hs P1 ⟨0, 0⟩ hres1
  have hloop := searchLoop_inv _ hs (⟨5, 0⟩ : Vector2f ℝ) s0 iterationCap ""
    { initializeMap _ P1 ⟨0, 0⟩ with nav_goal_ := ⟨5, 0⟩ } hres1 hInv hF
  have h4 : Real.sqrt 4 = 2 := by
    rw [show (4 : ℝ) = 2 ^ 2 by norm_num]
    exact Real.sqrt_sq (by norm_num)
  refine ⟨fuel0, P', s0, hP', ?_, ?_, ?_, ?_⟩
  · rw [hfl]
    norm_num [Vector2f.norm, Vector2f.sub, blankPlanner, h4]
  · rw [hnav]
    exact hloop.1.1
  · rw [hr, hloc]
    norm_num [Vector2f.norm, Vector2f.sub, blankPlanner, h4]
  · rw [hnb, hP1m]
    exact getNeighbors_empty_map_length _ _ _

/-- C5, amended: after `replan` every node of the rebuilt `nav_map_` other than `START`
that lies at distance less than three resolutions from a location in `failed_locs_` has an
empty neighbour list. -/
theorem C5_dead_ends_except_START (I : line2f ℝ → line2f ℝ → Bool)
    (X : line2f ℝ → line2f ℝ → Option (Vector2f ℝ)) (U : line2f ℝ → Vector2f ℝ)
    (fuel : Nat) (P P' : GlobalPlanner ℝ) (robot_loc failed_target_loc : Vector2f ℝ)
    (h : replan ⟨Real.sqrt, I, X, U⟩ fuel P robot_loc failed_target_loc = some P') :
    ∀ k n, NavMap.find? P'.nav_map_ k = some n → k ≠ "START" →
      ∀ f ∈ P'.failed_locs_, (n.loc.sub f).norm Real.sqrt < 3 * P'.map_resolution_ →
        n.neighbors = [] :=
  (replan_spec _ fuel P P' robot_loc failed_target_loc h).2.2.2.1

/-- C5 at a concrete input: `replan` from (0,0) with the failed target (2,0) on the empty
map with resolution 1 and goal (5,0). -/
theorem C5_witness :
    ∃ (fuel : Nat) (P' : GlobalPlanner ℝ),
      replan ⟨Real.sqrt, line2f.Intersects, fun _ _ => none, line2f.UnitNormal Real.sqrt⟩ fuel
        { blankPlanner [] 1 with nav_goal_ := ⟨5, 0⟩ } ⟨0, 0⟩ ⟨2, 0⟩ = some P' ∧
      ∀ k n, NavMap.find? P'.nav_map_ k = some n → k ≠ "START" →
        ∀ f ∈ P'.failed_locs_, (n.loc.sub f).norm Real.sqrt < 3 * P'.map_resolution_ →
          n.neighbors = [] := by
  obtain ⟨fuel0, hf⟩ := replan_returns _
    (real_sqrt_pos line2f.Intersects (fun _ _ => none) (line2f.UnitNormal Real.sqrt))
    { blankPlanner [] 1 with nav_goal_ := ⟨5, 0⟩ } ⟨0, 0⟩ ⟨2, 0⟩ (by norm_num [blankPlanner])
  obtain ⟨P', hP'⟩ := hf fuel0 (le_refl _)
  exact ⟨fuel0, P', hP',
    C5_dead_ends_except_START line2f.Intersects (fun _ _ => none)
      (line2f.UnitNormal Real.sqrt) fuel0 _ P' ⟨0, 0⟩ ⟨2, 0⟩ hP'⟩

/-- C6, the code at the failing input: with resolution 1, `replan` from (0,0) with the
failed target (1,1), at distance exactly `sqrt 2` times the resolution, appends the target
to `failed_locs_`: the code compares with 1.41, which is below `sqrt 2`. -/
theorem C6_replan_appends_diagonal_neighbour :
    ((⟨0, 0⟩ : Vector2f ℝ).sub ⟨1, 1⟩).norm Real.sqrt = Real.sqrt 2 * 1 ∧
    ∃ (fuel : Nat) (P' : GlobalPlanner ℝ),
      replan ⟨Real.sqrt, line2f.Intersects, fun _ _ => none, line2f.UnitNormal Real.sqrt⟩ fuel
        (blankPlanner [] 1) ⟨0, 0⟩ ⟨1, 1⟩ = some P' ∧
      P'.failed_locs_ = [⟨1, 1⟩] := by
  have h2 : ((⟨0, 0⟩ : Vector2f ℝ).sub ⟨1, 1⟩).norm Real.sqrt = Real.sqrt 2 := by
    norm_num [Vector2f.norm, Vector2f.sub]
  have hlt : (141 / 100 : ℝ) < Real.sqrt 2 := by
    rw [Real.lt_sqrt (by norm_num)]
    norm_num
  refine ⟨by rw [h2, mul_one], ?_⟩
  obtain ⟨fuel0, hf⟩ := replan_returns _
    (real_sqrt_pos line2f.Intersects (fun _ _ => none) (line2f.UnitNormal Real.sqrt))
    (blankPlanner [] 1) ⟨0, 0⟩ ⟨1, 1⟩ (by norm_num [blankPlanner])
  obtain ⟨P', hP'⟩ := hf fuel0 (le_refl _)
  refine ⟨fuel0, P', hP', ?_⟩
  rw [(replan_spec _ _ _ _ _ _ hP').1]
  have hres : (blankPlanner ([] : List (line2f ℝ)) (1 : ℝ)).map_resolution_ = 1 := rfl
  have hfl : (blankPlanner ([] : List (line2f ℝ)) (1 : ℝ)).failed_locs_ = [] := rfl
  rw [hres, hfl]
  show (if ((⟨0, 0⟩ : Vector2f ℝ).sub ⟨1, 1⟩).norm Real.sqrt > 141 / 100 * 1 then _ else _) = _
  rw [h2, mul_one, if_pos hlt]
  rfl

end Nav

namespace Nav

variable {K : Type} [LinearOrderedField K] [FloorRing K]

/-! ## Target-node selection -/

/-- The forward scan either finds no node outside the circle (index 0) or returns the path
node at the index it reports. -/
theorem forwardScan_spec (G : Geometry K) (m : NavMap K) (robot_loc : Vector2f K) (rad : K)
    (l : List String) (i : Nat) (tn : Node K) :
    (forwardScan G m robot_loc rad l i tn).2 = 0 ∨
    (i ≤ (forwardScan G m robot_loc rad l i tn).2 ∧
      (forwardScan G m robot_loc rad l i tn).1 =
        NavMap.get m (l.getD ((forwardScan G m robot_loc rad l i tn).2 - i) "")) := by
  induction l generalizing i tn with
  | nil => left; rfl
  | cons key rest ih =>
    unfold forwardScan
    simp only
    split_ifs with h
    · right
      simp
    · rcases ih (i + 1) (NavMap.get m key) with h0 | ⟨h1, h2⟩
      · left; exact h0
      · right
        refine ⟨by omega, ?_⟩
        rw [h2]
        obtain ⟨d, hd⟩ : ∃ d, (forwardScan G m robot_loc rad rest (i + 1) (NavMap.get m key)).2
            = i + 1 + d := ⟨_, (Nat.add_sub_cancel' h1).symm⟩
        rw [hd]
        have e1 : i + 1 + d - (i + 1) = d := by omega
        have e2 : i + 1 + d - i = d + 1 := by omega
        rw [e1, e2]
        simp

/-- When the backward walk from `ti` meets only blocked nodes down to an index `i` below
`closest_index + 4`, it sets `need_replan_` and returns the node it was entered with. -/
theorem backwardScan_blocked (G : Geometry K) (P : GlobalPlanner K) (robot_loc : Vector2f K)
    (ci : Nat) (tn : Node K) (i : Nat) (hi1 : ci < i) (hi2 : i < ci + 4) (ti : Nat)
    (hi3 : i ≤ ti)
    (hb : ∀ j, i ≤ j → j ≤ ti →
      mapIntersects G P.map_ robot_loc (pathNode P j).loc = true) :
    backwardScan G P robot_loc ci tn ti = (tn, true) := by
  induction ti with
  | zero => omega
  | succ t ih =>
    unfold backwardScan
    have hgt : t + 1 > ci := by omega
    have hblk := hb (t + 1) hi3 (le_refl _)
    simp only [pathNode] at hblk
    simp only [hgt, if_true, hblk, Bool.not_true]
    by_cases hlt : t + 1 < ci + 4
    · simp [hlt]
    · have hle : i ≤ t := by omega
      simp only [hlt, if_false]
      exact ih hle (fun j h1 h2 => hb j h1 (by omega))

end Nav

namespace Nav

theorem getClosestPathNode_blocked (G : Geometry ℝ) (P : GlobalPlanner ℝ)
    (robot_loc : Vector2f ℝ) (i : Nat)
    (hclose : ¬ (minDistance G P robot_loc > 2))
    (hi1 : closestIndex G P robot_loc < i) (hi2 : i < closestIndex G P robot_loc + 4)
    (hi3 : i ≤ targetIndex G P robot_loc)
    (hb : ∀ j, i ≤ j → j ≤ targetIndex G P robot_loc →
      mapIntersects G P.map_ robot_loc (pathNode P j).loc = true) :
    getClosestPathNode G P robot_loc =
      (pathNode P (targetIndex G P robot_loc), { P with need_replan_ := true }) := by
  have hbw := backwardScan_blocked G P robot_loc (closestIndex G P robot_loc)
    (forwardScan G P.nav_map_ robot_loc 2 (P.global_path_.drop (closestIndex G P robot_loc))
      (closestIndex G P robot_loc) Node.blank).1 i hi1 hi2 (targetIndex G P robot_loc) hi3 hb
  have hfs := forwardScan_spec G P.nav_map_ robot_loc 2
    (P.global_path_.drop (closestIndex G P robot_loc)) (closestIndex G P robot_loc) Node.blank
  have hnode : (forwardScan G P.nav_map_ robot_loc 2
      (P.global_path_.drop (closestIndex G P robot_loc))
      (closestIndex G P robot_loc) Node.blank).1 = pathNode P (targetIndex G P robot_loc) := by
    rcases hfs with h0 | ⟨h1, h2⟩
    · exfalso
      have : targetIndex G P robot_loc = 0 := h0
      omega
    · rw [h2]
      unfold pathNode
      congr 1
      have e : (forwardScan G P.nav_map_ robot_loc 2
          (P.global_path_.drop (closestIndex G P robot_loc))
          (closestIndex G P robot_loc) Node.blank).2 = targetIndex G P robot_loc := rfl
      rw [e]
      have h1' : closestIndex G P robot_loc ≤ targetIndex G P robot_loc := h1
      simp only [List.getD_eq_getElem?_getD, List.getElem?_drop]
      rw [Nat.add_sub_cancel' h1']
  unfold getClosestPathNode
  simp only
  rw [if_neg (show ¬ (findClosest G P.nav_map_ robot_loc P.global_path_ 0
    (100, Node.blank, 0)).1 > 2 from hclose)]
  have e1 : (findClosest G P.nav_map_ robot_loc P.global_path_ 0 (100, Node.blank, 0)).2.2 =
      closestIndex G P robot_loc := rfl
  rw [e1]
  have e2 : (forwardScan G P.nav_map_ robot_loc 2
      (P.global_path_.drop (closestIndex G P robot_loc))
      (closestIndex G P robot_loc) Node.blank).2 = targetIndex G P robot_loc := rfl
  rw [e2, hbw, hnode]


theorem corridor_facts :
    minDistance ⟨Real.sqrt, line2f.Intersects, fun _ _ => none, line2f.UnitNormal Real.sqrt⟩
        corridorPlanner ⟨3, 0⟩ = 1 ∧
    closestIndex ⟨Real.sqrt, line2f.Intersects, fun _ _ => none, line2f.UnitNormal Real.sqrt⟩
        corridorPlanner ⟨3, 0⟩ = 0 ∧
    targetIndex ⟨Real.sqrt, line2f.Intersects, fun _ _ => none, line2f.UnitNormal Real.sqrt⟩
        corridorPlanner ⟨3, 0⟩ = 5 := by
  have hc : closestIndex ⟨Real.sqrt, line2f.Intersects, fun _ _ => none,
      line2f.UnitNormal Real.sqrt⟩ corridorPlanner ⟨3, 0⟩ = 0 ∧
      minDistance ⟨Real.sqrt, line2f.Intersects, fun _ _ => none,
      line2f.UnitNormal Real.sqrt⟩ corridorPlanner ⟨3, 0⟩ = 1 := by
    simp +decide only [closestIndex, minDistance, corridorPlanner, blankPlanner, findClosest,
      NavMap.get, NavMap.find?, plainNode, Node.blank]
    norm_num [norm_sub_axis]
  refine ⟨hc.2, hc.1, ?_⟩
  rw [targetIndex, hc.1]
  simp +decide only [corridorPlanner, blankPlanner, forwardScan, List.drop,
      NavMap.get, NavMap.find?, plainNode, Node.blank]
  norm_num [norm_sub_axis]


theorem corridor_blocked (j : Nat) (h1 : 3 ≤ j) (h2 : j ≤ 5) :
    mapIntersects ⟨Real.sqrt, line2f.Intersects, fun _ _ => none, line2f.UnitNormal Real.sqrt⟩
      (corridorPlanner : GlobalPlanner ℝ).map_ ⟨3, 0⟩ (pathNode corridorPlanner j).loc = true := by
  interval_cases j <;>
    simp +decide only [mapIntersects, corridorPlanner, blankPlanner, pathNode, List.getD,
      List.getElem?_cons_succ, List.getElem?_cons_zero, Option.getD_some,
      NavMap.get, NavMap.find?, plainNode, Node.blank, List.any_cons, List.any_nil,
      Bool.or_false, if_true, if_false] <;>
    norm_num [line2f.Intersects, Cross, Vector2f.sub]

/-- C7, counterexample: on a path along the x axis behind a wall, with the robot at (3,0),
the closest node has index 0 (distance 1), the forward scan stops at index 5, and the
backward walk finds the nodes 5, 4 and 3 blocked; at index 3 < 0 + 4 it sets `need_replan_`
and returns the node of index 5, not the node of index 3 that it tried last. -/
theorem C7_counterexample :
    ¬ (minDistance ⟨Real.sqrt, line2f.Intersects, fun _ _ => none, line2f.UnitNormal Real.sqrt⟩ corridorPlanner ⟨3, 0⟩ > 2) ∧
    closestIndex ⟨Real.sqrt, line2f.Intersects, fun _ _ => none, line2f.UnitNormal Real.sqrt⟩ corridorPlanner ⟨3, 0⟩ = 0 ∧
    targetIndex ⟨Real.sqrt, line2f.Intersects, fun _ _ => none, line2f.UnitNormal Real.sqrt⟩ corridorPlanner ⟨3, 0⟩ = 5 ∧
    (∀ j, 3 ≤ j → j ≤ 5 →
      mapIntersects ⟨Real.sqrt, line2f.Intersects, fun _ _ => none, line2f.UnitNormal Real.sqrt⟩ (corridorPlanner : GlobalPlanner ℝ).map_ ⟨3, 0⟩
        (pathNode corridorPlanner j).loc = true) ∧
    (getClosestPathNode ⟨Real.sqrt, line2f.Intersects, fun _ _ => none, line2f.UnitNormal Real.sqrt⟩ corridorPlanner ⟨3, 0⟩).2.need_replan_ = true ∧
    (getClosestPathNode ⟨Real.sqrt, line2f.Intersects, fun _ _ => none, line2f.UnitNormal Real.sqrt⟩ corridorPlanner ⟨3, 0⟩).1 = pathNode corridorPlanner 5 ∧
    (getClosestPathNode ⟨Real.sqrt, line2f.Intersects, fun _ _ => none, line2f.UnitNormal Real.sqrt⟩ corridorPlanner ⟨3, 0⟩).1 ≠ pathNode corridorPlanner 3 := by
  obtain ⟨hm, hc, ht⟩ := corridor_facts
  have hr := getClosestPathNode_blocked ⟨Real.sqrt, line2f.Intersects, fun _ _ => none, line2f.UnitNormal Real.sqrt⟩ corridorPlanner ⟨3, 0⟩ 3
    (by rw [hm]; norm_num) (by rw [hc]; norm_num) (by rw [hc]; norm_num) (by rw [ht]; norm_num)
    (fun j h1 h2 => corridor_blocked j h1 (by rw [ht] at h2; exact h2))
  rw [ht] at hr
  refine ⟨by rw [hm]; norm_num, hc, ht, corridor_blocked, ?_, ?_, ?_⟩
  · rw [hr]
  · rw [hr]
  · rw [hr]
    intro h
    have hk := congrArg Node.key h
    revert hk
    simp +decide [pathNode, corridorPlanner, blankPlanner, NavMap.get, NavMap.find?, plainNode,
      Node.blank]

/-- C7, amended: when the closest path node is within 2.0 of the robot and the backward walk
from `target_index` meets only nodes without a clear line of sight down to an index `i`
with `closest_index < i < closest_index + 4`, `need_replan_` is set and the node returned is
the path node at `target_index`, the node the forward scan stopped at. -/
theorem C7_replan_returns_forward_target (G : Geometry ℝ) (P : GlobalPlanner ℝ)
    (robot_loc : Vector2f ℝ) (i : Nat)
    (hclose : ¬ (minDistance G P robot_loc > 2))
    (hi1 : closestIndex G P robot_loc < i) (hi2 : i < closestIndex G P robot_loc + 4)
    (hi3 : i ≤ targetIndex G P robot_loc)
    (hb : ∀ j, i ≤ j → j ≤ targetIndex G P robot_loc →
      mapIntersects G P.map_ robot_loc (pathNode P j).loc = true) :
    getClosestPathNode G P robot_loc =
      (pathNode P (targetIndex G P robot_loc), { P with need_replan_ := true }) :=
  getClosestPathNode_blocked G P robot_loc i hclose hi1 hi2 hi3 hb

/-- C7 at a concrete input: the corridor path with the robot at (3,0) and `i = 3`. -/
theorem C7_witness :
    getClosestPathNode ⟨Real.sqrt, line2f.Intersects, fun _ _ => none, line2f.UnitNormal Real.sqrt⟩ corridorPlanner ⟨3, 0⟩ =
      (pathNode corridorPlanner (targetIndex ⟨Real.sqrt, line2f.Intersects, fun _ _ => none, line2f.UnitNormal Real.sqrt⟩ corridorPlanner ⟨3, 0⟩),
        { (corridorPlanner : GlobalPlanner ℝ) with need_replan_ := true }) :=
  C7_replan_returns_forward_target ⟨Real.sqrt, line2f.Intersects, fun _ _ => none, line2f.UnitNormal Real.sqrt⟩ corridorPlanner ⟨3, 0⟩ 3
    (by rw [corridor_facts.1]; norm_num) (by rw [corridor_facts.2.1]; norm_num)
    (by rw [corridor_facts.2.1]; norm_num) (by rw [corridor_facts.2.2]; norm_num)
    (fun j h1 h2 => corridor_blocked j h1 (by rw [corridor_facts.2.2] at h2; exact h2))

end Nav

namespace PF

open Nav

variable {K : Type} [LinearOrderedField K] [FloorRing K]

/-! ## Resampling -/

theorem normalizeLoop_length (exp : K → K) (m : K) (ps : List (Particle K)) (s : K) :
    (normalizeLoop exp m ps s).1.length = ps.length ∧
    (normalizeLoop exp m ps s).2.1.length = ps.length := by
  induction ps generalizing s with
  | nil => exact ⟨rfl, rfl⟩
  | cons p rest ih =>
    simp only [normalizeLoop, List.length_cons]
    exact ⟨by rw [(ih _).1], by rw [(ih _).2]⟩

theorem normalizeLoop_particles (exp : K → K) (m : K) (ps : List (Particle K)) (s : K) :
    (normalizeLoop exp m ps s).1 =
      ps.map (fun p => { p with log_weight := p.log_weight - m }) := by
  induction ps generalizing s with
  | nil => rfl
  | cons p rest ih =>
    simp only [normalizeLoop, List.map_cons]
    rw [ih]

/-- With positive weights every breakpoint lies above the running sum it started from and
at most at the total; the total is itself a breakpoint of a non-empty set. -/
theorem normalizeLoop_breakpoints (exp : K → K) (hexp : ∀ x, 0 < exp x) (m : K)
    (ps : List (Particle K)) (s : K) :
    s ≤ (normalizeLoop exp m ps s).2.2 ∧
    (∀ c ∈ (normalizeLoop exp m ps s).2.1, s < c ∧ c ≤ (normalizeLoop exp m ps s).2.2) ∧
    (ps ≠ [] → (normalizeLoop exp m ps s).2.2 ∈ (normalizeLoop exp m ps s).2.1) := by
  induction ps generalizing s with
  | nil =>
    refine ⟨le_refl _, ?_, fun h => absurd rfl h⟩
    intro c hc
    simp [normalizeLoop] at hc
  | cons p rest ih =>
    have hpos := hexp (p.log_weight - m)
    obtain ⟨h1, h2, h3⟩ := ih (s + exp (p.log_weight - m))
    simp only [normalizeLoop]
    refine ⟨by linarith, ?_, ?_⟩
    · intro c hc
      rcases List.mem_cons.mp hc with e | hmem
      · rw [e]
        exact ⟨by linarith, h1⟩
      · exact ⟨by linarith [(h2 c hmem).1], (h2 c hmem).2⟩
    · intro _
      cases rest with
      | nil => simp [normalizeLoop]
      | cons q rest' => exact List.mem_cons_of_mem _ (h3 (by simp))

/-- The `while` loop for one particle, started after `k` copies have been emitted and the
sample point stands at `u + k * d`: it returns, its sample point has reached the breakpoint,
and the fuel suffices as long as it covers the copies still to come. -/
theorem emitWhile_spec (d u S : K) (hd : 0 < d) (hu : 0 ≤ u) (N : Nat) (hS : S = N * d)
    (bp : K) (hbp : bp ≤ S) (p : Particle K) (fuel : Nat) :
    ∀ (sp : K) (acc : List (Particle K)),
      sp = u + acc.length * d → N ≤ fuel + acc.length →
      (acc.length = 0 ∨ sp - d < S) →
      ∃ sp1 acc1 fuel1, emitWhile bp d p fuel sp acc = some (sp1, acc1, fuel1) ∧
        sp1 = u + acc1.length * d ∧ N ≤ fuel1 + acc1.length ∧
        (acc1.length = 0 ∨ sp1 - d < S) ∧ bp ≤ sp1 ∧ sp ≤ sp1 ∧
        (∀ x ∈ acc1, x ∈ acc ∨ x = p) ∧ (∀ x ∈ acc, x ∈ acc1) ∧
        (bp > sp → p ∈ acc1) := by
  induction fuel with
  | zero =>
    intro sp acc hsp hf hk
    unfold emitWhile
    by_cases hgt : bp > sp
    · exfalso
      have h1 : (acc.length : K) * d < N * d := by rw [← hS]; linarith
      have h2 : (acc.length : K) < N := lt_of_mul_lt_mul_right h1 hd.le
      have h3 : acc.length < N := by exact_mod_cast h2
      omega
    · simp only [hgt, if_false]
      exact ⟨sp, acc, 0, rfl, hsp, hf, hk, not_lt.mp hgt, le_refl _,
        fun x hx => Or.inl hx, fun x hx => hx,
        by intro h; first | exact absurd h hgt | exact False.elim h⟩
  | succ f ih =>
    intro sp acc hsp hf hk
    unfold emitWhile
    by_cases hgt : bp > sp
    · simp only [hgt, if_true]
      have hlen : (acc ++ [p]).length = acc.length + 1 := by simp
      obtain ⟨sp1, acc1, fuel1, he, h1, h2, h3, h4, h5, h6, h7, _⟩ :=
        ih (sp + d) (acc ++ [p])
          (by rw [hlen, hsp]; push_cast; ring)
          (by rw [hlen]; omega)
          (Or.inr (by linarith))
      refine ⟨sp1, acc1, fuel1, he, h1, h2, h3, h4, by linarith, ?_, ?_, ?_⟩
      · intro x hx
        rcases h6 x hx with h | h
        · rcases List.mem_append.mp h with h' | h'
          · exact Or.inl h'
          · exact Or.inr (List.mem_singleton.mp h')
        · exact Or.inr h
      · intro x hx
        exact h7 x (List.mem_append_left _ hx)
      · intro _
        exact h7 p (List.mem_append_right _ (List.mem_singleton.mpr rfl))
    · simp only [hgt, if_false]
      exact ⟨sp, acc, f + 1, rfl, hsp, hf, hk, not_lt.mp hgt, le_refl _,
        fun x hx => Or.inl hx, fun x hx => hx,
        by intro h; first | exact absurd h hgt | exact False.elim h⟩

/-- The resampling loop over particles paired with breakpoints that are at most `S`. -/
theorem resampleLoop_spec (d u S : K) (hd : 0 < d) (hu : 0 ≤ u) (N : Nat) (hS : S = N * d)
    (l : List (Particle K × K)) (hl : ∀ e ∈ l, e.2 ≤ S) :
    ∀ (fuel : Nat) (sp : K) (acc : List (Particle K)),
      sp = u + acc.length * d → N ≤ fuel + acc.length →
      (acc.length = 0 ∨ sp - d < S) →
      ∃ acc1, resampleLoop d l fuel sp acc = some acc1 ∧
        (acc1.length = 0 ∨ u + acc1.length * d - d < S) ∧
        (∀ e ∈ l, e.2 ≤ u + acc1.length * d) ∧ sp ≤ u + acc1.length * d ∧
        (∀ x ∈ acc1, x ∈ acc ∨ ∃ e ∈ l, x = e.1) ∧ (∀ x ∈ acc, x ∈ acc1) ∧
        (∀ e, l.head? = some e → e.2 > sp → e.1 ∈ acc1) := by
  induction l with
  | nil =>
    intro fuel sp acc hsp hf hk
    refine ⟨acc, rfl, ?_, ?_, by rw [hsp], fun x hx => Or.inl hx, fun x hx => hx, ?_⟩
    · rw [← hsp]; exact hk
    · intro e he; simp at he
    · intro e he; simp at he
  | cons a rest ih =>
    intro fuel sp acc hsp hf hk
    obtain ⟨p, bp⟩ := a
    obtain ⟨sp1, acc0, fuel1, he, h1, h2, h3, h4, h5, h6, h7, h8⟩ :=
      emitWhile_spec d u S hd hu N hS bp (hl (p, bp) (List.mem_cons_self _ _)) p fuel sp acc
        hsp hf hk
    obtain ⟨acc1, hr, g1, g2, g3, g4, g5, _⟩ :=
      ih (fun e he => hl e (List.mem_cons_of_mem _ he)) fuel1 sp1 acc0 h1 h2 h3
    refine ⟨acc1, ?_, g1, ?_, by linarith, ?_, fun x hx => g5 x (h7 x hx), ?_⟩
    · simp only [resampleLoop, he]
      exact hr
    · intro e he'
      rcases List.mem_cons.mp he' with e1 | e1
      · rw [e1]
        show bp ≤ _
        linarith
      · exact g2 e e1
    · intro x hx
      rcases g4 x hx with h | ⟨e, he', hx'⟩
      · rcases h6 x h with h' | h'
        · exact Or.inl h'
        · exact Or.inr ⟨(p, bp), List.mem_cons_self _ _, h'⟩
      · exact Or.inr ⟨e, List.mem_cons_of_mem _ he', hx'⟩
    · intro e he' hgt
      simp only [List.head?_cons, Option.some.injEq] at he'
      subst he'
      exact g5 _ (h8 hgt)

end PF

namespace PF

open Nav

variable {K : Type} [LinearOrderedField K] [FloorRing K]

theorem exists_zip_of_mem_right {α β : Type} (l1 : List α) (l2 : List β)
    (h : l1.length = l2.length) (b : β) (hb : b ∈ l2) : ∃ a, (a, b) ∈ l1.zip l2 := by
  induction l2 generalizing l1 with
  | nil => simp at hb
  | cons y ys ih =>
    cases l1 with
    | nil => simp at h
    | cons x xs =>
      rcases List.mem_cons.mp hb with e | hmem
      · exact ⟨x, by rw [e]; simp⟩
      · obtain ⟨a, ha⟩ := ih xs (by simpa using h) hmem
        exact ⟨a, by simp [ha]⟩

/-- What `Resample` does on a set of exactly `N` particles when it does not return early:
with positive weights, an offset below the stride and enough fuel it returns `N` particles,
each of them one of the old particles with its log weight lowered by the old maximum, and
it sets the maximum to 0. The first particle is among them when its weight exceeds the
offset. -/
theorem Resample_spec (exp : K → K) (hexp : ∀ x, 0 < exp x) (N : Nat) (hN : 1 ≤ N)
    (F : ParticleFilter K) (m u : K) (fuel : Nat)
    (hlen : F.particles_.length = N) (hodom : F.odom_initialized_ = true)
    (hmax : F.max_log_particle_weight_ = ((m : K) : WithBot K))
    (hu0 : 0 ≤ u) (hu1 : u < (normalizeLoop exp m F.particles_ 0).2.2 / (N : K))
    (hfuel : N ≤ fuel) :
    ∃ ps : List (Particle K),
      Resample exp N u fuel F =
        some { F with particles_ := ps, max_log_particle_weight_ := ((0 : K) : WithBot K) } ∧
      ps.length = N ∧
      (∀ q ∈ ps, ∃ p ∈ F.particles_, q = { p with log_weight := p.log_weight - m }) ∧
      (∀ p rest, F.particles_ = p :: rest → u < exp (p.log_weight - m) →
        ({ p with log_weight := p.log_weight - m } : Particle K) ∈ ps) := by
  have hne : F.particles_ ≠ [] := by
    intro h
    rw [h] at hlen
    simp at hlen
    omega
  have htake : F.particles_.take N = F.particles_ := by
    rw [← hlen]; exact List.take_length _
  have hdrop : F.particles_.drop N = [] := by
    rw [← hlen]; exact List.drop_length _
  obtain ⟨hb1, hb2, hb3⟩ := normalizeLoop_breakpoints exp hexp m F.particles_ 0
  obtain ⟨hl1, hl2⟩ := normalizeLoop_length exp m F.particles_ 0
  have hSpos : 0 < (normalizeLoop exp m F.particles_ 0).2.2 :=
    (hb2 _ (hb3 hne)).1
  have hNpos : (0 : K) < N := by exact_mod_cast hN
  have hd : 0 < (normalizeLoop exp m F.particles_ 0).2.2 / (N : K) := div_pos hSpos hNpos
  have hS : (normalizeLoop exp m F.particles_ 0).2.2 =
      N * ((normalizeLoop exp m F.particles_ 0).2.2 / (N : K)) := by
    field_simp
  have hzip : ∀ e ∈ (normalizeLoop exp m F.particles_ 0).1.zip
      (normalizeLoop exp m F.particles_ 0).2.1,
      e.2 ≤ (normalizeLoop exp m F.particles_ 0).2.2 := by
    intro e he
    obtain ⟨a, b⟩ := e
    exact (hb2 b (List.of_mem_zip he).2).2
  obtain ⟨acc1, hr, g1, g2, _, g4, _, g6⟩ :=
    resampleLoop_spec ((normalizeLoop exp m F.particles_ 0).2.2 / (N : K)) u
      (normalizeLoop exp m F.particles_ 0).2.2 hd hu0 N hS _ hzip fuel u []
      (by simp) (by simpa using hfuel) (Or.inl rfl)
  have hcount : acc1.length = N := by
    obtain ⟨a, ha⟩ := exists_zip_of_mem_right _ _ (by rw [hl1, hl2]) _ (hb3 hne)
    have h1 := g2 _ ha
    simp only at h1
    have hlow : N ≤ acc1.length := by
      have h2 : (N : K) * ((normalizeLoop exp m F.particles_ 0).2.2 / (N : K)) <
          ((acc1.length : K) + 1) * ((normalizeLoop exp m F.particles_ 0).2.2 / (N : K)) := by
        rw [← hS]
        calc (normalizeLoop exp m F.particles_ 0).2.2
            ≤ u + acc1.length * ((normalizeLoop exp m F.particles_ 0).2.2 / (N : K)) := h1
          _ < ((acc1.length : K) + 1) *
              ((normalizeLoop exp m F.particles_ 0).2.2 / (N : K)) := by linarith
      have h3 : (N : K) < (acc1.length : K) + 1 := lt_of_mul_lt_mul_right h2 hd.le
      have h4 : N < acc1.length + 1 := by exact_mod_cast h3
      omega
    have hup : acc1.length ≤ N := by
      rcases g1 with h0 | hlt
      · omega
      · have h2 : ((acc1.length : K) - 1) * ((normalizeLoop exp m F.particles_ 0).2.2 / (N : K))
            < (N : K) * ((normalizeLoop exp m F.particles_ 0).2.2 / (N : K)) := by
          rw [← hS]
          linarith
        have h3 : (acc1.length : K) - 1 < (N : K) := lt_of_mul_lt_mul_right h2 hd.le
        have h4 : (acc1.length : K) < (N : K) + 1 := by linarith
        have h5 : acc1.length < N + 1 := by exact_mod_cast h4
        omega
    omega
  refine ⟨acc1, ?_, hcount, ?_, ?_⟩
  · unfold Resample
    have hE : F.particles_.isEmpty = false := by
      cases hp : F.particles_ with
      | nil => exact absurd hp hne
      | cons a r => rfl
    have hmax' : F.max_log_particle_weight_ = (some m : Option K) := hmax
    simp only [hE, hodom, Bool.false_eq_true, not_true_eq_false, or_self, if_false, hlen,
      lt_self_iff_false, hmax', htake, hdrop, List.append_nil, hd.ne', hr]
  · intro q hq
    rcases g4 q hq with h | ⟨e, he, hqe⟩
    · simp at h
    · obtain ⟨a, b⟩ := e
      have ha := (List.of_mem_zip he).1
      rw [normalizeLoop_particles] at ha
      obtain ⟨p, hp, hpa⟩ := List.mem_map.mp ha
      exact ⟨p, hp, by rw [hqe, ← hpa]⟩
  · intro p rest hp hgt
    apply g6 ({ p with log_weight := p.log_weight - m }, 0 + exp (p.log_weight - m))
    · rw [hp]
      simp [normalizeLoop]
    · show 0 + exp (p.log_weight - m) > u
      linarith

end PF

namespace PF

open Nav

variable {K : Type} [LinearOrderedField K] [FloorRing K]

theorem twoParticles_stride :
    (0 : ℝ) < (normalizeLoop Real.exp 0 (twoParticles : ParticleFilter ℝ).particles_ 0).2.2 /
      ((2 : Nat) : ℝ) := by
  have h := (normalizeLoop_breakpoints Real.exp Real.exp_pos 0
    (twoParticles : ParticleFilter ℝ).particles_ 0)
  have hpos : (0 : ℝ) <
      (normalizeLoop Real.exp 0 (twoParticles : ParticleFilter ℝ).particles_ 0).2.2 :=
    (h.2.1 _ (h.2.2 (by simp [twoParticles]))).1
  exact div_pos hpos (by norm_num)

/-- C8, counterexample: a set of two particles with log weights -1 and 0 (maximum 0),
odometry initialised, positive stride and offset 0: after `Resample` the new set holds a
particle whose log weight is -1, not 0. -/
theorem C8_counterexample :
    ∃ (F1 : ParticleFilter ℝ) (q : Particle ℝ),
      Resample Real.exp 2 0 2 twoParticles = some F1 ∧ q ∈ F1.particles_ ∧
      q.log_weight = -1 ∧ q.log_weight ≠ 0 := by
  obtain ⟨ps, hr, _, _, hfirst⟩ := Resample_spec Real.exp Real.exp_pos 2 (by norm_num)
    (twoParticles : ParticleFilter ℝ) 0 0 2 rfl rfl rfl (le_refl _) twoParticles_stride
    (le_refl _)
  refine ⟨_, _, hr, hfirst ⟨⟨0, 0⟩, 0, -1⟩ [⟨⟨1, 0⟩, 0, 0⟩] rfl (Real.exp_pos _), ?_, ?_⟩
  · norm_num
  · norm_num

/-- C8, amended: after `Resample` runs to completion (set of `N ≥ 1` particles, odometry
initialised, finite maximum `m`, offset within the positive stride), every particle in the
new set has the pose of an old particle and that particle's log weight minus the old
maximum `m`, and `max_log_particle_weight_` is 0. -/
theorem C8_resample_normalises (F : ParticleFilter ℝ) (N : Nat) (m u : ℝ) (fuel : Nat)
    (hN : 1 ≤ N) (hlen : F.particles_.length = N) (hodom : F.odom_initialized_ = true)
    (hmax : F.max_log_particle_weight_ = ((m : ℝ) : WithBot ℝ)) (hu0 : 0 ≤ u)
    (hu1 : u < (normalizeLoop Real.exp m F.particles_ 0).2.2 / (N : ℝ)) (hfuel : N ≤ fuel) :
    ∃ F1, Resample Real.exp N u fuel F = some F1 ∧
      F1.max_log_particle_weight_ = ((0 : ℝ) : WithBot ℝ) ∧
      ∀ q ∈ F1.particles_, ∃ p ∈ F.particles_,
        q.loc = p.loc ∧ q.angle = p.angle ∧ q.log_weight = p.log_weight - m := by
  obtain ⟨ps, hr, _, hmem, _⟩ := Resample_spec Real.exp Real.exp_pos N hN F m u fuel hlen
    hodom hmax hu0 hu1 hfuel
  refine ⟨_, hr, rfl, ?_⟩
  intro q hq
  obtain ⟨p, hp, hqp⟩ := hmem q hq
  exact ⟨p, hp, by rw [hqp], by rw [hqp], by rw [hqp]⟩

/-- C8 at a concrete input: two particles with log weights -1 and 0, offset 0. -/
theorem C8_witness :
    ∃ F1, Resample Real.exp 2 0 2 (twoParticles : ParticleFilter ℝ) = some F1 ∧
      F1.max_log_particle_weight_ = ((0 : ℝ) : WithBot ℝ) ∧
      ∀ q ∈ F1.particles_, ∃ p ∈ (twoParticles : ParticleFilter ℝ).particles_,
        q.loc = p.loc ∧ q.angle = p.angle ∧ q.log_weight = p.log_weight - 0 :=
  C8_resample_normalises twoParticles 2 0 0 2 (by norm_num) rfl rfl rfl (le_refl _)
    twoParticles_stride (le_refl _)

/-! ## The resample counter -/

/-- A gate-passing call of `ObserveLaser` sets the counter to 0 when it calls `Resample`
and increments it otherwise. -/
theorem ObserveLaser_counter (sqrt exp : K → K) (N : Nat) (Update : Particle K → Particle K)
    (u : K) (fuel : Nat) (F F1 : ParticleFilter K) (hg : passesGate sqrt F = true)
    (h : ObserveLaser sqrt exp N Update u fuel F = some F1) :
    F1.updates_since_last_resample_ =
      if resampleDue F = true then 0 else F.updates_since_last_resample_ + 1 := by
  unfold ObserveLaser at h
  simp only [hg, if_true, resampleDue] at h ⊢
  by_cases hr : F.updates_since_last_resample_ > 5
  · simp only [hr, decide_True, if_true] at h ⊢
    split at h
    · cases h
    · cases h
      rfl
  · simp only [hr, decide_False, Bool.false_eq_true, if_false] at h ⊢
    cases h
    rfl

/-- A gate-passing call of `ObserveLaser` that does not call `Resample` returns. -/
theorem ObserveLaser_returns (sqrt exp : K → K) (N : Nat) (Update : Particle K → Particle K)
    (u : K) (fuel : Nat) (F : ParticleFilter K) (hg : passesGate sqrt F = true)
    (hr : resampleDue F = false) :
    ∃ F1, ObserveLaser sqrt exp N Update u fuel F = some F1 := by
  unfold ObserveLaser
  unfold resampleDue at hr
  simp only [decide_eq_false_iff_not] at hr
  simp only [hg, if_true, resampleDue, hr, decide_False, Bool.false_eq_true, if_false]
  exact ⟨_, rfl⟩

/-- After `n` processed scans since the last reset the counter stands at `n mod 7`. -/
theorem processedScans_counter (sqrt exp : K → K) (N : Nat) (n : Nat) (F : ParticleFilter K)
    (h : ProcessedScans sqrt exp N n F) :
    F.updates_since_last_resample_ = ((n % 7 : Nat) : Int) := by
  induction h with
  | reset F loc angle => rfl
  | other n F F1 _ he ih => rw [he, ih]
  | scan n F F1 Update u fuel _ hg hobs ih =>
    rw [ObserveLaser_counter sqrt exp N Update u fuel F F1 hg hobs]
    unfold resampleDue
    rw [ih]
    have h7 : n % 7 < 7 := Nat.mod_lt _ (by norm_num)
    by_cases h6 : n % 7 = 6
    · have : (n + 1) % 7 = 0 := by omega
      rw [this, h6]
      simp
    · have : (n + 1) % 7 = n % 7 + 1 := by omega
      rw [this]
      have hle : ¬ (((n % 7 : Nat) : Int) > 5) := by omega
      simp only [hle, decide_False, Bool.false_eq_true, if_false]
      push_cast
      rfl

theorem passesGate_movedFilter (c : Int) :
    passesGate Real.sqrt (movedFilter c : ParticleFilter ℝ) = true := by
  have h : (((movedFilter c : ParticleFilter ℝ).prev_odom_loc_).sub
      (movedFilter c : ParticleFilter ℝ).last_update_loc_).norm Real.sqrt = 1 / 2 - 0 :=
    norm_sub_axis (1 / 2) 0 (by norm_num)
  unfold passesGate
  simp only [h]
  norm_num

/-- The filter `movedFilter n` is reached after `n` processed scans, for `n ≤ 6`. -/
theorem processedScans_movedFilter (n : Nat) (hn : n ≤ 6) :
    ProcessedScans Real.sqrt Real.exp 50 n (movedFilter (n : Int) : ParticleFilter ℝ) := by
  induction n with
  | zero =>
    exact ProcessedScans.other 0 (ResetOdomVariables (movedFilter 0) ⟨0, 0⟩ 0) _
      (ProcessedScans.reset _ _ _) rfl
  | succ n ih =>
    have hprev := ih (by omega)
    have hg := passesGate_movedFilter (n : Int)
    have hr : resampleDue (movedFilter (n : Int) : ParticleFilter ℝ) = false := by
      unfold resampleDue
      have : ¬ ((movedFilter (n : Int) : ParticleFilter ℝ).updates_since_last_resample_ > 5) := by
        show ¬ ((n : Int) > 5)
        omega
      simp [this]
    obtain ⟨F1, hF1⟩ := ObserveLaser_returns Real.sqrt Real.exp 50 id 0 0
      (movedFilter (n : Int) : ParticleFilter ℝ) hg hr
    have hc := ObserveLaser_counter Real.sqrt Real.exp 50 id 0 0 _ F1 hg hF1
    rw [hr] at hc
    simp only [Bool.false_eq_true, if_false] at hc
    refine ProcessedScans.other (n + 1) F1 _
      (ProcessedScans.scan n _ F1 id 0 0 hprev hg hF1) ?_
    rw [hc]
    show ((n + 1 : Nat) : Int) = (n : Int) + 1
    push_cast
    rfl

end PF

namespace PF

open Nav

variable {K : Type} [LinearOrderedField K] [FloorRing K]

theorem resampleDue_iff (sqrt exp : K → K) (N : Nat) (n : Nat) (F : ParticleFilter K)
    (h : ProcessedScans sqrt exp N n F) : resampleDue F = true ↔ (n + 1) % 7 = 0 := by
  have hc := processedScans_counter sqrt exp N n F h
  unfold resampleDue
  rw [hc, decide_eq_true_iff]
  have h7 : n % 7 < 7 := Nat.mod_lt _ (by norm_num)
  constructor
  · intro hgt
    have : 5 < n % 7 := by exact_mod_cast hgt
    omega
  · intro hz
    have : 5 < n % 7 := by omega
    exact_mod_cast this

/-- C10, counterexample: five scans have been processed since the reset and a sixth passes
the distance gate: `ObserveLaser` does not call `Resample` for it (the counter stands at 5,
which is not above 5) and only raises the counter to 6. -/
theorem C10_counterexample :
    ProcessedScans Real.sqrt Real.exp 50 5 (movedFilter 5 : ParticleFilter ℝ) ∧
    passesGate Real.sqrt (movedFilter 5 : ParticleFilter ℝ) = true ∧
    resampleDue (movedFilter 5 : ParticleFilter ℝ) = false ∧
    ∃ F1, ObserveLaser Real.sqrt Real.exp 50 id 0 0 (movedFilter 5 : ParticleFilter ℝ) = some F1 ∧
      F1.updates_since_last_resample_ = 6 := by
  have hg := passesGate_movedFilter 5
  have hr : resampleDue (movedFilter 5 : ParticleFilter ℝ) = false := by
    unfold resampleDue
    simp [movedFilter]
  obtain ⟨F1, hF1⟩ := ObserveLaser_returns Real.sqrt Real.exp 50 id 0 0
    (movedFilter 5 : ParticleFilter ℝ) hg hr
  have hc := ObserveLaser_counter Real.sqrt Real.exp 50 id 0 0 _ F1 hg hF1
  rw [hr] at hc
  refine ⟨processedScans_movedFilter 5 (by norm_num), hg, hr, F1, hF1, ?_⟩
  rw [hc]
  simp [movedFilter]

/-- C10, amended: when `n` scans have passed the distance gate of `ObserveLaser` since the
last reset of the odometry variables, the counter stands at `n mod 7`, and the next scan
that passes the gate, the `(n+1)`-th, makes `ObserveLaser` call `Resample` exactly when
`n + 1` is a multiple of 7: `Resample` is invoked on the 7th, 14th, 21st, ... processed scan
and on no other. -/
theorem C10_resample_every_seventh_scan (sqrt exp : K → K) (N : Nat) (n : Nat)
    (F : ParticleFilter K) (h : ProcessedScans sqrt exp N n F) :
    F.updates_since_last_resample_ = ((n % 7 : Nat) : Int) ∧
    (resampleDue F = true ↔ (n + 1) % 7 = 0) ∧
    ∀ (Update : Particle K → Particle K) (u : K) (fuel : Nat) (F1 : ParticleFilter K),
      passesGate sqrt F = true → ObserveLaser sqrt exp N Update u fuel F = some F1 →
      F1.updates_since_last_resample_ = (((n + 1) % 7 : Nat) : Int) := by
  refine ⟨processedScans_counter sqrt exp N n F h, resampleDue_iff sqrt exp N n F h, ?_⟩
  intro Update u fuel F1 hg hobs
  exact processedScans_counter sqrt exp N (n + 1) F1
    (ProcessedScans.scan n F F1 Update u fuel h hg hobs)

/-- C10 at a concrete input: six scans have been processed, so the seventh calls
`Resample`. -/
theorem C10_witness :
    ProcessedScans Real.sqrt Real.exp 50 6 (movedFilter 6 : ParticleFilter ℝ) ∧
    resampleDue (movedFilter 6 : ParticleFilter ℝ) = true :=
  ⟨processedScans_movedFilter 6 (by norm_num),
    (C10_resample_every_seventh_scan Real.sqrt Real.exp 50 6 (movedFilter 6)
      (processedScans_movedFilter 6 (by norm_num))).2.1.mpr (by norm_num)⟩

end PF

namespace PF

open Nav

variable {K : Type} [LinearOrderedField K] [FloorRing K]

/-! ## Odometry -/

theorem moveParticles_length (sqrt : K → K) (T : Trig K) (Gaussian : Nat → K → K → K)
    (d : Vector2f K) (a prev : K) (ps : List (Particle K)) :
    ∀ j, (moveParticles sqrt T Gaussian d a prev ps j).length = ps.length := by
  induction ps with
  | nil => intro j; rfl
  | cons p ps ih => intro j; simp [moveParticles, ih]

theorem angleDiff_self (pi a : ℝ) (hpi : 0 < pi) : AngleDiff pi a a = 0 := by
  have e : (a - a - pi) / (2 * pi) = -(1 / 2) := by
    field_simp
    ring
  have h : (⌈(a - a - pi) / (2 * pi)⌉ : Int) = 0 := by
    rw [Int.ceil_eq_zero_iff, e]
    constructor <;> norm_num
  unfold AngleDiff
  rw [h]
  simp

theorem rotation_zero (T : Trig K) (theta : K) (p : Vector2f K) :
    Rotation2Df T theta (p.sub p) = ⟨0, 0⟩ := by
  simp [Rotation2Df, Vector2f.sub]

theorem updateParticleLocation_zero (Gaussian : Nat → ℝ → ℝ → ℝ)
    (hG : ∀ j mean, Gaussian j mean 0 = mean) (j : Nat) (p : Particle ℝ) :
    UpdateParticleLocation Real.sqrt Gaussian j ⟨0, 0⟩ 0 p = p := by
  obtain ⟨⟨x, y⟩, a, w⟩ := p
  simp [UpdateParticleLocation, Vector2f.norm, Vector2f.add, hG]

theorem moveParticles_zero (T : Trig ℝ) (Gaussian : Nat → ℝ → ℝ → ℝ)
    (hG : ∀ j mean, Gaussian j mean 0 = mean) (q : Vector2f ℝ) (prev : ℝ)
    (ps : List (Particle ℝ)) :
    ∀ j, moveParticles Real.sqrt T Gaussian (q.sub q) 0 prev ps j = ps := by
  induction ps with
  | nil => intro j; rfl
  | cons p ps ih =>
    intro j
    simp only [moveParticles, rotation_zero, updateParticleLocation_zero Gaussian hG, ih]

/-- C12: when odometry is not yet initialised, or the new odometry location is at distance
at least 1 from `prev_odom_loc_`, `ObserveOdometry` leaves the particle set (every pose, every
log weight, the count) unchanged, stores the new location and angle in `prev_odom_loc_` and
`prev_odom_angle_`, and marks odometry initialised. -/
theorem C12_odometry_reset_keeps_particles (sqrt : K → K) (T : Trig K)
    (Gaussian : Nat → K → K → K) (F : ParticleFilter K) (odom_loc : Vector2f K)
    (odom_angle : K)
    (h : F.odom_initialized_ = false ∨ 1 ≤ (odom_loc.sub F.prev_odom_loc_).norm sqrt) :
    (ObserveOdometry sqrt T Gaussian F odom_loc odom_angle).particles_ = F.particles_ ∧
    (ObserveOdometry sqrt T Gaussian F odom_loc odom_angle).prev_odom_loc_ = odom_loc ∧
    (ObserveOdometry sqrt T Gaussian F odom_loc odom_angle).prev_odom_angle_ = odom_angle ∧
    (ObserveOdometry sqrt T Gaussian F odom_loc odom_angle).odom_initialized_ = true := by
  have hc : ¬ (F.odom_initialized_ = true ∧ (odom_loc.sub F.prev_odom_loc_).norm sqrt < 1) := by
    rintro ⟨h1, h2⟩
    rcases h with h | h
    · rw [h] at h1; exact Bool.noConfusion h1
    · exact absurd h2 (not_lt.mpr h)
  simp only [ObserveOdometry, if_neg hc, ResetOdomVariables, and_self]

/-- The odometry jump from (0,0) to (2,0) resets the snapshot of `twoParticles` to (2,0) and
leaves its two particles untouched. -/
theorem C12_witness :
    (ObserveOdometry Real.sqrt ⟨Real.cos, Real.sin, Real.pi⟩ (fun _ mean stddev => mean + stddev)
        (twoParticles : ParticleFilter ℝ) ⟨2, 0⟩ 0).particles_ =
      [⟨⟨0, 0⟩, 0, -1⟩, ⟨⟨1, 0⟩, 0, 0⟩] ∧
    (ObserveOdometry Real.sqrt ⟨Real.cos, Real.sin, Real.pi⟩ (fun _ mean stddev => mean + stddev)
        (twoParticles : ParticleFilter ℝ) ⟨2, 0⟩ 0).prev_odom_loc_ = ⟨2, 0⟩ :=
  have h := C12_odometry_reset_keeps_particles Real.sqrt ⟨Real.cos, Real.sin, Real.pi⟩
    (fun _ mean stddev => mean + stddev) (twoParticles : ParticleFilter ℝ) ⟨2, 0⟩ 0
    (Or.inr (by
      show (1 : ℝ) ≤ ((⟨2, 0⟩ : Vector2f ℝ).sub ⟨0, 0⟩).norm Real.sqrt
      rw [norm_sub_axis 2 0 (by norm_num)]; norm_num))
  ⟨h.1, h.2.1⟩

/-- C19: with odometry initialised, `ObserveOdometry(prev_odom_loc_, prev_odom_angle_)` finds
a zero angle difference, rotates the zero translation to the zero displacement, draws the
three noises of every particle with standard deviation 0, and, a draw of standard deviation 0
being equal to its mean, returns every particle with its prior location and angle. -/
theorem C19_zero_odometry_keeps_poses (T : Trig ℝ) (Gaussian : Nat → ℝ → ℝ → ℝ)
    (F : ParticleFilter ℝ) (hinit : F.odom_initialized_ = true) (hpi : 0 < T.pi)
    (hG : ∀ j mean, Gaussian j mean 0 = mean) :
    AngleDiff T.pi F.prev_odom_angle_ F.prev_odom_angle_ = 0 ∧
    (∀ theta, Rotation2Df T theta (F.prev_odom_loc_.sub F.prev_odom_loc_) = ⟨0, 0⟩) ∧
    (40 / 100 * (⟨0, 0⟩ : Vector2f ℝ).norm Real.sqrt + 2 / 100 * |(0 : ℝ)| = 0 ∧
      20 / 100 * (⟨0, 0⟩ : Vector2f ℝ).norm Real.sqrt + 40 / 100 * |(0 : ℝ)| = 0) ∧
    (ObserveOdometry Real.sqrt T Gaussian F F.prev_odom_loc_ F.prev_odom_angle_).particles_ =
      F.particles_ := by
  have hn : ((F.prev_odom_loc_.sub F.prev_odom_loc_).norm Real.sqrt) < 1 := by
    simp [Vector2f.norm, Vector2f.sub]
  refine ⟨angleDiff_self _ _ hpi, fun theta => rotation_zero T theta _, ?_, ?_⟩
  · simp [Vector2f.norm]
  · simp only [ObserveOdometry, if_pos (And.intro hinit hn), angleDiff_self _ _ hpi]
    exact moveParticles_zero T Gaussian hG _ _ _ 0

/-- The filter `twoParticles` keeps its two poses under a zero odometry change when the
noise is `mean + stddev * (j + 1)` for the `j`-th draw. -/
theorem C19_witness :
    (ObserveOdometry Real.sqrt ⟨Real.cos, Real.sin, Real.pi⟩
        (fun j mean stddev => mean + stddev * ((j : ℝ) + 1))
        (twoParticles : ParticleFilter ℝ) ⟨0, 0⟩ 0).particles_ =
      [⟨⟨0, 0⟩, 0, -1⟩, ⟨⟨1, 0⟩, 0, 0⟩] :=
  (C19_zero_odometry_keeps_poses ⟨Real.cos, Real.sin, Real.pi⟩
    (fun j mean stddev => mean + stddev * ((j : ℝ) + 1)) (twoParticles : ParticleFilter ℝ)
    rfl Real.pi_pos (fun j mean => by simp)).2.2.2

end PF
namespace PF

open Nav

variable {K : Type} [LinearOrderedField K] [FloorRing K]

/-! ## Pose estimate: the finite results -/

/-- The loop body of `GetLocation` for the maximum `m`. -/
theorem getLocation_fold_none (exp : K → K) (m : K) (ps : List (Particle K)) :
    ps.foldl (fun (acc : Option (Vector2f K × K × K)) particle =>
      match acc with
      | none => none
      | some acc =>
        if [exp (particle.log_weight - m),
            (Vector2f.smul (exp (particle.log_weight - m)) particle.loc).x,
            (Vector2f.smul (exp (particle.log_weight - m)) particle.loc).y,
            particle.angle * exp (particle.log_weight - m),
            (acc.1.add (Vector2f.smul (exp (particle.log_weight - m)) particle.loc)).x,
            (acc.1.add (Vector2f.smul (exp (particle.log_weight - m)) particle.loc)).y,
            acc.2.1 + particle.angle * exp (particle.log_weight - m),
            acc.2.2 + exp (particle.log_weight - m)].all finite32 then
          some (acc.1.add (Vector2f.smul (exp (particle.log_weight - m)) particle.loc),
            acc.2.1 + particle.angle * exp (particle.log_weight - m),
            acc.2.2 + exp (particle.log_weight - m))
        else none) none = none := by
  induction ps with
  | nil => rfl
  | cons p ps ih => rw [List.foldl_cons]; exact ih

/-- When the loop of `GetLocation` ends with finite sums, they are the sums of the weighted
coordinates, of the weighted angles and of the weights. -/
theorem getLocation_fold_some (exp : K → K) (m : K) (ps : List (Particle K)) :
    ∀ (acc s : Vector2f K × K × K),
      ps.foldl (fun (acc : Option (Vector2f K × K × K)) particle =>
        match acc with
        | none => none
        | some acc =>
          if [exp (particle.log_weight - m),
              (Vector2f.smul (exp (particle.log_weight - m)) particle.loc).x,
              (Vector2f.smul (exp (particle.log_weight - m)) particle.loc).y,
              particle.angle * exp (particle.log_weight - m),
              (acc.1.add (Vector2f.smul (exp (particle.log_weight - m)) particle.loc)).x,
              (acc.1.add (Vector2f.smul (exp (particle.log_weight - m)) particle.loc)).y,
              acc.2.1 + particle.angle * exp (particle.log_weight - m),
              acc.2.2 + exp (particle.log_weight - m)].all finite32 then
            some (acc.1.add (Vector2f.smul (exp (particle.log_weight - m)) particle.loc),
              acc.2.1 + particle.angle * exp (particle.log_weight - m),
              acc.2.2 + exp (particle.log_weight - m))
          else none) (some acc) = some s →
      s = (⟨acc.1.x + (ps.map fun p => exp (p.log_weight - m) * p.loc.x).sum,
            acc.1.y + (ps.map fun p => exp (p.log_weight - m) * p.loc.y).sum⟩,
           acc.2.1 + (ps.map fun p => exp (p.log_weight - m) * p.angle).sum,
           acc.2.2 + (ps.map fun p => exp (p.log_weight - m)).sum) := by
  induction ps with
  | nil =>
    intro acc s h
    simp only [List.foldl_nil, Option.some.injEq] at h
    rw [← h]
    simp
  | cons p ps ih =>
    intro acc s h
    rw [List.foldl_cons] at h
    simp only at h
    split_ifs at h with hfin
    · rw [ih _ s h]
      simp only [Vector2f.add, Vector2f.smul, List.map_cons, List.sum_cons, Prod.mk.injEq,
        Vector2f.mk.injEq]
      refine ⟨⟨by ring, by ring⟩, by ring, by ring⟩
    · rw [getLocation_fold_none] at h
      exact Option.noConfusion h

/-- A finite result of `GetLocation` is the mean pose under the weights
`exp (log_weight - m)`, `m` being the value of `max_log_particle_weight_`. -/
theorem getLocation_some (exp : K → K) (F : ParticleFilter K) (m : K)
    (hmax : F.max_log_particle_weight_ = ((m : K) : WithBot K)) (r : Vector2f K × K)
    (h : GetLocation exp F = some r) :
    r = weightedMean (fun p => exp (p.log_weight - m)) F.particles_ := by
  have hmax1 : F.max_log_particle_weight_ = (some m : Option K) := hmax
  unfold GetLocation at h
  simp only [hmax1] at h
  split at h
  · exact Option.noConfusion h
  · rename_i s hs
    have hsum := getLocation_fold_some exp m F.particles_ (⟨0, 0⟩, 0, 0) s hs
    simp only [zero_add] at hsum
    split_ifs at h with hz
    simp only [Option.some.injEq] at h
    rw [← h, hsum]
    simp only [weightedMean, Vector2f.div]

theorem sum_exp_shift (m : ℝ) (g : Particle ℝ → ℝ) (ps : List (Particle ℝ)) :
    (ps.map fun p => Real.exp (p.log_weight - m) * g p).sum =
      Real.exp (-m) * (ps.map fun p => Real.exp p.log_weight * g p).sum := by
  induction ps with
  | nil => simp
  | cons p ps ih =>
    rw [List.map_cons, List.sum_cons, ih, List.map_cons, List.sum_cons, sub_eq_add_neg,
      Real.exp_add]
    ring

/-- The common factor `exp (-m)` cancels in the weighted mean. -/
theorem weightedMean_shift (m : ℝ) (ps : List (Particle ℝ)) :
    weightedMean (fun p => Real.exp (p.log_weight - m)) ps =
      weightedMean (fun p => Real.exp p.log_weight) ps := by
  have h1 := sum_exp_shift m (fun p => p.loc.x) ps
  have h2 := sum_exp_shift m (fun p => p.loc.y) ps
  have h3 := sum_exp_shift m (fun p => p.angle) ps
  have h4 : (ps.map fun p => Real.exp (p.log_weight - m)).sum =
      Real.exp (-m) * (ps.map fun p => Real.exp p.log_weight).sum := by
    have := sum_exp_shift m (fun _ => 1) ps
    simpa using this
  have hE : Real.exp (-m) ≠ 0 := (Real.exp_pos _).ne'
  simp only [weightedMean, h1, h2, h3, h4, mul_div_mul_left _ _ hE]

end PF
namespace PF

open Nav

variable {K : Type} [LinearOrderedField K] [FloorRing K]

/-! ## Pose estimate -/

/-- The particles drawn by `Initialize` have the log weight 0. -/
theorem initParticles_log_weight (T : Trig K) (Gaussian : Nat → K → K → K) (loc : Vector2f K)
    (angle : K) :
    ∀ (count j : Nat), ∀ p ∈ initParticles T Gaussian loc angle count j, p.log_weight = 0 := by
  intro count
  induction count with
  | zero =>
    intro j p hp
    simp [initParticles] at hp
  | succ count ih =>
    intro j p hp
    simp only [initParticles, List.mem_cons] at hp
    rcases hp with h | h
    · rw [h]
    · exact ih _ p h

/-- The weight `exp 100` is beyond the finite range of binary32. -/
theorem exp_hundred_not_finite32 : finite32 (Real.exp (0 - (-100))) = false := by
  have h1 : (5 / 2 : ℝ) ≤ Real.exp 1 := by
    have := Real.exp_one_gt_d9
    linarith
  have h2 : Real.exp (0 - (-100)) = Real.exp 1 ^ 100 := by
    rw [← Real.exp_nat_mul]
    norm_num
  have h3 : (5 / 2 : ℝ) ^ 100 ≤ Real.exp 1 ^ 100 := pow_le_pow_left₀ (by norm_num) h1 100
  have h4 : (2 : ℝ) ^ 128 - 2 ^ 103 ≤ (5 / 2 : ℝ) ^ 100 := by norm_num
  unfold finite32
  rw [decide_eq_false_iff_not, not_lt, abs_of_pos (Real.exp_pos _), h2]
  linarith

theorem staleFilter_stride :
    (0 : ℝ) < (normalizeLoop Real.exp (-100) (staleFilter : ParticleFilter ℝ).particles_ 0).2.2 /
      ((2 : Nat) : ℝ) := by
  have h := (normalizeLoop_breakpoints Real.exp Real.exp_pos (-100)
    (staleFilter : ParticleFilter ℝ).particles_ 0)
  have hpos : (0 : ℝ) <
      (normalizeLoop Real.exp (-100) (staleFilter : ParticleFilter ℝ).particles_ 0).2.2 :=
    (h.2.1 _ (h.2.2 (by simp [staleFilter]))).1
  exact div_pos hpos (by norm_num)

/-- The filter after `Initialize` at the origin, two particles drawn at the mean, on a
filter whose maximum log weight stands at -100: the maximum is still -100, every weight that
`GetLocation` forms is `exp 100`, and `GetLocation` has no finite result. -/
theorem getLocation_stale :
    GetLocation Real.exp (Initialize ⟨Real.cos, Real.sin, Real.pi⟩ (fun _ mean _ => mean) 2 []
      (staleFilter : ParticleFilter ℝ) ⟨0, 0⟩ 0) = none := by
  have hmax : (Initialize ⟨Real.cos, Real.sin, Real.pi⟩ (fun _ mean _ => mean) 2 []
      (staleFilter : ParticleFilter ℝ) ⟨0, 0⟩ 0).max_log_particle_weight_ =
      (some (-100) : Option ℝ) := rfl
  have hps : (Initialize ⟨Real.cos, Real.sin, Real.pi⟩ (fun _ mean _ => mean) 2 []
      (staleFilter : ParticleFilter ℝ) ⟨0, 0⟩ 0).particles_ =
      [⟨⟨0, 0⟩, 0, 0⟩, ⟨⟨0, 0⟩, 0, 0⟩] := rfl
  unfold GetLocation
  simp only [hmax, hps, List.foldl_cons, List.foldl_nil, List.all_cons,
    exp_hundred_not_finite32, Bool.false_and, Bool.false_eq_true, if_false]

/-- The same particles with the maximum at 0, the value `Resample` would have stored:
`GetLocation` returns their mean pose. -/
theorem getLocation_reset :
    GetLocation Real.exp
      { Initialize ⟨Real.cos, Real.sin, Real.pi⟩ (fun _ mean _ => mean) 2 []
          (staleFilter : ParticleFilter ℝ) ⟨0, 0⟩ 0 with
        max_log_particle_weight_ := ((0 : ℝ) : WithBot ℝ) } = some (⟨0, 0⟩, 0) := by
  have hps : (Initialize ⟨Real.cos, Real.sin, Real.pi⟩ (fun _ mean _ => mean) 2 []
      (staleFilter : ParticleFilter ℝ) ⟨0, 0⟩ 0).particles_ =
      [⟨⟨0, 0⟩, 0, 0⟩, ⟨⟨0, 0⟩, 0, 0⟩] := rfl
  have f0 : finite32 (0 : ℝ) = true := by
    unfold finite32
    rw [decide_eq_true_iff]
    norm_num
  have f1 : finite32 (1 : ℝ) = true := by
    unfold finite32
    rw [decide_eq_true_iff]
    norm_num
  have f2 : finite32 (2 : ℝ) = true := by
    unfold finite32
    rw [decide_eq_true_iff]
    norm_num
  unfold GetLocation
  simp only [hps, List.foldl_cons, List.foldl_nil, List.all_cons, List.all_nil,
    sub_zero, Real.exp_zero, Vector2f.smul, Vector2f.add, mul_zero, zero_mul, add_zero,
    zero_add, one_add_one_eq_two, f0, f1, f2, Bool.and_self, if_true, Vector2f.div, zero_div]
  norm_num

end PF

namespace Nav

variable {K : Type} [LinearOrderedField K] [FloorRing K]

/-! ## Social cost -/

/-- The loop over the map lines for a human from which the node is hidden: the running
maximum never decreases, bounds every hidden cost met, and is either untouched or a hidden
cost met. -/
theorem hiddenFold_spec (G : Geometry K) (H : Human K) (loc : Vector2f K) :
    ∀ (ls : List (line2f K)) (acc : K × Char),
      acc.1 ≤ (ls.foldl (fun (acc2 : K × Char) map_line =>
          match G.Intersection map_line ⟨H.getLoc, loc⟩ with
          | some intersection_point =>
            if H.hiddenCost loc intersection_point > acc2.1 then
              (H.hiddenCost loc intersection_point, 'h') else acc2
          | none => acc2) acc).1 ∧
      (∀ map_line ∈ ls, ∀ pt, G.Intersection map_line ⟨H.getLoc, loc⟩ = some pt →
        H.hiddenCost loc pt ≤ (ls.foldl (fun (acc2 : K × Char) map_line =>
          match G.Intersection map_line ⟨H.getLoc, loc⟩ with
          | some intersection_point =>
            if H.hiddenCost loc intersection_point > acc2.1 then
              (H.hiddenCost loc intersection_point, 'h') else acc2
          | none => acc2) acc).1) ∧
      ((ls.foldl (fun (acc2 : K × Char) map_line =>
          match G.Intersection map_line ⟨H.getLoc, loc⟩ with
          | some intersection_point =>
            if H.hiddenCost loc intersection_point > acc2.1 then
              (H.hiddenCost loc intersection_point, 'h') else acc2
          | none => acc2) acc) = acc ∨
        ∃ map_line ∈ ls, ∃ pt, G.Intersection map_line ⟨H.getLoc, loc⟩ = some pt ∧
          acc.1 < H.hiddenCost loc pt ∧
          (ls.foldl (fun (acc2 : K × Char) map_line =>
            match G.Intersection map_line ⟨H.getLoc, loc⟩ with
            | some intersection_point =>
              if H.hiddenCost loc intersection_point > acc2.1 then
                (H.hiddenCost loc intersection_point, 'h') else acc2
            | none => acc2) acc) = (H.hiddenCost loc pt, 'h')) := by
  intro ls
  induction ls with
  | nil => intro acc; exact ⟨le_refl _, fun _ h => absurd h (List.not_mem_nil _), Or.inl rfl⟩
  | cons l ls ih =>
    intro acc
    rw [List.foldl_cons]
    cases hI : G.Intersection l ⟨H.getLoc, loc⟩ with
    | none =>
      obtain ⟨h1, h2, h3⟩ := ih acc
      refine ⟨h1, ?_, ?_⟩
      · intro ml hml pt hpt
        rcases List.mem_cons.mp hml with rfl | hml
        · rw [hI] at hpt; exact Option.noConfusion hpt
        · exact h2 ml hml pt hpt
      · rcases h3 with h3 | ⟨ml, hml, pt, hpt, hlt, he⟩
        · exact Or.inl h3
        · exact Or.inr ⟨ml, List.mem_cons_of_mem _ hml, pt, hpt, hlt, he⟩
    | some q =>
      by_cases hgt : H.hiddenCost loc q > acc.1
      · simp only [if_pos hgt]
        obtain ⟨h1, h2, h3⟩ := ih (H.hiddenCost loc q, 'h')
        refine ⟨le_trans hgt.le h1, ?_, ?_⟩
        · intro ml hml pt hpt
          rcases List.mem_cons.mp hml with rfl | hml
          · rw [hI] at hpt
            cases hpt
            exact h1
          · exact h2 ml hml pt hpt
        · right
          rcases h3 with h3 | ⟨ml, hml, pt, hpt, hlt, he⟩
          · exact ⟨l, List.mem_cons_self _ _, q, hI, hgt, h3⟩
          · exact ⟨ml, List.mem_cons_of_mem _ hml, pt, hpt, lt_trans hgt hlt, he⟩
      · simp only [if_neg hgt]
        obtain ⟨h1, h2, h3⟩ := ih acc
        refine ⟨h1, ?_, ?_⟩
        · intro ml hml pt hpt
          rcases List.mem_cons.mp hml with rfl | hml
          · rw [hI] at hpt
            cases hpt
            exact le_trans (not_lt.mp hgt) h1
          · exact h2 ml hml pt hpt
        · rcases h3 with h3 | ⟨ml, hml, pt, hpt, hlt, he⟩
          · exact Or.inl h3
          · exact Or.inr ⟨ml, List.mem_cons_of_mem _ hml, pt, hpt, hlt, he⟩

theorem getSocialCost_eq_fold (G : Geometry K) (P : GlobalPlanner K) (new_node : Node K) :
    getSocialCost G P new_node = P.population_.foldl (socialStep G P new_node.loc) (0, 'n') :=
  rfl

/-- One human moves the running maximum up to the largest of its contributions. -/
theorem socialStep_spec (G : Geometry K) (P : GlobalPlanner K) (loc : Vector2f K)
    (acc : K × Char) (H : Human K) :
    acc.1 ≤ (socialStep G P loc acc H).1 ∧
    (∀ c t, Contributes G P.map_ loc H c t → c ≤ (socialStep G P loc acc H).1) ∧
    (socialStep G P loc acc H = acc ∨
      (acc.1 < (socialStep G P loc acc H).1 ∧
        Contributes G P.map_ loc H (socialStep G P loc acc H).1 (socialStep G P loc acc H).2)) := by
  unfold socialStep
  by_cases hfar : (loc.sub H.getLoc).norm G.sqrt > 10
  · rw [if_pos hfar]
    exact ⟨le_refl _, fun c t hc => absurd hfar hc.1, Or.inl rfl⟩
  · rw [if_neg hfar]
    cases hhid : H.isHidden loc P.map_ with
    | true =>
      simp only [if_true]
      obtain ⟨h1, h2, h3⟩ := hiddenFold_spec G H loc P.map_ acc
      refine ⟨h1, ?_, ?_⟩
      · rintro c t ⟨_, hc | hc | hc⟩
        · obtain ⟨_, _, ml, hml, pt, hpt, rfl⟩ := hc
          exact h2 ml hml pt hpt
        · rw [hhid] at hc; exact Bool.noConfusion hc.1
        · rw [hhid] at hc; exact Bool.noConfusion hc.1
      · rcases h3 with h3 | ⟨ml, hml, pt, hpt, hlt, he⟩
        · exact Or.inl h3
        · right
          rw [he]
          exact ⟨hlt, hfar, Or.inl ⟨hhid, rfl, ml, hml, pt, hpt, rfl⟩⟩
    | false =>
      simp only [Bool.false_eq_true, if_false]
      by_cases hgt : max (H.safetyCost loc) (H.visibilityCost loc) > acc.1
      · rw [if_pos hgt]
        refine ⟨hgt.le, ?_, Or.inr ⟨hgt, hfar, ?_⟩⟩
        · rintro c t ⟨_, hc | hc | hc⟩
          · rw [hhid] at hc; exact Bool.noConfusion hc.1
          · obtain ⟨_, _, _, rfl⟩ := hc
            exact le_max_left _ _
          · obtain ⟨_, _, _, rfl⟩ := hc
            exact le_max_right _ _
        · by_cases hsv : H.safetyCost loc > H.visibilityCost loc
          · right; left
            simp only [if_pos hsv]
            exact ⟨hhid, trivial, hsv, max_eq_left hsv.le⟩
          · right; right
            simp only [if_neg hsv]
            exact ⟨hhid, trivial, not_lt.mp hsv, max_eq_right (not_lt.mp hsv)⟩
      · rw [if_neg hgt]
        refine ⟨le_refl _, ?_, Or.inl rfl⟩
        rintro c t ⟨_, hc | hc | hc⟩
        · rw [hhid] at hc; exact Bool.noConfusion hc.1
        · obtain ⟨_, _, _, rfl⟩ := hc
          exact le_trans (le_max_left _ _) (not_lt.mp hgt)
        · obtain ⟨_, _, _, rfl⟩ := hc
          exact le_trans (le_max_right _ _) (not_lt.mp hgt)

/-- The loop over the population: the running maximum never decreases, bounds every
contribution met, and is either untouched or a contribution met. -/
theorem socialFold_spec (G : Geometry K) (P : GlobalPlanner K) (loc : Vector2f K) :
    ∀ (l : List (Human K)) (acc : K × Char),
      acc.1 ≤ (l.foldl (socialStep G P loc) acc).1 ∧
      (∀ H ∈ l, ∀ c t, Contributes G P.map_ loc H c t →
        c ≤ (l.foldl (socialStep G P loc) acc).1) ∧
      (l.foldl (socialStep G P loc) acc = acc ∨
        (acc.1 < (l.foldl (socialStep G P loc) acc).1 ∧
          ∃ H ∈ l, Contributes G P.map_ loc H (l.foldl (socialStep G P loc) acc).1
            (l.foldl (socialStep G P loc) acc).2)) := by
  intro l
  induction l with
  | nil => intro acc; exact ⟨le_refl _, fun _ h => absurd h (List.not_mem_nil _), Or.inl rfl⟩
  | cons H l ih =>
    intro acc
    rw [List.foldl_cons]
    obtain ⟨s1, s2, s3⟩ := socialStep_spec G P loc acc H
    obtain ⟨h1, h2, h3⟩ := ih (socialStep G P loc acc H)
    refine ⟨le_trans s1 h1, ?_, ?_⟩
    · intro H1 hH1 c t hc
      rcases List.mem_cons.mp hH1 with rfl | hH1
      · exact le_trans (s2 c t hc) h1
      · exact h2 H1 hH1 c t hc
    · rcases h3 with h3 | ⟨hlt, H1, hH1, hc⟩
      · rw [h3]
        rcases s3 with s3 | ⟨hlt, hc⟩
        · exact Or.inl s3
        · exact Or.inr ⟨hlt, H, List.mem_cons_self _ _, hc⟩
      · exact Or.inr ⟨lt_of_le_of_lt s1 hlt, H1, List.mem_cons_of_mem _ hH1, hc⟩

theorem contributes_tag (G : Geometry K) (map_ : List (line2f K)) (loc : Vector2f K)
    (H : Human K) (c : K) (t : Char) (h : Contributes G map_ loc H c t) :
    t = 'h' ∨ t = 's' ∨ t = 'v' := by
  obtain ⟨_, h | h | h⟩ := h
  · exact Or.inl h.2.1
  · exact Or.inr (Or.inl h.2.1)
  · exact Or.inr (Or.inr h.2.1)

/-- C17: for every node and every population, whatever the cost functions of the humans,
`getSocialCost` returns a cost that is at least 0 and at least every contribution of a human
within 10 of the node, and that is 0 or one of these contributions; the tag is `n` exactly
when the cost is 0; with tag `h` the cost is the hidden cost of a human from which the node
is hidden, at an intersection of its line of sight with a map line; with tag `s` it is the
safety cost of a human from which the node is not hidden and whose safety cost exceeds its
visibility cost; with tag `v` it is the visibility cost of such a human whose visibility cost
is at least its safety cost. -/
theorem C17_social_cost_is_tagged_maximum (G : Geometry K) (P : GlobalPlanner K)
    (new_node : Node K) :
    0 ≤ (getSocialCost G P new_node).1 ∧
    (∀ H ∈ P.population_, ∀ c t, Contributes G P.map_ new_node.loc H c t →
      c ≤ (getSocialCost G P new_node).1) ∧
    ((getSocialCost G P new_node).1 = 0 ∨
      ∃ H ∈ P.population_, Contributes G P.map_ new_node.loc H
        (getSocialCost G P new_node).1 (getSocialCost G P new_node).2) ∧
    ((getSocialCost G P new_node).2 = 'n' ↔ (getSocialCost G P new_node).1 = 0) ∧
    ((getSocialCost G P new_node).2 = 'h' →
      ∃ H ∈ P.population_, ¬ (new_node.loc.sub H.getLoc).norm G.sqrt > 10 ∧
        H.isHidden new_node.loc P.map_ = true ∧
        ∃ map_line ∈ P.map_, ∃ pt,
          G.Intersection map_line ⟨H.getLoc, new_node.loc⟩ = some pt ∧
          (getSocialCost G P new_node).1 = H.hiddenCost new_node.loc pt) ∧
    ((getSocialCost G P new_node).2 = 's' →
      ∃ H ∈ P.population_, ¬ (new_node.loc.sub H.getLoc).norm G.sqrt > 10 ∧
        H.isHidden new_node.loc P.map_ = false ∧
        H.safetyCost new_node.loc > H.visibilityCost new_node.loc ∧
        (getSocialCost G P new_node).1 = H.safetyCost new_node.loc) ∧
    ((getSocialCost G P new_node).2 = 'v' →
      ∃ H ∈ P.population_, ¬ (new_node.loc.sub H.getLoc).norm G.sqrt > 10 ∧
        H.isHidden new_node.loc P.map_ = false ∧
        H.visibilityCost new_node.loc ≥ H.safetyCost new_node.loc ∧
        (getSocialCost G P new_node).1 = H.visibilityCost new_node.loc) := by
  rw [getSocialCost_eq_fold]
  obtain ⟨h1, h2, h3⟩ := socialFold_spec G P new_node.loc P.population_ (0, 'n')
  generalize P.population_.foldl (socialStep G P new_node.loc) (0, 'n') = r at h1 h2 h3
  have hn : ('h' : Char) ≠ 'n' ∧ ('s' : Char) ≠ 'n' ∧ ('v' : Char) ≠ 'n' ∧
      ('s' : Char) ≠ 'h' ∧ ('v' : Char) ≠ 'h' ∧ ('v' : Char) ≠ 's' := by decide
  refine ⟨h1, h2, ?_, ?_, ?_, ?_, ?_⟩
  · rcases h3 with h3 | ⟨_, H, hH, hc⟩
    · left; rw [h3]
    · exact Or.inr ⟨H, hH, hc⟩
  · rcases h3 with h3 | ⟨hlt, H, hH, hc⟩
    · rw [h3]; simp
    · constructor
      · intro ht
        rcases contributes_tag G _ _ H _ _ hc with h | h | h <;> rw [ht] at h
        · exact absurd h.symm hn.1
        · exact absurd h.symm hn.2.1
        · exact absurd h.symm hn.2.2.1
      · intro h0
        simp only at hlt
        exact absurd h0 hlt.ne'
  · intro ht
    rcases h3 with h3 | ⟨hlt, H, hH, hfar, hc | hc | hc⟩
    · rw [h3] at ht; exact absurd ht.symm hn.1
    · exact ⟨H, hH, hfar, hc.1, hc.2.2⟩
    · exact absurd (ht.symm.trans hc.2.1) hn.2.2.2.1.symm
    · exact absurd (ht.symm.trans hc.2.1) hn.2.2.2.2.1.symm
  · intro ht
    rcases h3 with h3 | ⟨hlt, H, hH, hfar, hc | hc | hc⟩
    · rw [h3] at ht; exact absurd ht.symm hn.2.1
    · exact absurd (ht.symm.trans hc.2.1) hn.2.2.2.1
    · exact ⟨H, hH, hfar, hc.1, hc.2.2⟩
    · exact absurd (ht.symm.trans hc.2.1) hn.2.2.2.2.2.symm
  · intro ht
    rcases h3 with h3 | ⟨hlt, H, hH, hfar, hc | hc | hc⟩
    · rw [h3] at ht; exact absurd ht.symm hn.2.2.1
    · exact absurd (ht.symm.trans hc.2.1) hn.2.2.2.2.1
    · exact absurd (ht.symm.trans hc.2.1) hn.2.2.2.2.2
    · exact ⟨H, hH, hfar, hc.1, hc.2.2⟩

end Nav

namespace PF

open Nav

variable {K : Type} [LinearOrderedField K] [FloorRing K]

/-! ## Observation update -/

theorem getPredictedPointCloud_length (G : Geometry K) (T : Trig K) (map_ : List (line2f K))
    (loc : Vector2f K) (angle : K) (n : Nat) (range_min range_max angle_min angle_max : K) :
    (GetPredictedPointCloud G T map_ loc angle n range_min range_max angle_min
      angle_max).length = n / 10 := by
  unfold GetPredictedPointCloud
  simp only [List.length_map, List.length_range]

/-- The subsampling loop succeeds when its reads are in range, and entry `k` of its result
is `ranges[ratio * (i + k)]`. -/
theorem trimLoop_spec (ranges : List K) (ratio : Nat) :
    ∀ (count i : Nat), (∀ k, k < count → ratio * (i + k) < ranges.length) →
      ∃ l, trimLoop ranges ratio count i = some l ∧ l.length = count ∧
        ∀ k, k < count → l[k]? = ranges[ratio * (i + k)]? := by
  intro count
  induction count with
  | zero => intro i _; exact ⟨[], rfl, rfl, fun k hk => absurd hk (Nat.not_lt_zero _)⟩
  | succ count ih =>
    intro i h
    have h0 : ratio * i < ranges.length := by simpa using h 0 (Nat.succ_pos _)
    obtain ⟨l, hl, hlen, hget⟩ := ih (i + 1) (fun k hk => by
      have := h (k + 1) (Nat.succ_lt_succ hk)
      rwa [show i + 1 + k = i + (k + 1) by omega])
    refine ⟨ranges[ratio * i] :: l, ?_, by simp [hlen], ?_⟩
    · simp only [trimLoop, List.getElem?_eq_getElem h0, hl]
    · intro k hk
      cases k with
      | zero => simp [List.getElem?_eq_getElem h0]
      | succ k =>
        rw [List.getElem?_cons_succ, hget k (Nat.lt_of_succ_lt_succ hk)]
        rw [show i + 1 + k = i + (k + 1) by omega]

/-- A result of the subsampling loop has `count` entries, entry `k` being
`ranges[ratio * (i + k)]`. -/
theorem trimLoop_some (ranges : List K) (ratio : Nat) :
    ∀ (count i : Nat) (l : List K), trimLoop ranges ratio count i = some l →
      l.length = count ∧ ∀ k, k < count → l[k]? = ranges[ratio * (i + k)]? ∧
        ratio * (i + k) < ranges.length := by
  intro count
  induction count with
  | zero =>
    intro i l h
    simp only [trimLoop, Option.some.injEq] at h
    subst h
    exact ⟨rfl, fun k hk => absurd hk (Nat.not_lt_zero _)⟩
  | succ count ih =>
    intro i l h
    simp only [trimLoop] at h
    cases hr : ranges[ratio * i]? with
    | none => rw [hr] at h; exact Option.noConfusion h
    | some r =>
      rw [hr] at h
      cases ht : trimLoop ranges ratio count (i + 1) with
      | none => rw [ht] at h; exact Option.noConfusion h
      | some rest =>
        rw [ht] at h
        simp only [Option.some.injEq] at h
        subst h
        obtain ⟨hlen, hget⟩ := ih (i + 1) rest ht
        have hlt : ratio * i < ranges.length := by
          by_contra hc
          rw [List.getElem?_eq_none (not_lt.mp hc)] at hr
          exact Option.noConfusion hr
        refine ⟨by simp [hlen], ?_⟩
        intro k hk
        cases k with
        | zero => exact ⟨by simp [hr], by simpa using hlt⟩
        | succ k =>
          have := hget k (Nat.lt_of_succ_lt_succ hk)
          rw [show i + 1 + k = i + (k + 1) by omega] at this
          exact ⟨by rw [List.getElem?_cons_succ]; exact this.1, this.2⟩

/-- The clipped range difference vanishes only when the range difference does. -/
theorem clip_eq_zero_iff (d_short d_long x : K) (hs : 0 < d_short) (hl : 0 < d_long) :
    max (min x d_long) (-d_short) = 0 ↔ x = 0 := by
  constructor
  · intro h
    rcases max_cases (min x d_long) (-d_short) with ⟨h1, _⟩ | ⟨h1, _⟩
    · rw [h1] at h
      rcases min_cases x d_long with ⟨h2, _⟩ | ⟨h2, _⟩
      · rw [h2] at h; exact h
      · rw [h2] at h; exact absurd h hl.ne'
    · rw [h1] at h
      exact absurd (neg_eq_zero.mp h) hs.ne'
  · intro h
    rw [h, min_eq_left hl.le, max_eq_left (by linarith)]

/-- The weight loop succeeds when its reads are in range. -/
theorem weightLoop_returns (sqrt : K → K) (F : ParticleFilter K) (ranges trimmed : List K)
    (range_min range_max : K) (lidar : Vector2f K) :
    ∀ (preds : List (Vector2f K)) (i : Nat) (acc : K),
      i + preds.length ≤ ranges.length → i + preds.length ≤ trimmed.length →
      ∃ r, weightLoop sqrt F ranges trimmed range_min range_max lidar preds i acc = some r := by
  intro preds
  induction preds with
  | nil => intro i acc _ _; exact ⟨acc, rfl⟩
  | cons pt preds ih =>
    intro i acc h1 h2
    simp only [List.length_cons] at h1 h2
    have hi1 : i < ranges.length := by omega
    have hi2 : i < trimmed.length := by omega
    simp only [weightLoop, List.getElem?_eq_getElem hi1, List.getElem?_eq_getElem hi2]
    split_ifs with hskip
    · exact ih (i + 1) acc (by omega) (by omega)
    · exact ih (i + 1) _ (by omega) (by omega)

/-- The weight loop never raises the sum, and leaves it unchanged exactly when every beam
that it does not skip has a zero range difference. -/
theorem weightLoop_spec (sqrt : K → K) (F : ParticleFilter K) (ranges trimmed : List K)
    (range_min range_max : K) (lidar : Vector2f K) (hvar : 0 < F.var_obs_)
    (hs : 0 < F.d_short_) (hl : 0 < F.d_long_) :
    ∀ (preds : List (Vector2f K)) (i : Nat) (acc r : K),
      weightLoop sqrt F ranges trimmed range_min range_max lidar preds i acc = some r →
      r ≤ acc ∧
      (r = acc ↔ ∀ k rv tv pt, ranges[i + k]? = some rv → trimmed[i + k]? = some tv →
        preds[k]? = some pt → ¬ (rv > 95 / 100 * range_max ∨ rv < 105 / 100 * range_min) →
        tv - (pt.sub lidar).norm sqrt = 0) := by
  intro preds
  induction preds with
  | nil =>
    intro i acc r h
    simp only [weightLoop, Option.some.injEq] at h
    subst h
    refine ⟨le_refl _, fun _ => ?_, fun _ => rfl⟩
    intro k rv tv pt _ _ hp
    simp at hp
  | cons p0 preds ih =>
    intro i acc r h
    simp only [weightLoop] at h
    cases hr : ranges[i]? with
    | none => rw [hr] at h; exact Option.noConfusion h
    | some rv0 =>
      rw [hr] at h
      simp only at h
      by_cases hskip : rv0 > 95 / 100 * range_max ∨ rv0 < 105 / 100 * range_min
      · rw [if_pos hskip] at h
        obtain ⟨h1, h2⟩ := ih (i + 1) acc r h
        refine ⟨h1, h2.trans ⟨?_, ?_⟩⟩
        · intro hall k rv tv pt hrv htv hpt hns
          cases k with
          | zero =>
            rw [Nat.add_zero, hr] at hrv
            cases hrv
            exact absurd hskip hns
          | succ k =>
            rw [List.getElem?_cons_succ] at hpt
            exact hall k rv tv pt (by rwa [show i + 1 + k = i + (k + 1) by omega])
              (by rwa [show i + 1 + k = i + (k + 1) by omega]) hpt hns
        · intro hall k rv tv pt hrv htv hpt hns
          exact hall (k + 1) rv tv pt (by rwa [show i + (k + 1) = i + 1 + k by omega])
            (by rwa [show i + (k + 1) = i + 1 + k by omega])
            (by rw [List.getElem?_cons_succ]; exact hpt) hns
      · rw [if_neg hskip] at h
        cases ht : trimmed[i]? with
        | none => rw [ht] at h; exact Option.noConfusion h
        | some tv0 =>
          rw [ht] at h
          simp only at h
          obtain ⟨h1, h2⟩ := ih (i + 1) _ r h
          have hterm : -(max (min (tv0 - (p0.sub lidar).norm sqrt) F.d_long_) (-F.d_short_) *
              max (min (tv0 - (p0.sub lidar).norm sqrt) F.d_long_) (-F.d_short_)) /
                F.var_obs_ ≤ 0 :=
            div_nonpos_of_nonpos_of_nonneg (neg_nonpos.mpr (mul_self_nonneg _)) hvar.le
          have hterm0 : -(max (min (tv0 - (p0.sub lidar).norm sqrt) F.d_long_) (-F.d_short_) *
              max (min (tv0 - (p0.sub lidar).norm sqrt) F.d_long_) (-F.d_short_)) /
                F.var_obs_ = 0 ↔ tv0 - (p0.sub lidar).norm sqrt = 0 := by
            rw [div_eq_zero_iff, neg_eq_zero, mul_self_eq_zero,
              clip_eq_zero_iff _ _ _ hs hl]
            exact ⟨fun h => h.resolve_right hvar.ne', Or.inl⟩
          refine ⟨by linarith, ?_, ?_⟩
          · intro hra k rv tv pt hrv htv hpt hns
            have hr1 : r = acc + -(max (min (tv0 - (p0.sub lidar).norm sqrt) F.d_long_)
                (-F.d_short_) * max (min (tv0 - (p0.sub lidar).norm sqrt) F.d_long_)
                (-F.d_short_)) / F.var_obs_ := by linarith
            have ht0 : -(max (min (tv0 - (p0.sub lidar).norm sqrt) F.d_long_)
                (-F.d_short_) * max (min (tv0 - (p0.sub lidar).norm sqrt) F.d_long_)
                (-F.d_short_)) / F.var_obs_ = 0 := by linarith
            cases k with
            | zero =>
              rw [Nat.add_zero, hr] at hrv
              rw [Nat.add_zero, ht] at htv
              simp only [List.getElem?_cons_zero, Option.some.injEq] at hpt
              cases hrv; cases htv; subst hpt
              exact hterm0.mp ht0
            | succ k =>
              rw [List.getElem?_cons_succ] at hpt
              exact h2.mp hr1 k rv tv pt (by rwa [show i + 1 + k = i + (k + 1) by omega])
                (by rwa [show i + 1 + k = i + (k + 1) by omega]) hpt hns
          · intro hall
            have ht0 := hterm0.mpr (hall 0 rv0 tv0 p0 (by simpa using hr) (by simpa using ht)
              (by simp) hskip)
            have hr1 := h2.mpr (fun k rv tv pt hrv htv hpt hns =>
              hall (k + 1) rv tv pt (by rwa [show i + (k + 1) = i + 1 + k by omega])
                (by rwa [show i + (k + 1) = i + 1 + k by omega])
                (by rw [List.getElem?_cons_succ]; exact hpt) hns)
            rw [hr1, ht0, add_zero]

theorem ratio_index_lt (n k : Nat) (h10 : 10 ≤ n) (hk : k < n / 10) :
    n / (n / 10) * k < n := by
  have hm : 0 < n / 10 := Nat.div_pos h10 (by norm_num)
  have hmn : n / 10 ≤ n := Nat.div_le_self n 10
  have hr : 0 < n / (n / 10) := Nat.div_pos hmn hm
  have h1 : n / (n / 10) * (k + 1) ≤ n / (n / 10) * (n / 10) := Nat.mul_le_mul_left _ hk
  have h2 : n / (n / 10) * (n / 10) ≤ n := Nat.div_mul_le_self n (n / 10)
  have h3 : n / (n / 10) * (k + 1) = n / (n / 10) * k + n / (n / 10) := Nat.mul_succ _ _
  omega

/-- C18: with odometry initialised (and the positive variance and clipping bounds the
constructor sets), `Update` returns for every scan of at least ten readings, and whenever it
returns, it leaves the pose alone, the increment of `log_weight` is at most 0, and the
increment is 0 exactly when every beam that is not skipped has a zero difference between the
observed range `ranges[ratio * i]` and the predicted range. -/
theorem C18_update_increment_nonpositive (G : Geometry K) (T : Trig K) (F : ParticleFilter K)
    (ranges : List K) (range_min range_max angle_min angle_max : K) (particle : Particle K)
    (hinit : F.odom_initialized_ = true) (hvar : 0 < F.var_obs_) (hs : 0 < F.d_short_)
    (hl : 0 < F.d_long_) :
    (10 ≤ ranges.length →
      ∃ p, Update G T F ranges range_min range_max angle_min angle_max particle = some p) ∧
    ∀ p, Update G T F ranges range_min range_max angle_min angle_max particle = some p →
      p.loc = particle.loc ∧ p.angle = particle.angle ∧
      p.log_weight - particle.log_weight ≤ 0 ∧
      (p.log_weight - particle.log_weight = 0 ↔
        ∀ i rv tv pt, ranges[i]? = some rv →
          ranges[ranges.length / (ranges.length / 10) * i]? = some tv →
          (GetPredictedPointCloud G T F.map_ particle.loc particle.angle ranges.length
            range_min range_max angle_min angle_max)[i]? = some pt →
          ¬ (rv > 95 / 100 * range_max ∨ rv < 105 / 100 * range_min) →
          tv - (pt.sub (particle.loc.add (Vector2f.smul (2 / 10)
            ⟨T.cos particle.angle, T.sin particle.angle⟩))).norm G.sqrt = 0) := by
  have hlen := getPredictedPointCloud_length G T F.map_ particle.loc particle.angle
    ranges.length range_min range_max angle_min angle_max
  have hninit : ¬ ¬ F.odom_initialized_ = true := not_not.mpr hinit
  constructor
  · intro h10
    have hm : 0 < ranges.length / 10 := Nat.div_pos h10 (by norm_num)
    obtain ⟨tr, htr, htrlen, _⟩ := trimLoop_spec ranges (ranges.length / (ranges.length / 10))
      (ranges.length / 10) 0 (fun k hk => by
        rw [Nat.zero_add]; exact ratio_index_lt _ _ h10 hk)
    obtain ⟨r, hr⟩ := weightLoop_returns G.sqrt F ranges tr range_min range_max
      (particle.loc.add (Vector2f.smul (2 / 10) ⟨T.cos particle.angle, T.sin particle.angle⟩))
      (GetPredictedPointCloud G T F.map_ particle.loc particle.angle ranges.length
        range_min range_max angle_min angle_max) 0 0
      (by rw [hlen, Nat.zero_add]; exact Nat.div_le_self _ _)
      (by rw [hlen, htrlen, Nat.zero_add])
    refine ⟨{ particle with log_weight := particle.log_weight + r }, ?_⟩
    unfold Update
    rw [if_neg hninit]
    simp only [hlen, if_neg hm.ne', htr, hr]
  · intro p hp
    unfold Update at hp
    rw [if_neg hninit] at hp
    simp only [hlen] at hp
    by_cases hz : ranges.length / 10 = 0
    · rw [if_pos hz] at hp; exact Option.noConfusion hp
    · rw [if_neg hz] at hp
      cases htr : trimLoop ranges (ranges.length / (ranges.length / 10))
          (ranges.length / 10) 0 with
      | none => rw [htr] at hp; exact Option.noConfusion hp
      | some tr =>
        rw [htr] at hp
        simp only at hp
        cases hw : weightLoop G.sqrt F ranges tr range_min range_max
            (particle.loc.add (Vector2f.smul (2 / 10)
              ⟨T.cos particle.angle, T.sin particle.angle⟩))
            (GetPredictedPointCloud G T F.map_ particle.loc particle.angle ranges.length
              range_min range_max angle_min angle_max) 0 0 with
        | none => rw [hw] at hp; exact Option.noConfusion hp
        | some r =>
          rw [hw] at hp
          simp only [Option.some.injEq] at hp
          subst hp
          obtain ⟨h1, h2⟩ := weightLoop_spec G.sqrt F ranges tr range_min range_max _ hvar hs hl
            _ 0 0 r hw
          obtain ⟨htrlen, htrget⟩ := trimLoop_some ranges _ _ 0 tr htr
          refine ⟨rfl, rfl, by simpa using h1, ?_⟩
          have e : particle.log_weight + r - particle.log_weight = r := by ring
          show particle.log_weight + r - particle.log_weight = 0 ↔ _
          rw [e, h2]
          constructor
          · intro hall i rv tv pt hrv htv hpt hns
            have hi : i < ranges.length / 10 := by
              rw [← hlen]
              by_contra hc
              rw [List.getElem?_eq_none (not_lt.mp hc)] at hpt
              exact Option.noConfusion hpt
            refine hall i rv tv pt (by rwa [Nat.zero_add]) ?_ hpt hns
            rw [Nat.zero_add, (htrget i hi).1, Nat.zero_add]
            exact htv
          · intro hall k rv tv pt hrv htv hpt hns
            have hk : k < ranges.length / 10 := by
              rw [← hlen]
              by_contra hc
              rw [List.getElem?_eq_none (not_lt.mp hc)] at hpt
              exact Option.noConfusion hpt
            rw [Nat.zero_add] at hrv htv
            rw [(htrget k hk).1, Nat.zero_add] at htv
            exact hall k rv tv pt hrv htv hpt hns

end PF

namespace PF

open Nav

/-! ## The range gate of the observation update -/

theorem predictedCloud_example (I : line2f ℝ → line2f ℝ → Bool)
    (X : line2f ℝ → line2f ℝ → Option (Vector2f ℝ)) (U : line2f ℝ → Vector2f ℝ) :
    GetPredictedPointCloud ⟨Real.sqrt, I, X, U⟩ ⟨Real.cos, Real.sin, Real.pi⟩ [] ⟨0, 0⟩ 0 20
      1 10 0 0 = [⟨51 / 5, 0⟩, ⟨51 / 5, 0⟩] := by
  unfold GetPredictedPointCloud
  have h2 : List.range (20 / 10) = [0, 1] := rfl
  rw [h2]
  simp only [List.map_cons, List.map_nil, rayHit, List.foldl_nil, Vector2f.add, Vector2f.smul,
    sub_self, mul_zero, add_zero, zero_add, Real.cos_zero, Real.sin_zero, mul_one]
  norm_num

theorem predictedRange_example :
    ((⟨51 / 5, 0⟩ : Vector2f ℝ).sub
      ((⟨0, 0⟩ : Vector2f ℝ).add (Vector2f.smul (2 / 10) ⟨Real.cos 0, Real.sin 0⟩))).norm
      Real.sqrt = 10 := by
  simp only [Vector2f.add, Vector2f.smul, Real.cos_zero, Real.sin_zero, mul_one, mul_zero,
    zero_add]
  rw [norm_sub_axis (51 / 5) (2 / 10) (by norm_num)]
  norm_num

theorem update_example (I : line2f ℝ → line2f ℝ → Bool)
    (X : line2f ℝ → line2f ℝ → Option (Vector2f ℝ)) (U : line2f ℝ → Vector2f ℝ) :
    Update ⟨Real.sqrt, I, X, U⟩ ⟨Real.cos, Real.sin, Real.pi⟩ (twoParticles : ParticleFilter ℝ)
      [5, 20, 5, 5, 5, 5, 5, 5, 5, 5, 5, 5, 5, 5, 5, 5, 5, 5, 5, 5] 1 10 0 0 ⟨⟨0, 0⟩, 0, 0⟩ =
      some ⟨⟨0, 0⟩, 0, -(1 / 4)⟩ := by
  have hc := predictedCloud_example I X U
  have hr := predictedRange_example
  have htrim : trimLoop ([5, 20, 5, 5, 5, 5, 5, 5, 5, 5, 5, 5, 5, 5, 5, 5, 5, 5, 5, 5] : List ℝ)
      (20 / 2) 2 0 = some [5, 5] := rfl
  unfold Update
  have hi : ¬ ¬ (twoParticles : ParticleFilter ℝ).odom_initialized_ = true := by
    simp [twoParticles]
  rw [if_neg hi]
  have hm : (twoParticles : ParticleFilter ℝ).map_ = [] := rfl
  have hlen : ([5, 20, 5, 5, 5, 5, 5, 5, 5, 5, 5, 5, 5, 5, 5, 5, 5, 5, 5, 5] : List ℝ).length
      = 20 := rfl
  have hl2 : ([⟨51 / 5, 0⟩, ⟨51 / 5, 0⟩] : List (Vector2f ℝ)).length = 2 := rfl
  have h20 : ¬ (2 : Nat) = 0 := by decide
  have e0 : ([5, 20, 5, 5, 5, 5, 5, 5, 5, 5, 5, 5, 5, 5, 5, 5, 5, 5, 5, 5] : List ℝ)[0]?
      = some 5 := rfl
  have e1 : ([5, 20, 5, 5, 5, 5, 5, 5, 5, 5, 5, 5, 5, 5, 5, 5, 5, 5, 5, 5] : List ℝ)[0 + 1]?
      = some 20 := rfl
  have t0 : ([5, 5] : List ℝ)[0]? = some 5 := rfl
  have g0 : ¬ ((5 : ℝ) > 95 / 100 * 10 ∨ (5 : ℝ) < 105 / 100 * 1) := by norm_num
  have g1 : ((20 : ℝ) > 95 / 100 * 10 ∨ (20 : ℝ) < 105 / 100 * 1) := by norm_num
  simp only [hm, hlen]
  rw [hc]
  simp only [hl2, if_neg h20, htrim]
  simp only [weightLoop, e0, e1, t0, if_neg g0, if_pos g1, hr]
  have hd1 : (twoParticles : ParticleFilter ℝ).d_long_ = 1 / 2 := rfl
  have hd2 : (twoParticles : ParticleFilter ℝ).d_short_ = 1 / 2 := rfl
  have hv : (twoParticles : ParticleFilter ℝ).var_obs_ = 1 := rfl
  have hclip : ((5 : ℝ) - 10) ⊓ (1 / 2) ⊔ -(1 / 2) = -(1 / 2) := by
    rw [min_eq_left (by norm_num), max_eq_right (by norm_num)]
  rw [hd1, hd2, hv, hclip]
  norm_num

/-- C13: `Update` gates beam `i` on `ranges[i]`, not on the subsampled reading
`ranges[ratio * i]` that it compares with predicted beam `i`. On a scan of 20 readings that are
all 5 except `ranges[1] = 20`, with limits 1 and 10 and an empty map (predicted range 10 for
both kept beams), the readings compared with the two predicted beams are `ranges[0] = 5` and
`ranges[10] = 5`, both inside the interval from 1.05 to 9.5, so each beam should contribute
`-(1/2)^2`; the source skips beam 1 because `ranges[1] = 20`, and the log weight moves from
0 to -1/4 instead of -1/2. -/
theorem C13_gate_reads_unsubsampled_range (I : line2f ℝ → line2f ℝ → Bool)
    (X : line2f ℝ → line2f ℝ → Option (Vector2f ℝ)) (U : line2f ℝ → Vector2f ℝ) :
    ([5, 20, 5, 5, 5, 5, 5, 5, 5, 5, 5, 5, 5, 5, 5, 5, 5, 5, 5, 5] : List ℝ)[20 / (20 / 10) * 1]?
      = some 5 ∧
    ¬ ((5 : ℝ) > 95 / 100 * 10 ∨ (5 : ℝ) < 105 / 100 * 1) ∧
    trimLoop ([5, 20, 5, 5, 5, 5, 5, 5, 5, 5, 5, 5, 5, 5, 5, 5, 5, 5, 5, 5] : List ℝ)
      (20 / 2) 2 0 = some [5, 5] ∧
    GetPredictedPointCloud ⟨Real.sqrt, I, X, U⟩ ⟨Real.cos, Real.sin, Real.pi⟩ [] ⟨0, 0⟩ 0 20
      1 10 0 0 = [⟨51 / 5, 0⟩, ⟨51 / 5, 0⟩] ∧
    Update ⟨Real.sqrt, I, X, U⟩ ⟨Real.cos, Real.sin, Real.pi⟩ (twoParticles : ParticleFilter ℝ)
      [5, 20, 5, 5, 5, 5, 5, 5, 5, 5, 5, 5, 5, 5, 5, 5, 5, 5, 5, 5] 1 10 0 0 ⟨⟨0, 0⟩, 0, 0⟩ =
      some ⟨⟨0, 0⟩, 0, -(1 / 4)⟩ :=
  ⟨rfl, by norm_num, rfl, predictedCloud_example I X U, update_example I X U⟩

/-- The filter `twoParticles` on a scan of ten readings equal to 5. -/
theorem C18_witness :
    (10 ≤ (List.replicate 10 (5 : ℝ)).length →
      ∃ p, Update (specGeometry Real.sqrt fun _ m => m.p0) ⟨Real.cos, Real.sin, Real.pi⟩
        (twoParticles : ParticleFilter ℝ) (List.replicate 10 5) 1 10 0 0 ⟨⟨0, 0⟩, 0, 0⟩ =
          some p) ∧
    ∀ p, Update (specGeometry Real.sqrt fun _ m => m.p0) ⟨Real.cos, Real.sin, Real.pi⟩
        (twoParticles : ParticleFilter ℝ) (List.replicate 10 5) 1 10 0 0 ⟨⟨0, 0⟩, 0, 0⟩ =
          some p → p.log_weight - 0 ≤ 0 :=
  have h := C18_update_increment_nonpositive (specGeometry Real.sqrt fun _ m => m.p0)
    ⟨Real.cos, Real.sin, Real.pi⟩ (twoParticles : ParticleFilter ℝ) (List.replicate 10 5)
    1 10 0 0 ⟨⟨0, 0⟩, 0, 0⟩ rfl (by norm_num [twoParticles]) (by norm_num [twoParticles])
    (by norm_num [twoParticles])
  ⟨h.1, fun p hp => (h.2 p hp).2.2.1⟩

end PF

namespace Nav

/-! ## Population snapshots -/

theorem needSocialReplan_example (I : line2f ℝ → line2f ℝ → Bool)
    (X : line2f ℝ → line2f ℝ → Option (Vector2f ℝ)) (U : line2f ℝ → Vector2f ℝ) :
    (needSocialReplan ⟨Real.sqrt, I, X, U⟩ Real.pi
      (addHuman (clearPopulation (addHuman (blankPlanner [] 1) (standingHuman ⟨0, 0⟩ 0)))
        (standingHuman ⟨5, 0⟩ 0)) ⟨1, 1⟩).map Prod.snd = some true := by
  have hmoved : ((⟨5, 0⟩ : Vector2f ℝ).sub ⟨0, 0⟩).norm Real.sqrt > 1 / 2 := by
    rw [norm_sub_axis 5 0 (by norm_num)]; norm_num
  have hl : (addHuman (clearPopulation (addHuman (blankPlanner [] (1 : ℝ))
      (standingHuman ⟨0, 0⟩ 0))) (standingHuman ⟨5, 0⟩ 0)).population_locs_[0]? =
      some ⟨0, 0⟩ := rfl
  have ha : (addHuman (clearPopulation (addHuman (blankPlanner [] (1 : ℝ))
      (standingHuman ⟨0, 0⟩ 0))) (standingHuman ⟨5, 0⟩ 0)).population_angles_[0]? =
      some 0 := rfl
  have hp : (addHuman (clearPopulation (addHuman (blankPlanner [] (1 : ℝ))
      (standingHuman ⟨0, 0⟩ 0))) (standingHuman ⟨5, 0⟩ 0)).population_ =
      [standingHuman ⟨5, 0⟩ 0] := rfl
  have hn : (addHuman (clearPopulation (addHuman (blankPlanner [] (1 : ℝ))
      (standingHuman ⟨0, 0⟩ 0))) (standingHuman ⟨5, 0⟩ 0)).need_social_replan_ = false := rfl
  unfold needSocialReplan
  rw [hn, hp]
  simp only [Bool.false_eq_true, if_false, socialReplanLoop, hl, ha, hn]
  have hh : (standingHuman (⟨5, 0⟩ : Vector2f ℝ) 0).isHidden ⟨1, 1⟩
      (addHuman (clearPopulation (addHuman (blankPlanner [] (1 : ℝ))
        (standingHuman ⟨0, 0⟩ 0))) (standingHuman ⟨5, 0⟩ 0)).map_ = false := rfl
  have hloc : (standingHuman (⟨5, 0⟩ : Vector2f ℝ) 0).getLoc = ⟨5, 0⟩ := rfl
  have hang : ¬ (|AngleDiff Real.pi (standingHuman (⟨5, 0⟩ : Vector2f ℝ) 0).getAngle 0| >
      1 / 2) := by
    show ¬ (|AngleDiff Real.pi 0 0| > 1 / 2)
    rw [PF.angleDiff_self _ _ Real.pi_pos]
    norm_num
  simp only [hh, hloc, hmoved, hang, Bool.false_eq_true, if_false, decide_True, decide_False,
    Bool.or_true, Bool.true_or, Bool.or_false, if_true, Option.map_some']

/-- C20: `clearPopulation` empties `population_` but leaves `population_locs_` and
`population_angles_` as they are, whereas `addHuman` appends to all three. After
`addHuman(A)`, `clearPopulation()`, `addHuman(B)` with A standing at (0,0) and B at (5,0),
`population_` has one entry and each snapshot sequence has two, entry 0 being the pose of the
removed human A; `needSocialReplan` then compares B with that entry and reports that a human
has moved, although B has not moved since it was registered. -/
theorem C20_clearPopulation_keeps_snapshots (I : line2f ℝ → line2f ℝ → Bool)
    (X : line2f ℝ → line2f ℝ → Option (Vector2f ℝ)) (U : line2f ℝ → Vector2f ℝ) :
    (∀ P : GlobalPlanner ℝ, (clearPopulation P).population_ = [] ∧
      (clearPopulation P).population_locs_ = P.population_locs_ ∧
      (clearPopulation P).population_angles_ = P.population_angles_) ∧
    (addHuman (clearPopulation (addHuman (blankPlanner [] (1 : ℝ)) (standingHuman ⟨0, 0⟩ 0)))
      (standingHuman ⟨5, 0⟩ 0)).population_.length = 1 ∧
    (addHuman (clearPopulation (addHuman (blankPlanner [] (1 : ℝ)) (standingHuman ⟨0, 0⟩ 0)))
      (standingHuman ⟨5, 0⟩ 0)).population_locs_ = [⟨0, 0⟩, ⟨5, 0⟩] ∧
    (addHuman (clearPopulation (addHuman (blankPlanner [] (1 : ℝ)) (standingHuman ⟨0, 0⟩ 0)))
      (standingHuman ⟨5, 0⟩ 0)).population_angles_ = [0, 0] ∧
    (needSocialReplan ⟨Real.sqrt, I, X, U⟩ Real.pi
      (addHuman (clearPopulation (addHuman (blankPlanner [] 1) (standingHuman ⟨0, 0⟩ 0)))
        (standingHuman ⟨5, 0⟩ 0)) ⟨1, 1⟩).map Prod.snd = some true :=
  ⟨fun P => ⟨rfl, rfl, rfl⟩, rfl, rfl, rfl, needSocialReplan_example I X U⟩

end Nav

namespace PF

open Nav

variable {K : Type} [LinearOrderedField K] [FloorRing K]

/-! ## The maximum log weight after a scan -/

end PF

namespace PF

open Nav

variable {K : Type} [LinearOrderedField K] [FloorRing K]

theorem ObserveLaser_eq_noResample (sqrt exp : K → K) (N : Nat)
    (Update : Particle K → Particle K) (u : K) (fuel : Nat) (F : ParticleFilter K)
    (hg : passesGate sqrt F = true) (hr : ¬ F.updates_since_last_resample_ > 5) :
    ObserveLaser sqrt exp N Update u fuel F =
      some { F with last_update_loc_ := F.prev_odom_loc_,
                    particles_ := (updateAll Update F.particles_ ⊥).1,
                    max_log_particle_weight_ := (updateAll Update F.particles_ ⊥).2,
                    updates_since_last_resample_ := F.updates_since_last_resample_ + 1 } := by
  unfold ObserveLaser
  simp only [hg, if_true, resampleDue, hr, decide_False, Bool.false_eq_true, if_false]

end PF
namespace PF

open Nav

/-- C14: a finite result of `GetLocation` is the mean pose under the weights
`exp (log_weight_i - m)`, `m` being the value of `max_log_particle_weight_`, and equals the
mean weighted by `exp (log_weight_i)`. `Initialize` gives every particle the log weight 0
and leaves `max_log_particle_weight_` as it was, where `Resample` stores 0 in it. On a
filter whose maximum stands at -100, `Initialize` at the origin (two particles drawn at the
mean) followed by `GetLocation` forms the weights `exp (0 - (-100))`, which are beyond the
finite range of binary32, and `GetLocation` has no finite result, while the same particles
with the maximum at 0 give the mean pose ((0,0), 0). The same happens with the maximum at
`-infinity`, which `ObserveLaser` leaves on a filter without particles. -/
theorem C14_initialize_keeps_stale_maximum :
    (∀ (F : ParticleFilter ℝ) (m : ℝ) (r : Vector2f ℝ × ℝ),
      F.max_log_particle_weight_ = ((m : ℝ) : WithBot ℝ) → GetLocation Real.exp F = some r →
      r = weightedMean (fun p => Real.exp (p.log_weight - m)) F.particles_ ∧
      r = weightedMean (fun p => Real.exp p.log_weight) F.particles_) ∧
    (∀ (T : Trig ℝ) (Gaussian : Nat → ℝ → ℝ → ℝ) (N : Nat) (map_lines : List (line2f ℝ))
        (F : ParticleFilter ℝ) (loc : Vector2f ℝ) (angle : ℝ),
      (Initialize T Gaussian N map_lines F loc angle).max_log_particle_weight_ =
        F.max_log_particle_weight_ ∧
      ∀ p ∈ (Initialize T Gaussian N map_lines F loc angle).particles_, p.log_weight = 0) ∧
    (∃ F1, Resample Real.exp 2 0 2 (staleFilter : ParticleFilter ℝ) = some F1 ∧
      F1.max_log_particle_weight_ = ((0 : ℝ) : WithBot ℝ)) ∧
    (Initialize ⟨Real.cos, Real.sin, Real.pi⟩ (fun _ mean _ => mean) 2 []
      (staleFilter : ParticleFilter ℝ) ⟨0, 0⟩ 0).max_log_particle_weight_ =
        ((-100 : ℝ) : WithBot ℝ) ∧
    finite32 (Real.exp (0 - (-100))) = false ∧
    GetLocation Real.exp (Initialize ⟨Real.cos, Real.sin, Real.pi⟩ (fun _ mean _ => mean) 2 []
      (staleFilter : ParticleFilter ℝ) ⟨0, 0⟩ 0) = none ∧
    GetLocation Real.exp
      { Initialize ⟨Real.cos, Real.sin, Real.pi⟩ (fun _ mean _ => mean) 2 []
          (staleFilter : ParticleFilter ℝ) ⟨0, 0⟩ 0 with
        max_log_particle_weight_ := ((0 : ℝ) : WithBot ℝ) } = some (⟨0, 0⟩, 0) ∧
    (∃ F1 : ParticleFilter ℝ,
      ObserveLaser Real.sqrt Real.exp 2 id 0 0 (movedFilter 0) = some F1 ∧
      (Initialize ⟨Real.cos, Real.sin, Real.pi⟩ (fun _ mean _ => mean) 2 [] F1
        ⟨0, 0⟩ 0).particles_.length = 2 ∧
      (Initialize ⟨Real.cos, Real.sin, Real.pi⟩ (fun _ mean _ => mean) 2 [] F1
        ⟨0, 0⟩ 0).max_log_particle_weight_ = ⊥ ∧
      GetLocation Real.exp (Initialize ⟨Real.cos, Real.sin, Real.pi⟩ (fun _ mean _ => mean) 2 []
        F1 ⟨0, 0⟩ 0) = none) := by
  refine ⟨fun F m r hmax h => ⟨getLocation_some Real.exp F m hmax r h, by
      rw [← weightedMean_shift m]; exact getLocation_some Real.exp F m hmax r h⟩,
    fun T Gaussian N map_lines F loc angle =>
    ⟨rfl, initParticles_log_weight T Gaussian loc angle N 0⟩, ?_, rfl,
    exp_hundred_not_finite32, getLocation_stale, getLocation_reset,
    ⟨_, ObserveLaser_eq_noResample Real.sqrt Real.exp 2 id 0 0 (movedFilter 0)
      (passesGate_movedFilter 0) (by norm_num [movedFilter]), rfl, rfl, rfl⟩⟩
  obtain ⟨ps, hr, _, _, _⟩ := Resample_spec Real.exp Real.exp_pos 2 (by norm_num)
    (staleFilter : ParticleFilter ℝ) (-100) 0 2 rfl rfl rfl (le_refl _) staleFilter_stride
    (le_refl _)
  exact ⟨_, hr, rfl⟩

/-- C14 at a concrete input: the two particles that `Initialize` draws at the origin, with the
maximum at 0, have the mean pose ((0,0), 0) under the weights `exp (log_weight_i)`. -/
theorem C14_witness :
    ((⟨0, 0⟩, 0) : Vector2f ℝ × ℝ) =
      weightedMean (fun p => Real.exp p.log_weight)
        ({ Initialize ⟨Real.cos, Real.sin, Real.pi⟩ (fun _ mean _ => mean) 2 []
            (staleFilter : ParticleFilter ℝ) ⟨0, 0⟩ 0 with
          max_log_particle_weight_ := ((0 : ℝ) : WithBot ℝ) } : ParticleFilter ℝ).particles_ :=
  (C14_initialize_keeps_stale_maximum.1 _ 0 _ rfl getLocation_reset).2

end PF

namespace Nav

/-! ## The octile heuristic -/

theorem sqrt_two_bounds : 1 ≤ Real.sqrt 2 ∧ Real.sqrt 2 ≤ 2 := by
  constructor
  · rw [show (1 : ℝ) = Real.sqrt 1 by simp]
    exact Real.sqrt_le_sqrt (by norm_num)
  · exact Real.sqrt_le_iff.mpr ⟨by norm_num, by norm_num⟩

/-- The heuristic as the larger coordinate distance plus `sqrt 2 - 1` times the smaller. -/
theorem getHeuristic_max_form (G : Geometry ℝ) (gx gy x y : ℝ) :
    getHeuristic G ⟨gx, gy⟩ ⟨x, y⟩ =
      (2 - G.sqrt 2) * max |gx - x| |gy - y| + (G.sqrt 2 - 1) * (|gx - x| + |gy - y|) := by
  rw [getHeuristic_eq]
  rcases le_total |gx - x| |gy - y| with h | h
  · rw [max_eq_right h, abs_of_nonpos (by linarith)]
    ring
  · rw [max_eq_left h, abs_of_nonneg (by linarith)]
    ring

theorem octile_step (t a b a1 b1 da db : ℝ) (ht1 : 1 ≤ t) (ht2 : t ≤ 2)
    (ha : a ≤ a1 + da) (hb : b ≤ b1 + db) :
    (2 - t) * max a b + (t - 1) * (a + b) ≤
      ((2 - t) * max a1 b1 + (t - 1) * (a1 + b1)) +
        ((2 - t) * max da db + (t - 1) * (da + db)) := by
  have hmax : max a b ≤ max a1 b1 + max da db := by
    apply max_le
    · linarith [le_max_left a1 b1, le_max_left da db]
    · linarith [le_max_right a1 b1, le_max_right da db]
  have h1 : (2 - t) * max a b ≤ (2 - t) * (max a1 b1 + max da db) :=
    mul_le_mul_of_nonneg_left hmax (by linarith)
  have h2 : (t - 1) * (a + b) ≤ (t - 1) * (a1 + b1 + (da + db)) :=
    mul_le_mul_of_nonneg_left (by linarith) (by linarith)
  nlinarith [h1, h2]

theorem stepDx_cases (i : Int) : stepDx i = 0 ∨ stepDx i = 1 ∨ stepDx i = -1 := by
  unfold stepDx
  split_ifs <;> simp_all

theorem stepDy_cases (i : Int) : stepDy i = 0 ∨ stepDy i = 1 ∨ stepDy i = -1 := by
  unfold stepDy
  split_ifs <;> first | omega | simp

/-- One lattice step lowers the heuristic by at most its length. -/
theorem getHeuristic_step (I : line2f ℝ → line2f ℝ → Bool)
    (X : line2f ℝ → line2f ℝ → Option (Vector2f ℝ)) (U : line2f ℝ → Vector2f ℝ)
    (res : ℝ) (hres : 0 ≤ res) (goal loc : Vector2f ℝ) (i : Int) :
    getHeuristic ⟨Real.sqrt, I, X, U⟩ goal loc ≤
      (if stepDx i ≠ 0 ∧ stepDy i ≠ 0 then Real.sqrt 2 * res else res) +
        getHeuristic ⟨Real.sqrt, I, X, U⟩ goal
          (loc.add (Vector2f.smul res ⟨(stepDx i : ℝ), (stepDy i : ℝ)⟩)) := by
  obtain ⟨gx, gy⟩ := goal
  obtain ⟨x, y⟩ := loc
  obtain ⟨ht1, ht2⟩ := sqrt_two_bounds
  simp only [Vector2f.add, Vector2f.smul, getHeuristic_max_form]
  have hx : |gx - x| ≤ |gx - (x + res * (stepDx i : ℝ))| + res * |(stepDx i : ℝ)| := by
    have := abs_sub_abs_le_abs_sub (gx - x) (gx - (x + res * (stepDx i : ℝ)))
    have e : gx - x - (gx - (x + res * (stepDx i : ℝ))) = res * (stepDx i : ℝ) := by ring
    rw [e, abs_mul, abs_of_nonneg hres] at this
    linarith
  have hy : |gy - y| ≤ |gy - (y + res * (stepDy i : ℝ))| + res * |(stepDy i : ℝ)| := by
    have := abs_sub_abs_le_abs_sub (gy - y) (gy - (y + res * (stepDy i : ℝ)))
    have e : gy - y - (gy - (y + res * (stepDy i : ℝ))) = res * (stepDy i : ℝ) := by ring
    rw [e, abs_mul, abs_of_nonneg hres] at this
    linarith
  have hstep := octile_step (Real.sqrt 2) _ _ _ _ _ _ ht1 ht2 hx hy
  have hcost : (2 - Real.sqrt 2) * max (res * |(stepDx i : ℝ)|) (res * |(stepDy i : ℝ)|) +
      (Real.sqrt 2 - 1) * (res * |(stepDx i : ℝ)| + res * |(stepDy i : ℝ)|) ≤
      (if stepDx i ≠ 0 ∧ stepDy i ≠ 0 then Real.sqrt 2 * res else res) := by
    rcases stepDx_cases i with h | h | h <;> rcases stepDy_cases i with k | k | k <;>
      simp [h, k, hres] <;> nlinarith
  linarith

/-- The heuristic at a node is at most the length of a lattice walk from it plus the
heuristic where the walk ends. -/
theorem getHeuristic_walk (I : line2f ℝ → line2f ℝ → Bool)
    (X : line2f ℝ → line2f ℝ → Option (Vector2f ℝ)) (U : line2f ℝ → Vector2f ℝ)
    (res : ℝ) (hres : 0 ≤ res) (goal : Vector2f ℝ) :
    ∀ (steps : List Int) (loc : Vector2f ℝ),
      getHeuristic ⟨Real.sqrt, I, X, U⟩ goal loc ≤
        walkLength ⟨Real.sqrt, I, X, U⟩ res steps +
          getHeuristic ⟨Real.sqrt, I, X, U⟩ goal (walkEnd res loc steps) := by
  intro steps
  induction steps with
  | nil => intro loc; simp [walkLength, walkEnd]
  | cons i steps ih =>
    intro loc
    have h1 := getHeuristic_step I X U res hres goal loc i
    have h2 := ih (loc.add (Vector2f.smul res ⟨(stepDx i : ℝ), (stepDy i : ℝ)⟩))
    simp only [walkLength, walkEnd]
    linarith

theorem getHeuristic_self (G : Geometry ℝ) (goal : Vector2f ℝ) :
    getHeuristic G goal goal = 0 := by
  obtain ⟨gx, gy⟩ := goal
  rw [getHeuristic_eq]
  simp

/-- The heuristic is at most `sqrt 2` times the Euclidean distance to the goal. -/
theorem getHeuristic_le_norm (I : line2f ℝ → line2f ℝ → Bool)
    (X : line2f ℝ → line2f ℝ → Option (Vector2f ℝ)) (U : line2f ℝ → Vector2f ℝ)
    (goal loc : Vector2f ℝ) :
    getHeuristic ⟨Real.sqrt, I, X, U⟩ goal loc ≤
      Real.sqrt 2 * (goal.sub loc).norm Real.sqrt := by
  obtain ⟨gx, gy⟩ := goal
  obtain ⟨x, y⟩ := loc
  obtain ⟨ht1, ht2⟩ := sqrt_two_bounds
  rw [getHeuristic_max_form]
  simp only [Vector2f.norm, Vector2f.sub]
  have hx : |gx - x| ≤ Real.sqrt ((gx - x) * (gx - x) + (gy - y) * (gy - y)) :=
    Real.abs_le_sqrt (by nlinarith [mul_self_nonneg (gy - y)])
  have hy : |gy - y| ≤ Real.sqrt ((gx - x) * (gx - x) + (gy - y) * (gy - y)) :=
    Real.abs_le_sqrt (by nlinarith [mul_self_nonneg (gx - x)])
  have hm : max |gx - x| |gy - y| ≤
      Real.sqrt ((gx - x) * (gx - x) + (gy - y) * (gy - y)) := max_le hx hy
  have hmin : |gx - x| + |gy - y| ≤ 2 * max |gx - x| |gy - y| := by
    linarith [le_max_left |gx - x| |gy - y|, le_max_right |gx - x| |gy - y|]
  have h1 : (Real.sqrt 2 - 1) * (|gx - x| + |gy - y|) ≤
      (Real.sqrt 2 - 1) * (2 * max |gx - x| |gy - y|) :=
    mul_le_mul_of_nonneg_left hmin (by linarith)
  have h2 : Real.sqrt 2 * max |gx - x| |gy - y| ≤
      Real.sqrt 2 * Real.sqrt ((gx - x) * (gx - x) + (gy - y) * (gy - y)) :=
    mul_le_mul_of_nonneg_left hm (by linarith)
  show (2 - Real.sqrt 2) * max |gx - x| |gy - y| +
    (Real.sqrt 2 - 1) * (|gx - x| + |gy - y|) ≤ _
  nlinarith [h1, h2]

/-- C16, the node at which the bound fails: with resolution 1, the node at (0,0) passes the
goal test for the goal (1/2, 0), so the shortest lattice path from it to a node that passes the
goal test is the empty path, of length 0, while the heuristic of the node is 1/2. -/
theorem C16_counterexample :
    ((⟨1 / 2, 0⟩ : Vector2f ℝ).sub (walkEnd 1 ⟨0, 0⟩ [])).norm Real.sqrt < 71 / 100 * 1 ∧
    walkLength (specGeometry Real.sqrt fun _ m => m.p0) 1 [] = 0 ∧
    getHeuristic (specGeometry Real.sqrt fun _ m => m.p0) (⟨1 / 2, 0⟩ : Vector2f ℝ) ⟨0, 0⟩ =
      1 / 2 := by
  refine ⟨?_, rfl, ?_⟩
  · show ((⟨1 / 2, 0⟩ : Vector2f ℝ).sub ⟨0, 0⟩).norm Real.sqrt < 71 / 100 * 1
    rw [norm_sub_axis (1 / 2) 0 (by norm_num)]
    norm_num
  · rw [getHeuristic_eq]
    norm_num

/-- C16: for every resolution above 0, every goal, every node location and every sequence of
8-connected lattice steps from the node, the octile heuristic of the node is at most the total
step length of the walk plus the heuristic at the location where the walk ends. Hence it is
at most the step length of every walk that ends at the goal location itself, and it exceeds
the step length of a walk that ends at a node passing the goal test (distance to the goal
below 0.71 times the resolution) by less than `sqrt 2 * 0.71` times the resolution. -/
theorem C16_heuristic_bounded_by_walk (I : line2f ℝ → line2f ℝ → Bool)
    (X : line2f ℝ → line2f ℝ → Option (Vector2f ℝ)) (U : line2f ℝ → Vector2f ℝ)
    (res : ℝ) (hres : 0 < res) (goal loc : Vector2f ℝ) (steps : List Int) :
    getHeuristic ⟨Real.sqrt, I, X, U⟩ goal loc ≤
      walkLength ⟨Real.sqrt, I, X, U⟩ res steps +
        getHeuristic ⟨Real.sqrt, I, X, U⟩ goal (walkEnd res loc steps) ∧
    (walkEnd res loc steps = goal →
      getHeuristic ⟨Real.sqrt, I, X, U⟩ goal loc ≤ walkLength ⟨Real.sqrt, I, X, U⟩ res steps) ∧
    ((goal.sub (walkEnd res loc steps)).norm Real.sqrt < 71 / 100 * res →
      getHeuristic ⟨Real.sqrt, I, X, U⟩ goal loc <
        walkLength ⟨Real.sqrt, I, X, U⟩ res steps + Real.sqrt 2 * (71 / 100 * res)) := by
  have h := getHeuristic_walk I X U res hres.le goal steps loc
  refine ⟨h, ?_, ?_⟩
  · intro he
    rw [he, getHeuristic_self] at h
    linarith
  · intro hg
    have h1 := getHeuristic_le_norm I X U goal (walkEnd res loc steps)
    have h2 : Real.sqrt 2 * (goal.sub (walkEnd res loc steps)).norm Real.sqrt <
        Real.sqrt 2 * (71 / 100 * res) :=
      mul_lt_mul_of_pos_left hg (by linarith [sqrt_two_bounds.1])
    linarith

/-- Three steps east at resolution 1 from (0,0) toward the goal (3,0). -/
theorem C16_witness :
    getHeuristic (specGeometry Real.sqrt fun _ m => m.p0) (⟨3, 0⟩ : Vector2f ℝ) ⟨0, 0⟩ ≤
      walkLength (specGeometry Real.sqrt fun _ m => m.p0) 1 [5, 5, 5] +
        getHeuristic (specGeometry Real.sqrt fun _ m => m.p0) (⟨3, 0⟩ : Vector2f ℝ)
          (walkEnd 1 ⟨0, 0⟩ [5, 5, 5]) :=
  (C16_heuristic_bounded_by_walk _ _ _ 1 (by norm_num) ⟨3, 0⟩ ⟨0, 0⟩ [5, 5, 5]).1

end Nav

namespace Nav

/-! ## Node keys identify grid cells -/

theorem digitChar_lt_ten (k : Nat) (hk : k < 10) :
    (Nat.digitChar k).toNat - 48 = k ∧ Nat.digitChar k ≠ '_' ∧ Nat.digitChar k ≠ '-' := by
  interval_cases k <;> decide

/-- The decimal digits of `n`: no underscore or minus sign among them, and they decode
to `n`. -/
theorem toDigitsCore_spec : ∀ (fuel n : Nat) (ds : List Char), n < fuel →
    ∃ l, Nat.toDigitsCore 10 fuel n ds = l ++ ds ∧ l ≠ [] ∧
      (∀ c ∈ l, c ≠ '_' ∧ c ≠ '-') ∧
      l.foldl (fun acc c => 10 * acc + (c.toNat - 48)) 0 = n := by
  intro fuel
  induction fuel with
  | zero => intro n ds h; exact absurd h (Nat.not_lt_zero _)
  | succ fuel ih =>
    intro n ds h
    have hd := digitChar_lt_ten (n % 10) (Nat.mod_lt _ (by norm_num))
    simp only [Nat.toDigitsCore]
    by_cases h0 : n / 10 = 0
    · rw [if_pos h0]
      refine ⟨[Nat.digitChar (n % 10)], rfl, by simp, ?_, ?_⟩
      · intro c hc
        rw [List.mem_singleton] at hc
        rw [hc]; exact hd.2
      · simp only [List.foldl_cons, List.foldl_nil, hd.1]
        omega
    · rw [if_neg h0]
      obtain ⟨l, hl, _, hl2, hl3⟩ := ih (n / 10) (Nat.digitChar (n % 10) :: ds) (by omega)
      refine ⟨l ++ [Nat.digitChar (n % 10)], by rw [hl]; simp, by simp, ?_, ?_⟩
      · intro c hc
        rcases List.mem_append.mp hc with hc | hc
        · exact hl2 c hc
        · rw [List.mem_singleton] at hc
          rw [hc]; exact hd.2
      · rw [List.foldl_append, hl3]
        simp only [List.foldl_cons, List.foldl_nil, hd.1]
        omega

theorem natToString_data (n : Nat) :
    (toString n).data ≠ [] ∧ (∀ c ∈ (toString n).data, c ≠ '_' ∧ c ≠ '-') ∧
    (toString n).data.foldl (fun acc c => 10 * acc + (c.toNat - 48)) 0 = n := by
  obtain ⟨l, hl, h1, h2, h3⟩ := toDigitsCore_spec (n + 1) n [] (Nat.lt_succ_self n)
  have e : (toString n).data = l := by
    show (Nat.toDigits 10 n).asString.data = l
    unfold Nat.toDigits
    rw [hl, List.append_nil]
    rfl
  rw [e]
  exact ⟨h1, h2, h3⟩

theorem natToString_injective (m n : Nat) (h : (toString m).data = (toString n).data) :
    m = n := by
  rw [← (natToString_data m).2.2, ← (natToString_data n).2.2, h]

theorem intToString_ofNat (m : Nat) : (toString (Int.ofNat m)).data = (toString m).data := rfl

theorem intToString_negSucc (m : Nat) :
    (toString (Int.negSucc m)).data = '-' :: (toString (m + 1)).data := by
  show ("-" ++ toString (Nat.succ m)).data = _
  rw [String.data_append]
  rfl

theorem intToString_no_underscore (a : Int) : '_' ∉ (toString a).data := by
  cases a with
  | ofNat m =>
    rw [intToString_ofNat]
    intro h
    exact ((natToString_data m).2.1 _ h).1 rfl
  | negSucc m =>
    rw [intToString_negSucc]
    intro h
    rcases List.mem_cons.mp h with h | h
    · exact absurd h (by decide)
    · exact ((natToString_data (m + 1)).2.1 _ h).1 rfl

theorem intToString_injective (a b : Int) (h : (toString a).data = (toString b).data) :
    a = b := by
  cases a with
  | ofNat m =>
    cases b with
    | ofNat n =>
      rw [intToString_ofNat, intToString_ofNat] at h
      rw [natToString_injective m n h]
    | negSucc n =>
      rw [intToString_ofNat, intToString_negSucc] at h
      obtain ⟨h1, h2, _⟩ := natToString_data m
      cases hd : (toString m).data with
      | nil => exact absurd hd h1
      | cons c cs =>
        rw [hd] at h
        have hc : c = '-' := (List.cons.inj h).1
        exact absurd hc (h2 c (by rw [hd]; exact List.mem_cons_self _ _)).2
  | negSucc m =>
    cases b with
    | ofNat n =>
      rw [intToString_ofNat, intToString_negSucc] at h
      obtain ⟨h1, h2, _⟩ := natToString_data n
      cases hd : (toString n).data with
      | nil => exact absurd hd h1
      | cons c cs =>
        rw [hd] at h
        have hc : c = '-' := (List.cons.inj h).1.symm
        exact absurd hc (h2 c (by rw [hd]; exact List.mem_cons_self _ _)).2
    | negSucc n =>
      rw [intToString_negSucc, intToString_negSucc] at h
      have := natToString_injective (m + 1) (n + 1) (List.cons.inj h).2
      have e : m = n := by omega
      rw [e]

theorem append_sep_inj (s : Char) : ∀ (l1 l2 r1 r2 : List Char), s ∉ l1 → s ∉ l2 →
    l1 ++ s :: r1 = l2 ++ s :: r2 → l1 = l2 ∧ r1 = r2 := by
  intro l1
  induction l1 with
  | nil =>
    intro l2 r1 r2 _ h2 h
    cases l2 with
    | nil => exact ⟨rfl, (List.cons.inj h).2⟩
    | cons c l2 =>
      have hc : s = c := (List.cons.inj h).1
      exact absurd (by rw [hc]; exact List.mem_cons_self _ _) h2
  | cons a l1 ih =>
    intro l2 r1 r2 h1 h2 h
    cases l2 with
    | nil =>
      have hc : a = s := (List.cons.inj h).1
      exact absurd (by rw [hc]; exact List.mem_cons_self _ _) h1
    | cons c l2 =>
      obtain ⟨hac, ht⟩ := List.cons.inj h
      obtain ⟨e1, e2⟩ := ih l2 r1 r2 (fun hm => h1 (List.mem_cons_of_mem _ hm))
        (fun hm => h2 (List.mem_cons_of_mem _ hm)) ht
      exact ⟨by rw [hac, e1], e2⟩

/-- Two grid indices with the same key are equal. -/
theorem getNewID_injective (a b c d : Int) (h : getNewID a b = getNewID c d) :
    a = c ∧ b = d := by
  have hd := congrArg String.data h
  unfold getNewID at hd
  simp only [String.data_append] at hd
  rw [List.append_assoc, List.append_assoc, List.singleton_append, List.singleton_append] at hd
  obtain ⟨e1, e2⟩ := append_sep_inj '_' _ _ _ _ (intToString_no_underscore a)
    (intToString_no_underscore c) hd
  exact ⟨intToString_injective a c e1, intToString_injective b d e2⟩

end Nav

namespace Nav

variable {K : Type} [LinearOrderedField K] [FloorRing K]

/-! ## Path nodes lie one lattice step from their parents -/

theorem expandNeighbor_lattice (G : Geometry K) (goal : Vector2f K) (c : Node K)
    (P : GlobalPlanner K) (nb : Neighbor K) (s0 : Node K)
    (hnb : GoodNeighbor c.index nb) (hInv : ParentInv P.nav_map_ s0)
    (hL : LatticeInv P.map_resolution_ P.nav_map_ s0)
    (hJ : ∃ c', NavMap.find? P.nav_map_ c.key = some c' ∧ c'.index = c.index ∧ c'.loc = c.loc) :
    LatticeInv P.map_resolution_ (expandNeighbor G goal c P nb).nav_map_ s0 ∧
    ∃ c', NavMap.find? (expandNeighbor G goal c P nb).nav_map_ c.key = some c' ∧
      c'.index = c.index ∧ c'.loc = c.loc := by
  obtain ⟨hS, hSp, hKey, hPar, hNb⟩ := hInv
  obtain ⟨hL1, hL2, hL3⟩ := hL
  obtain ⟨c', hc', hci, hcl⟩ := hJ
  obtain ⟨hk, hstep, hpl⟩ := hnb
  have hneS : nb.key ≠ "START" := by
    rw [hk]
    exact getNewID_ne_START _ _
  have hnec : c.key ≠ nb.key := by
    intro e
    by_cases hcS : c.key = "START"
    · rw [hcS] at e
      exact hneS e.symm
    · have h1 := hL2 c.key c' hc' hcS
      rw [e, hk, hci] at h1
      obtain ⟨e1, e2⟩ := getNewID_injective _ _ _ _ h1
      rcases hstep with h | h
      · apply h; omega
      · apply h; omega
  unfold expandNeighbor
  simp only [newNode]
  split_ifs with h1 h2
  · -- a new node is stored under a fresh key
    have hnone : NavMap.find? P.nav_map_ nb.key = none := by
      simpa [NavMap.count] using h1
    have hkey' : (buildNode G P c nb.neighbor_index).key = nb.key := by
      rw [buildNode_key, hk]
    simp only [hkey']
    have hfresh : ∀ j n, NavMap.find? P.nav_map_ j = some n → j ≠ nb.key := by
      intro j n hj e
      rw [e, hnone] at hj
      exact Option.noConfusion hj
    refine ⟨⟨?_, ?_, ?_⟩, ?_⟩
    · intro k n hn
      rw [NavMap.find?_set] at hn
      split_ifs at hn with e
      · cases hn
        rw [buildNode_loc, buildNode_index, ← hcl, hL1 c.key c' hc', hci]
        simp only [Vector2f.add, Vector2f.smul, Vector2f.mk.injEq]
        constructor <;> push_cast <;> ring
      · exact hL1 k n hn
    · intro k n hn hne
      rw [NavMap.find?_set] at hn
      split_ifs at hn with e
      · cases hn
        rw [e, hk, buildNode_index]
      · exact hL2 k n hn hne
    · intro k n hn hne
      rw [NavMap.find?_set] at hn
      split_ifs at hn with e
      · cases hn
        refine ⟨c', ?_, nb.neighbor_index, hstep, ?_, ?_⟩
        · rw [buildNode_parent, NavMap.find?_set_other _ _ _ _ (hfresh _ _ hc')]
          exact hc'
        · rw [buildNode_index, hci]
        · rw [buildNode_index, hci]
      · obtain ⟨p, hp, hi⟩ := hL3 k n hn hne
        refine ⟨p, ?_, hi⟩
        rw [NavMap.find?_set_other _ _ _ _ (hfresh _ _ hp)]
        exact hp
    · refine ⟨c', ?_, hci, hcl⟩
      rw [NavMap.find?_set_other _ _ _ _ (hfresh _ _ hc')]
      exact hc'
  · -- an existing node is relaxed
    have hsome : ∃ old, NavMap.find? P.nav_map_ nb.key = some old := by
      have h1' : ¬ NavMap.find? P.nav_map_ nb.key = none := by
        simpa [NavMap.count] using h1
      cases hf : NavMap.find? P.nav_map_ nb.key with
      | none => exact absurd hf h1'
      | some old => exact ⟨old, rfl⟩
    obtain ⟨old, hold⟩ := hsome
    have hget : NavMap.get P.nav_map_ nb.key = old := NavMap.get_of_find? _ _ _ hold
    rw [hget]
    have hoi : old.index.x = c.index.x + stepDx nb.neighbor_index ∧
        old.index.y = c.index.y + stepDy nb.neighbor_index := by
      have h3 := hL2 nb.key old hold hneS
      rw [hk] at h3
      obtain ⟨e1, e2⟩ := getNewID_injective _ _ _ _ h3
      exact ⟨e1.symm, e2.symm⟩
    refine ⟨⟨?_, ?_, ?_⟩, ?_⟩
    · intro k n hn
      rw [NavMap.find?_set] at hn
      split_ifs at hn with e
      · cases hn
        exact hL1 nb.key old hold
      · exact hL1 k n hn
    · intro k n hn hne
      rw [NavMap.find?_set] at hn
      split_ifs at hn with e
      · cases hn
        rw [e]
        exact hL2 nb.key old hold hneS
      · exact hL2 k n hn hne
    · intro k n hn hne
      rw [NavMap.find?_set] at hn
      split_ifs at hn with e
      · cases hn
        refine ⟨c', ?_, nb.neighbor_index, hstep, ?_, ?_⟩
        · show NavMap.find? _ c.key = some c'
          rw [NavMap.find?_set_other _ _ _ _ hnec]
          exact hc'
        · show old.index.x = _
          rw [hci]; exact hoi.1
        · show old.index.y = _
          rw [hci]; exact hoi.2
      · obtain ⟨p, hp, hi⟩ := hL3 k n hn hne
        by_cases e2 : n.parent = nb.key
        · refine ⟨{ old with cost := c.cost + nb.path_length, parent := c.key }, ?_, ?_⟩
          · show NavMap.find? _ n.parent = _
            rw [e2, NavMap.find?_set_self]
          · rw [e2, hold] at hp
            cases hp
            exact hi
        · refine ⟨p, ?_, hi⟩
          rw [NavMap.find?_set_other _ _ _ _ e2]
          exact hp
    · refine ⟨c', ?_, hci, hcl⟩
      rw [NavMap.find?_set_other _ _ _ _ hnec]
      exact hc'
  · exact ⟨⟨hL1, hL2, hL3⟩, c', hc', hci, hcl⟩

theorem foldl_expandNeighbor_lattice (G : Geometry K) (hs : ∀ x : K, 0 < x → 0 < G.sqrt x)
    (goal : Vector2f K) (c : Node K) (s0 : Node K) (res : K) (l : List (Neighbor K))
    (hl : ∀ nb ∈ l, GoodNeighbor c.index nb) (P : GlobalPlanner K)
    (hr : P.map_resolution_ = res) (hres : 0 < res) (hInv : ParentInv P.nav_map_ s0)
    (hL : LatticeInv res P.nav_map_ s0)
    (hJ : ∃ c', NavMap.find? P.nav_map_ c.key = some c' ∧ c'.cost ≤ c.cost)
    (hJ2 : ∃ c', NavMap.find? P.nav_map_ c.key = some c' ∧ c'.index = c.index ∧
      c'.loc = c.loc) :
    LatticeInv res (l.foldl (expandNeighbor G goal c) P).nav_map_ s0 := by
  induction l generalizing P with
  | nil => exact hL
  | cons nb rest ih =>
    have hg := hl nb (List.mem_cons_self _ _)
    have h := expandNeighbor_inv G hs goal c P nb s0 (by rw [hr]; exact hres) hg hInv hJ
    have h2 := expandNeighbor_lattice G goal c P nb s0 hg hInv (by rw [hr]; exact hL) hJ2
    have hc := expandNeighbor_sameConfig G goal c P nb
    rw [hr] at h2
    exact ih (fun nb' h' => hl nb' (List.mem_cons_of_mem _ h')) _ (by rw [hc.2.1]; exact hr)
      h.1 h2.1 h.2 h2.2

theorem expandAll_lattice (G : Geometry K) (hs : ∀ x : K, 0 < x → 0 < G.sqrt x)
    (goal : Vector2f K) (s0 : Node K) (res : K) (key : String) (P : GlobalPlanner K)
    (hr : P.map_resolution_ = res) (hres : 0 < res) (hInv : ParentInv P.nav_map_ s0)
    (hL : LatticeInv res P.nav_map_ s0) :
    LatticeInv res ((NavMap.get P.nav_map_ key).neighbors.foldl
      (expandNeighbor G goal (NavMap.get P.nav_map_ key)) P).nav_map_ s0 := by
  cases hf : NavMap.find? P.nav_map_ key with
  | none =>
    have hb : NavMap.get P.nav_map_ key = Node.blank := NavMap.get_of_find?_none _ _ hf
    rw [hb]
    exact hL
  | some c =>
    have hb : NavMap.get P.nav_map_ key = c := NavMap.get_of_find? _ _ _ hf
    rw [hb]
    have hkey : c.key = key := hInv.2.2.1 key c hf
    have hgood : ∀ nb ∈ c.neighbors, GoodNeighbor c.index nb := fun nb hnb =>
      hInv.2.2.2.2 key c hf nb hnb
    exact foldl_expandNeighbor_lattice G hs goal c s0 res c.neighbors hgood P hr hres hInv hL
      ⟨c, by rw [hkey]; exact hf, le_refl _⟩ ⟨c, by rw [hkey]; exact hf, rfl, rfl⟩

/-- The search loop keeps the lattice invariant. -/
theorem searchLoop_lattice (G : Geometry K) (hs : ∀ x : K, 0 < x → 0 < G.sqrt x)
    (goal : Vector2f K) (s0 : Node K) (res : K) (hres : 0 < res) (n : Nat) (cur : String)
    (P : GlobalPlanner K) (hr : P.map_resolution_ = res) (hInv : ParentInv P.nav_map_ s0)
    (hF : FrontierInv P) (hL : LatticeInv res P.nav_map_ s0) :
    LatticeInv res (searchLoop G goal n cur P).planner.nav_map_ s0 := by
  induction n generalizing cur P with
  | zero => exact hL
  | succ n ih =>
    have hF1 : FrontierInv { P with frontier_ := (Frontier.Pop P.frontier_).2 } := by
      intro e he
      apply hF e
      simp only [Frontier.Pop] at he
      cases hm : Frontier.minEntry P.frontier_ with
      | none => rw [hm] at he; simp at he
      | some e0 =>
        rw [hm] at he
        exact (List.mem_filter.mp he).1
    unfold searchLoop
    simp only
    split_ifs with h1 h2
    · exact hL
    · exact hL
    · have hf := foldl_expandNeighbor_sameConfig G goal
        (NavMap.get P.nav_map_ (Frontier.Pop P.frontier_).1)
        (NavMap.get P.nav_map_ (Frontier.Pop P.frontier_).1).neighbors
        { P with frontier_ := (Frontier.Pop P.frontier_).2 }
      have hi := expandAll_inv G hs goal s0 (Frontier.Pop P.frontier_).1
        (NavMap.get P.nav_map_ (Frontier.Pop P.frontier_).1).neighbors
        { P with frontier_ := (Frontier.Pop P.frontier_).2 } (List.prefix_refl _)
        (by rw [hr]; exact hres) hInv hF1
      have hl := expandAll_lattice G hs goal s0 res (Frontier.Pop P.frontier_).1
        { P with frontier_ := (Frontier.Pop P.frontier_).2 } hr hres hInv hL
      exact ih (Frontier.Pop P.frontier_).1 _ (by rw [hf.2.1]; exact hr) hi.1 hi.2 hl

theorem initializeMap_lattice (G : Geometry K) (P : GlobalPlanner K) (loc : Vector2f K)
    (s0 : Node K) (hS : NavMap.find? (initializeMap G P loc).nav_map_ "START" = some s0) :
    LatticeInv P.map_resolution_ (initializeMap G P loc).nav_map_ s0 := by
  obtain ⟨s1, hm, _⟩ := initializeMap_nav_map G P loc
  have hfind : ∀ k n, NavMap.find? (initializeMap G P loc).nav_map_ k = some n →
      k = "START" ∧ n = s0 := by
    intro k n h
    have h0 := h
    rw [hm] at h
    simp only [NavMap.find?] at h
    split_ifs at h with e
    · rw [← e] at h0
      rw [hS] at h0
      exact ⟨e.symm, (Option.some.inj h0).symm⟩
  refine ⟨?_, ?_, ?_⟩
  · intro k n h
    rw [(hfind k n h).2]
    simp [Vector2f.add, Vector2f.smul]
  · intro k n h hne
    exact absurd (hfind k n h).1 hne
  · intro k n h hne
    exact absurd (hfind k n h).1 hne

end Nav

namespace Nav

/-! ## The travelled distance of a found path -/

theorem sqrt_cardinal (res : ℝ) (hres : 0 < res) : Real.sqrt (res * res) = res :=
  Real.sqrt_mul_self hres.le

theorem sqrt_diagonal (res : ℝ) (hres : 0 < res) :
    Real.sqrt (res * res + res * res) = Real.sqrt 2 * res := by
  rw [show res * res + res * res = 2 * (res * res) by ring, Real.sqrt_mul (by norm_num),
    Real.sqrt_mul_self hres.le]

/-- The Euclidean length of a lattice step. -/
theorem hop_norm (res : ℝ) (hres : 0 < res) (dx dy : Int)
    (hx : dx = 0 ∨ dx = 1 ∨ dx = -1) (hy : dy = 0 ∨ dy = 1 ∨ dy = -1)
    (hne : dx ≠ 0 ∨ dy ≠ 0) :
    Real.sqrt (res * (dx : ℝ) * (res * (dx : ℝ)) + res * (dy : ℝ) * (res * (dy : ℝ))) =
      if dx ≠ 0 ∧ dy ≠ 0 then Real.sqrt 2 * res else res := by
  have hc := sqrt_cardinal res hres
  have hd := sqrt_diagonal res hres
  rcases hx with rfl | rfl | rfl <;> rcases hy with rfl | rfl | rfl <;>
    simp only [Int.cast_zero, Int.cast_one, Int.cast_neg, mul_zero, mul_one, zero_mul,
      add_zero, zero_add, mul_neg, neg_mul, neg_neg, ne_eq, not_true_eq_false,
      false_and, and_false, if_false, one_ne_zero, not_false_eq_true, and_self, if_true,
      neg_eq_zero] <;>
    first
      | exact hc
      | exact hd
      | exact absurd rfl (hne.elim id id)

/-- Under the lattice invariant a node other than `START` lies one lattice step from its
parent, and the edge cost between them is the length of that step. -/
theorem edgeCost_hop (I : line2f ℝ → line2f ℝ → Bool)
    (X : line2f ℝ → line2f ℝ → Option (Vector2f ℝ)) (U : line2f ℝ → Vector2f ℝ)
    (res : ℝ) (hres : 0 < res) (m : NavMap ℝ) (s0 : Node ℝ) (hL : LatticeInv res m s0)
    (k : String) (n : Node ℝ) (hn : NavMap.find? m k = some n) (hk : k ≠ "START") :
    ∃ p, NavMap.find? m n.parent = some p ∧
      (∃ i : Int, (stepDx i ≠ 0 ∨ stepDy i ≠ 0) ∧
        n.index = ⟨p.index.x + stepDx i, p.index.y + stepDy i⟩ ∧
        n.loc = p.loc.add (Vector2f.smul res ⟨(stepDx i : ℝ), (stepDy i : ℝ)⟩)) ∧
      edgeCost ⟨Real.sqrt, I, X, U⟩ n p = hopLength ⟨Real.sqrt, I, X, U⟩ res n.index p.index := by
  obtain ⟨hL1, hL2, hL3⟩ := hL
  obtain ⟨p, hp, i, hstep, hx, hy⟩ := hL3 k n hn hk
  have hnl := hL1 k n hn
  have hpl := hL1 n.parent p hp
  have hloc : n.loc = p.loc.add (Vector2f.smul res ⟨(stepDx i : ℝ), (stepDy i : ℝ)⟩) := by
    rw [hnl, hpl, hx, hy]
    simp only [Vector2f.add, Vector2f.smul, Vector2f.mk.injEq]
    constructor <;> push_cast <;> ring
  refine ⟨p, hp, ⟨i, hstep, ?_, hloc⟩, ?_⟩
  · cases hi : n.index with
    | mk a b =>
      rw [hi] at hx hy
      simp only at hx hy
      rw [hx, hy]
  · have hnorm := hop_norm res hres (stepDx i) (stepDy i) (stepDx_cases i) (stepDy_cases i) hstep
    have e1 : (n.loc.sub p.loc).x = res * (stepDx i : ℝ) := by
      rw [hloc]; simp [Vector2f.add, Vector2f.sub, Vector2f.smul]
    have e2 : (n.loc.sub p.loc).y = res * (stepDy i : ℝ) := by
      rw [hloc]; simp [Vector2f.add, Vector2f.sub, Vector2f.smul]
    show Real.sqrt ((n.loc.sub p.loc).x * (n.loc.sub p.loc).x +
      (n.loc.sub p.loc).y * (n.loc.sub p.loc).y) = _
    rw [e1, e2, hnorm]
    unfold hopLength
    have c1 : n.index.x ≠ p.index.x ↔ stepDx i ≠ 0 := by
      rw [hx]; constructor <;> intro h <;> intro e <;> apply h <;> omega
    have c2 : n.index.y ≠ p.index.y ↔ stepDy i ≠ 0 := by
      rw [hy]; constructor <;> intro h <;> intro e <;> apply h <;> omega
    simp only [c1, c2]

/-- The backtrace appends the keys of the nodes it visits, all stored and none of them
`START`, and adds up their costs `cost k`, where `cost k` is the edge cost between the node
of key `k` and its parent. -/
theorem backtrace_sum (G : Geometry ℝ) (m : NavMap ℝ) (s0 : Node ℝ) (hInv : ParentInv m s0)
    (cost : String → ℝ)
    (hcost : ∀ k n, NavMap.find? m k = some n → k ≠ "START" →
      edgeCost G (NavMap.get m k) (NavMap.get m (NavMap.get m k).parent) = cost k) :
    ∀ (fuel : Nat) (k : String) (gp : List String) (tot : ℝ) (res : List String × ℝ),
      (∃ n, NavMap.find? m k = some n) → backtrace G m fuel k gp tot = some res →
      ∃ new, res.1 = gp ++ new ∧ res.2 = tot + (new.map cost).sum ∧
        ∀ k1 ∈ new, k1 ≠ "START" ∧ ∃ n, NavMap.find? m k1 = some n := by
  intro fuel
  induction fuel with
  | zero =>
    intro k gp tot res _ h
    unfold backtrace at h
    split_ifs at h with hk
    · cases h
      exact ⟨[], by simp, by simp, fun _ h => absurd h (List.not_mem_nil _)⟩
  | succ f ih =>
    intro k gp tot res hn h
    unfold backtrace at h
    split_ifs at h with hk
    · cases h
      exact ⟨[], by simp, by simp, fun _ h => absurd h (List.not_mem_nil _)⟩
    · obtain ⟨n, hn⟩ := hn
      have hget : NavMap.get m k = n := NavMap.get_of_find? _ _ _ hn
      obtain ⟨p, hp, _⟩ := hInv.2.2.2.1 k n hn hk
      have hc := hcost k n hn hk
      obtain ⟨new, h1, h2, h3⟩ := ih (NavMap.get m k).parent (gp ++ [k])
        (tot + edgeCost G (NavMap.get m k) (NavMap.get m (NavMap.get m k).parent)) res
        ⟨p, by rw [hget]; exact hp⟩ h
      refine ⟨k :: new, by rw [h1]; simp, ?_, ?_⟩
      · rw [h2, hc, List.map_cons, List.sum_cons]
        ring
      · intro k1 hk1
        rcases List.mem_cons.mp hk1 with rfl | hk1
        · exact ⟨hk, n, hn⟩
        · exact h3 k1 hk1

/-- C15: for every successful `getGlobalPath` from the state left by `initializeMap` with a
positive resolution, every node of the path (also a node that was reparented by relaxation)
has a stored parent whose grid index is one lattice step away, lies exactly that step times
the resolution from its parent, and its Euclidean distance to the parent is the step length
(the resolution for a cardinal hop, `sqrt 2` times the resolution for a diagonal hop); the
reported travelled distance is the sum of these step lengths along the path. -/
theorem C15_travelled_distance_is_sum_of_hops (I : line2f ℝ → line2f ℝ → Bool)
    (X : line2f ℝ → line2f ℝ → Option (Vector2f ℝ)) (U : line2f ℝ → Vector2f ℝ)
    (P : GlobalPlanner ℝ) (loc goal : Vector2f ℝ) (hres : 0 < P.map_resolution_)
    (fuel : Nat) (R : GlobalPlanner ℝ) (d : ℝ)
    (h : getGlobalPath ⟨Real.sqrt, I, X, U⟩ fuel (initializeMap ⟨Real.sqrt, I, X, U⟩ P loc) goal =
      some (R, some d)) :
    (∀ k ∈ R.global_path_, ∃ n p, NavMap.find? R.nav_map_ k = some n ∧
      NavMap.find? R.nav_map_ n.parent = some p ∧
      (∃ i : Int, (stepDx i ≠ 0 ∨ stepDy i ≠ 0) ∧
        n.index = ⟨p.index.x + stepDx i, p.index.y + stepDy i⟩ ∧
        n.loc = p.loc.add (Vector2f.smul P.map_resolution_ ⟨(stepDx i : ℝ), (stepDy i : ℝ)⟩)) ∧
      edgeCost ⟨Real.sqrt, I, X, U⟩ n p =
        hopLength ⟨Real.sqrt, I, X, U⟩ P.map_resolution_ n.index p.index) ∧
    d = (R.global_path_.map fun k =>
      hopLength ⟨Real.sqrt, I, X, U⟩ P.map_resolution_ (NavMap.get R.nav_map_ k).index
        (NavMap.get R.nav_map_ (NavMap.get R.nav_map_ k).parent).index).sum := by
  have hs := real_sqrt_pos I X U
  obtain ⟨s0, hInv0, hF0, hS0, _⟩ := initializeMap_inv ⟨Real.sqrt, I, X, U⟩ hs P loc hres
  have hL0 := initializeMap_lattice ⟨Real.sqrt, I, X, U⟩ P loc s0 hS0
  have hinv := searchLoop_inv ⟨Real.sqrt, I, X, U⟩ hs goal s0 iterationCap ""
    { initializeMap ⟨Real.sqrt, I, X, U⟩ P loc with nav_goal_ := goal } hres hInv0 hF0
  have hlat := searchLoop_lattice ⟨Real.sqrt, I, X, U⟩ hs goal s0 P.map_resolution_ hres
    iterationCap "" { initializeMap ⟨Real.sqrt, I, X, U⟩ P loc with nav_goal_ := goal } rfl
    hInv0 hF0 hL0
  unfold getGlobalPath at h
  simp only at h
  split_ifs at h with hsucc
  · cases hb : backtrace ⟨Real.sqrt, I, X, U⟩
        (searchLoop ⟨Real.sqrt, I, X, U⟩ goal iterationCap ""
          { initializeMap ⟨Real.sqrt, I, X, U⟩ P loc with nav_goal_ := goal }).planner.nav_map_
        fuel
        (searchLoop ⟨Real.sqrt, I, X, U⟩ goal iterationCap ""
          { initializeMap ⟨Real.sqrt, I, X, U⟩ P loc with nav_goal_ := goal }).current_key
        [] 0 with
    | none => rw [hb] at h; exact Option.noConfusion h
    | some res =>
      rw [hb] at h
      obtain ⟨gp, d1⟩ := res
      simp only [Option.some.injEq, Prod.mk.injEq] at h
      obtain ⟨hR, hd⟩ := h
      have hhop := edgeCost_hop I X U P.map_resolution_ hres _ s0 hlat
      obtain ⟨new, h1, h2, h3⟩ := backtrace_sum ⟨Real.sqrt, I, X, U⟩ _ s0 hinv.1
        (fun k => hopLength ⟨Real.sqrt, I, X, U⟩ P.map_resolution_
          (NavMap.get (searchLoop ⟨Real.sqrt, I, X, U⟩ goal iterationCap ""
            { initializeMap ⟨Real.sqrt, I, X, U⟩ P loc with
              nav_goal_ := goal }).planner.nav_map_ k).index
          (NavMap.get (searchLoop ⟨Real.sqrt, I, X, U⟩ goal iterationCap ""
            { initializeMap ⟨Real.sqrt, I, X, U⟩ P loc with
              nav_goal_ := goal }).planner.nav_map_
            (NavMap.get (searchLoop ⟨Real.sqrt, I, X, U⟩ goal iterationCap ""
              { initializeMap ⟨Real.sqrt, I, X, U⟩ P loc with
                nav_goal_ := goal }).planner.nav_map_ k).parent).index)
        (by
          intro k n hn hk
          obtain ⟨p, hp, _, he⟩ := hhop k n hn hk
          beta_reduce
          rw [NavMap.get_of_find? _ _ _ hn, NavMap.get_of_find? _ _ _ hp]
          exact he)
        fuel _ [] 0 (gp, d1) (hinv.2.2.2 hsucc) hb
      have h1a : gp = new := by simpa using h1
      have h2a : d1 = 0 + (new.map _).sum := h2
      have hgp : R.global_path_ = new.reverse := by rw [← hR, ← h1a]
      have hmap : R.nav_map_ = (searchLoop ⟨Real.sqrt, I, X, U⟩ goal iterationCap ""
          { initializeMap ⟨Real.sqrt, I, X, U⟩ P loc with
            nav_goal_ := goal }).planner.nav_map_ := by rw [← hR]
      rw [hgp, hmap]
      constructor
      · intro k hk
        obtain ⟨hkS, n, hn⟩ := h3 k (List.mem_reverse.mp hk)
        obtain ⟨p, hp, hi, he⟩ := hhop k n hn hkS
        exact ⟨n, p, hn, hp, hi, he⟩
      · rw [← hd, h2a, zero_add, List.map_reverse, List.sum_reverse]
  · simp only [Option.some.injEq, Prod.mk.injEq] at h
    exact Option.noConfusion h.2

/-- The run on the empty map from (0,0) to (3,0) with resolution 1, which reports the
distance 3. -/
theorem C15_witness :
    ∃ R : GlobalPlanner ℝ,
      getGlobalPath (specGeometry Real.sqrt fun _ m => m.p0) 3
        (initializeMap (specGeometry Real.sqrt fun _ m => m.p0) (blankPlanner [] 1) ⟨0, 0⟩)
        ⟨3, 0⟩ = some (R, some 3) ∧
      (3 : ℝ) = (R.global_path_.map fun k =>
        hopLength (specGeometry Real.sqrt fun _ m => m.p0) (1 : ℝ)
          (NavMap.get R.nav_map_ k).index
          (NavMap.get R.nav_map_ (NavMap.get R.nav_map_ k).parent).index).sum := by
  obtain ⟨R, hR, _⟩ := getGlobalPath_emptyMap (specGeometry Real.sqrt fun _ m => m.p0) rfl 0
  exact ⟨R, hR, (C15_travelled_distance_is_sum_of_hops _ _ _ (blankPlanner [] 1) ⟨0, 0⟩ ⟨3, 0⟩
    (by norm_num [blankPlanner]) 3 R 3 hR).2⟩

end Nav

namespace Nav

variable {K : Type} [LinearOrderedField K] [FloorRing K]

/-! ## Neighbour references and the start node -/

/-- A candidate neighbour has one of the eight neighbour indices, a nonzero step with
components -1, 0 or 1, and the step length of that step. -/
theorem candidateNeighbors_step (G : Geometry K) (res : K) (xi yi : Int) (nb : Neighbor K)
    (h : nb ∈ candidateNeighbors G res xi yi) :
    nb.neighbor_index ∈ [0, 1, 2, 3, 5, 6, 7, 8] ∧
    (stepDx nb.neighbor_index ≠ 0 ∨ stepDy nb.neighbor_index ≠ 0) ∧
    nb.path_length = (if stepDx nb.neighbor_index * stepDy nb.neighbor_index = 0 then res
      else G.sqrt 2 * res) := by
  simp only [candidateNeighbors, List.mem_cons, List.mem_singleton, List.not_mem_nil,
    or_false] at h
  have e0 : stepDx 0 = -1 ∧ stepDy 0 = 1 := by decide
  have e1 : stepDx 1 = 0 ∧ stepDy 1 = 1 := by decide
  have e2 : stepDx 2 = 1 ∧ stepDy 2 = 1 := by decide
  have e3 : stepDx 3 = -1 ∧ stepDy 3 = 0 := by decide
  have e5 : stepDx 5 = 1 ∧ stepDy 5 = 0 := by decide
  have e6 : stepDx 6 = -1 ∧ stepDy 6 = -1 := by decide
  have e7 : stepDx 7 = 0 ∧ stepDy 7 = -1 := by decide
  have e8 : stepDx 8 = 1 ∧ stepDy 8 = -1 := by decide
  rcases h with h | h | h | h | h | h | h | h <;> subst h <;>
    simp [e0, e1, e2, e3, e5, e6, e7, e8]

end Nav
namespace Nav

variable {K : Type} [LinearOrderedField K] [FloorRing K]

end Nav

namespace PF

open Nav

variable {K : Type} [LinearOrderedField K] [FloorRing K]

/-! ## The subsampling ratio of `Update` -/

theorem update_short_scan (G : Geometry K) (T : Trig K) (F : ParticleFilter K)
    (ranges : List K) (range_min range_max angle_min angle_max : K) (particle : Particle K)
    (hinit : F.odom_initialized_ = true) (hn : ranges.length < 10) :
    Update G T F ranges range_min range_max angle_min angle_max particle = none := by
  have hlen := getPredictedPointCloud_length G T F.map_ particle.loc particle.angle
    ranges.length range_min range_max angle_min angle_max
  have hz : ranges.length / 10 = 0 := Nat.div_eq_of_lt hn
  unfold Update
  rw [if_neg (not_not.mpr hinit)]
  simp only [hlen, if_pos hz]

theorem update_long_scan (G : Geometry K) (T : Trig K) (F : ParticleFilter K)
    (ranges : List K) (range_min range_max angle_min angle_max : K) (particle : Particle K)
    (hinit : F.odom_initialized_ = true) (h10 : 10 ≤ ranges.length) :
    ∃ p, Update G T F ranges range_min range_max angle_min angle_max particle = some p := by
  have hlen := getPredictedPointCloud_length G T F.map_ particle.loc particle.angle
    ranges.length range_min range_max angle_min angle_max
  have hm : 0 < ranges.length / 10 := Nat.div_pos h10 (by norm_num)
  obtain ⟨tr, htr, htrlen, _⟩ := trimLoop_spec ranges (ranges.length / (ranges.length / 10))
    (ranges.length / 10) 0 (fun k hk => by
      rw [Nat.zero_add]; exact ratio_index_lt _ _ h10 hk)
  obtain ⟨r, hr⟩ := weightLoop_returns G.sqrt F ranges tr range_min range_max
    (particle.loc.add (Vector2f.smul (2 / 10) ⟨T.cos particle.angle, T.sin particle.angle⟩))
    (GetPredictedPointCloud G T F.map_ particle.loc particle.angle ranges.length
      range_min range_max angle_min angle_max) 0 0
    (by rw [hlen, Nat.zero_add]; exact Nat.div_le_self _ _)
    (by rw [hlen, htrlen, Nat.zero_add])
  refine ⟨{ particle with log_weight := particle.log_weight + r }, ?_⟩
  unfold Update
  rw [if_neg (not_not.mpr hinit)]
  simp only [hlen, if_neg hm.ne', htr, hr]

/-- C27: with odometry initialised, a scan of fewer than ten readings makes
`GetPredictedPointCloud` return an empty cloud, so that the subsampling ratio
`ranges.size() / predicted_cloud.size()` of `Update` is a division by zero and `Update` has
no result (a scan of five readings is one); for a scan of at least ten readings the divisor
is positive, `Update` returns, and every index it reads, `i` and `ratio * i` for `i` below the
number of predicted beams, is below the length of the scan. -/
theorem C27_short_scan_divides_by_zero (G : Geometry K) (T : Trig K) (F : ParticleFilter K)
    (ranges : List K) (range_min range_max angle_min angle_max : K) (particle : Particle K) :
    (F.odom_initialized_ = true → ranges.length < 10 →
      (GetPredictedPointCloud G T F.map_ particle.loc particle.angle ranges.length
        range_min range_max angle_min angle_max).length = 0 ∧
      Update G T F ranges range_min range_max angle_min angle_max particle = none) ∧
    Update G T { F with odom_initialized_ := true } [5, 5, 5, 5, 5] range_min range_max
      angle_min angle_max particle = none ∧
    (F.odom_initialized_ = true → 10 ≤ ranges.length →
      0 < (GetPredictedPointCloud G T F.map_ particle.loc particle.angle ranges.length
        range_min range_max angle_min angle_max).length ∧
      (∃ p, Update G T F ranges range_min range_max angle_min angle_max particle = some p) ∧
      ∀ i, i < (GetPredictedPointCloud G T F.map_ particle.loc particle.angle ranges.length
          range_min range_max angle_min angle_max).length →
        i < ranges.length ∧
        ranges.length / (GetPredictedPointCloud G T F.map_ particle.loc particle.angle
          ranges.length range_min range_max angle_min angle_max).length * i <
          ranges.length) := by
  have hlen := getPredictedPointCloud_length G T F.map_ particle.loc particle.angle
    ranges.length range_min range_max angle_min angle_max
  refine ⟨fun hinit hn => ⟨?_, update_short_scan G T F ranges _ _ _ _ particle hinit hn⟩,
    update_short_scan G T _ _ _ _ _ _ particle rfl (by simp), fun hinit h10 => ⟨?_,
      update_long_scan G T F ranges _ _ _ _ particle hinit h10, fun i hi => ?_⟩⟩
  · rw [hlen]; exact Nat.div_eq_of_lt hn
  · rw [hlen]; exact Nat.div_pos h10 (by norm_num)
  · rw [hlen] at hi ⊢
    have h1 : ranges.length / 10 ≤ ranges.length := Nat.div_le_self _ _
    exact ⟨by omega, ratio_index_lt _ _ h10 hi⟩

end PF

namespace Nav

variable {K : Type} [LinearOrderedField K] [FloorRing K]

/-! ## The node returned without a replanning request -/

/-- A backward walk that ends without a replanning request either was not entered, and
returns the node of the forward scan, or returns a path node with a clear line of sight. -/
theorem backwardScan_clear (G : Geometry K) (P : GlobalPlanner K) (robot_loc : Vector2f K)
    (ci : Nat) (tn : Node K) :
    ∀ (ti : Nat) (n : Node K), backwardScan G P robot_loc ci tn ti = (n, false) →
      (ti ≤ ci ∧ n = tn) ∨
      ∃ i, ci < i ∧ i ≤ ti ∧ n = pathNode P i ∧
        mapIntersects G P.map_ robot_loc (pathNode P i).loc = false := by
  intro ti
  induction ti with
  | zero =>
    intro n h
    left
    simp only [backwardScan, Prod.mk.injEq] at h
    exact ⟨Nat.zero_le _, h.1.symm⟩
  | succ t ih =>
    intro n h
    unfold backwardScan at h
    by_cases hgt : t + 1 > ci
    · rw [if_pos hgt] at h
      simp only at h
      cases hint : mapIntersects G P.map_ robot_loc
          (NavMap.get P.nav_map_ (P.global_path_.getD (t + 1) "")).loc with
      | false =>
        right
        rw [hint] at h
        simp only [Bool.not_false, if_true, Prod.mk.injEq] at h
        exact ⟨t + 1, hgt, le_refl _, h.1.symm, hint⟩
      | true =>
        rw [hint] at h
        simp only [Bool.not_true, Bool.false_eq_true, if_false] at h
        by_cases hlt : t + 1 < ci + 4
        · rw [if_pos hlt] at h
          simp only [Prod.mk.injEq, Bool.true_eq_false, and_false] at h
        · rw [if_neg hlt] at h
          rcases ih n h with ⟨h1, _⟩ | ⟨i, h1, h2, h3, h4⟩
          · omega
          · exact Or.inr ⟨i, h1, Nat.le_succ_of_le h2, h3, h4⟩
    · rw [if_neg hgt] at h
      left
      simp only [Prod.mk.injEq] at h
      exact ⟨not_lt.mp hgt, h.1.symm⟩

theorem corridor_near_facts :
    minDistance ⟨Real.sqrt, line2f.Intersects, fun _ _ => none, line2f.UnitNormal Real.sqrt⟩
        corridorPlanner ⟨11 / 4, 0⟩ = 3 / 4 ∧
    closestIndex ⟨Real.sqrt, line2f.Intersects, fun _ _ => none, line2f.UnitNormal Real.sqrt⟩
        corridorPlanner ⟨11 / 4, 0⟩ = 0 ∧
    forwardScan ⟨Real.sqrt, line2f.Intersects, fun _ _ => none, line2f.UnitNormal Real.sqrt⟩
        (corridorPlanner : GlobalPlanner ℝ).nav_map_ ⟨11 / 4, 0⟩ 2
        ((corridorPlanner : GlobalPlanner ℝ).global_path_.drop 0) 0 Node.blank =
      (pathNode corridorPlanner 5, 0) := by
  have hc : closestIndex ⟨Real.sqrt, line2f.Intersects, fun _ _ => none,
      line2f.UnitNormal Real.sqrt⟩ corridorPlanner ⟨11 / 4, 0⟩ = 0 ∧
      minDistance ⟨Real.sqrt, line2f.Intersects, fun _ _ => none,
      line2f.UnitNormal Real.sqrt⟩ corridorPlanner ⟨11 / 4, 0⟩ = 3 / 4 := by
    simp +decide only [closestIndex, minDistance, corridorPlanner, blankPlanner, findClosest,
      NavMap.get, NavMap.find?, plainNode, Node.blank]
    norm_num [norm_sub_axis]
  refine ⟨hc.2, hc.1, ?_⟩
  simp +decide only [corridorPlanner, blankPlanner, forwardScan, List.drop, pathNode,
      List.getD, List.getElem?_cons_succ, List.getElem?_cons_zero, Option.getD_some,
      NavMap.get, NavMap.find?, plainNode, Node.blank]
  norm_num [norm_sub_axis]

theorem corridor_near_blocked :
    mapIntersects ⟨Real.sqrt, line2f.Intersects, fun _ _ => none, line2f.UnitNormal Real.sqrt⟩
      (corridorPlanner : GlobalPlanner ℝ).map_ ⟨11 / 4, 0⟩ (pathNode corridorPlanner 5).loc =
      true := by
  simp +decide only [mapIntersects, corridorPlanner, blankPlanner, pathNode, List.getD,
    List.getElem?_cons_succ, List.getElem?_cons_zero, Option.getD_some,
    NavMap.get, NavMap.find?, plainNode, Node.blank, List.any_cons, List.any_nil,
    Bool.or_false, if_true, if_false]
  norm_num [line2f.Intersects, Cross, Vector2f.sub]

/-- C26: when `getClosestPathNode` returns with `need_replan_` false, either the returned
node is a path node beyond the closest one whose segment from the robot does not intersect
the map, or the backward walk was not entered (`target_index` is not beyond
`closest_index`) and the node of the forward scan is returned without any line-of-sight test.
The second case occurs: on the corridor path with the robot at (11/4, 0) every path node is
within 2.0 of the robot, `target_index` stays 0, and the last path node, at (3/4, 0) behind
the wall at x = 5/2, is returned with `need_replan_` false. -/
theorem C26_fallthrough_skips_line_of_sight :
    (∀ (G : Geometry ℝ) (P : GlobalPlanner ℝ) (robot_loc : Vector2f ℝ),
      (getClosestPathNode G P robot_loc).2.need_replan_ = false →
      (∃ i, closestIndex G P robot_loc < i ∧ i ≤ targetIndex G P robot_loc ∧
        (getClosestPathNode G P robot_loc).1 = pathNode P i ∧
        mapIntersects G P.map_ robot_loc (pathNode P i).loc = false) ∨
      (targetIndex G P robot_loc ≤ closestIndex G P robot_loc ∧
        (getClosestPathNode G P robot_loc).1 =
          (forwardScan G P.nav_map_ robot_loc 2
            (P.global_path_.drop (closestIndex G P robot_loc))
            (closestIndex G P robot_loc) Node.blank).1)) ∧
    (getClosestPathNode ⟨Real.sqrt, line2f.Intersects, fun _ _ => none,
      line2f.UnitNormal Real.sqrt⟩ corridorPlanner ⟨11 / 4, 0⟩).2.need_replan_ = false ∧
    (getClosestPathNode ⟨Real.sqrt, line2f.Intersects, fun _ _ => none,
      line2f.UnitNormal Real.sqrt⟩ corridorPlanner ⟨11 / 4, 0⟩).1 = pathNode corridorPlanner 5 ∧
    (pathNode (corridorPlanner : GlobalPlanner ℝ) 5).loc = ⟨3 / 4, 0⟩ ∧
    mapIntersects ⟨Real.sqrt, line2f.Intersects, fun _ _ => none, line2f.UnitNormal Real.sqrt⟩
      (corridorPlanner : GlobalPlanner ℝ).map_ ⟨11 / 4, 0⟩
      (getClosestPathNode ⟨Real.sqrt, line2f.Intersects, fun _ _ => none,
        line2f.UnitNormal Real.sqrt⟩ corridorPlanner ⟨11 / 4, 0⟩).1.loc = true := by
  obtain ⟨hm, hc, hf⟩ := corridor_near_facts
  have hrun : getClosestPathNode ⟨Real.sqrt, line2f.Intersects, fun _ _ => none,
      line2f.UnitNormal Real.sqrt⟩ corridorPlanner ⟨11 / 4, 0⟩ =
      (pathNode corridorPlanner 5, { (corridorPlanner : GlobalPlanner ℝ) with
        need_replan_ := false }) := by
    unfold getClosestPathNode
    simp only
    have hm2 : ¬ (findClosest ⟨Real.sqrt, line2f.Intersects, fun _ _ => none,
        line2f.UnitNormal Real.sqrt⟩ (corridorPlanner : GlobalPlanner ℝ).nav_map_ ⟨11 / 4, 0⟩
        (corridorPlanner : GlobalPlanner ℝ).global_path_ 0 (100, Node.blank, 0)).1 > 2 := by
      have e : (findClosest ⟨Real.sqrt, line2f.Intersects, fun _ _ => none,
        line2f.UnitNormal Real.sqrt⟩ (corridorPlanner : GlobalPlanner ℝ).nav_map_ ⟨11 / 4, 0⟩
        (corridorPlanner : GlobalPlanner ℝ).global_path_ 0 (100, Node.blank, 0)).1 = 3 / 4 := hm
      rw [e]; norm_num
    rw [if_neg hm2]
    have e1 : (findClosest ⟨Real.sqrt, line2f.Intersects, fun _ _ => none,
        line2f.UnitNormal Real.sqrt⟩ (corridorPlanner : GlobalPlanner ℝ).nav_map_ ⟨11 / 4, 0⟩
        (corridorPlanner : GlobalPlanner ℝ).global_path_ 0 (100, Node.blank, 0)).2.2 = 0 := hc
    rw [e1, hf]
    rfl
  refine ⟨?_, by rw [hrun], by rw [hrun], ?_, by rw [hrun]; exact corridor_near_blocked⟩
  · intro G P robot_loc h
    unfold getClosestPathNode at h ⊢
    simp only at h ⊢
    by_cases hfar : (findClosest G P.nav_map_ robot_loc P.global_path_ 0
        (100, Node.blank, 0)).1 > 2
    · rw [if_pos hfar] at h
      exact absurd h (by simp)
    · rw [if_neg hfar] at h ⊢
      have hb := backwardScan_clear G P robot_loc (closestIndex G P robot_loc)
        (forwardScan G P.nav_map_ robot_loc 2
          (P.global_path_.drop (closestIndex G P robot_loc))
          (closestIndex G P robot_loc) Node.blank).1 (targetIndex G P robot_loc)
        (backwardScan G P robot_loc (closestIndex G P robot_loc)
          (forwardScan G P.nav_map_ robot_loc 2
            (P.global_path_.drop (closestIndex G P robot_loc))
            (closestIndex G P robot_loc) Node.blank).1 (targetIndex G P robot_loc)).1
        (Prod.ext rfl h)
      rcases hb with ⟨h1, h2⟩ | ⟨i, h1, h2, h3, h4⟩
      · exact Or.inr ⟨h1, h2⟩
      · exact Or.inl ⟨i, h1, h2, h3, h4⟩
  · simp +decide [pathNode, corridorPlanner, blankPlanner, NavMap.get, NavMap.find?, plainNode,
      Node.blank]

end Nav

namespace PF

open Nav

variable {K : Type} [LinearOrderedField K] [FloorRing K]

/-! ## The number of copies per particle -/

end PF
namespace PF

open Nav

variable {K : Type} [LinearOrderedField K] [FloorRing K]

/-! ## Binary32 rounding -/

end PF
namespace PF

open Nav

end PF
namespace PF

open Nav

variable {K : Type} [LinearOrderedField K] [FloorRing K]

/-! ## Runs of `Resample` in which no operation rounds -/

end PF
namespace PF

open Nav

variable {K : Type} [LinearOrderedField K] [FloorRing K]

/-! ## Where the new particles come from, whatever the rounding -/

end PF

namespace PF

open Nav

end PF
namespace PF

open Nav

end PF

namespace Nav

variable {K : Type} [LinearOrderedField K] [FloorRing K]

/-! ## The priority of a pushed key -/

/-- What one pass of the neighbour loop does: nothing, or it stores a node `n` under the key
of the neighbour, with the popped node as parent and a cost without any social cost, and
pushes that key with the cost of the popped node plus the step length plus the social cost
of `n` alone plus the heuristic at `n`. -/
theorem expandNeighbor_push (G : Geometry K) (goal : Vector2f K) (c : Node K)
    (P : GlobalPlanner K) (nb : Neighbor K) (hnb : GoodNeighbor c.index nb) :
    expandNeighbor G goal c P nb = P ∨
    ∃ n, expandNeighbor G goal c P nb =
        { P with nav_map_ := NavMap.set P.nav_map_ nb.key n,
                 frontier_ := Frontier.Push P.frontier_ nb.key
                   (c.cost + nb.path_length + n.social_cost +
                     1 * getHeuristic G goal n.loc) } ∧
      n.parent = c.key ∧
      ((NavMap.find? P.nav_map_ nb.key = none ∧ n = buildNode G P c nb.neighbor_index ∧
          n.cost = c.cost + edgeCost G c n) ∨
       (∃ old, NavMap.find? P.nav_map_ nb.key = some old ∧
          c.cost + nb.path_length < old.cost ∧
          n = { old with cost := c.cost + nb.path_length, parent := c.key })) := by
  unfold expandNeighbor
  simp only [newNode]
  split_ifs with h1 h2
  · right
    have hnone : NavMap.find? P.nav_map_ nb.key = none := by
      simpa [NavMap.count] using h1
    have hkey' : (buildNode G P c nb.neighbor_index).key = nb.key := by
      rw [buildNode_key, hnb.1]
    refine ⟨buildNode G P c nb.neighbor_index, ?_, buildNode_parent G P c _,
      Or.inl ⟨hnone, rfl, ?_⟩⟩
    · rw [hkey']
    · rw [buildNode_cost]
      simp [edgeCost, Vector2f.norm, Vector2f.sub, Vector2f.add, Vector2f.smul,
        buildNode_loc]
  · right
    have hsome : ∃ old, NavMap.find? P.nav_map_ nb.key = some old := by
      have h1' : ¬ NavMap.find? P.nav_map_ nb.key = none := by
        simpa [NavMap.count] using h1
      cases hf : NavMap.find? P.nav_map_ nb.key with
      | none => exact absurd hf h1'
      | some old => exact ⟨old, rfl⟩
    obtain ⟨old, hold⟩ := hsome
    have hget : NavMap.get P.nav_map_ nb.key = old := NavMap.get_of_find? _ _ _ hold
    rw [hget] at h2 ⊢
    exact ⟨{ old with cost := c.cost + nb.path_length, parent := c.key }, rfl, rfl,
      Or.inr ⟨old, hold, h2, rfl⟩⟩
  · left
    rfl

end Nav

namespace Nav

/-! ## A search next to a human -/

theorem buildNode_guarded (G : Geometry ℝ) (hG : G.sqrt = Real.sqrt) (P : GlobalPlanner ℝ)
    (c : Node ℝ) (i : Int) (hmap : P.map_ = []) (hfl : P.failed_locs_ = [])
    (hpop : P.population_ = [sentry])
    (hnear : (c.loc.x + P.map_resolution_ * (stepDx i : ℝ)) *
        (c.loc.x + P.map_resolution_ * (stepDx i : ℝ)) +
      (c.loc.y + P.map_resolution_ * (stepDy i : ℝ)) *
        (c.loc.y + P.map_resolution_ * (stepDy i : ℝ)) ≤ 100) :
    buildNode G P c i =
      guardedNode G P.map_resolution_
        (c.loc.add (Vector2f.smul P.map_resolution_ ⟨((stepDx i : Int) : ℝ), ((stepDy i : Int) : ℝ)⟩))
        ⟨c.index.x + stepDx i, c.index.y + stepDy i⟩
        (c.cost + G.sqrt (P.map_resolution_ * (stepDx i : ℝ) * (P.map_resolution_ * (stepDx i : ℝ)) +
          P.map_resolution_ * (stepDy i : ℝ) * (P.map_resolution_ * (stepDy i : ℝ))))
        c.key (getNewID (c.index.x + stepDx i) (c.index.y + stepDy i)) := by
  have hn : ¬ (Real.sqrt ((c.loc.x + P.map_resolution_ * (stepDx i : ℝ)) *
        (c.loc.x + P.map_resolution_ * (stepDx i : ℝ)) +
      (c.loc.y + P.map_resolution_ * (stepDy i : ℝ)) *
        (c.loc.y + P.map_resolution_ * (stepDy i : ℝ))) > 10) :=
    not_lt.mpr (Real.sqrt_le_iff.mpr ⟨by norm_num, by linarith⟩)
  unfold buildNode
  simp only [hfl, List.any_nil, hmap, getNeighbors_empty, getSocialCost, hpop, List.foldl_cons,
    List.foldl_nil]
  simp [guardedNode, Node.blank, edgeCost, Vector2f.norm, Vector2f.sub, Vector2f.add,
    Vector2f.smul, sentry, hG, hn]

/-- Expansion toward a cell near `sentry` that is not stored yet (empty map, no failures). -/
theorem expand_fresh_gp (G : Geometry ℝ) (hG : G.sqrt = Real.sqrt) (goal g : Vector2f ℝ)
    (res : ℝ) (m : NavMap ℝ) (f : Frontier ℝ) (c : Node ℝ)
    (nidx : Vector2i) (nkey : String) (npl : ℝ) (ni : Int)
    (loc1 : Vector2f ℝ) (idx1 : Vector2i) (len : ℝ)
    (hnone : NavMap.find? m nkey = none)
    (hf : (f.all fun e => decide (e.1 ≠ nkey)) = true)
    (hloc : c.loc.add (Vector2f.smul res
      ⟨((stepDx ni : Int) : ℝ), ((stepDy ni : Int) : ℝ)⟩) = loc1)
    (hidx : (⟨c.index.x + stepDx ni, c.index.y + stepDy ni⟩ : Vector2i) = idx1)
    (hkey : getNewID (c.index.x + stepDx ni) (c.index.y + stepDy ni) = nkey)
    (hlen : G.sqrt (res * (stepDx ni : ℝ) * (res * (stepDx ni : ℝ)) +
      res * (stepDy ni : ℝ) * (res * (stepDy ni : ℝ))) = len)
    (hnear : loc1.x * loc1.x + loc1.y * loc1.y ≤ 100) :
    expandNeighbor G goal c (guardedPlanner res g m f) ⟨nidx, nkey, npl, ni⟩ =
      guardedPlanner res g (m ++ [(nkey, guardedNode G res loc1 idx1 (c.cost + len) c.key nkey)])
        (f ++ [(nkey, c.cost + npl + 1 + 1 * getHeuristic G goal loc1)]) := by
  have hb := buildNode_guarded G hG (guardedPlanner res g m f) c ni rfl rfl rfl (by
    rw [← hloc] at hnear
    exact hnear)
  have hres : (guardedPlanner res g m f).map_resolution_ = res := rfl
  rw [hres] at hb
  unfold expandNeighbor
  have hcount : NavMap.count (guardedPlanner res g m f).nav_map_ nkey = false := by
    show (NavMap.find? m nkey).isSome = false
    rw [hnone]; rfl
  simp only [hcount, Bool.not_false, if_true, newNode, hb]
  subst hloc hidx hkey hlen
  show guardedPlanner res g (NavMap.set m (getNewID (c.index.x + stepDx ni)
    (c.index.y + stepDy ni)) _) (Frontier.Push f _ _) = _
  rw [NavMap.set_fresh m _ _ hnone, Frontier.Push_fresh f _ _
    (fun e he => by simpa using List.all_eq_true.mp hf e he)]
  rfl

end Nav

namespace Nav

/-- The first iteration of the search from (0,0) toward (-3,3) next to `sentry`: `START` is
expanded into its eight neighbours, each stored with social cost 1; the key `-1_1` is then
the least of the frontier, and the expansion of its node toward the cell (-2,2) stores that
cell and pushes its key. -/
theorem guardedRun (G : Geometry ℝ) (hG : G.sqrt = Real.sqrt) :
    guardedSearch G = guardedPlanner 1 ⟨-3, 3⟩ [("START", freeNode G 1 ⟨0, 0⟩ ⟨0, 0⟩ 0 "START" "START"),
          ("-1_1", guardedNode G 1 ⟨-1, 1⟩ ⟨-1, 1⟩ (0 + Real.sqrt 2) "START" "-1_1"),
          ("0_1", guardedNode G 1 ⟨0, 1⟩ ⟨0, 1⟩ (0 + 1) "START" "0_1"),
          ("1_1", guardedNode G 1 ⟨1, 1⟩ ⟨1, 1⟩ (0 + Real.sqrt 2) "START" "1_1"),
          ("-1_0", guardedNode G 1 ⟨-1, 0⟩ ⟨-1, 0⟩ (0 + 1) "START" "-1_0"),
          ("1_0", guardedNode G 1 ⟨1, 0⟩ ⟨1, 0⟩ (0 + 1) "START" "1_0"),
          ("-1_-1", guardedNode G 1 ⟨-1, -1⟩ ⟨-1, -1⟩ (0 + Real.sqrt 2) "START" "-1_-1"),
          ("0_-1", guardedNode G 1 ⟨0, -1⟩ ⟨0, -1⟩ (0 + 1) "START" "0_-1"),
          ("1_-1", guardedNode G 1 ⟨1, -1⟩ ⟨1, -1⟩ (0 + Real.sqrt 2) "START" "1_-1")]
        [("-1_1", 0 + G.sqrt 2 * 1 + 1 + 1 * getHeuristic G ⟨-3, 3⟩ ⟨-1, 1⟩),
          ("0_1", 0 + 1 + 1 + 1 * getHeuristic G ⟨-3, 3⟩ ⟨0, 1⟩),
          ("1_1", 0 + G.sqrt 2 * 1 + 1 + 1 * getHeuristic G ⟨-3, 3⟩ ⟨1, 1⟩),
          ("-1_0", 0 + 1 + 1 + 1 * getHeuristic G ⟨-3, 3⟩ ⟨-1, 0⟩),
          ("1_0", 0 + 1 + 1 + 1 * getHeuristic G ⟨-3, 3⟩ ⟨1, 0⟩),
          ("-1_-1", 0 + G.sqrt 2 * 1 + 1 + 1 * getHeuristic G ⟨-3, 3⟩ ⟨-1, -1⟩),
          ("0_-1", 0 + 1 + 1 + 1 * getHeuristic G ⟨-3, 3⟩ ⟨0, -1⟩),
          ("1_-1", 0 + G.sqrt 2 * 1 + 1 + 1 * getHeuristic G ⟨-3, 3⟩ ⟨1, -1⟩)] ∧
    Frontier.Pop ([("-1_1", 0 + G.sqrt 2 * 1 + 1 + 1 * getHeuristic G ⟨-3, 3⟩ ⟨-1, 1⟩),
          ("0_1", 0 + 1 + 1 + 1 * getHeuristic G ⟨-3, 3⟩ ⟨0, 1⟩),
          ("1_1", 0 + G.sqrt 2 * 1 + 1 + 1 * getHeuristic G ⟨-3, 3⟩ ⟨1, 1⟩),
          ("-1_0", 0 + 1 + 1 + 1 * getHeuristic G ⟨-3, 3⟩ ⟨-1, 0⟩),
          ("1_0", 0 + 1 + 1 + 1 * getHeuristic G ⟨-3, 3⟩ ⟨1, 0⟩),
          ("-1_-1", 0 + G.sqrt 2 * 1 + 1 + 1 * getHeuristic G ⟨-3, 3⟩ ⟨-1, -1⟩),
          ("0_-1", 0 + 1 + 1 + 1 * getHeuristic G ⟨-3, 3⟩ ⟨0, -1⟩),
          ("1_-1", 0 + G.sqrt 2 * 1 + 1 + 1 * getHeuristic G ⟨-3, 3⟩ ⟨1, -1⟩)] : Frontier ℝ) =
      ("-1_1", [("0_1", 0 + 1 + 1 + 1 * getHeuristic G ⟨-3, 3⟩ ⟨0, 1⟩),
          ("1_1", 0 + G.sqrt 2 * 1 + 1 + 1 * getHeuristic G ⟨-3, 3⟩ ⟨1, 1⟩),
          ("-1_0", 0 + 1 + 1 + 1 * getHeuristic G ⟨-3, 3⟩ ⟨-1, 0⟩),
          ("1_0", 0 + 1 + 1 + 1 * getHeuristic G ⟨-3, 3⟩ ⟨1, 0⟩),
          ("-1_-1", 0 + G.sqrt 2 * 1 + 1 + 1 * getHeuristic G ⟨-3, 3⟩ ⟨-1, -1⟩),
          ("0_-1", 0 + 1 + 1 + 1 * getHeuristic G ⟨-3, 3⟩ ⟨0, -1⟩),
          ("1_-1", 0 + G.sqrt 2 * 1 + 1 + 1 * getHeuristic G ⟨-3, 3⟩ ⟨1, -1⟩)]) ∧
    expandNeighbor G ⟨-3, 3⟩ (guardedNode G 1 ⟨-1, 1⟩ ⟨-1, 1⟩ (0 + Real.sqrt 2) "START" "-1_1")
      (guardedPlanner 1 ⟨-3, 3⟩ [("START", freeNode G 1 ⟨0, 0⟩ ⟨0, 0⟩ 0 "START" "START"),
          ("-1_1", guardedNode G 1 ⟨-1, 1⟩ ⟨-1, 1⟩ (0 + Real.sqrt 2) "START" "-1_1"),
          ("0_1", guardedNode G 1 ⟨0, 1⟩ ⟨0, 1⟩ (0 + 1) "START" "0_1"),
          ("1_1", guardedNode G 1 ⟨1, 1⟩ ⟨1, 1⟩ (0 + Real.sqrt 2) "START" "1_1"),
          ("-1_0", guardedNode G 1 ⟨-1, 0⟩ ⟨-1, 0⟩ (0 + 1) "START" "-1_0"),
          ("1_0", guardedNode G 1 ⟨1, 0⟩ ⟨1, 0⟩ (0 + 1) "START" "1_0"),
          ("-1_-1", guardedNode G 1 ⟨-1, -1⟩ ⟨-1, -1⟩ (0 + Real.sqrt 2) "START" "-1_-1"),
          ("0_-1", guardedNode G 1 ⟨0, -1⟩ ⟨0, -1⟩ (0 + 1) "START" "0_-1"),
          ("1_-1", guardedNode G 1 ⟨1, -1⟩ ⟨1, -1⟩ (0 + Real.sqrt 2) "START" "1_-1")]
        [("0_1", 0 + 1 + 1 + 1 * getHeuristic G ⟨-3, 3⟩ ⟨0, 1⟩),
          ("1_1", 0 + G.sqrt 2 * 1 + 1 + 1 * getHeuristic G ⟨-3, 3⟩ ⟨1, 1⟩),
          ("-1_0", 0 + 1 + 1 + 1 * getHeuristic G ⟨-3, 3⟩ ⟨-1, 0⟩),
          ("1_0", 0 + 1 + 1 + 1 * getHeuristic G ⟨-3, 3⟩ ⟨1, 0⟩),
          ("-1_-1", 0 + G.sqrt 2 * 1 + 1 + 1 * getHeuristic G ⟨-3, 3⟩ ⟨-1, -1⟩),
          ("0_-1", 0 + 1 + 1 + 1 * getHeuristic G ⟨-3, 3⟩ ⟨0, -1⟩),
          ("1_-1", 0 + G.sqrt 2 * 1 + 1 + 1 * getHeuristic G ⟨-3, 3⟩ ⟨1, -1⟩)])
      ⟨⟨-2, 2⟩, "-2_2", G.sqrt 2 * 1, 0⟩ =
      guardedPlanner 1 ⟨-3, 3⟩ ([("START", freeNode G 1 ⟨0, 0⟩ ⟨0, 0⟩ 0 "START" "START"),
          ("-1_1", guardedNode G 1 ⟨-1, 1⟩ ⟨-1, 1⟩ (0 + Real.sqrt 2) "START" "-1_1"),
          ("0_1", guardedNode G 1 ⟨0, 1⟩ ⟨0, 1⟩ (0 + 1) "START" "0_1"),
          ("1_1", guardedNode G 1 ⟨1, 1⟩ ⟨1, 1⟩ (0 + Real.sqrt 2) "START" "1_1"),
          ("-1_0", guardedNode G 1 ⟨-1, 0⟩ ⟨-1, 0⟩ (0 + 1) "START" "-1_0"),
          ("1_0", guardedNode G 1 ⟨1, 0⟩ ⟨1, 0⟩ (0 + 1) "START" "1_0"),
          ("-1_-1", guardedNode G 1 ⟨-1, -1⟩ ⟨-1, -1⟩ (0 + Real.sqrt 2) "START" "-1_-1"),
          ("0_-1", guardedNode G 1 ⟨0, -1⟩ ⟨0, -1⟩ (0 + 1) "START" "0_-1"),
          ("1_-1", guardedNode G 1 ⟨1, -1⟩ ⟨1, -1⟩ (0 + Real.sqrt 2) "START" "1_-1")] ++
          [("-2_2", guardedNode G 1 ⟨-2, 2⟩ ⟨-2, 2⟩ (0 + Real.sqrt 2 + Real.sqrt 2) "-1_1" "-2_2")])
        ([("0_1", 0 + 1 + 1 + 1 * getHeuristic G ⟨-3, 3⟩ ⟨0, 1⟩),
          ("1_1", 0 + G.sqrt 2 * 1 + 1 + 1 * getHeuristic G ⟨-3, 3⟩ ⟨1, 1⟩),
          ("-1_0", 0 + 1 + 1 + 1 * getHeuristic G ⟨-3, 3⟩ ⟨-1, 0⟩),
          ("1_0", 0 + 1 + 1 + 1 * getHeuristic G ⟨-3, 3⟩ ⟨1, 0⟩),
          ("-1_-1", 0 + G.sqrt 2 * 1 + 1 + 1 * getHeuristic G ⟨-3, 3⟩ ⟨-1, -1⟩),
          ("0_-1", 0 + 1 + 1 + 1 * getHeuristic G ⟨-3, 3⟩ ⟨0, -1⟩),
          ("1_-1", 0 + G.sqrt 2 * 1 + 1 + 1 * getHeuristic G ⟨-3, 3⟩ ⟨1, -1⟩)] ++
          [("-2_2", 0 + Real.sqrt 2 + G.sqrt 2 * 1 + 1 + 1 * getHeuristic G ⟨-3, 3⟩ ⟨-2, 2⟩)]) := by
  have hs1 : (141 / 100 : ℝ) < Real.sqrt 2 := by
    rw [Real.lt_sqrt (by norm_num)]; norm_num
  have hs2 : Real.sqrt 2 < 142 / 100 := by
    rw [Real.sqrt_lt' (by norm_num)]; norm_num
  have hq : G.sqrt 2 = Real.sqrt 2 := by rw [hG]
  have sx0 : stepDx 0 = -1 := by decide
  have sy0 : stepDy 0 = 1 := by decide
  have sx1 : stepDx 1 = 0 := by decide
  have sy1 : stepDy 1 = 1 := by decide
  have sx2 : stepDx 2 = 1 := by decide
  have sy2 : stepDy 2 = 1 := by decide
  have sx3 : stepDx 3 = -1 := by decide
  have sy3 : stepDy 3 = 0 := by decide
  have sx5 : stepDx 5 = 1 := by decide
  have sy5 : stepDy 5 = 0 := by decide
  have sx6 : stepDx 6 = -1 := by decide
  have sy6 : stepDy 6 = -1 := by decide
  have sx7 : stepDx 7 = 0 := by decide
  have sy7 : stepDy 7 = -1 := by decide
  have sx8 : stepDx 8 = 1 := by decide
  have sy8 : stepDy 8 = -1 := by decide
  have hh_m1_1 : getHeuristic G ⟨-3, 3⟩ ⟨-1, 1⟩ = 0 + 2 * Real.sqrt 2 := by
    rw [getHeuristic_eq, hq]; norm_num <;> ring
  have hh_0_1 : getHeuristic G ⟨-3, 3⟩ ⟨0, 1⟩ = 1 + 2 * Real.sqrt 2 := by
    rw [getHeuristic_eq, hq]; norm_num <;> ring
  have hh_1_1 : getHeuristic G ⟨-3, 3⟩ ⟨1, 1⟩ = 2 + 2 * Real.sqrt 2 := by
    rw [getHeuristic_eq, hq]; norm_num <;> ring
  have hh_m1_0 : getHeuristic G ⟨-3, 3⟩ ⟨-1, 0⟩ = 1 + 2 * Real.sqrt 2 := by
    rw [getHeuristic_eq, hq]; norm_num <;> ring
  have hh_1_0 : getHeuristic G ⟨-3, 3⟩ ⟨1, 0⟩ = 1 + 3 * Real.sqrt 2 := by
    rw [getHeuristic_eq, hq]; norm_num <;> ring
  have hh_m1_m1 : getHeuristic G ⟨-3, 3⟩ ⟨-1, -1⟩ = 2 + 2 * Real.sqrt 2 := by
    rw [getHeuristic_eq, hq]; norm_num <;> ring
  have hh_0_m1 : getHeuristic G ⟨-3, 3⟩ ⟨0, -1⟩ = 1 + 3 * Real.sqrt 2 := by
    rw [getHeuristic_eq, hq]; norm_num <;> ring
  have hh_1_m1 : getHeuristic G ⟨-3, 3⟩ ⟨1, -1⟩ = 0 + 4 * Real.sqrt 2 := by
    rw [getHeuristic_eq, hq]; norm_num <;> ring
  have hpop0 : Frontier.Pop ([("START", 0)] : Frontier ℝ) = ("START", []) :=
    Frontier.Pop_of_min [] [] ("START", 0)
      (fun x hx => absurd hx (List.not_mem_nil _))
      (fun x hx => absurd hx (List.not_mem_nil _)) rfl
  have hgoal0 : ¬ (((⟨-3, 3⟩ : Vector2f ℝ).sub (freeNode G 1 ⟨0, 0⟩ ⟨0, 0⟩ 0 "START" "START").loc).norm G.sqrt < 71 / 100 * 1) := by
    rw [hG]
    apply not_lt.mpr
    apply le_of_lt
    simp only [freeNode, Vector2f.norm, Vector2f.sub]
    rw [Real.lt_sqrt (by norm_num)]; norm_num
  have hfold0 : List.foldl (expandNeighbor G ⟨-3, 3⟩ (freeNode G 1 ⟨0, 0⟩ ⟨0, 0⟩ 0 "START" "START"))
      (guardedPlanner 1 ⟨-3, 3⟩ [("START", freeNode G 1 ⟨0, 0⟩ ⟨0, 0⟩ 0 "START" "START")] [])
      [⟨⟨-1, 1⟩, "-1_1", G.sqrt 2 * 1, 0⟩,
          ⟨⟨0, 1⟩, "0_1", 1, 1⟩,
          ⟨⟨1, 1⟩, "1_1", G.sqrt 2 * 1, 2⟩,
          ⟨⟨-1, 0⟩, "-1_0", 1, 3⟩,
          ⟨⟨1, 0⟩, "1_0", 1, 5⟩,
          ⟨⟨-1, -1⟩, "-1_-1", G.sqrt 2 * 1, 6⟩,
          ⟨⟨0, -1⟩, "0_-1", 1, 7⟩,
          ⟨⟨1, -1⟩, "1_-1", G.sqrt 2 * 1, 8⟩] =
      guardedPlanner 1 ⟨-3, 3⟩ [("START", freeNode G 1 ⟨0, 0⟩ ⟨0, 0⟩ 0 "START" "START"),
          ("-1_1", guardedNode G 1 ⟨-1, 1⟩ ⟨-1, 1⟩ (0 + Real.sqrt 2) "START" "-1_1"),
          ("0_1", guardedNode G 1 ⟨0, 1⟩ ⟨0, 1⟩ (0 + 1) "START" "0_1"),
          ("1_1", guardedNode G 1 ⟨1, 1⟩ ⟨1, 1⟩ (0 + Real.sqrt 2) "START" "1_1"),
          ("-1_0", guardedNode G 1 ⟨-1, 0⟩ ⟨-1, 0⟩ (0 + 1) "START" "-1_0"),
          ("1_0", guardedNode G 1 ⟨1, 0⟩ ⟨1, 0⟩ (0 + 1) "START" "1_0"),
          ("-1_-1", guardedNode G 1 ⟨-1, -1⟩ ⟨-1, -1⟩ (0 + Real.sqrt 2) "START" "-1_-1"),
          ("0_-1", guardedNode G 1 ⟨0, -1⟩ ⟨0, -1⟩ (0 + 1) "START" "0_-1"),
          ("1_-1", guardedNode G 1 ⟨1, -1⟩ ⟨1, -1⟩ (0 + Real.sqrt 2) "START" "1_-1")]
        [("-1_1", 0 + G.sqrt 2 * 1 + 1 + 1 * getHeuristic G ⟨-3, 3⟩ ⟨-1, 1⟩),
          ("0_1", 0 + 1 + 1 + 1 * getHeuristic G ⟨-3, 3⟩ ⟨0, 1⟩),
          ("1_1", 0 + G.sqrt 2 * 1 + 1 + 1 * getHeuristic G ⟨-3, 3⟩ ⟨1, 1⟩),
          ("-1_0", 0 + 1 + 1 + 1 * getHeuristic G ⟨-3, 3⟩ ⟨-1, 0⟩),
          ("1_0", 0 + 1 + 1 + 1 * getHeuristic G ⟨-3, 3⟩ ⟨1, 0⟩),
          ("-1_-1", 0 + G.sqrt 2 * 1 + 1 + 1 * getHeuristic G ⟨-3, 3⟩ ⟨-1, -1⟩),
          ("0_-1", 0 + 1 + 1 + 1 * getHeuristic G ⟨-3, 3⟩ ⟨0, -1⟩),
          ("1_-1", 0 + G.sqrt 2 * 1 + 1 + 1 * getHeuristic G ⟨-3, 3⟩ ⟨1, -1⟩)] := by
    simp only [List.foldl_cons, List.foldl_nil]
    rw [expand_fresh_gp G hG ⟨-3, 3⟩ ⟨-3, 3⟩ 1 _ _ (freeNode G 1 ⟨0, 0⟩ ⟨0, 0⟩ 0 "START" "START") ⟨-1, 1⟩ "-1_1" (G.sqrt 2 * 1) 0
      ⟨-1, 1⟩ ⟨-1, 1⟩ (Real.sqrt 2)]
    rotate_left
    · rfl
    · rfl
    · norm_num [freeNode, guardedNode, Vector2f.add, Vector2f.smul, sx0, sy0]
    · simp only [freeNode, guardedNode]; decide
    · rfl
    · rw [hG]; norm_num [sx0, sy0]
    · norm_num
    rw [expand_fresh_gp G hG ⟨-3, 3⟩ ⟨-3, 3⟩ 1 _ _ (freeNode G 1 ⟨0, 0⟩ ⟨0, 0⟩ 0 "START" "START") ⟨0, 1⟩ "0_1" 1 1
      ⟨0, 1⟩ ⟨0, 1⟩ (1)]
    rotate_left
    · rfl
    · rfl
    · norm_num [freeNode, guardedNode, Vector2f.add, Vector2f.smul, sx1, sy1]
    · simp only [freeNode, guardedNode]; decide
    · rfl
    · rw [hG]; norm_num [sx1, sy1]
    · norm_num
    rw [expand_fresh_gp G hG ⟨-3, 3⟩ ⟨-3, 3⟩ 1 _ _ (freeNode G 1 ⟨0, 0⟩ ⟨0, 0⟩ 0 "START" "START") ⟨1, 1⟩ "1_1" (G.sqrt 2 * 1) 2
      ⟨1, 1⟩ ⟨1, 1⟩ (Real.sqrt 2)]
    rotate_left
    · rfl
    · rfl
    · norm_num [freeNode, guardedNode, Vector2f.add, Vector2f.smul, sx2, sy2]
    · simp only [freeNode, guardedNode]; decide
    · rfl
    · rw [hG]; norm_num [sx2, sy2]
    · norm_num
    rw [expand_fresh_gp G hG ⟨-3, 3⟩ ⟨-3, 3⟩ 1 _ _ (freeNode G 1 ⟨0, 0⟩ ⟨0, 0⟩ 0 "START" "START") ⟨-1, 0⟩ "-1_0" 1 3
      ⟨-1, 0⟩ ⟨-1, 0⟩ (1)]
    rotate_left
    · rfl
    · rfl
    · norm_num [freeNode, guardedNode, Vector2f.add, Vector2f.smul, sx3, sy3]
    · simp only [freeNode, guardedNode]; decide
    · rfl
    · rw [hG]; norm_num [sx3, sy3]
    · norm_num
    rw [expand_fresh_gp G hG ⟨-3, 3⟩ ⟨-3, 3⟩ 1 _ _ (freeNode G 1 ⟨0, 0⟩ ⟨0, 0⟩ 0 "START" "START") ⟨1, 0⟩ "1_0" 1 5
      ⟨1, 0⟩ ⟨1, 0⟩ (1)]
    rotate_left
    · rfl
    · rfl
    · norm_num [freeNode, guardedNode, Vector2f.add, Vector2f.smul, sx5, sy5]
    · simp only [freeNode, guardedNode]; decide
    · rfl
    · rw [hG]; norm_num [sx5, sy5]
    · norm_num
    rw [expand_fresh_gp G hG ⟨-3, 3⟩ ⟨-3, 3⟩ 1 _ _ (freeNode G 1 ⟨0, 0⟩ ⟨0, 0⟩ 0 "START" "START") ⟨-1, -1⟩ "-1_-1" (G.sqrt 2 * 1) 6
      ⟨-1, -1⟩ ⟨-1, -1⟩ (Real.sqrt 2)]
    rotate_left
    · rfl
    · rfl
    · norm_num [freeNode, guardedNode, Vector2f.add, Vector2f.smul, sx6, sy6]
    · simp only [freeNode, guardedNode]; decide
    · rfl
    · rw [hG]; norm_num [sx6, sy6]
    · norm_num
    rw [expand_fresh_gp G hG ⟨-3, 3⟩ ⟨-3, 3⟩ 1 _ _ (freeNode G 1 ⟨0, 0⟩ ⟨0, 0⟩ 0 "START" "START") ⟨0, -1⟩ "0_-1" 1 7
      ⟨0, -1⟩ ⟨0, -1⟩ (1)]
    rotate_left
    · rfl
    · rfl
    · norm_num [freeNode, guardedNode, Vector2f.add, Vector2f.smul, sx7, sy7]
    · simp only [freeNode, guardedNode]; decide
    · rfl
    · rw [hG]; norm_num [sx7, sy7]
    · norm_num
    rw [expand_fresh_gp G hG ⟨-3, 3⟩ ⟨-3, 3⟩ 1 _ _ (freeNode G 1 ⟨0, 0⟩ ⟨0, 0⟩ 0 "START" "START") ⟨1, -1⟩ "1_-1" (G.sqrt 2 * 1) 8
      ⟨1, -1⟩ ⟨1, -1⟩ (Real.sqrt 2)]
    rotate_left
    · rfl
    · rfl
    · norm_num [freeNode, guardedNode, Vector2f.add, Vector2f.smul, sx8, sy8]
    · simp only [freeNode, guardedNode]; decide
    · rfl
    · rw [hG]; norm_num [sx8, sy8]
    · norm_num
    rfl
  have hinit : ({ initializeMap G (addHuman (blankPlanner [] 1) sentry) ⟨0, 0⟩ with
      nav_goal_ := ⟨-3, 3⟩ } : GlobalPlanner ℝ) =
      guardedPlanner 1 ⟨-3, 3⟩ [("START", freeNode G 1 ⟨0, 0⟩ ⟨0, 0⟩ 0 "START" "START")] [("START", 0)] := by
    have h0 : toInt (0 : ℝ) = 0 := by simp [toInt]
    simp [initializeMap, addHuman, guardedPlanner, blankPlanner, getNeighbors_empty, freeNode,
      Node.blank, NavMap.set, Frontier.Push, h0]
  refine ⟨?_, ?_, ?_⟩
  · have hstep : searchLoop G ⟨-3, 3⟩ (0 + 1) ""
        (guardedPlanner 1 ⟨-3, 3⟩ [("START", freeNode G 1 ⟨0, 0⟩ ⟨0, 0⟩ 0 "START" "START")] [("START", 0)]) =
        searchLoop G ⟨-3, 3⟩ 0 "START" (guardedPlanner 1 ⟨-3, 3⟩ [("START", freeNode G 1 ⟨0, 0⟩ ⟨0, 0⟩ 0 "START" "START"),
          ("-1_1", guardedNode G 1 ⟨-1, 1⟩ ⟨-1, 1⟩ (0 + Real.sqrt 2) "START" "-1_1"),
          ("0_1", guardedNode G 1 ⟨0, 1⟩ ⟨0, 1⟩ (0 + 1) "START" "0_1"),
          ("1_1", guardedNode G 1 ⟨1, 1⟩ ⟨1, 1⟩ (0 + Real.sqrt 2) "START" "1_1"),
          ("-1_0", guardedNode G 1 ⟨-1, 0⟩ ⟨-1, 0⟩ (0 + 1) "START" "-1_0"),
          ("1_0", guardedNode G 1 ⟨1, 0⟩ ⟨1, 0⟩ (0 + 1) "START" "1_0"),
          ("-1_-1", guardedNode G 1 ⟨-1, -1⟩ ⟨-1, -1⟩ (0 + Real.sqrt 2) "START" "-1_-1"),
          ("0_-1", guardedNode G 1 ⟨0, -1⟩ ⟨0, -1⟩ (0 + 1) "START" "0_-1"),
          ("1_-1", guardedNode G 1 ⟨1, -1⟩ ⟨1, -1⟩ (0 + Real.sqrt 2) "START" "1_-1")]
          [("-1_1", 0 + G.sqrt 2 * 1 + 1 + 1 * getHeuristic G ⟨-3, 3⟩ ⟨-1, 1⟩),
          ("0_1", 0 + 1 + 1 + 1 * getHeuristic G ⟨-3, 3⟩ ⟨0, 1⟩),
          ("1_1", 0 + G.sqrt 2 * 1 + 1 + 1 * getHeuristic G ⟨-3, 3⟩ ⟨1, 1⟩),
          ("-1_0", 0 + 1 + 1 + 1 * getHeuristic G ⟨-3, 3⟩ ⟨-1, 0⟩),
          ("1_0", 0 + 1 + 1 + 1 * getHeuristic G ⟨-3, 3⟩ ⟨1, 0⟩),
          ("-1_-1", 0 + G.sqrt 2 * 1 + 1 + 1 * getHeuristic G ⟨-3, 3⟩ ⟨-1, -1⟩),
          ("0_-1", 0 + 1 + 1 + 1 * getHeuristic G ⟨-3, 3⟩ ⟨0, -1⟩),
          ("1_-1", 0 + G.sqrt 2 * 1 + 1 + 1 * getHeuristic G ⟨-3, 3⟩ ⟨1, -1⟩)]) :=
      searchLoop_expand G ⟨-3, 3⟩ 0 "" _ _ "START" [] (freeNode G 1 ⟨0, 0⟩ ⟨0, 0⟩ 0 "START" "START")
        (List.cons_ne_nil _ _) hpop0 rfl hgoal0 hfold0
    unfold guardedSearch searchState
    rw [hinit]
    show (searchLoop G ⟨-3, 3⟩ (0 + 1) "" _).planner = _
    rw [hstep]
    rfl
  · exact Frontier.Pop_of_min [] [("0_1", 0 + 1 + 1 + 1 * getHeuristic G ⟨-3, 3⟩ ⟨0, 1⟩),
          ("1_1", 0 + G.sqrt 2 * 1 + 1 + 1 * getHeuristic G ⟨-3, 3⟩ ⟨1, 1⟩),
          ("-1_0", 0 + 1 + 1 + 1 * getHeuristic G ⟨-3, 3⟩ ⟨-1, 0⟩),
          ("1_0", 0 + 1 + 1 + 1 * getHeuristic G ⟨-3, 3⟩ ⟨1, 0⟩),
          ("-1_-1", 0 + G.sqrt 2 * 1 + 1 + 1 * getHeuristic G ⟨-3, 3⟩ ⟨-1, -1⟩),
          ("0_-1", 0 + 1 + 1 + 1 * getHeuristic G ⟨-3, 3⟩ ⟨0, -1⟩),
          ("1_-1", 0 + G.sqrt 2 * 1 + 1 + 1 * getHeuristic G ⟨-3, 3⟩ ⟨1, -1⟩)]
      ("-1_1", 0 + G.sqrt 2 * 1 + 1 + 1 * getHeuristic G ⟨-3, 3⟩ ⟨-1, 1⟩)
      (fun x hx => absurd hx (List.not_mem_nil _))
      (by
        intro x hx
        simp only [List.mem_cons, List.mem_singleton, List.not_mem_nil, or_false] at hx
        rcases hx with rfl | rfl | rfl | rfl | rfl | rfl | rfl <;> dsimp only <;>
          exact not_lt.mpr (by linarith)) rfl
  · rw [expand_fresh_gp G hG ⟨-3, 3⟩ ⟨-3, 3⟩ 1 _ _ (guardedNode G 1 ⟨-1, 1⟩ ⟨-1, 1⟩ (0 + Real.sqrt 2) "START" "-1_1") ⟨-2, 2⟩ "-2_2" (G.sqrt 2 * 1) 0
      ⟨-2, 2⟩ ⟨-2, 2⟩ (Real.sqrt 2)]
    · rfl
    · rfl
    · rfl
    · norm_num [guardedNode, Vector2f.add, Vector2f.smul, sx0, sy0]
    · simp only [guardedNode]; decide
    · rfl
    · rw [hG]; norm_num [sx0, sy0]
    · norm_num

end Nav

namespace Nav

theorem guardedRun_facts (G : Geometry ℝ) (hG : G.sqrt = Real.sqrt) :
    ∃ (nb : Neighbor ℝ) (rest : List (Neighbor ℝ)) (s0 n1 n2 : Node ℝ),
      (Frontier.Pop (guardedSearch G).frontier_).1 = "-1_1" ∧
      (NavMap.get (guardedSearch G).nav_map_ "-1_1").neighbors = nb :: rest ∧
      nb.key = "-2_2" ∧
      (midIteration G ⟨-3, 3⟩ (guardedSearch G) [nb]).frontier_ =
        (Frontier.Pop
            (guardedSearch G).frontier_).2 ++ [("-2_2", Real.sqrt 2 + Real.sqrt 2 + 1 + Real.sqrt 2)] ∧
      NavMap.find? (midIteration G ⟨-3, 3⟩ (guardedSearch G) [nb]).nav_map_ "START" = some s0 ∧
      NavMap.find? (midIteration G ⟨-3, 3⟩ (guardedSearch G) [nb]).nav_map_ "-1_1" = some n1 ∧
      NavMap.find? (midIteration G ⟨-3, 3⟩ (guardedSearch G) [nb]).nav_map_ "-2_2" = some n2 ∧
      n2.parent = "-1_1" ∧ n1.parent = "START" ∧
      edgeCost G n1 s0 = Real.sqrt 2 ∧ edgeCost G n2 n1 = Real.sqrt 2 ∧
      s0.social_cost = 0 ∧ n1.social_cost = 1 ∧ n2.social_cost = 1 ∧
      getHeuristic G ⟨-3, 3⟩ n2.loc = Real.sqrt 2 ∧
      Real.sqrt 2 + Real.sqrt 2 + 1 + Real.sqrt 2 ≠
        (edgeCost G n1 s0 + edgeCost G n2 n1) +
          (s0.social_cost + n1.social_cost + n2.social_cost) +
          getHeuristic G ⟨-3, 3⟩ n2.loc := by
  obtain ⟨h1, h2, h3⟩ := guardedRun G hG
  have hq : G.sqrt 2 = Real.sqrt 2 := by rw [hG]
  have hh : getHeuristic G ⟨-3, 3⟩ ⟨-2, 2⟩ = Real.sqrt 2 := by
    rw [getHeuristic_eq, hq]; norm_num
    ring
  have hpop : Frontier.Pop (guardedSearch G).frontier_ =
      ("-1_1", [("0_1", 0 + 1 + 1 + 1 * getHeuristic G ⟨-3, 3⟩ ⟨0, 1⟩),
          ("1_1", 0 + G.sqrt 2 * 1 + 1 + 1 * getHeuristic G ⟨-3, 3⟩ ⟨1, 1⟩),
          ("-1_0", 0 + 1 + 1 + 1 * getHeuristic G ⟨-3, 3⟩ ⟨-1, 0⟩),
          ("1_0", 0 + 1 + 1 + 1 * getHeuristic G ⟨-3, 3⟩ ⟨1, 0⟩),
          ("-1_-1", 0 + G.sqrt 2 * 1 + 1 + 1 * getHeuristic G ⟨-3, 3⟩ ⟨-1, -1⟩),
          ("0_-1", 0 + 1 + 1 + 1 * getHeuristic G ⟨-3, 3⟩ ⟨0, -1⟩),
          ("1_-1", 0 + G.sqrt 2 * 1 + 1 + 1 * getHeuristic G ⟨-3, 3⟩ ⟨1, -1⟩)]) := by
    rw [h1]; exact h2
  have hget : NavMap.get (guardedSearch G).nav_map_ "-1_1" =
      guardedNode G 1 ⟨-1, 1⟩ ⟨-1, 1⟩ (0 + Real.sqrt 2) "START" "-1_1" := by
    rw [h1]; rfl
  have hmid : midIteration G ⟨-3, 3⟩ (guardedSearch G) [⟨⟨-2, 2⟩, "-2_2", G.sqrt 2 * 1, 0⟩] =
      guardedPlanner 1 ⟨-3, 3⟩ ([("START", freeNode G 1 ⟨0, 0⟩ ⟨0, 0⟩ 0 "START" "START"),
          ("-1_1", guardedNode G 1 ⟨-1, 1⟩ ⟨-1, 1⟩ (0 + Real.sqrt 2) "START" "-1_1"),
          ("0_1", guardedNode G 1 ⟨0, 1⟩ ⟨0, 1⟩ (0 + 1) "START" "0_1"),
          ("1_1", guardedNode G 1 ⟨1, 1⟩ ⟨1, 1⟩ (0 + Real.sqrt 2) "START" "1_1"),
          ("-1_0", guardedNode G 1 ⟨-1, 0⟩ ⟨-1, 0⟩ (0 + 1) "START" "-1_0"),
          ("1_0", guardedNode G 1 ⟨1, 0⟩ ⟨1, 0⟩ (0 + 1) "START" "1_0"),
          ("-1_-1", guardedNode G 1 ⟨-1, -1⟩ ⟨-1, -1⟩ (0 + Real.sqrt 2) "START" "-1_-1"),
          ("0_-1", guardedNode G 1 ⟨0, -1⟩ ⟨0, -1⟩ (0 + 1) "START" "0_-1"),
          ("1_-1", guardedNode G 1 ⟨1, -1⟩ ⟨1, -1⟩ (0 + Real.sqrt 2) "START" "1_-1")] ++
          [("-2_2", guardedNode G 1 ⟨-2, 2⟩ ⟨-2, 2⟩ (0 + Real.sqrt 2 + Real.sqrt 2) "-1_1" "-2_2")])
        ([("0_1", 0 + 1 + 1 + 1 * getHeuristic G ⟨-3, 3⟩ ⟨0, 1⟩),
          ("1_1", 0 + G.sqrt 2 * 1 + 1 + 1 * getHeuristic G ⟨-3, 3⟩ ⟨1, 1⟩),
          ("-1_0", 0 + 1 + 1 + 1 * getHeuristic G ⟨-3, 3⟩ ⟨-1, 0⟩),
          ("1_0", 0 + 1 + 1 + 1 * getHeuristic G ⟨-3, 3⟩ ⟨1, 0⟩),
          ("-1_-1", 0 + G.sqrt 2 * 1 + 1 + 1 * getHeuristic G ⟨-3, 3⟩ ⟨-1, -1⟩),
          ("0_-1", 0 + 1 + 1 + 1 * getHeuristic G ⟨-3, 3⟩ ⟨0, -1⟩),
          ("1_-1", 0 + G.sqrt 2 * 1 + 1 + 1 * getHeuristic G ⟨-3, 3⟩ ⟨1, -1⟩)] ++
          [("-2_2", 0 + Real.sqrt 2 + G.sqrt 2 * 1 + 1 + 1 * getHeuristic G ⟨-3, 3⟩ ⟨-2, 2⟩)]) := by
    unfold midIteration
    rw [hpop]
    simp only [List.foldl_cons, List.foldl_nil]
    rw [hget, h1]
    exact h3
  have hP2 : 0 + Real.sqrt 2 + G.sqrt 2 * 1 + 1 + 1 * getHeuristic G ⟨-3, 3⟩
      ⟨-2, 2⟩ = Real.sqrt 2 + Real.sqrt 2 + 1 + Real.sqrt 2 := by
    rw [hh, hq]; ring
  refine ⟨⟨⟨-2, 2⟩, "-2_2", G.sqrt 2 * 1, 0⟩,
    [⟨⟨-1, 2⟩, "-1_2", 1, 1⟩,
          ⟨⟨0, 2⟩, "0_2", G.sqrt 2 * 1, 2⟩,
          ⟨⟨-2, 1⟩, "-2_1", 1, 3⟩,
          ⟨⟨0, 1⟩, "0_1", 1, 5⟩,
          ⟨⟨-2, 0⟩, "-2_0", G.sqrt 2 * 1, 6⟩,
          ⟨⟨-1, 0⟩, "-1_0", 1, 7⟩,
          ⟨⟨0, 0⟩, "0_0", G.sqrt 2 * 1, 8⟩],
    freeNode G 1 ⟨0, 0⟩ ⟨0, 0⟩ 0 "START" "START",
    guardedNode G 1 ⟨-1, 1⟩ ⟨-1, 1⟩ (0 + Real.sqrt 2) "START" "-1_1",
    guardedNode G 1 ⟨-2, 2⟩ ⟨-2, 2⟩ (0 + Real.sqrt 2 + Real.sqrt 2) "-1_1" "-2_2",
    ?_, ?_, rfl, ?_, ?_, ?_, ?_, rfl, rfl, ?_, ?_, rfl, rfl, rfl, hh, ?_⟩
  · rw [hpop]
  · rw [hget]; rfl
  · rw [hmid, hpop]
    show _ ++ [("-2_2", 0 + Real.sqrt 2 + G.sqrt 2 * 1 + 1 + 1 * getHeuristic G ⟨-3, 3⟩
        ⟨-2, 2⟩)] = _
    rw [hP2]
  · rw [hmid]; rfl
  · rw [hmid]; rfl
  · rw [hmid]; rfl
  · simp only [edgeCost, guardedNode, freeNode, Vector2f.norm, Vector2f.sub, hG]
    norm_num
  · simp only [edgeCost, guardedNode, freeNode, Vector2f.norm, Vector2f.sub, hG]
    norm_num
  · have e1 : edgeCost G (guardedNode G 1 ⟨-1, 1⟩ ⟨-1, 1⟩ (0 + Real.sqrt 2) "START" "-1_1")
      (freeNode G 1 ⟨0, 0⟩ ⟨0, 0⟩ 0 "START" "START") = Real.sqrt 2 := by
      simp only [edgeCost, guardedNode, freeNode, Vector2f.norm, Vector2f.sub, hG]
      norm_num
    have e2 : edgeCost G (guardedNode G 1 ⟨-2, 2⟩ ⟨-2, 2⟩
        (0 + Real.sqrt 2 + Real.sqrt 2) "-1_1" "-2_2") (guardedNode G 1 ⟨-1, 1⟩ ⟨-1, 1⟩
        (0 + Real.sqrt 2) "START" "-1_1") = Real.sqrt 2 := by
      simp only [edgeCost, guardedNode, freeNode, Vector2f.norm, Vector2f.sub, hG]
      norm_num
    rw [e1, e2]
    simp only [guardedNode, freeNode, hh]
    intro h
    linarith

/-- C24, a push that does not accumulate social cost: on the empty map with resolution 1 and a
human whose safety cost is 1 everywhere, the search from (0,0) toward (-3,3) pops `-1_1`
in its second iteration and pushes the key `-2_2` of its first neighbour with priority
`sqrt 2 + sqrt 2 + 1 + sqrt 2`: two step lengths, the social cost 1 of the pushed node
alone, and the heuristic `sqrt 2`. The parent chain `START`, `-1_1`, `-2_2` has the step
lengths `sqrt 2` and `sqrt 2` and the social costs 0, 1 and 1, so that a priority which
accumulated the social costs along the chain would be larger by 1. -/
theorem C24_counterexample :
    ∃ (nb : Neighbor ℝ) (rest : List (Neighbor ℝ)) (s0 n1 n2 : Node ℝ),
      (Frontier.Pop (guardedSearch (specGeometry Real.sqrt fun _ m => m.p0)).frontier_).1 = "-1_1" ∧
      (NavMap.get (guardedSearch
          (specGeometry Real.sqrt fun _ m => m.p0)).nav_map_ "-1_1").neighbors = nb :: rest ∧
      nb.key = "-2_2" ∧
      (midIteration (specGeometry Real.sqrt fun _ m => m.p0) ⟨-3, 3⟩ (guardedSearch
          (specGeometry Real.sqrt fun _ m => m.p0)) [nb]).frontier_ =
        (Frontier.Pop (guardedSearch
            (specGeometry Real.sqrt fun _ m => m.p0)).frontier_).2 ++ [("-2_2", Real.sqrt 2 + Real.sqrt 2 + 1 + Real.sqrt 2)] ∧
      NavMap.find? (midIteration (specGeometry Real.sqrt fun _ m => m.p0) ⟨-3, 3⟩ (guardedSearch
          (specGeometry Real.sqrt fun _ m => m.p0)) [nb]).nav_map_ "START" = some s0 ∧
      NavMap.find? (midIteration (specGeometry Real.sqrt fun _ m => m.p0) ⟨-3, 3⟩ (guardedSearch
          (specGeometry Real.sqrt fun _ m => m.p0)) [nb]).nav_map_ "-1_1" = some n1 ∧
      NavMap.find? (midIteration (specGeometry Real.sqrt fun _ m => m.p0) ⟨-3, 3⟩ (guardedSearch
          (specGeometry Real.sqrt fun _ m => m.p0)) [nb]).nav_map_ "-2_2" = some n2 ∧
      n2.parent = "-1_1" ∧ n1.parent = "START" ∧
      edgeCost (specGeometry Real.sqrt fun _ m => m.p0) n1 s0 = Real.sqrt 2 ∧ edgeCost
          (specGeometry Real.sqrt fun _ m => m.p0) n2 n1 = Real.sqrt 2 ∧
      s0.social_cost = 0 ∧ n1.social_cost = 1 ∧ n2.social_cost = 1 ∧
      getHeuristic (specGeometry Real.sqrt fun _ m => m.p0) ⟨-3, 3⟩ n2.loc = Real.sqrt 2 ∧
      Real.sqrt 2 + Real.sqrt 2 + 1 + Real.sqrt 2 ≠
        (edgeCost (specGeometry Real.sqrt fun _ m => m.p0) n1 s0 + edgeCost
            (specGeometry Real.sqrt fun _ m => m.p0) n2 n1) +
          (s0.social_cost + n1.social_cost + n2.social_cost) +
          getHeuristic (specGeometry Real.sqrt fun _ m => m.p0) ⟨-3, 3⟩ n2.loc :=
  guardedRun_facts (specGeometry Real.sqrt fun _ m => m.p0) rfl

end Nav

namespace Nav

theorem guardedRun_first (G : Geometry ℝ) (hG : G.sqrt = Real.sqrt) :
    [] ++ [(⟨⟨-2, 2⟩, "-2_2", G.sqrt 2 * 1, 0⟩ : Neighbor ℝ)] <+:
      (NavMap.get (searchState G (initializeMap G (addHuman (blankPlanner [] 1) sentry) ⟨0, 0⟩)
          ⟨-3, 3⟩ 1).nav_map_
        (Frontier.Pop (searchState G (initializeMap G (addHuman (blankPlanner [] 1) sentry)
            ⟨0, 0⟩) ⟨-3, 3⟩ 1).frontier_).1).neighbors := by
  obtain ⟨h1, h2, _⟩ := guardedRun G hG
  have hS : searchState G (initializeMap G (addHuman (blankPlanner [] 1) sentry) ⟨0, 0⟩) ⟨-3, 3⟩ 1 =
      guardedPlanner 1 ⟨-3, 3⟩ [("START", freeNode G 1 ⟨0, 0⟩ ⟨0, 0⟩ 0 "START" "START"),
          ("-1_1", guardedNode G 1 ⟨-1, 1⟩ ⟨-1, 1⟩ (0 + Real.sqrt 2) "START" "-1_1"),
          ("0_1", guardedNode G 1 ⟨0, 1⟩ ⟨0, 1⟩ (0 + 1) "START" "0_1"),
          ("1_1", guardedNode G 1 ⟨1, 1⟩ ⟨1, 1⟩ (0 + Real.sqrt 2) "START" "1_1"),
          ("-1_0", guardedNode G 1 ⟨-1, 0⟩ ⟨-1, 0⟩ (0 + 1) "START" "-1_0"),
          ("1_0", guardedNode G 1 ⟨1, 0⟩ ⟨1, 0⟩ (0 + 1) "START" "1_0"),
          ("-1_-1", guardedNode G 1 ⟨-1, -1⟩ ⟨-1, -1⟩ (0 + Real.sqrt 2) "START" "-1_-1"),
          ("0_-1", guardedNode G 1 ⟨0, -1⟩ ⟨0, -1⟩ (0 + 1) "START" "0_-1"),
          ("1_-1", guardedNode G 1 ⟨1, -1⟩ ⟨1, -1⟩ (0 + Real.sqrt 2) "START" "1_-1")]
        [("-1_1", 0 + G.sqrt 2 * 1 + 1 + 1 * getHeuristic G ⟨-3, 3⟩ ⟨-1, 1⟩),
          ("0_1", 0 + 1 + 1 + 1 * getHeuristic G ⟨-3, 3⟩ ⟨0, 1⟩),
          ("1_1", 0 + G.sqrt 2 * 1 + 1 + 1 * getHeuristic G ⟨-3, 3⟩ ⟨1, 1⟩),
          ("-1_0", 0 + 1 + 1 + 1 * getHeuristic G ⟨-3, 3⟩ ⟨-1, 0⟩),
          ("1_0", 0 + 1 + 1 + 1 * getHeuristic G ⟨-3, 3⟩ ⟨1, 0⟩),
          ("-1_-1", 0 + G.sqrt 2 * 1 + 1 + 1 * getHeuristic G ⟨-3, 3⟩ ⟨-1, -1⟩),
          ("0_-1", 0 + 1 + 1 + 1 * getHeuristic G ⟨-3, 3⟩ ⟨0, -1⟩),
          ("1_-1", 0 + G.sqrt 2 * 1 + 1 + 1 * getHeuristic G ⟨-3, 3⟩ ⟨1, -1⟩)] := h1
  have hpop : Frontier.Pop (searchState G (initializeMap G (addHuman (blankPlanner [] 1) sentry)
      ⟨0, 0⟩) ⟨-3, 3⟩ 1).frontier_ =
      ("-1_1", [("0_1", 0 + 1 + 1 + 1 * getHeuristic G ⟨-3, 3⟩ ⟨0, 1⟩),
          ("1_1", 0 + G.sqrt 2 * 1 + 1 + 1 * getHeuristic G ⟨-3, 3⟩ ⟨1, 1⟩),
          ("-1_0", 0 + 1 + 1 + 1 * getHeuristic G ⟨-3, 3⟩ ⟨-1, 0⟩),
          ("1_0", 0 + 1 + 1 + 1 * getHeuristic G ⟨-3, 3⟩ ⟨1, 0⟩),
          ("-1_-1", 0 + G.sqrt 2 * 1 + 1 + 1 * getHeuristic G ⟨-3, 3⟩ ⟨-1, -1⟩),
          ("0_-1", 0 + 1 + 1 + 1 * getHeuristic G ⟨-3, 3⟩ ⟨0, -1⟩),
          ("1_-1", 0 + G.sqrt 2 * 1 + 1 + 1 * getHeuristic G ⟨-3, 3⟩ ⟨1, -1⟩)]) := by
    rw [hS]; exact h2
  rw [hpop, hS]
  exact ⟨[⟨⟨-1, 2⟩, "-1_2", 1, 1⟩,
          ⟨⟨0, 2⟩, "0_2", G.sqrt 2 * 1, 2⟩,
          ⟨⟨-2, 1⟩, "-2_1", 1, 3⟩,
          ⟨⟨0, 1⟩, "0_1", 1, 5⟩,
          ⟨⟨-2, 0⟩, "-2_0", G.sqrt 2 * 1, 6⟩,
          ⟨⟨-1, 0⟩, "-1_0", 1, 7⟩,
          ⟨⟨0, 0⟩, "0_0", G.sqrt 2 * 1, 8⟩], rfl⟩

/-- C24, amended: in every iteration of the search loop of `getGlobalPath` (started from the
state left by `initializeMap` with a positive resolution), processing the next neighbour
`nb` of the popped node `c` either changes nothing or stores a node `n` under the key of
`nb`, with parent `c` and a cost that is the cost of `c` plus one step (no social cost), and
pushes that key with priority `c.cost + nb.path_length + n.social_cost + h`, where `h` is
`getHeuristic` from `n` to the goal: the social cost of the pushed node alone is added, not
the social costs of the nodes on its parent chain. -/
theorem C24_priority_counts_own_social_cost (I : line2f ℝ → line2f ℝ → Bool)
    (X : line2f ℝ → line2f ℝ → Option (Vector2f ℝ)) (U : line2f ℝ → Vector2f ℝ)
    (P : GlobalPlanner ℝ) (loc goal : Vector2f ℝ) (hres : 0 < P.map_resolution_) (j : Nat)
    (l : List (Neighbor ℝ)) (nb : Neighbor ℝ)
    (hl : l ++ [nb] <+:
      (NavMap.get (searchState ⟨Real.sqrt, I, X, U⟩ (initializeMap ⟨Real.sqrt, I, X, U⟩ P loc)
          goal j).nav_map_
        (Frontier.Pop (searchState ⟨Real.sqrt, I, X, U⟩
          (initializeMap ⟨Real.sqrt, I, X, U⟩ P loc) goal j).frontier_).1).neighbors) :
    (midIteration ⟨Real.sqrt, I, X, U⟩ goal (searchState ⟨Real.sqrt, I, X, U⟩ (initializeMap
        ⟨Real.sqrt, I, X, U⟩ P loc) goal j) (l ++ [nb])) =
      (midIteration ⟨Real.sqrt, I, X, U⟩ goal (searchState ⟨Real.sqrt, I, X, U⟩ (initializeMap
          ⟨Real.sqrt, I, X, U⟩ P loc) goal j) l) ∨
    ∃ n, NavMap.find? (midIteration ⟨Real.sqrt, I, X, U⟩ goal (searchState ⟨Real.sqrt, I, X, U⟩
        (initializeMap ⟨Real.sqrt, I, X, U⟩ P loc) goal j) (l ++ [nb])).nav_map_
        (nb).key = some n ∧
      (midIteration ⟨Real.sqrt, I, X, U⟩ goal (searchState ⟨Real.sqrt, I, X, U⟩ (initializeMap
          ⟨Real.sqrt, I, X, U⟩ P loc) goal j) (l ++ [nb])).frontier_ =
        Frontier.Push (midIteration ⟨Real.sqrt, I, X, U⟩ goal (searchState ⟨Real.sqrt, I, X, U⟩
            (initializeMap ⟨Real.sqrt, I, X, U⟩ P loc) goal j) l).frontier_ (nb).key
          ((NavMap.get (searchState ⟨Real.sqrt, I, X, U⟩ (initializeMap
              ⟨Real.sqrt, I, X, U⟩ P loc) goal j).nav_map_ (Frontier.Pop (searchState
              ⟨Real.sqrt, I, X, U⟩ (initializeMap
              ⟨Real.sqrt, I, X, U⟩ P loc) goal j).frontier_).1).cost +
            (nb).path_length + n.social_cost + 1 * getHeuristic ⟨Real.sqrt, I, X, U⟩ goal n.loc) ∧
      n.parent = (NavMap.get (searchState ⟨Real.sqrt, I, X, U⟩ (initializeMap
          ⟨Real.sqrt, I, X, U⟩ P loc) goal j).nav_map_ (Frontier.Pop (searchState
          ⟨Real.sqrt, I, X, U⟩ (initializeMap
          ⟨Real.sqrt, I, X, U⟩ P loc) goal j).frontier_).1).key ∧
      (n.cost = (NavMap.get (searchState ⟨Real.sqrt, I, X, U⟩ (initializeMap
          ⟨Real.sqrt, I, X, U⟩ P loc) goal j).nav_map_ (Frontier.Pop (searchState
          ⟨Real.sqrt, I, X, U⟩ (initializeMap
          ⟨Real.sqrt, I, X, U⟩ P loc) goal j).frontier_).1).cost +
          edgeCost ⟨Real.sqrt, I, X, U⟩ (NavMap.get (searchState ⟨Real.sqrt, I, X, U⟩
              (initializeMap ⟨Real.sqrt, I, X, U⟩ P loc) goal j).nav_map_ (Frontier.Pop
              (searchState ⟨Real.sqrt, I, X, U⟩ (initializeMap
              ⟨Real.sqrt, I, X, U⟩ P loc) goal j).frontier_).1) n ∨
        n.cost = (NavMap.get (searchState ⟨Real.sqrt, I, X, U⟩ (initializeMap
            ⟨Real.sqrt, I, X, U⟩ P loc) goal j).nav_map_ (Frontier.Pop (searchState
            ⟨Real.sqrt, I, X, U⟩ (initializeMap
            ⟨Real.sqrt, I, X, U⟩ P loc) goal j).frontier_).1).cost +
          (nb).path_length) := by
  have hs := real_sqrt_pos I X U
  obtain ⟨s0, hInv0, hF0, _⟩ := initializeMap_inv ⟨Real.sqrt, I, X, U⟩ hs P loc hres
  have hinv := searchLoop_inv ⟨Real.sqrt, I, X, U⟩ hs goal s0 j ""
    { initializeMap ⟨Real.sqrt, I, X, U⟩ P loc with nav_goal_ := goal } hres hInv0 hF0
  have hPI : ParentInv (searchState ⟨Real.sqrt, I, X, U⟩
      (initializeMap ⟨Real.sqrt, I, X, U⟩ P loc) goal j).nav_map_ s0 := hinv.1
  have hnb : nb ∈ (NavMap.get (searchState ⟨Real.sqrt, I, X, U⟩
      (initializeMap ⟨Real.sqrt, I, X, U⟩ P loc) goal j).nav_map_
      (Frontier.Pop (searchState ⟨Real.sqrt, I, X, U⟩
        (initializeMap ⟨Real.sqrt, I, X, U⟩ P loc) goal j).frontier_).1).neighbors :=
    hl.subset (List.mem_append_right _ (List.mem_singleton_self nb))
  have hgood : GoodNeighbor (NavMap.get (searchState ⟨Real.sqrt, I, X, U⟩
      (initializeMap ⟨Real.sqrt, I, X, U⟩ P loc) goal j).nav_map_
      (Frontier.Pop (searchState ⟨Real.sqrt, I, X, U⟩
        (initializeMap ⟨Real.sqrt, I, X, U⟩ P loc) goal j).frontier_).1).index nb := by
    cases hf : NavMap.find? (searchState ⟨Real.sqrt, I, X, U⟩
        (initializeMap ⟨Real.sqrt, I, X, U⟩ P loc) goal j).nav_map_
        (Frontier.Pop (searchState ⟨Real.sqrt, I, X, U⟩
          (initializeMap ⟨Real.sqrt, I, X, U⟩ P loc) goal j).frontier_).1 with
    | none =>
      rw [NavMap.get_of_find?_none _ _ hf] at hnb
      exact absurd hnb (List.not_mem_nil _)
    | some c =>
      rw [NavMap.get_of_find? _ _ _ hf] at hnb ⊢
      exact hPI.2.2.2.2 _ c hf nb hnb
  have hmid : midIteration ⟨Real.sqrt, I, X, U⟩ goal (searchState ⟨Real.sqrt, I, X, U⟩
      (initializeMap ⟨Real.sqrt, I, X, U⟩ P loc) goal j) (l ++ [nb]) =
      expandNeighbor ⟨Real.sqrt, I, X, U⟩ goal (NavMap.get (searchState ⟨Real.sqrt, I, X, U⟩
          (initializeMap ⟨Real.sqrt, I, X, U⟩ P loc) goal j).nav_map_
        (Frontier.Pop (searchState ⟨Real.sqrt, I, X, U⟩
          (initializeMap ⟨Real.sqrt, I, X, U⟩ P loc) goal j).frontier_).1)
        (midIteration ⟨Real.sqrt, I, X, U⟩ goal (searchState ⟨Real.sqrt, I, X, U⟩
          (initializeMap ⟨Real.sqrt, I, X, U⟩ P loc) goal j) l) nb := by
    unfold midIteration
    rw [List.foldl_append]
    rfl
  rw [hmid]
  rcases expandNeighbor_push ⟨Real.sqrt, I, X, U⟩ goal _
      (midIteration ⟨Real.sqrt, I, X, U⟩ goal (searchState ⟨Real.sqrt, I, X, U⟩
        (initializeMap ⟨Real.sqrt, I, X, U⟩ P loc) goal j) l) nb hgood with h | ⟨n, h, hp, hc⟩
  · exact Or.inl h
  · right
    rw [h]
    refine ⟨n, NavMap.find?_set_self _ _ _, rfl, hp, ?_⟩
    rcases hc with ⟨_, _, hc⟩ | ⟨old, _, _, hn⟩
    · exact Or.inl hc
    · right
      rw [hn]

/-- C24 at a concrete input: the second iteration of the search from (0,0) toward (-3,3)
next to `sentry`, at the first neighbour of the popped node `-1_1`. -/
theorem C24_witness :
    (midIteration (specGeometry Real.sqrt fun _ m => m.p0) ⟨-3, 3⟩ (guardedSearch
        (specGeometry Real.sqrt fun _ m => m.p0))
        ([] ++ [(⟨⟨-2, 2⟩, "-2_2", Real.sqrt 2 * 1, 0⟩ : Neighbor ℝ)])) =
      (midIteration (specGeometry Real.sqrt fun _ m => m.p0) ⟨-3, 3⟩ (guardedSearch
          (specGeometry Real.sqrt fun _ m => m.p0)) []) ∨
    ∃ n, NavMap.find? (midIteration (specGeometry Real.sqrt fun _ m => m.p0) ⟨-3, 3⟩
        (guardedSearch (specGeometry Real.sqrt fun _ m => m.p0))
        ([] ++ [(⟨⟨-2, 2⟩, "-2_2", Real.sqrt 2 * 1, 0⟩ : Neighbor ℝ)])).nav_map_
        ((⟨⟨-2, 2⟩, "-2_2", Real.sqrt 2 * 1, 0⟩ : Neighbor ℝ)).key = some n ∧
      (midIteration (specGeometry Real.sqrt fun _ m => m.p0) ⟨-3, 3⟩ (guardedSearch
          (specGeometry Real.sqrt fun _ m => m.p0))
          ([] ++ [(⟨⟨-2, 2⟩, "-2_2", Real.sqrt 2 * 1, 0⟩ : Neighbor ℝ)])).frontier_ =
        Frontier.Push (midIteration (specGeometry Real.sqrt fun _ m => m.p0) ⟨-3, 3⟩
            (guardedSearch (specGeometry Real.sqrt fun _ m => m.p0)) []).frontier_
            ((⟨⟨-2, 2⟩, "-2_2", Real.sqrt 2 * 1, 0⟩ : Neighbor ℝ)).key
          ((NavMap.get (guardedSearch (specGeometry Real.sqrt fun _ m => m.p0)).nav_map_
              (Frontier.Pop (guardedSearch
              (specGeometry Real.sqrt fun _ m => m.p0)).frontier_).1).cost +
            ((⟨⟨-2, 2⟩, "-2_2", Real.sqrt 2 * 1, 0⟩ : Neighbor ℝ)).path_length + n.social_cost + 1 * getHeuristic (specGeometry Real.sqrt fun _ m => m.p0) ⟨-3, 3⟩ n.loc) ∧
      n.parent = (NavMap.get (guardedSearch (specGeometry Real.sqrt fun _ m => m.p0)).nav_map_
          (Frontier.Pop (guardedSearch (specGeometry Real.sqrt fun _ m => m.p0)).frontier_).1).key ∧
      (n.cost = (NavMap.get (guardedSearch (specGeometry Real.sqrt fun _ m => m.p0)).nav_map_
          (Frontier.Pop (guardedSearch
          (specGeometry Real.sqrt fun _ m => m.p0)).frontier_).1).cost +
          edgeCost (specGeometry Real.sqrt fun _ m => m.p0) (NavMap.get (guardedSearch
              (specGeometry Real.sqrt fun _ m => m.p0)).nav_map_ (Frontier.Pop (guardedSearch
              (specGeometry Real.sqrt fun _ m => m.p0)).frontier_).1) n ∨
        n.cost = (NavMap.get (guardedSearch (specGeometry Real.sqrt fun _ m => m.p0)).nav_map_
            (Frontier.Pop (guardedSearch
            (specGeometry Real.sqrt fun _ m => m.p0)).frontier_).1).cost +
          ((⟨⟨-2, 2⟩, "-2_2", Real.sqrt 2 * 1, 0⟩ : Neighbor ℝ)).path_length) :=
  C24_priority_counts_own_social_cost (fun l m => l.Intersects m)
    (fun l m => if l.Intersects m then some m.p0 else none)
    (fun l => l.UnitNormal Real.sqrt) (addHuman (blankPlanner [] 1) sentry) ⟨0, 0⟩ ⟨-3, 3⟩
    (by norm_num [addHuman, blankPlanner]) 1 [] ⟨⟨-2, 2⟩, "-2_2", Real.sqrt 2 * 1, 0⟩
    (guardedRun_first (specGeometry Real.sqrt fun _ m => m.p0) rfl)

end Nav

namespace Nav

variable {K : Type} [LinearOrderedField K] [FloorRing K]

/-! ## The frontier as a queue of distinct keys -/

theorem Frontier.mem_Push_self (f : Frontier K) (k : String) (p : K) :
    (k, p) ∈ Frontier.Push f k p := by
  induction f with
  | nil => simp [Frontier.Push]
  | cons a rest ih =>
    obtain ⟨k', p'⟩ := a
    by_cases hk : k' = k
    · simp [Frontier.Push, hk]
    · simp only [Frontier.Push, hk, if_false]
      exact List.mem_cons_of_mem _ ih

theorem Frontier.mem_Push_of_ne (f : Frontier K) (k : String) (p : K) (e : String × K)
    (he : e ∈ f) (hne : e.1 ≠ k) : e ∈ Frontier.Push f k p := by
  induction f with
  | nil => exact absurd he (List.not_mem_nil _)
  | cons a rest ih =>
    obtain ⟨k', p'⟩ := a
    by_cases hk : k' = k
    · simp only [Frontier.Push, hk, if_true]
      rcases List.mem_cons.mp he with h | h
      · rw [h] at hne
        exact absurd hk hne
      · exact List.mem_cons_of_mem _ h
    · simp only [Frontier.Push, hk, if_false]
      rcases List.mem_cons.mp he with h | h
      · rw [h]; exact List.mem_cons_self _ _
      · exact List.mem_cons_of_mem _ (ih h)

/-- In a queue of pairwise distinct keys, `Push` leaves the pushed entry and the entries of
the other keys. -/
theorem Frontier.mem_Push_distinct (f : Frontier K) (k : String) (p : K)
    (hf : f.Pairwise (fun a b => a.1 ≠ b.1)) (e : String × K)
    (h : e ∈ Frontier.Push f k p) : e = (k, p) ∨ (e ∈ f ∧ e.1 ≠ k) := by
  induction f with
  | nil =>
    simp only [Frontier.Push, List.mem_singleton] at h
    exact Or.inl h
  | cons a rest ih =>
    obtain ⟨k', p'⟩ := a
    rw [List.pairwise_cons] at hf
    by_cases hk : k' = k
    · simp only [Frontier.Push, hk, if_true] at h
      rcases List.mem_cons.mp h with h | h
      · exact Or.inl h
      · right
        refine ⟨List.mem_cons_of_mem _ h, ?_⟩
        have := hf.1 e h
        rw [hk] at this
        exact fun e1 => this e1.symm
    · simp only [Frontier.Push, hk, if_false] at h
      rcases List.mem_cons.mp h with h | h
      · right
        rw [h]
        exact ⟨List.mem_cons_self _ _, hk⟩
      · rcases ih hf.2 h with h1 | ⟨h1, h2⟩
        · exact Or.inl h1
        · exact Or.inr ⟨List.mem_cons_of_mem _ h1, h2⟩

theorem Frontier.Push_pairwise (f : Frontier K) (k : String) (p : K)
    (hf : f.Pairwise (fun a b => a.1 ≠ b.1)) :
    (Frontier.Push f k p).Pairwise (fun a b => a.1 ≠ b.1) := by
  induction f with
  | nil => simp [Frontier.Push]
  | cons a rest ih =>
    obtain ⟨k', p'⟩ := a
    rw [List.pairwise_cons] at hf
    by_cases hk : k' = k
    · simp only [Frontier.Push, hk, if_true]
      rw [List.pairwise_cons]
      refine ⟨fun b hb => ?_, hf.2⟩
      have := hf.1 b hb
      rw [hk] at this
      exact this
    · simp only [Frontier.Push, hk, if_false]
      rw [List.pairwise_cons]
      refine ⟨fun b hb => ?_, ih hf.2⟩
      rcases Frontier.mem_Push rest k p b hb with h | h
      · rw [h]; exact hk
      · exact hf.1 b h

/-- The entry that `Pop` removes has the least priority of the queue. -/
theorem Frontier.minEntry_le (f : Frontier K) (e : String × K)
    (h : Frontier.minEntry f = some e) : ∀ x ∈ f, e.2 ≤ x.2 := by
  induction f generalizing e with
  | nil => intro x hx; exact absurd hx (List.not_mem_nil _)
  | cons a rest ih =>
    intro x hx
    simp only [Frontier.minEntry] at h
    cases hr : Frontier.minEntry rest with
    | none =>
      rw [hr] at h
      simp only [Option.some.injEq] at h
      have hrest : rest = [] := by
        cases rest with
        | nil => rfl
        | cons b r =>
          obtain ⟨e', he'⟩ := Frontier.minEntry_isSome (b :: r) (by simp)
          rw [he'] at hr
          exact Option.noConfusion hr
      rw [hrest] at hx
      simp only [List.mem_singleton] at hx
      rw [hx, h]
    | some e' =>
      rw [hr] at h
      simp only at h
      have ih' := ih e' hr
      split_ifs at h with hlt
      · simp only [Option.some.injEq] at h
        rw [← h]
        rcases List.mem_cons.mp hx with h1 | h1
        · rw [h1]; exact hlt.le
        · exact ih' x h1
      · simp only [Option.some.injEq] at h
        rw [← h]
        rcases List.mem_cons.mp hx with h1 | h1
        · rw [h1]
        · exact le_trans (not_lt.mp hlt) (ih' x h1)

theorem Frontier.Pop_eq (f : Frontier K) (e : String × K)
    (h : Frontier.minEntry f = some e) :
    Frontier.Pop f = (e.1, f.filter (fun e' => decide (e'.1 ≠ e.1))) := by
  simp only [Frontier.Pop, h]

/-! ## Paths along neighbour lists -/

theorem isNeighborPath_append (m : NavMap K) :
    ∀ (l1 l2 : List (Neighbor K)) (k : String),
      IsNeighborPath m k l1 → IsNeighborPath m (pathEnd k l1) l2 →
      IsNeighborPath m k (l1 ++ l2) := by
  intro l1
  induction l1 with
  | nil => intro l2 k _ h; exact h
  | cons nb rest ih =>
    intro l2 k h1 h2
    exact ⟨h1.1, ih l2 nb.key h1.2 h2⟩

theorem pathEnd_append (l1 l2 : List (Neighbor K)) :
    ∀ k : String, pathEnd k (l1 ++ l2) = pathEnd (pathEnd k l1) l2 := by
  induction l1 with
  | nil => intro k; rfl
  | cons nb rest ih => intro k; exact ih nb.key

theorem pathLength_append (l1 l2 : List (Neighbor K)) :
    pathLength (l1 ++ l2) = pathLength l1 + pathLength l2 := by
  simp [pathLength]

theorem pathLength_cons (nb : Neighbor K) (l : List (Neighbor K)) :
    pathLength (nb :: l) = nb.path_length + pathLength l := by
  simp [pathLength]

/-- The end of a path is the key of its last step, or the key it leaves when it is empty. -/
theorem pathEnd_eq_getLast (l : List (Neighbor K)) :
    ∀ k : String, pathEnd k l = ((l.map fun nb => nb.key).getLast?).getD k := by
  induction l with
  | nil => intro k; rfl
  | cons nb rest ih =>
    intro k
    show pathEnd nb.key rest = _
    rw [ih nb.key]
    cases rest with
    | nil => rfl
    | cons nb2 rest2 =>
      simp only [List.map_cons]
      rw [List.getLast?_cons_cons, List.getLast?_eq_getLast _ (List.cons_ne_nil _ _)]
      rfl

/-- A path whose end is stored leaves a stored node. -/
theorem path_source_stored (m : NavMap K) (l : List (Neighbor K)) (k : String)
    (h : IsNeighborPath m k l) (b : Node K) (hb : NavMap.find? m (pathEnd k l) = some b) :
    ∃ n, NavMap.find? m k = some n := by
  cases l with
  | nil => exact ⟨b, hb⟩
  | cons nb rest =>
    obtain ⟨n, hn, _⟩ := h.1
    exact ⟨n, hn⟩

theorem pathLength_nonneg (m : NavMap K) (s0 : Node K) (hInv : ParentInv m s0) :
    ∀ (l : List (Neighbor K)) (k : String), IsNeighborPath m k l → 0 ≤ pathLength l := by
  intro l
  induction l with
  | nil => intro k _; simp [pathLength]
  | cons nb rest ih =>
    intro k h
    obtain ⟨n, hn, hmem⟩ := h.1
    have hpos := (hInv.2.2.2.2 k n hn nb hmem).2.2
    rw [pathLength_cons]
    linarith [ih nb.key h.2]

end Nav

namespace Nav

/-! ## Steps between stored nodes -/

/-- A neighbour reference that carries the length of its lattice step carries the Euclidean
length of that step. -/
theorem hop_length (res : ℝ) (hres : 0 < res) (G : Geometry ℝ) (hG : G.sqrt = Real.sqrt)
    (nb : Neighbor ℝ) (hstep : stepDx nb.neighbor_index ≠ 0 ∨ stepDy nb.neighbor_index ≠ 0)
    (hlen : nb.path_length = if stepDx nb.neighbor_index ≠ 0 ∧ stepDy nb.neighbor_index ≠ 0
      then G.sqrt 2 * res else res) :
    Real.sqrt (res * (stepDx nb.neighbor_index : ℝ) * (res * (stepDx nb.neighbor_index : ℝ)) +
      res * (stepDy nb.neighbor_index : ℝ) * (res * (stepDy nb.neighbor_index : ℝ))) =
      nb.path_length := by
  rw [hlen, hG]
  exact hop_norm res hres _ _ (stepDx_cases _) (stepDy_cases _) hstep

/-- Under the lattice invariant, the node stored under the key of a neighbour reference of a
stored node lies one lattice step from that node, at an edge cost equal to the step length
of the reference. -/
theorem stored_hop (G : Geometry ℝ) (hG : G.sqrt = Real.sqrt) (res : ℝ) (hres : 0 < res)
    (m : NavMap ℝ) (s0 : Node ℝ) (hInv : ParentInv m s0) (hL : LatticeInv res m s0)
    (hC : CostInv G res m) (k : String) (a b : Node ℝ) (nb : Neighbor ℝ)
    (ha : NavMap.find? m k = some a) (hnb : nb ∈ a.neighbors)
    (hb : NavMap.find? m nb.key = some b) :
    b.loc = a.loc.add (Vector2f.smul res
      ⟨(stepDx nb.neighbor_index : ℝ), (stepDy nb.neighbor_index : ℝ)⟩) ∧
    edgeCost G b a = nb.path_length ∧ nb.key ≠ k := by
  obtain ⟨hk, hstep, _⟩ := hInv.2.2.2.2 k a ha nb hnb
  have hneS : nb.key ≠ "START" := by
    rw [hk]; exact getNewID_ne_START _ _
  have hbi := hL.2.1 nb.key b hb hneS
  rw [hk] at hbi
  obtain ⟨e1, e2⟩ := getNewID_injective _ _ _ _ hbi
  have hloc : b.loc = a.loc.add (Vector2f.smul res
      ⟨(stepDx nb.neighbor_index : ℝ), (stepDy nb.neighbor_index : ℝ)⟩) := by
    rw [hL.1 nb.key b hb, hL.1 k a ha, ← e1, ← e2]
    simp only [Vector2f.add, Vector2f.smul, Vector2f.mk.injEq]
    constructor <;> push_cast <;> ring
  refine ⟨hloc, ?_, ?_⟩
  · have hlen := hop_length res hres G hG nb hstep (hC.2.1 k a ha nb hnb)
    rw [← hlen]
    have x1 : (b.loc.sub a.loc).x = res * (stepDx nb.neighbor_index : ℝ) := by
      rw [hloc]; simp [Vector2f.add, Vector2f.sub, Vector2f.smul]
    have x2 : (b.loc.sub a.loc).y = res * (stepDy nb.neighbor_index : ℝ) := by
      rw [hloc]; simp [Vector2f.add, Vector2f.sub, Vector2f.smul]
    show G.sqrt ((b.loc.sub a.loc).x * (b.loc.sub a.loc).x +
      (b.loc.sub a.loc).y * (b.loc.sub a.loc).y) = _
    rw [x1, x2, hG]
  · intro e
    by_cases hkS : k = "START"
    · rw [hkS] at e; exact hneS e
    · have h1 := hL.2.1 k a ha hkS
      rw [← e, hk] at h1
      obtain ⟨f1, f2⟩ := getNewID_injective _ _ _ _ h1
      rcases hstep with h | h
      · apply h; omega
      · apply h; omega

/-- The heuristic at a stored node is at most the length of a path from it plus the
heuristic at the stored node where the path ends. -/
theorem getHeuristic_path (I : line2f ℝ → line2f ℝ → Bool)
    (X : line2f ℝ → line2f ℝ → Option (Vector2f ℝ)) (U : line2f ℝ → Vector2f ℝ)
    (res : ℝ) (hres : 0 < res) (goal : Vector2f ℝ) (m : NavMap ℝ) (s0 : Node ℝ)
    (hInv : ParentInv m s0) (hL : LatticeInv res m s0)
    (hC : CostInv ⟨Real.sqrt, I, X, U⟩ res m) :
    ∀ (l : List (Neighbor ℝ)) (k : String) (a b : Node ℝ),
      NavMap.find? m k = some a → IsNeighborPath m k l →
      NavMap.find? m (pathEnd k l) = some b →
      getHeuristic ⟨Real.sqrt, I, X, U⟩ goal a.loc ≤
        pathLength l + getHeuristic ⟨Real.sqrt, I, X, U⟩ goal b.loc := by
  intro l
  induction l with
  | nil =>
    intro k a b ha _ hb
    have : a = b := by
      have hb' : NavMap.find? m k = some b := hb
      rw [ha] at hb'
      exact Option.some.inj hb'
    rw [this]
    simp [pathLength]
  | cons nb rest ih =>
    intro k a b ha hp hb
    obtain ⟨n, hn, hmem⟩ := hp.1
    rw [ha] at hn
    cases hn
    have hb' : NavMap.find? m (pathEnd nb.key rest) = some b := hb
    obtain ⟨n', hn'⟩ := path_source_stored m rest nb.key hp.2 b hb'
    obtain ⟨hloc, _, _⟩ := stored_hop ⟨Real.sqrt, I, X, U⟩ rfl res hres m s0 hInv hL hC k a n'
      nb ha hmem hn'
    have h1 := getHeuristic_step I X U res hres.le goal a.loc nb.neighbor_index
    have h2 := ih nb.key n' b hn' hp.2 hb'
    have hlen := hC.2.1 k a ha nb hmem
    rw [pathLength_cons, hlen]
    rw [← hloc] at h1
    linarith

/-! ## The three cases of the neighbour loop -/

theorem expandNeighbor_cases (G : Geometry ℝ) (goal : Vector2f ℝ) (c : Node ℝ)
    (P : GlobalPlanner ℝ) (nb : Neighbor ℝ) (hnb : GoodNeighbor c.index nb) :
    (NavMap.find? P.nav_map_ nb.key = none ∧
      expandNeighbor G goal c P nb =
        { P with nav_map_ := NavMap.set P.nav_map_ nb.key (buildNode G P c nb.neighbor_index),
                 frontier_ := Frontier.Push P.frontier_ nb.key
                   (c.cost + nb.path_length + (buildNode G P c nb.neighbor_index).social_cost +
                     1 * getHeuristic G goal (buildNode G P c nb.neighbor_index).loc) }) ∨
    (∃ old, NavMap.find? P.nav_map_ nb.key = some old ∧ c.cost + nb.path_length < old.cost ∧
      expandNeighbor G goal c P nb =
        { P with nav_map_ := NavMap.set P.nav_map_ nb.key
                   { old with cost := c.cost + nb.path_length, parent := c.key },
                 frontier_ := Frontier.Push P.frontier_ nb.key
                   (c.cost + nb.path_length + old.social_cost +
                     1 * getHeuristic G goal old.loc) }) ∨
    (∃ old, NavMap.find? P.nav_map_ nb.key = some old ∧
      ¬ (c.cost + nb.path_length < old.cost) ∧ expandNeighbor G goal c P nb = P) := by
  cases hf : NavMap.find? P.nav_map_ nb.key with
  | none =>
    left
    refine ⟨rfl, ?_⟩
    have hkey' : (buildNode G P c nb.neighbor_index).key = nb.key := by
      rw [buildNode_key, hnb.1]
    unfold expandNeighbor
    simp only [NavMap.count, hf, Option.isSome_none, Bool.not_false, if_true, newNode, hkey']
  | some old =>
    right
    have hget : NavMap.get P.nav_map_ nb.key = old := NavMap.get_of_find? _ _ _ hf
    by_cases hlt : c.cost + nb.path_length < old.cost
    · left
      refine ⟨old, rfl, hlt, ?_⟩
      unfold expandNeighbor
      simp only [NavMap.count, hf, Option.isSome_some, Bool.not_true, Bool.false_eq_true,
        if_false, hget, hlt, if_true]
    · right
      exact ⟨old, rfl, hlt, expand_keep G goal P c nb old hf hlt⟩

theorem buildNode_social_cost (G : Geometry ℝ) (P : GlobalPlanner ℝ) (c : Node ℝ) (i : Int)
    (hpop : P.population_ = []) : (buildNode G P c i).social_cost = 0 := by
  unfold buildNode
  simp only [getSocialCost, hpop, List.foldl_nil]
  split_ifs <;> rfl

theorem buildNode_lengths (G : Geometry ℝ) (P : GlobalPlanner ℝ) (c : Node ℝ) (i : Int)
    (nb : Neighbor ℝ) (h : nb ∈ (buildNode G P c i).neighbors) :
    nb.path_length = if stepDx nb.neighbor_index ≠ 0 ∧ stepDy nb.neighbor_index ≠ 0
      then G.sqrt 2 * P.map_resolution_ else P.map_resolution_ := by
  obtain ⟨_, _, h3⟩ := candidateNeighbors_step G _ _ _ nb (buildNode_neighbors G P c i nb h)
  rw [h3]
  by_cases hx : stepDx nb.neighbor_index = 0
  · simp [hx]
  · by_cases hy : stepDy nb.neighbor_index = 0
    · simp [hy]
    · simp [hx, hy]

end Nav

namespace Nav

/-! ## The invariants under one pass of the neighbour loop -/

/-- Storing a node `n` under the key of a neighbour `nb` of the node `c` under expansion and
pushing that key keeps the cost and queue invariants, when `n` has `c` as parent, the cost of
`c` plus the step, no social cost, and replaces a stored node only by lowering its cost. -/
theorem update_inv (G : Geometry ℝ) (goal : Vector2f ℝ) (res : ℝ) (m : NavMap ℝ)
    (fr : Frontier ℝ) (c n : Node ℝ) (nb : Neighbor ℝ) (done : List (Neighbor ℝ))
    (hC : CostInv G res m) (hQ : QueueInv G goal m fr (some c.key))
    (hJ : NavMap.find? m c.key = some c) (hnb : nb ∈ c.neighbors) (hne : nb.key ≠ c.key)
    (u1 : n.parent = c.key) (u2 : n.cost = c.cost + nb.path_length) (u3 : n.social_cost = 0)
    (u4 : nb.path_length = edgeCost G n c)
    (u5 : ∀ nb' ∈ n.neighbors,
      nb'.path_length = if stepDx nb'.neighbor_index ≠ 0 ∧ stepDy nb'.neighbor_index ≠ 0
        then G.sqrt 2 * res else res)
    (u6 : ∀ old, NavMap.find? m nb.key = some old →
      n.cost < old.cost ∧ n.neighbors = old.neighbors ∧ n.loc = old.loc)
    (hdone : ∀ nb' ∈ done, ∃ n', NavMap.find? m nb'.key = some n' ∧
      n'.cost ≤ c.cost + nb'.path_length) :
    CostInv G res (NavMap.set m nb.key n) ∧
    QueueInv G goal (NavMap.set m nb.key n)
      (Frontier.Push fr nb.key (n.cost + getHeuristic G goal n.loc)) (some c.key) ∧
    NavMap.find? (NavMap.set m nb.key n) c.key = some c ∧
    ∀ nb' ∈ nb :: done, ∃ n', NavMap.find? (NavMap.set m nb.key n) nb'.key = some n' ∧
      n'.cost ≤ c.cost + nb'.path_length := by
  obtain ⟨hC1, hC2, hC3⟩ := hC
  obtain ⟨hQ1, hQ2, hQ3⟩ := hQ
  have hJ' : NavMap.find? (NavMap.set m nb.key n) c.key = some c := by
    rw [NavMap.find?_set_other _ _ _ _ (Ne.symm hne)]
    exact hJ
  -- a stored node is still stored, possibly replaced by `n` of lower cost
  have hkeep : ∀ j x, NavMap.find? m j = some x →
      ∃ y, NavMap.find? (NavMap.set m nb.key n) j = some y ∧ y.cost ≤ x.cost ∧
        y.neighbors = x.neighbors ∧ y.loc = x.loc := by
    intro j x hx
    by_cases e : j = nb.key
    · subst e
      obtain ⟨h1, h2, h3⟩ := u6 x hx
      exact ⟨n, NavMap.find?_set_self _ _ _, h1.le, h2, h3⟩
    · exact ⟨x, by rw [NavMap.find?_set_other _ _ _ _ e]; exact hx, le_refl _, rfl, rfl⟩
  refine ⟨⟨?_, ?_, ?_⟩, ⟨Frontier.Push_pairwise _ _ _ hQ1, ?_, ?_⟩, hJ', ?_⟩
  · intro j x hx
    rw [NavMap.find?_set] at hx
    split_ifs at hx with e
    · cases hx; exact u3
    · exact hC1 j x hx
  · intro j x hx
    rw [NavMap.find?_set] at hx
    split_ifs at hx with e
    · cases hx; exact u5
    · exact hC2 j x hx
  · intro j x hx hjS
    rw [NavMap.find?_set] at hx
    split_ifs at hx with e
    · cases hx
      refine ⟨c, nb, ?_, hnb, e.symm, u4, ?_⟩
      · rw [u1]; exact hJ'
      · rw [u2]
    · obtain ⟨p, nb0, hp, hmem, hkey, hlen, hcost⟩ := hC3 j x hx hjS
      obtain ⟨y, hy, hyc, hyn, hyl⟩ := hkeep x.parent p hp
      refine ⟨y, nb0, hy, by rw [hyn]; exact hmem, hkey, ?_, by linarith⟩
      rw [hlen]
      simp only [edgeCost, hyl]
  · intro e he
    rcases Frontier.mem_Push_distinct fr nb.key _ hQ1 e he with h | ⟨h1, h2⟩
    · rw [h]
      exact ⟨n, NavMap.find?_set_self _ _ _, le_refl _, fun _ => rfl⟩
    · obtain ⟨x, hx, hle, heq⟩ := hQ2 e h1
      refine ⟨x, ?_, hle, heq⟩
      rw [NavMap.find?_set_other _ _ _ _ h2]
      exact hx
  · intro j x hx hex hclosed nb' hnb'
    have hjk : j ≠ nb.key := by
      intro e
      exact hclosed _ (Frontier.mem_Push_self fr nb.key _) e.symm
    rw [NavMap.find?_set_other _ _ _ _ hjk] at hx
    have hcl : ∀ e ∈ fr, e.1 ≠ j := by
      intro e he e1
      have hek : e.1 ≠ nb.key := by rw [e1]; exact hjk
      exact hclosed e (Frontier.mem_Push_of_ne fr nb.key _ e he hek) e1
    obtain ⟨n', hn', hle⟩ := hQ3 j x hx hex hcl nb' hnb'
    obtain ⟨y, hy, hyc, _, _⟩ := hkeep nb'.key n' hn'
    exact ⟨y, hy, by linarith⟩
  · intro nb' hnb'
    rcases List.mem_cons.mp hnb' with h | h
    · rw [h]
      exact ⟨n, NavMap.find?_set_self _ _ _, by rw [u2]⟩
    · obtain ⟨n', hn', hle⟩ := hdone nb' h
      obtain ⟨y, hy, hyc, _, _⟩ := hkeep nb'.key n' hn'
      exact ⟨y, hy, by linarith⟩

/-- One pass of the neighbour loop for a neighbour `nb` of the node `c` under expansion, in
a search without humans: the parent, lattice, cost and queue invariants are kept, `c` stays
stored as it is, and `nb` joins the processed neighbours, whose nodes are stored with a cost
of at most the cost of `c` plus the step. -/
theorem expandNeighbor_cost (I : line2f ℝ → line2f ℝ → Bool)
    (X : line2f ℝ → line2f ℝ → Option (Vector2f ℝ)) (U : line2f ℝ → Vector2f ℝ)
    (goal : Vector2f ℝ) (c : Node ℝ) (P : GlobalPlanner ℝ) (nb : Neighbor ℝ) (s0 : Node ℝ)
    (done : List (Neighbor ℝ)) (hres : 0 < P.map_resolution_) (hpop : P.population_ = [])
    (hInv : ParentInv P.nav_map_ s0) (hL : LatticeInv P.map_resolution_ P.nav_map_ s0)
    (hC : CostInv ⟨Real.sqrt, I, X, U⟩ P.map_resolution_ P.nav_map_)
    (hQ : QueueInv ⟨Real.sqrt, I, X, U⟩ goal P.nav_map_ P.frontier_ (some c.key))
    (hJ : NavMap.find? P.nav_map_ c.key = some c) (hnb : nb ∈ c.neighbors)
    (hdone : ∀ nb' ∈ done, ∃ n', NavMap.find? P.nav_map_ nb'.key = some n' ∧
      n'.cost ≤ c.cost + nb'.path_length) :
    ParentInv (expandNeighbor ⟨Real.sqrt, I, X, U⟩ goal c P nb).nav_map_ s0 ∧
    LatticeInv P.map_resolution_ (expandNeighbor ⟨Real.sqrt, I, X, U⟩ goal c P nb).nav_map_ s0 ∧
    CostInv ⟨Real.sqrt, I, X, U⟩ P.map_resolution_
      (expandNeighbor ⟨Real.sqrt, I, X, U⟩ goal c P nb).nav_map_ ∧
    QueueInv ⟨Real.sqrt, I, X, U⟩ goal (expandNeighbor ⟨Real.sqrt, I, X, U⟩ goal c P nb).nav_map_
      (expandNeighbor ⟨Real.sqrt, I, X, U⟩ goal c P nb).frontier_ (some c.key) ∧
    NavMap.find? (expandNeighbor ⟨Real.sqrt, I, X, U⟩ goal c P nb).nav_map_ c.key = some c ∧
    ∀ nb' ∈ nb :: done,
      ∃ n', NavMap.find? (expandNeighbor ⟨Real.sqrt, I, X, U⟩ goal c P nb).nav_map_ nb'.key =
          some n' ∧
        n'.cost ≤ c.cost + nb'.path_length := by
  have hs := real_sqrt_pos I X U
  have hgood : GoodNeighbor c.index nb := hInv.2.2.2.2 c.key c hJ nb hnb
  have hlen := hC.2.1 c.key c hJ nb hnb
  have hhop := hop_length P.map_resolution_ hres ⟨Real.sqrt, I, X, U⟩ rfl nb hgood.2.1 hlen
  have h1 := expandNeighbor_inv ⟨Real.sqrt, I, X, U⟩ hs goal c P nb s0 hres hgood hInv
    ⟨c, hJ, le_refl _⟩
  have h2 := expandNeighbor_lattice ⟨Real.sqrt, I, X, U⟩ goal c P nb s0 hgood hInv hL
    ⟨c, hJ, rfl, rfl⟩
  refine ⟨h1.1, h2.1, ?_⟩
  rcases expandNeighbor_cases ⟨Real.sqrt, I, X, U⟩ goal c P nb hgood with
    ⟨hnone, he⟩ | ⟨old, hold, hlt, he⟩ | ⟨old, hold, hlt, he⟩
  · -- a new node
    have hne : nb.key ≠ c.key := by
      intro e
      rw [e, hJ] at hnone
      exact Option.noConfusion hnone
    have u2 : (buildNode ⟨Real.sqrt, I, X, U⟩ P c nb.neighbor_index).cost =
        c.cost + nb.path_length := by
      rw [buildNode_cost]
      show c.cost + Real.sqrt _ = _
      rw [hhop]
    have u3 := buildNode_social_cost ⟨Real.sqrt, I, X, U⟩ P c nb.neighbor_index hpop
    have u4 : nb.path_length =
        edgeCost ⟨Real.sqrt, I, X, U⟩ (buildNode ⟨Real.sqrt, I, X, U⟩ P c nb.neighbor_index) c := by
      rw [← hhop]
      simp [edgeCost, Vector2f.norm, Vector2f.sub, Vector2f.add, Vector2f.smul, buildNode_loc]
    have hu := update_inv ⟨Real.sqrt, I, X, U⟩ goal P.map_resolution_ P.nav_map_ P.frontier_ c
      (buildNode ⟨Real.sqrt, I, X, U⟩ P c nb.neighbor_index) nb done hC hQ hJ hnb hne
      (buildNode_parent _ P c _) u2 u3 u4
      (fun nb' h' => buildNode_lengths ⟨Real.sqrt, I, X, U⟩ P c nb.neighbor_index nb' h')
      (fun old ho => by rw [hnone] at ho; exact Option.noConfusion ho) hdone
    rw [he]
    have hpr : c.cost + nb.path_length +
        (buildNode ⟨Real.sqrt, I, X, U⟩ P c nb.neighbor_index).social_cost +
        1 * getHeuristic ⟨Real.sqrt, I, X, U⟩ goal
          (buildNode ⟨Real.sqrt, I, X, U⟩ P c nb.neighbor_index).loc =
        (buildNode ⟨Real.sqrt, I, X, U⟩ P c nb.neighbor_index).cost +
          getHeuristic ⟨Real.sqrt, I, X, U⟩ goal
            (buildNode ⟨Real.sqrt, I, X, U⟩ P c nb.neighbor_index).loc := by
      rw [u2, u3]; ring
    rw [hpr]
    exact hu
  · -- a relaxed node
    obtain ⟨hloc, hedge, hne⟩ := stored_hop ⟨Real.sqrt, I, X, U⟩ rfl P.map_resolution_ hres
      P.nav_map_ s0 hInv hL hC c.key c old nb hJ hnb hold
    have hu := update_inv ⟨Real.sqrt, I, X, U⟩ goal P.map_resolution_ P.nav_map_ P.frontier_ c
      { old with cost := c.cost + nb.path_length, parent := c.key } nb done hC hQ hJ hnb hne
      rfl rfl (hC.1 nb.key old hold) hedge.symm (hC.2.1 nb.key old hold)
      (fun old' ho => by
        rw [hold] at ho
        cases ho
        exact ⟨hlt, rfl, rfl⟩) hdone
    rw [he]
    have hpr : c.cost + nb.path_length + old.social_cost +
        1 * getHeuristic ⟨Real.sqrt, I, X, U⟩ goal old.loc =
        ({ old with cost := c.cost + nb.path_length, parent := c.key } : Node ℝ).cost +
          getHeuristic ⟨Real.sqrt, I, X, U⟩ goal
            ({ old with cost := c.cost + nb.path_length, parent := c.key } : Node ℝ).loc := by
      rw [hC.1 nb.key old hold]
      show _ = c.cost + nb.path_length + getHeuristic ⟨Real.sqrt, I, X, U⟩ goal old.loc
      ring
    rw [hpr]
    exact hu
  · -- nothing changes
    rw [he]
    refine ⟨hC, hQ, hJ, ?_⟩
    intro nb' hnb'
    rcases List.mem_cons.mp hnb' with h | h
    · rw [h]
      exact ⟨old, hold, not_lt.mp hlt⟩
    · exact hdone nb' h

end Nav

namespace Nav

/-! ## The invariants along the search loop -/

theorem foldl_expandNeighbor_cost (I : line2f ℝ → line2f ℝ → Bool)
    (X : line2f ℝ → line2f ℝ → Option (Vector2f ℝ)) (U : line2f ℝ → Vector2f ℝ)
    (goal : Vector2f ℝ) (c : Node ℝ) (s0 : Node ℝ) (res : ℝ) (hres : 0 < res) :
    ∀ (l : List (Neighbor ℝ)) (done : List (Neighbor ℝ)) (P : GlobalPlanner ℝ),
      P.map_resolution_ = res → P.population_ = [] →
      ParentInv P.nav_map_ s0 → LatticeInv res P.nav_map_ s0 →
      CostInv ⟨Real.sqrt, I, X, U⟩ res P.nav_map_ →
      QueueInv ⟨Real.sqrt, I, X, U⟩ goal P.nav_map_ P.frontier_ (some c.key) →
      NavMap.find? P.nav_map_ c.key = some c → (∀ nb ∈ l, nb ∈ c.neighbors) →
      (∀ nb' ∈ done, ∃ n', NavMap.find? P.nav_map_ nb'.key = some n' ∧
        n'.cost ≤ c.cost + nb'.path_length) →
      ParentInv (l.foldl (expandNeighbor ⟨Real.sqrt, I, X, U⟩ goal c) P).nav_map_ s0 ∧
      LatticeInv res (l.foldl (expandNeighbor ⟨Real.sqrt, I, X, U⟩ goal c) P).nav_map_ s0 ∧
      CostInv ⟨Real.sqrt, I, X, U⟩ res
        (l.foldl (expandNeighbor ⟨Real.sqrt, I, X, U⟩ goal c) P).nav_map_ ∧
      QueueInv ⟨Real.sqrt, I, X, U⟩ goal
        (l.foldl (expandNeighbor ⟨Real.sqrt, I, X, U⟩ goal c) P).nav_map_
        (l.foldl (expandNeighbor ⟨Real.sqrt, I, X, U⟩ goal c) P).frontier_ (some c.key) ∧
      NavMap.find? (l.foldl (expandNeighbor ⟨Real.sqrt, I, X, U⟩ goal c) P).nav_map_ c.key =
        some c ∧
      ∀ nb', (nb' ∈ l ∨ nb' ∈ done) →
        ∃ n', NavMap.find? (l.foldl (expandNeighbor ⟨Real.sqrt, I, X, U⟩ goal c) P).nav_map_
            nb'.key = some n' ∧
          n'.cost ≤ c.cost + nb'.path_length := by
  intro l
  induction l with
  | nil =>
    intro done P _ _ hInv hL hC hQ hJ _ hdone
    refine ⟨hInv, hL, hC, hQ, hJ, ?_⟩
    intro nb' h
    rcases h with h | h
    · exact absurd h (List.not_mem_nil _)
    · exact hdone nb' h
  | cons nb rest ih =>
    intro done P hr hpop hInv hL hC hQ hJ hl hdone
    have hsame := expandNeighbor_sameConfig ⟨Real.sqrt, I, X, U⟩ goal c P nb
    obtain ⟨g1, g2, g3, g4, g5, g6⟩ := expandNeighbor_cost I X U goal c P nb s0 done
      (by rw [hr]; exact hres) hpop hInv (by rw [hr]; exact hL) (by rw [hr]; exact hC) hQ hJ
      (hl nb (List.mem_cons_self _ _)) hdone
    rw [hr] at g2 g3
    obtain ⟨k1, k2, k3, k4, k5, k6⟩ := ih (nb :: done)
      (expandNeighbor ⟨Real.sqrt, I, X, U⟩ goal c P nb) (by rw [hsame.2.1]; exact hr)
      (by rw [hsame.2.2.2.1]; exact hpop) g1 g2 g3 g4 g5
      (fun nb' h' => hl nb' (List.mem_cons_of_mem _ h')) g6
    refine ⟨k1, k2, k3, k4, k5, ?_⟩
    intro nb' h
    apply k6 nb'
    rcases h with h | h
    · rcases List.mem_cons.mp h with h | h
      · right; rw [h]; exact List.mem_cons_self _ _
      · left; exact h
    · right; exact List.mem_cons_of_mem _ h

/-- One iteration of the search loop that expands the popped node keeps the invariants. -/
theorem expandAll_cost (I : line2f ℝ → line2f ℝ → Bool)
    (X : line2f ℝ → line2f ℝ → Option (Vector2f ℝ)) (U : line2f ℝ → Vector2f ℝ)
    (goal : Vector2f ℝ) (s0 : Node ℝ) (res : ℝ) (hres : 0 < res) (P : GlobalPlanner ℝ)
    (hr : P.map_resolution_ = res) (hpop : P.population_ = [])
    (hInv : ParentInv P.nav_map_ s0) (hL : LatticeInv res P.nav_map_ s0)
    (hC : CostInv ⟨Real.sqrt, I, X, U⟩ res P.nav_map_)
    (hQ : QueueInv ⟨Real.sqrt, I, X, U⟩ goal P.nav_map_ P.frontier_ none)
    (e : String × ℝ) (he : Frontier.minEntry P.frontier_ = some e) :
    ParentInv ((NavMap.get P.nav_map_ e.1).neighbors.foldl
      (expandNeighbor ⟨Real.sqrt, I, X, U⟩ goal (NavMap.get P.nav_map_ e.1))
      { P with frontier_ := (Frontier.Pop P.frontier_).2 }).nav_map_ s0 ∧
    LatticeInv res ((NavMap.get P.nav_map_ e.1).neighbors.foldl
      (expandNeighbor ⟨Real.sqrt, I, X, U⟩ goal (NavMap.get P.nav_map_ e.1))
      { P with frontier_ := (Frontier.Pop P.frontier_).2 }).nav_map_ s0 ∧
    CostInv ⟨Real.sqrt, I, X, U⟩ res ((NavMap.get P.nav_map_ e.1).neighbors.foldl
      (expandNeighbor ⟨Real.sqrt, I, X, U⟩ goal (NavMap.get P.nav_map_ e.1))
      { P with frontier_ := (Frontier.Pop P.frontier_).2 }).nav_map_ ∧
    QueueInv ⟨Real.sqrt, I, X, U⟩ goal ((NavMap.get P.nav_map_ e.1).neighbors.foldl
      (expandNeighbor ⟨Real.sqrt, I, X, U⟩ goal (NavMap.get P.nav_map_ e.1))
      { P with frontier_ := (Frontier.Pop P.frontier_).2 }).nav_map_
      ((NavMap.get P.nav_map_ e.1).neighbors.foldl
      (expandNeighbor ⟨Real.sqrt, I, X, U⟩ goal (NavMap.get P.nav_map_ e.1))
      { P with frontier_ := (Frontier.Pop P.frontier_).2 }).frontier_ none := by
  have hmem := Frontier.minEntry_mem _ _ he
  obtain ⟨c, hc, _, _⟩ := hQ.2.1 e hmem
  have hget : NavMap.get P.nav_map_ e.1 = c := NavMap.get_of_find? _ _ _ hc
  have hkey : c.key = e.1 := hInv.2.2.1 e.1 c hc
  rw [hget, Frontier.Pop_eq _ _ he]
  have hQ1 : QueueInv ⟨Real.sqrt, I, X, U⟩ goal P.nav_map_
      (P.frontier_.filter (fun e' => decide (e'.1 ≠ e.1))) (some c.key) := by
    refine ⟨hQ.1.filter _, ?_, ?_⟩
    · intro x hx
      exact hQ.2.1 x (List.mem_filter.mp hx).1
    · intro j x hx hex hcl
      have hje : j ≠ e.1 := by
        intro h
        apply hex
        rw [hkey, h]
      apply hQ.2.2 j x hx (by simp)
      intro y hy hyj
      apply hcl y _ hyj
      rw [List.mem_filter]
      refine ⟨hy, ?_⟩
      simp only [decide_eq_true_eq]
      rw [hyj]
      exact hje
  obtain ⟨k1, k2, k3, k4, k5, k6⟩ := foldl_expandNeighbor_cost I X U goal c s0 res hres
    c.neighbors [] { P with frontier_ := P.frontier_.filter (fun e' => decide (e'.1 ≠ e.1)) }
    hr hpop hInv hL hC hQ1 (by rw [hkey]; exact hc) (fun nb h => h)
    (fun nb' h => absurd h (List.not_mem_nil _))
  refine ⟨k1, k2, k3, k4.1, k4.2.1, ?_⟩
  intro j x hx _ hcl nb' hnb'
  by_cases hj : j = c.key
  · rw [hj, k5] at hx
    cases hx
    exact k6 nb' (Or.inl hnb')
  · exact k4.2.2 j x hx (by intro h; exact hj (Option.some.inj h).symm) hcl nb' hnb'

/-- When the invariants hold and the key of least priority is popped, the cost stored for
its node is at most the length of every path from `START` to it. -/
theorem popped_cost_le (I : line2f ℝ → line2f ℝ → Bool)
    (X : line2f ℝ → line2f ℝ → Option (Vector2f ℝ)) (U : line2f ℝ → Vector2f ℝ)
    (goal : Vector2f ℝ) (s0 : Node ℝ) (res : ℝ) (hres : 0 < res) (m : NavMap ℝ)
    (fr : Frontier ℝ) (hs0 : s0.cost = 0)
    (hInv : ParentInv m s0) (hL : LatticeInv res m s0)
    (hC : CostInv ⟨Real.sqrt, I, X, U⟩ res m)
    (hQ : QueueInv ⟨Real.sqrt, I, X, U⟩ goal m fr none)
    (e : String × ℝ) (he : Frontier.minEntry fr = some e) (nt : Node ℝ)
    (hnt : NavMap.find? m e.1 = some nt) :
    ∀ l, IsNeighborPath m "START" l → pathEnd "START" l = e.1 → nt.cost ≤ pathLength l := by
  have hmem := Frontier.minEntry_mem _ _ he
  have hmin := Frontier.minEntry_le _ _ he
  intro l hl hend
  by_cases hS : e.1 = "START"
  · have : nt = s0 := by
      rw [hS, hInv.1] at hnt
      exact (Option.some.inj hnt).symm
    rw [this, hs0]
    exact pathLength_nonneg m s0 hInv l "START" hl
  · obtain ⟨n0, hn0, _, heq⟩ := hQ.2.1 e hmem
    rw [hnt] at hn0
    cases hn0
    have hpr := heq hS
    have hW : ∀ (l : List (Neighbor ℝ)) (ka : String) (a : Node ℝ),
        NavMap.find? m ka = some a → IsNeighborPath m ka l → pathEnd ka l = e.1 →
        nt.cost ≤ a.cost + pathLength l := by
      intro l
      induction l with
      | nil =>
        intro ka a ha _ hend
        have hend' : ka = e.1 := hend
        rw [hend', hnt] at ha
        cases ha
        simp [pathLength]
      | cons nb rest ih =>
        intro ka a ha hp hend
        by_cases hopen : ∃ x ∈ fr, x.1 = ka
        · obtain ⟨x, hx, hxk⟩ := hopen
          obtain ⟨n1, hn1, hle, _⟩ := hQ.2.1 x hx
          rw [hxk, ha] at hn1
          cases hn1
          have h1 := hmin x hx
          have h2 := getHeuristic_path I X U res hres goal m s0 hInv hL hC (nb :: rest) ka a nt
            ha hp (by rw [hend]; exact hnt)
          linarith
        · obtain ⟨n1, hn1, hnbmem⟩ := hp.1
          rw [ha] at hn1
          cases hn1
          have hcl : ∀ x ∈ fr, x.1 ≠ ka := fun x hx hxk => hopen ⟨x, hx, hxk⟩
          obtain ⟨n', hn', hle⟩ := hQ.2.2 ka a ha (by simp) hcl nb hnbmem
          have h3 := ih nb.key n' hn' hp.2 hend
          rw [pathLength_cons]
          linarith
    have := hW l "START" s0 hInv.1 hl hend
    rw [hs0] at this
    linarith

/-- The search loop of a search without humans keeps the cost invariant, and on success the
cost stored for the node it stops at is at most the length of every path from `START` to
that node. -/
theorem searchLoop_cost (I : line2f ℝ → line2f ℝ → Bool)
    (X : line2f ℝ → line2f ℝ → Option (Vector2f ℝ)) (U : line2f ℝ → Vector2f ℝ)
    (goal : Vector2f ℝ) (s0 : Node ℝ) (res : ℝ) (hres : 0 < res) (hs0 : s0.cost = 0)
    (n : Nat) :
    ∀ (cur : String) (P : GlobalPlanner ℝ), P.map_resolution_ = res → P.population_ = [] →
      ParentInv P.nav_map_ s0 → LatticeInv res P.nav_map_ s0 →
      CostInv ⟨Real.sqrt, I, X, U⟩ res P.nav_map_ →
      QueueInv ⟨Real.sqrt, I, X, U⟩ goal P.nav_map_ P.frontier_ none →
      CostInv ⟨Real.sqrt, I, X, U⟩ res
        (searchLoop ⟨Real.sqrt, I, X, U⟩ goal n cur P).planner.nav_map_ ∧
      ((searchLoop ⟨Real.sqrt, I, X, U⟩ goal n cur P).global_path_success = true →
        ∃ nt, NavMap.find? (searchLoop ⟨Real.sqrt, I, X, U⟩ goal n cur P).planner.nav_map_
            (searchLoop ⟨Real.sqrt, I, X, U⟩ goal n cur P).current_key = some nt ∧
          ∀ l, IsNeighborPath (searchLoop ⟨Real.sqrt, I, X, U⟩ goal n cur P).planner.nav_map_
              "START" l →
            pathEnd "START" l = (searchLoop ⟨Real.sqrt, I, X, U⟩ goal n cur P).current_key →
            nt.cost ≤ pathLength l) := by
  induction n with
  | zero =>
    intro cur P _ _ _ _ hC _
    refine ⟨hC, ?_⟩
    intro h
    simp [searchLoop] at h
  | succ n ih =>
    intro cur P hr hpop hInv hL hC hQ
    unfold searchLoop
    simp only
    split_ifs with h1 h2
    · refine ⟨hC, ?_⟩
      intro h
      simp at h
    · refine ⟨hC, ?_⟩
      intro _
      have hne : P.frontier_ ≠ [] := by
        intro e
        apply h1
        simp [Frontier.Empty, e]
      obtain ⟨e0, he0⟩ := Frontier.minEntry_isSome P.frontier_ hne
      have hmem := Frontier.minEntry_mem _ _ he0
      obtain ⟨nt, hnt, _, _⟩ := hQ.2.1 e0 hmem
      have hk : (Frontier.Pop P.frontier_).1 = e0.1 := by
        rw [Frontier.Pop_eq _ _ he0]
      simp only [hk]
      exact ⟨nt, hnt, popped_cost_le I X U goal s0 res hres P.nav_map_ P.frontier_ hs0 hInv hL
        hC hQ e0 he0 nt hnt⟩
    · have hne : P.frontier_ ≠ [] := by
        intro e
        apply h1
        simp [Frontier.Empty, e]
      obtain ⟨e0, he0⟩ := Frontier.minEntry_isSome P.frontier_ hne
      have hk : (Frontier.Pop P.frontier_).1 = e0.1 := by
        rw [Frontier.Pop_eq _ _ he0]
      obtain ⟨k1, k2, k3, k4⟩ := expandAll_cost I X U goal s0 res hres P hr hpop hInv hL hC hQ
        e0 he0
      have hsame := foldl_expandNeighbor_sameConfig ⟨Real.sqrt, I, X, U⟩ goal
        (NavMap.get P.nav_map_ e0.1) (NavMap.get P.nav_map_ e0.1).neighbors
        { P with frontier_ := (Frontier.Pop P.frontier_).2 }
      rw [hk]
      exact ih e0.1 _ (by rw [hsame.2.1]; exact hr) (by rw [hsame.2.2.2.1]; exact hpop)
        k1 k2 k3 k4

end Nav

namespace Nav

/-! ## The backtraced path is a shortest path -/

theorem getHeuristic_nonneg (I : line2f ℝ → line2f ℝ → Bool)
    (X : line2f ℝ → line2f ℝ → Option (Vector2f ℝ)) (U : line2f ℝ → Vector2f ℝ)
    (goal loc : Vector2f ℝ) : 0 ≤ getHeuristic ⟨Real.sqrt, I, X, U⟩ goal loc := by
  obtain ⟨gx, gy⟩ := goal
  obtain ⟨x, y⟩ := loc
  obtain ⟨h1, h2⟩ := sqrt_two_bounds
  rw [getHeuristic_max_form]
  have a1 := abs_nonneg (gx - x)
  have a2 := abs_nonneg (gy - y)
  have a3 : 0 ≤ max |gx - x| |gy - y| := le_max_of_le_left a1
  have e1 : 0 ≤ (2 - Real.sqrt 2) * max |gx - x| |gy - y| :=
    mul_nonneg (by linarith) a3
  have e2 : 0 ≤ (Real.sqrt 2 - 1) * (|gx - x| + |gy - y|) :=
    mul_nonneg (by linarith) (by linarith)
  show 0 ≤ (2 - Real.sqrt 2) * max |gx - x| |gy - y| +
    (Real.sqrt 2 - 1) * (|gx - x| + |gy - y|)
  linarith

/-- The state left by `initializeMap` without humans satisfies the cost and queue
invariants. -/
theorem initializeMap_cost (I : line2f ℝ → line2f ℝ → Bool)
    (X : line2f ℝ → line2f ℝ → Option (Vector2f ℝ)) (U : line2f ℝ → Vector2f ℝ)
    (P : GlobalPlanner ℝ) (loc goal : Vector2f ℝ) :
    CostInv ⟨Real.sqrt, I, X, U⟩ P.map_resolution_
      (initializeMap ⟨Real.sqrt, I, X, U⟩ P loc).nav_map_ ∧
    QueueInv ⟨Real.sqrt, I, X, U⟩ goal (initializeMap ⟨Real.sqrt, I, X, U⟩ P loc).nav_map_
      (initializeMap ⟨Real.sqrt, I, X, U⟩ P loc).frontier_ none ∧
    ∀ s0, NavMap.find? (initializeMap ⟨Real.sqrt, I, X, U⟩ P loc).nav_map_ "START" = some s0 →
      s0.cost = 0 := by
  obtain ⟨s1, hm, _, _, _, hc, _, hn⟩ := initializeMap_nav_map ⟨Real.sqrt, I, X, U⟩ P loc
  have hsc : s1.social_cost = 0 := by
    have h1 : NavMap.find? (initializeMap ⟨Real.sqrt, I, X, U⟩ P loc).nav_map_ "START" =
        some s1 := by rw [hm]; simp [NavMap.find?]
    have h2 : NavMap.find? (initializeMap ⟨Real.sqrt, I, X, U⟩ P loc).nav_map_ "START" =
        some _ := NavMap.find?_set_self [] "START" _
    rw [h1] at h2
    rw [Option.some.inj h2]
  have hfind : ∀ k n, NavMap.find? (initializeMap ⟨Real.sqrt, I, X, U⟩ P loc).nav_map_ k =
      some n → k = "START" ∧ n = s1 := by
    intro k n h
    rw [hm] at h
    simp only [NavMap.find?] at h
    split_ifs at h with e
    · simp only [Option.some.injEq] at h
      exact ⟨e.symm, h.symm⟩
  have hfr : (initializeMap ⟨Real.sqrt, I, X, U⟩ P loc).frontier_ = [("START", 0)] := rfl
  refine ⟨⟨?_, ?_, ?_⟩, ⟨?_, ?_, ?_⟩, ?_⟩
  · intro k n h
    rw [(hfind k n h).2]
    exact hsc
  · intro k n h nb hnb
    rw [(hfind k n h).2, hn] at hnb
    simp only [getNeighbors, List.mem_filter] at hnb
    obtain ⟨_, _, h3⟩ := candidateNeighbors_step _ _ _ _ nb hnb.1
    rw [h3]
    by_cases hx : stepDx nb.neighbor_index = 0
    · simp [hx]
    · by_cases hy : stepDy nb.neighbor_index = 0
      · simp [hy]
      · simp [hx, hy]
  · intro k n h hne
    exact absurd (hfind k n h).1 hne
  · rw [hfr]
    simp
  · intro e he
    rw [hfr] at he
    simp only [List.mem_singleton] at he
    rw [he]
    refine ⟨s1, by rw [hm]; simp [NavMap.find?], ?_, fun h => absurd rfl h⟩
    rw [hc]
    have := getHeuristic_nonneg I X U goal s1.loc
    simp only [zero_add]
    exact this
  · intro k n h _ hcl
    exfalso
    apply hcl ("START", 0) (by rw [hfr]; simp)
    exact (hfind k n h).1.symm
  · intro s0 h
    rw [(hfind "START" s0 h).2]
    exact hc

/-- The backtrace from a stored key follows, in reverse, a path from `START` along neighbour
lists; the distance it adds up is the length of that path, which is at most the cost stored
for the node it starts from. -/
theorem backtrace_path (G : Geometry ℝ) (res : ℝ) (m : NavMap ℝ) (s0 : Node ℝ)
    (hInv : ParentInv m s0) (hC : CostInv G res m) :
    ∀ (fuel : Nat) (k : String) (gp : List String) (tot : ℝ) (r : List String × ℝ)
      (n : Node ℝ), NavMap.find? m k = some n → backtrace G m fuel k gp tot = some r →
      ∃ steps : List (Neighbor ℝ), IsNeighborPath m "START" steps ∧
        pathEnd "START" steps = k ∧
        r.1 = gp ++ (steps.map fun nb => nb.key).reverse ∧
        r.2 = tot + pathLength steps ∧ s0.cost + pathLength steps ≤ n.cost := by
  intro fuel
  induction fuel with
  | zero =>
    intro k gp tot r n hn h
    unfold backtrace at h
    split_ifs at h with hk
    · cases h
      rw [hk, hInv.1] at hn
      cases hn
      exact ⟨[], trivial, hk.symm, by simp, by simp [pathLength], by simp [pathLength]⟩
  | succ f ih =>
    intro k gp tot r n hn h
    unfold backtrace at h
    split_ifs at h with hk
    · cases h
      rw [hk, hInv.1] at hn
      cases hn
      exact ⟨[], trivial, hk.symm, by simp, by simp [pathLength], by simp [pathLength]⟩
    · have hget : NavMap.get m k = n := NavMap.get_of_find? _ _ _ hn
      obtain ⟨p, nb, hp, hmem, hkey, hlen, hcost⟩ := hC.2.2 k n hn hk
      have hgetp : NavMap.get m n.parent = p := NavMap.get_of_find? _ _ _ hp
      rw [hget, hgetp] at h
      obtain ⟨steps, h1, h2, h3, h4, h5⟩ := ih n.parent (gp ++ [k])
        (tot + edgeCost G n p) r p hp h
      refine ⟨steps ++ [nb], ?_, ?_, ?_, ?_, ?_⟩
      · apply isNeighborPath_append m steps [nb] "START" h1
        rw [h2]
        exact ⟨⟨p, hp, hmem⟩, trivial⟩
      · rw [pathEnd_append]
        exact hkey
      · rw [h3, List.map_append, List.reverse_append, List.append_assoc]
        simp [hkey]
      · rw [h4, pathLength_append, pathLength_cons, hlen]
        simp [pathLength]
        ring
      · rw [pathLength_append, pathLength_cons]
        simp only [pathLength, List.map_nil, List.sum_nil, add_zero]
        have : s0.cost + (steps.map fun nb => nb.path_length).sum ≤ p.cost := h5
        linarith

/-- C21: with no humans registered and a positive resolution, whenever `getGlobalPath` from
the state left by `initializeMap` succeeds, the path it backtraces is a path from `START` to
the returned final node along the neighbour lists of stored nodes, the reported distance is
the sum of its step lengths, and that sum is at most the sum of the step lengths of every
path from `START` to the final node along the neighbour lists of stored nodes. -/
theorem C21_backtraced_path_is_shortest (I : line2f ℝ → line2f ℝ → Bool)
    (X : line2f ℝ → line2f ℝ → Option (Vector2f ℝ)) (U : line2f ℝ → Vector2f ℝ)
    (P : GlobalPlanner ℝ) (loc goal : Vector2f ℝ) (hres : 0 < P.map_resolution_)
    (hpop : P.population_ = []) (fuel : Nat) (R : GlobalPlanner ℝ) (d : ℝ)
    (h : getGlobalPath ⟨Real.sqrt, I, X, U⟩ fuel (initializeMap ⟨Real.sqrt, I, X, U⟩ P loc) goal =
      some (R, some d)) :
    ∃ steps : List (Neighbor ℝ),
      IsNeighborPath R.nav_map_ "START" steps ∧
      (steps.map fun nb => nb.key) = R.global_path_ ∧
      pathLength steps = d ∧
      pathEnd "START" steps = (R.global_path_.getLast?).getD "START" ∧
      ∀ l, IsNeighborPath R.nav_map_ "START" l →
        pathEnd "START" l = (R.global_path_.getLast?).getD "START" → d ≤ pathLength l := by
  have hs := real_sqrt_pos I X U
  obtain ⟨s0, hInv0, hF0, hS0, _⟩ := initializeMap_inv ⟨Real.sqrt, I, X, U⟩ hs P loc hres
  have hL0 := initializeMap_lattice ⟨Real.sqrt, I, X, U⟩ P loc s0 hS0
  obtain ⟨hC0, hQ0, hz⟩ := initializeMap_cost I X U P loc goal
  have hs0 : s0.cost = 0 := hz s0 hS0
  have hinv := searchLoop_inv ⟨Real.sqrt, I, X, U⟩ hs goal s0 iterationCap ""
    { initializeMap ⟨Real.sqrt, I, X, U⟩ P loc with nav_goal_ := goal } hres hInv0 hF0
  have hcost := searchLoop_cost I X U goal s0 P.map_resolution_ hres hs0 iterationCap ""
    { initializeMap ⟨Real.sqrt, I, X, U⟩ P loc with nav_goal_ := goal } rfl hpop hInv0 hL0
    hC0 hQ0
  unfold getGlobalPath at h
  simp only at h
  split_ifs at h with hsucc
  · cases hb : backtrace ⟨Real.sqrt, I, X, U⟩
        (searchLoop ⟨Real.sqrt, I, X, U⟩ goal iterationCap ""
          { initializeMap ⟨Real.sqrt, I, X, U⟩ P loc with nav_goal_ := goal }).planner.nav_map_
        fuel
        (searchLoop ⟨Real.sqrt, I, X, U⟩ goal iterationCap ""
          { initializeMap ⟨Real.sqrt, I, X, U⟩ P loc with nav_goal_ := goal }).current_key
        [] 0 with
    | none => rw [hb] at h; exact Option.noConfusion h
    | some res =>
      rw [hb] at h
      obtain ⟨gp, d1⟩ := res
      simp only [Option.some.injEq, Prod.mk.injEq] at h
      obtain ⟨hR, hd⟩ := h
      obtain ⟨nt, hnt, hbound⟩ := hcost.2 hsucc
      obtain ⟨steps, h1, h2, h3, h4, h5⟩ := backtrace_path ⟨Real.sqrt, I, X, U⟩
        P.map_resolution_ _ s0 hinv.1 hcost.1 fuel _ [] 0 (gp, d1) nt hnt hb
      have h3a : gp = (steps.map fun nb => nb.key).reverse := by simpa using h3
      have h4a : d1 = pathLength steps := by simpa using h4
      have hgp : R.global_path_ = steps.map fun nb => nb.key := by
        rw [← hR, h3a]
        simp
      have hmap : R.nav_map_ = (searchLoop ⟨Real.sqrt, I, X, U⟩ goal iterationCap ""
          { initializeMap ⟨Real.sqrt, I, X, U⟩ P loc with
            nav_goal_ := goal }).planner.nav_map_ := by rw [← hR]
      have hend : pathEnd "START" steps = (R.global_path_.getLast?).getD "START" := by
        rw [hgp]
        exact pathEnd_eq_getLast steps "START"
      rw [hmap]
      refine ⟨steps, h1, hgp.symm, by rw [← hd, h4a], hend, ?_⟩
      intro l hl hle
      have := hbound l hl (by rw [hle, ← hend, h2])
      rw [← hd, h4a]
      rw [hs0] at h5
      linarith
  · simp only [Option.some.injEq, Prod.mk.injEq] at h
    exact Option.noConfusion h.2

/-- C21 at a concrete input: the run on the empty map from (0,0) to (3,0) with resolution 1,
which reports the distance 3. -/
theorem C21_witness :
    ∃ R : GlobalPlanner ℝ,
      getGlobalPath ⟨Real.sqrt, line2f.Intersects, fun _ _ => none, line2f.UnitNormal Real.sqrt⟩
        3 (initializeMap ⟨Real.sqrt, line2f.Intersects, fun _ _ => none,
          line2f.UnitNormal Real.sqrt⟩ (blankPlanner [] 1) ⟨0, 0⟩) ⟨3, 0⟩ = some (R, some 3) ∧
      ∃ steps : List (Neighbor ℝ),
        IsNeighborPath R.nav_map_ "START" steps ∧
        (steps.map fun nb => nb.key) = R.global_path_ ∧
        pathLength steps = 3 ∧
        pathEnd "START" steps = (R.global_path_.getLast?).getD "START" ∧
        ∀ l, IsNeighborPath R.nav_map_ "START" l →
          pathEnd "START" l = (R.global_path_.getLast?).getD "START" →
          (3 : ℝ) ≤ pathLength l := by
  obtain ⟨R, hR, _⟩ := getGlobalPath_emptyMap
    ⟨Real.sqrt, line2f.Intersects, fun _ _ => none, line2f.UnitNormal Real.sqrt⟩ rfl 0
  exact ⟨R, hR, C21_backtraced_path_is_shortest line2f.Intersects (fun _ _ => none)
    (line2f.UnitNormal Real.sqrt) (blankPlanner [] 1) ⟨0, 0⟩ ⟨3, 0⟩
    (by norm_num [blankPlanner]) rfl 3 R 3 hR⟩

end Nav
